import Mathlib

/-!
# Library borrowing and reservation system: lending lifecycle, accounts and catalogue

A shallow embedding of the backend of the library system: the lending lifecycle
(`src/backend/src/services/memberService.js`,
`src/backend/src/services/librarianService.js`), the admin operations on copies, books,
categories and accounts (`src/backend/src/services/adminService.js`), login and registration
(`src/backend/src/services/authService.js`), the middlewares in front of the three routers
(`src/backend/src/middlewares/auth.js`, `src/backend/src/routes`), and the controllers that
the properties below speak about (`src/backend/src/controllers`).

Modelling conventions.

* The data store is a record of tables, each table a list of rows in insertion
  order.  `findUnique` / `findFirst` are `List.find?`, `update` rewrites the row
  with the given id, `updateMany` rewrites every row matching the filter,
  `create` appends a row whose id is drawn from the store's id counter,
  `delete` / `deleteMany` remove the rows.  The schema is not among the sources;
  `src/backend/src/prisma/seed.js` shows the one referential action the embedding
  carries: a copy that a borrowing row refers to cannot be deleted, and the
  delete throws.
* Every service function takes the store and returns its result together with
  the store it leaves behind, so a failure after a write keeps the write (the
  services open no transaction).
* Identifiers are natural numbers, instants are milliseconds since the epoch
  (`new Date()` is the argument `now`), `queuePosition` is an integer.  The
  calendar arithmetic of `Date` runs in the time zone of the server process,
  which the store record carries.
* A query without `orderBy` returns its rows in an order of the data store's
  choosing; where a service depends on that order, the order is an argument of
  the call.
* A thrown `Error(msg)` is `Except.error msg`.
* Rows carry the columns the lifecycle reads or writes; `createdAt` / `updatedAt`, which only
  order the listing queries, are left out, and so are the `include`d relations of a returned
  row.
* The foreign keys of the schema make the copy of a borrowing and the book of a reservation
  exist; where a service would dereference a missing one, the embedding fails at that point
  with the run-time error of the dereference.
* The account and category tables form a second record, `Directory`.  The account and
  catalogue services return their value together with the tables they leave behind and the
  list of the data-store calls they made (`Traced`).
* Password hashing and the token service are outside the sources; they are the fields of
  `Externals`, and the theorems hold for every choice of them.
* A request body is a record of optional properties: `none` is a missing property.  A row that
  leaves a service for the client is an object, a list of properties with their values.
-/

namespace Library

/-! ## Data model -/

inductive CopyStatus where
  | AVAILABLE | RESERVED | BORROWED
  deriving DecidableEq, Repr

inductive BorrowingStatus where
  | PENDING | APPROVED | REJECTED | RETURNED | OVERDUE
  deriving DecidableEq, Repr

inductive ReservationStatus where
  | PENDING | ACTIVE | CANCELLED | COMPLETED
  deriving DecidableEq, Repr

structure Book where
  id : Nat
  title : String
  author : String
  isbn : String
  description : Option String
  categoryId : Nat
  deriving DecidableEq, Repr

structure BookCopy where
  id : Nat
  bookId : Nat
  copyNumber : Int
  status : CopyStatus
  deriving DecidableEq, Repr

structure Borrowing where
  id : Nat
  memberId : Nat
  bookCopyId : Nat
  status : BorrowingStatus
  borrowDate : Nat
  dueDate : Nat
  returnDate : Option Nat
  deriving DecidableEq, Repr

structure Reservation where
  id : Nat
  memberId : Nat
  bookId : Nat
  status : ReservationStatus
  queuePosition : Int
  deriving DecidableEq, Repr

/-- The time zone of the server process, as the zone data of the runtime gives it: the offset
of local time from UTC (in milliseconds) that holds before the first transition, and the
transitions in order of time, each with the instant (milliseconds since the epoch) from which
its offset holds. -/
structure TimeZone where
  offset : Int
  transitions : List (Nat × Int)
  deriving DecidableEq, Repr

/-- The zone UTC: offset 0 and no transition. -/
def utc : TimeZone := { offset := 0, transitions := [] }

/-- The tables the lending lifecycle reads and writes, the id counter of the data store, and
the time zone of the server process, which `Date.prototype.getDate` and `setDate` read; it is
UTC where a store does not name it. -/
structure Store where
  books : List Book
  bookCopies : List BookCopy
  borrowings : List Borrowing
  reservations : List Reservation
  nextId : Nat
  zone : TimeZone := utc
  deriving DecidableEq, Repr

/-! ## Data-store primitives -/

/-- Milliseconds in a day. -/
def msPerDay : Nat := 24 * 60 * 60 * 1000

/-- The offset of local time from UTC at instant `t`: `current` before the first of the
transitions, and after a transition the offset it brings. -/
def offsetAt (current : Int) : List (Nat × Int) → Nat → Int
  | [], _ => current
  | (start, next) :: rest, t => if t < start then current else offsetAt next rest t

/-- `LocalTime(t)` of ECMAScript: the reading of the local clock at instant `t`, in
milliseconds. -/
def localTime (z : TimeZone) (t : Nat) : Int :=
  (t : Int) + offsetAt z.offset z.transitions t

/-- The instant at which the local clock reads `reading`, the offset being `current` before
the first of the transitions: a reading that the clock shows before a transition is taken with
the offset before it, and so is (as ECMAScript rules) a reading that the transition skips or
that the clock shows again after it. -/
def instantOf (current : Int) : List (Nat × Int) → Int → Int
  | [], reading => reading - current
  | (start, next) :: rest, reading =>
    if reading - current < (start : Int) ∨ reading - next < (start : Int) then reading - current
    else instantOf next rest reading

/-- `UTC(t)` of ECMAScript: the instant at which the local clock reads `reading`. -/
def utcOfLocal (z : TimeZone) (reading : Int) : Int :=
  instantOf z.offset z.transitions reading

/-- The effect of `d.setDate(d.getDate() + n)` on the instant `d`, as ECMAScript defines it:
the local reading of `d` is taken (`LocalTime`), its day of the month is moved `n` days on with
the time of day kept (`MakeDay`, `MakeDate`: the reading grows by `n` days), and the result is
the instant of the new reading (`UTC`).  In a zone without transitions this is `d` plus `n`
times 24 hours (`addDays_fixed`); across a transition it need not be. -/
def addDays (z : TimeZone) (d n : Nat) : Nat :=
  (utcOfLocal z (localTime z d + (n * msPerDay : Nat))).toNat

/-- The filter `status: { in: ['PENDING', 'APPROVED'] }` on borrowings. -/
def openBorrowingStatus (st : BorrowingStatus) : Bool :=
  decide (st = .PENDING) || decide (st = .APPROVED)

/-- The filter `status: { in: ['PENDING', 'ACTIVE'] }` on reservations. -/
def openReservationStatus (st : ReservationStatus) : Bool :=
  decide (st = .PENDING) || decide (st = .ACTIVE)

/-- The data store's `bookCopy.update({ where: { id }, data: { status } })` on a copy that exists. -/
def setCopyStatus (id : Nat) (st : CopyStatus) (cs : List BookCopy) : List BookCopy :=
  cs.map (fun c => if c.id = id then { c with status := st } else c)

/-- The data store's `reservation.update({ where: { id }, data: { status } })`. -/
def setReservationStatus (id : Nat) (st : ReservationStatus) (rs : List Reservation) :
    List Reservation :=
  rs.map (fun r => if r.id = id then { r with status := st } else r)

/-- The aggregate `_max` over a column: `none` (SQL null) on no rows. -/
def aggregateMax : List Int → Option Int
  | [] => none
  | x :: xs =>
    match aggregateMax xs with
    | none => some x
    | some m => some (max x m)

/-- The JavaScript expression `v || 0` on a nullable integer. -/
def orZero : Option Int → Int
  | none => 0
  | some v => if v = 0 then 0 else v

/-- The first row of `rs` in ascending `queuePosition` order
(`findFirst` with `orderBy: { queuePosition: 'asc' }`); among equal positions the earliest row. -/
def firstByQueuePosition : List Reservation → Option Reservation
  | [] => none
  | r :: rs =>
    match firstByQueuePosition rs with
    | none => some r
    | some m => if r.queuePosition ≤ m.queuePosition then some r else some m

/-- The `updateMany` of `cancelReservation` and `rejectReservation`: decrement the position of
every PENDING or ACTIVE reservation of the book that stands behind position `pos`. -/
def compactOpenAfter (bookId : Nat) (pos : Int) (rs : List Reservation) : List Reservation :=
  rs.map (fun r =>
    if r.bookId = bookId ∧ openReservationStatus r.status = true ∧ r.queuePosition > pos then
      { r with queuePosition := r.queuePosition - 1 }
    else r)

/-- The `updateMany` of `returnBook`: decrement the position of every ACTIVE reservation of the
book that stands behind position `pos`. -/
def compactActiveAfter (bookId : Nat) (pos : Int) (rs : List Reservation) : List Reservation :=
  rs.map (fun r =>
    if r.bookId = bookId ∧ r.status = .ACTIVE ∧ r.queuePosition > pos then
      { r with queuePosition := r.queuePosition - 1 }
    else r)

/-! ## Member service -/

/-- `borrowBookCopy(memberId, bookCopyId)` of `memberService.js`. -/
def borrowBookCopy (now memberId bookCopyId : Nat) (s : Store) : Except String Borrowing × Store :=
  match s.bookCopies.find? (fun c => decide (c.id = bookCopyId)) with
  | none => (.error "Book copy not found", s)
  | some bookCopy =>
    if bookCopy.status ≠ .AVAILABLE then
      (.error "Book copy is not available for borrowing", s)
    else
      match s.borrowings.find? (fun b =>
          decide (b.memberId = memberId) && decide (b.bookCopyId = bookCopyId)
            && openBorrowingStatus b.status) with
      | some _ =>
        (.error "You already have a pending or active borrowing for this book copy", s)
      | none =>
        let borrowDate := now
        let dueDate := addDays s.zone borrowDate 14
        let borrowing : Borrowing :=
          { id := s.nextId, memberId := memberId, bookCopyId := bookCopyId, status := .PENDING,
            borrowDate := borrowDate, dueDate := dueDate, returnDate := none }
        let s1 : Store :=
          { s with borrowings := s.borrowings ++ [borrowing], nextId := s.nextId + 1 }
        let s2 : Store :=
          { s1 with bookCopies := setCopyStatus bookCopyId .RESERVED s1.bookCopies }
        (.ok borrowing, s2)

/-- `reserveBook(memberId, bookId)` of `memberService.js`. -/
def reserveBook (memberId bookId : Nat) (s : Store) : Except String Reservation × Store :=
  match s.books.find? (fun b => decide (b.id = bookId)) with
  | none => (.error "Book not found", s)
  | some _ =>
    match s.reservations.find? (fun r =>
        decide (r.memberId = memberId) && decide (r.bookId = bookId)
          && openReservationStatus r.status) with
    | some _ => (.error "You already have an active reservation for this book", s)
    | none =>
      let maxQueuePosition := aggregateMax
        ((s.reservations.filter (fun r =>
          decide (r.bookId = bookId) && openReservationStatus r.status)).map
            (fun r => r.queuePosition))
      let queuePosition := orZero maxQueuePosition + 1
      let reservation : Reservation :=
        { id := s.nextId, memberId := memberId, bookId := bookId, status := .PENDING,
          queuePosition := queuePosition }
      (.ok reservation,
        { s with reservations := s.reservations ++ [reservation], nextId := s.nextId + 1 })

/-- `cancelReservation(memberId, reservationId)` of `memberService.js`. -/
def cancelReservation (memberId reservationId : Nat) (s : Store) :
    Except String Reservation × Store :=
  match s.reservations.find? (fun r => decide (r.id = reservationId)) with
  | none => (.error "Reservation not found", s)
  | some reservation =>
    if reservation.memberId ≠ memberId then
      (.error "Unauthorized: This reservation does not belong to you", s)
    else if reservation.status = .COMPLETED ∨ reservation.status = .CANCELLED then
      (.error "Cannot cancel a completed or already cancelled reservation", s)
    else
      let updatedReservation : Reservation := { reservation with status := .CANCELLED }
      let s1 : Store :=
        { s with reservations := setReservationStatus reservationId .CANCELLED s.reservations }
      let s2 : Store :=
        { s1 with reservations :=
            compactOpenAfter reservation.bookId reservation.queuePosition s1.reservations }
      (.ok updatedReservation, s2)

/-! ## Librarian service -/

/-- `approveBorrowing(borrowingId)` of `librarianService.js`.  The `include: { bookCopy: true }`
is the lookup of the copy the borrowing refers to; reading `.status` of a missing one is a
`TypeError`. -/
def approveBorrowing (now borrowingId : Nat) (s : Store) : Except String Borrowing × Store :=
  match s.borrowings.find? (fun b => decide (b.id = borrowingId)) with
  | none => (.error "Borrowing request not found", s)
  | some borrowing =>
    if borrowing.status ≠ .PENDING then
      (.error "Borrowing request is not pending", s)
    else
      match s.bookCopies.find? (fun c => decide (c.id = borrowing.bookCopyId)) with
      | none => (.error "Cannot read properties of null (reading 'status')", s)
      | some bookCopy =>
        if bookCopy.status ≠ .RESERVED then
          (.error "Book copy is not in the expected status", s)
        else
          let updatedBorrowing : Borrowing :=
            { borrowing with status := .APPROVED, borrowDate := now }
          let s1 : Store :=
            { s with borrowings := s.borrowings.map (fun b =>
                if b.id = borrowingId then { b with status := .APPROVED, borrowDate := now }
                else b) }
          let s2 : Store :=
            { s1 with bookCopies := setCopyStatus borrowing.bookCopyId .BORROWED s1.bookCopies }
          (.ok updatedBorrowing, s2)

/-- `rejectBorrowing(borrowingId)` of `librarianService.js`.  The copy is not read before it is
updated, so a borrowing whose copy row is missing fails in the data store after the borrowing
has been rewritten. -/
def rejectBorrowing (borrowingId : Nat) (s : Store) : Except String Borrowing × Store :=
  match s.borrowings.find? (fun b => decide (b.id = borrowingId)) with
  | none => (.error "Borrowing request not found", s)
  | some borrowing =>
    if borrowing.status ≠ .PENDING then
      (.error "Borrowing request is not pending", s)
    else
      let updatedBorrowing : Borrowing := { borrowing with status := .REJECTED }
      let s1 : Store :=
        { s with borrowings := s.borrowings.map (fun b =>
            if b.id = borrowingId then { b with status := .REJECTED } else b) }
      if s1.bookCopies.any (fun c => decide (c.id = borrowing.bookCopyId)) then
        let s2 : Store :=
          { s1 with bookCopies := setCopyStatus borrowing.bookCopyId .AVAILABLE s1.bookCopies }
        (.ok updatedBorrowing, s2)
      else
        (.error "Record to update not found.", s1)

/-- The rows of a `findMany` or of an `include` without `orderBy`, as the data store returns
them: in an order of its own, which need not be the order in which the rows were created (an
update may move a row).  `order` names that order by row id, first to last; rows whose id
`order` leaves out follow in table order, so `[]` is table order.  Whatever `order` is, the
result is a permutation of `rows` (`inStoreOrder_perm`), and every permutation of rows with
distinct ids is the result for some `order` (`inStoreOrder_of_perm`). -/
def inStoreOrder : List Nat → List BookCopy → List BookCopy
  | [], rows => rows
  | id :: order, rows =>
    rows.filter (fun c => decide (c.id = id)) ++
      inStoreOrder order (rows.filter (fun c => decide (c.id ≠ id)))

/-- `approveReservation(reservationId)` of `librarianService.js`.  The
`include: { book: { include: { bookCopies: true } } }` is the lookup of the book and of its
copies, which carries no `orderBy`: `order` is the order in which the data store returns the
copies to this call. -/
def approveReservation (order : List Nat) (reservationId : Nat) (s : Store) :
    Except String Reservation × Store :=
  match s.reservations.find? (fun r => decide (r.id = reservationId)) with
  | none => (.error "Reservation request not found", s)
  | some reservation =>
    if reservation.status ≠ .PENDING then
      (.error "Reservation request is not pending", s)
    else
      match s.books.find? (fun b => decide (b.id = reservation.bookId)) with
      | none => (.error "Cannot read properties of null (reading 'bookCopies')", s)
      | some book =>
        let bookCopies :=
          inStoreOrder order (s.bookCopies.filter (fun c => decide (c.bookId = book.id)))
        match bookCopies.find? (fun copy => decide (copy.status = .AVAILABLE)) with
        | some availableCopy =>
          let s1 : Store :=
            { s with reservations := setReservationStatus reservationId .ACTIVE s.reservations }
          let s2 : Store :=
            { s1 with bookCopies := setCopyStatus availableCopy.id .RESERVED s1.bookCopies }
          (.ok { reservation with status := .ACTIVE }, s2)
        | none =>
          let s1 : Store :=
            { s with reservations := setReservationStatus reservationId .ACTIVE s.reservations }
          (.ok { reservation with status := .ACTIVE }, s1)

/-- `rejectReservation(reservationId)` of `librarianService.js`. -/
def rejectReservation (reservationId : Nat) (s : Store) : Except String Reservation × Store :=
  match s.reservations.find? (fun r => decide (r.id = reservationId)) with
  | none => (.error "Reservation request not found", s)
  | some reservation =>
    if reservation.status ≠ .PENDING then
      (.error "Reservation request is not pending", s)
    else
      let updatedReservation : Reservation := { reservation with status := .CANCELLED }
      let s1 : Store :=
        { s with reservations := setReservationStatus reservationId .CANCELLED s.reservations }
      let s2 : Store :=
        { s1 with reservations :=
            compactOpenAfter reservation.bookId reservation.queuePosition s1.reservations }
      (.ok updatedReservation, s2)

/-- `returnBook(borrowingId)` of `librarianService.js`.  The copy of the borrowing is read with
the borrowing (`include: { bookCopy: true }`); its `bookId` is first used after the borrowing
has been rewritten. -/
def returnBook (now borrowingId : Nat) (s : Store) : Except String Borrowing × Store :=
  match s.borrowings.find? (fun b => decide (b.id = borrowingId)) with
  | none => (.error "Borrowing not found", s)
  | some borrowing =>
    if borrowing.status ≠ .APPROVED then
      (.error "Only approved borrowings can be returned", s)
    else
      let updatedBorrowing : Borrowing :=
        { borrowing with status := .RETURNED, returnDate := some now }
      let s1 : Store :=
        { s with borrowings := s.borrowings.map (fun b =>
            if b.id = borrowingId then { b with status := .RETURNED, returnDate := some now }
            else b) }
      match s.bookCopies.find? (fun c => decide (c.id = borrowing.bookCopyId)) with
      | none => (.error "Cannot read properties of null (reading 'bookId')", s1)
      | some bookCopy =>
        match firstByQueuePosition (s1.reservations.filter (fun r =>
            decide (r.bookId = bookCopy.bookId) && decide (r.status = .ACTIVE))) with
        | some nextReservation =>
          let s2 : Store :=
            { s1 with bookCopies := setCopyStatus borrowing.bookCopyId .RESERVED s1.bookCopies }
          let s3 : Store :=
            { s2 with reservations :=
                compactActiveAfter bookCopy.bookId nextReservation.queuePosition s2.reservations }
          (.ok updatedBorrowing, s3)
        | none =>
          let s2 : Store :=
            { s1 with bookCopies := setCopyStatus borrowing.bookCopyId .AVAILABLE s1.bookCopies }
          (.ok updatedBorrowing, s2)

/-- `updateOverdueBorrowings()` of `librarianService.js`: the `updateMany` result is the number
of rows it rewrote. -/
def updateOverdueBorrowings (now : Nat) (s : Store) : Nat × Store :=
  ((s.borrowings.filter (fun b => decide (b.status = .APPROVED ∧ b.dueDate < now))).length,
    { s with borrowings := s.borrowings.map (fun b =>
        if b.status = .APPROVED ∧ b.dueDate < now then { b with status := .OVERDUE } else b) })

/-! ## Member controller -/

/-- An HTTP answer: the status code and the JSON body, either `{ error: message }` or the
payload. -/
structure Response (α : Type) where
  status : Nat
  body : Except String α

/-- `borrowBookCopyController` of `memberController.js`: `bookCopyId` is the field of the
request body (`none` when it is missing or falsy), `userId` is `req.user.id`. -/
def borrowBookCopyController (now userId : Nat) (bookCopyId : Option Nat) (s : Store) :
    Response Borrowing × Store :=
  match bookCopyId with
  | none => ({ status := 400, body := .error "bookCopyId is required" }, s)
  | some id =>
    match borrowBookCopy now userId id s with
    | (.ok borrowing, s') => ({ status := 201, body := .ok borrowing }, s')
    | (.error message, s') => ({ status := 400, body := .error message }, s')

/-! ## Sequences of lifecycle operations -/

/-- One call of a lifecycle operation, with its arguments (and the clock reading, where the
operation reads the clock). -/
inductive Op where
  | reserveBook (memberId bookId : Nat)
  | approveReservation (order : List Nat) (reservationId : Nat)
  | rejectReservation (reservationId : Nat)
  | cancelReservation (memberId reservationId : Nat)
  | borrowBookCopy (now memberId bookCopyId : Nat)
  | approveBorrowing (now borrowingId : Nat)
  | rejectBorrowing (borrowingId : Nat)
  | returnBook (now borrowingId : Nat)
  | updateOverdueBorrowings (now : Nat)
  deriving DecidableEq, Repr

/-- The store a call leaves behind, whether it succeeds or fails. -/
def step (s : Store) : Op → Store
  | .reserveBook m b => (reserveBook m b s).2
  | .approveReservation o r => (approveReservation o r s).2
  | .rejectReservation r => (rejectReservation r s).2
  | .cancelReservation m r => (cancelReservation m r s).2
  | .borrowBookCopy now m c => (borrowBookCopy now m c s).2
  | .approveBorrowing now b => (approveBorrowing now b s).2
  | .rejectBorrowing b => (rejectBorrowing b s).2
  | .returnBook now b => (returnBook now b s).2
  | .updateOverdueBorrowings now => (updateOverdueBorrowings now s).2

/-- The store after a sequence of calls. -/
def run (s : Store) (ops : List Op) : Store := ops.foldl step s

/-! ## Vocabulary of the specification -/

/-- The queue positions of the open (PENDING or ACTIVE) reservations of a book, in table
order. -/
def openPositions (bookId : Nat) (s : Store) : List Int :=
  (s.reservations.filter (fun r =>
    decide (r.bookId = bookId) && openReservationStatus r.status)).map (fun r => r.queuePosition)

/-- The list `1, 2, ..., n`. -/
def oneTo (n : Nat) : List Int := (List.range n).map (fun (i : Nat) => (i : Int) + 1)

/-- The open reservations of the book carry exactly the positions `1..n`, each once, where `n`
is their number. -/
def QueueContiguous (bookId : Nat) (s : Store) : Prop :=
  List.Perm (openPositions bookId s) (oneTo (openPositions bookId s).length)

instance (bookId : Nat) (s : Store) : Decidable (QueueContiguous bookId s) := by
  unfold QueueContiguous; infer_instance

/-- The copy row with the given id (`bookCopy.findUnique`). -/
def Store.copy? (s : Store) (id : Nat) : Option BookCopy :=
  s.bookCopies.find? (fun c => decide (c.id = id))

/-- The borrowing row with the given id (`borrowing.findUnique`). -/
def Store.borrowing? (s : Store) (id : Nat) : Option Borrowing :=
  s.borrowings.find? (fun b => decide (b.id = id))

/-- The reservation row with the given id (`reservation.findUnique`). -/
def Store.reservation? (s : Store) (id : Nat) : Option Reservation :=
  s.reservations.find? (fun r => decide (r.id = id))

/-- The book row with the given id (`book.findUnique`). -/
def Store.book? (s : Store) (id : Nat) : Option Book :=
  s.books.find? (fun b => decide (b.id = id))

/-- Member `m` has a PENDING or APPROVED borrowing of copy `c`. -/
def HasOpenBorrowing (m c : Nat) (s : Store) : Prop :=
  ∃ b ∈ s.borrowings, b.memberId = m ∧ b.bookCopyId = c ∧
    (b.status = .PENDING ∨ b.status = .APPROVED)

/-- Member `m` has a PENDING or ACTIVE reservation of book `b`. -/
def HasOpenReservation (m b : Nat) (s : Store) : Prop :=
  ∃ r ∈ s.reservations, r.memberId = m ∧ r.bookId = b ∧
    (r.status = .PENDING ∨ r.status = .ACTIVE)

/-- The book has an ACTIVE reservation. -/
def HasActiveReservation (b : Nat) (s : Store) : Prop :=
  ∃ r ∈ s.reservations, r.bookId = b ∧ r.status = .ACTIVE

/-- The reservations table once reservation `r` of book `b`, standing at position `k`, is set to
CANCELLED and every other open reservation of `b` behind position `k` is moved down by one; all
other rows, and all other fields, are as before. -/
def cancelAt (r b : Nat) (k : Int) (rs : List Reservation) : List Reservation :=
  rs.map (fun x =>
    if x.id = r then { x with status := .CANCELLED }
    else if x.bookId = b ∧ (x.status = .PENDING ∨ x.status = .ACTIVE) ∧ x.queuePosition > k
      then { x with queuePosition := x.queuePosition - 1 }
    else x)

/-! ## Admin service: books and copies -/

/-- `addBookCopy(bookId)` of `adminService.js`. -/
def addBookCopy (bookId : Nat) (s : Store) : Except String BookCopy × Store :=
  match s.books.find? (fun b => decide (b.id = bookId)) with
  | none => (.error "Book not found", s)
  | some _ =>
    let maxCopy := aggregateMax
      ((s.bookCopies.filter (fun c => decide (c.bookId = bookId))).map (fun c => c.copyNumber))
    let copyNumber := orZero maxCopy + 1
    let bookCopy : BookCopy :=
      { id := s.nextId, bookId := bookId, copyNumber := copyNumber, status := .AVAILABLE }
    (.ok bookCopy, { s with bookCopies := s.bookCopies ++ [bookCopy], nextId := s.nextId + 1 })

/-- The data store's rejection of a `delete` or `deleteMany` that a foreign key forbids; the
text stands for the data store's own. -/
def foreignKeyViolated : String := "Foreign key constraint failed on the field: bookCopyId"

/-- Some borrowing row refers to copy `bookCopyId`.  The data store keeps a foreign key from a
borrowing to its copy and refuses to delete a copy that a borrowing row refers to: `seed.js`
deletes the borrowings of its books "first (to avoid foreign key constraints)" and the copies
"AFTER deleting borrowings". -/
def copyReferenced (bookCopyId : Nat) (s : Store) : Bool :=
  s.borrowings.any (fun b => decide (b.bookCopyId = bookCopyId))

/-- `removeBookCopy(bookCopyId)` of `adminService.js`.  The `delete` is refused by the data
store, and throws, when a borrowing row of any status refers to the copy; otherwise it removes
the copy row. -/
def removeBookCopy (bookCopyId : Nat) (s : Store) : Except String BookCopy × Store :=
  match s.bookCopies.find? (fun c => decide (c.id = bookCopyId)) with
  | none => (.error "Book copy not found", s)
  | some bookCopy =>
    if bookCopy.status ≠ .AVAILABLE then
      (.error "Cannot remove book copy that is not available", s)
    else if copyReferenced bookCopyId s = true then
      (.error foreignKeyViolated, s)
    else
      (.ok bookCopy,
        { s with bookCopies := s.bookCopies.filter (fun c => decide (c.id ≠ bookCopyId)) })

/-- `deleteBook(bookId)` of `adminService.js`.  The relation filter `bookCopy: { bookId }` reads
the copy row of the borrowing.  `deleteMany` is one statement: the data store refuses it, and
it throws with no row deleted, when a borrowing row of any status refers to a copy of the
book; otherwise it removes the copies of the book.  `delete` removes the book row and fails in
the data store when there is no such row. -/
def deleteBook (bookId : Nat) (s : Store) : Except String Book × Store :=
  match s.borrowings.find? (fun b =>
      (match s.bookCopies.find? (fun c => decide (c.id = b.bookCopyId)) with
        | some c => decide (c.bookId = bookId)
        | none => false)
      && openBorrowingStatus b.status) with
  | some _ => (.error "Cannot delete book with active borrowings", s)
  | none =>
    match s.reservations.find? (fun r =>
        decide (r.bookId = bookId) && openReservationStatus r.status) with
    | some _ => (.error "Cannot delete book with active reservations", s)
    | none =>
      if s.bookCopies.any (fun c => decide (c.bookId = bookId) && copyReferenced c.id s)
          = true then
        (.error foreignKeyViolated, s)
      else
        let s1 : Store :=
          { s with bookCopies := s.bookCopies.filter (fun c => decide (c.bookId ≠ bookId)) }
        match s1.books.find? (fun b => decide (b.id = bookId)) with
        | none => (.error "Record to delete does not exist.", s1)
        | some book =>
          (.ok book, { s1 with books := s1.books.filter (fun b => decide (b.id ≠ bookId)) })

/-! ## Sequences of service operations -/

/-- One call of a service operation that reads or writes borrowings, reservations or copies:
a lifecycle operation, or one of the admin operations on copies and books above. -/
inductive ServiceOp where
  | lifecycle (op : Op)
  | addBookCopy (bookId : Nat)
  | removeBookCopy (bookCopyId : Nat)
  | deleteBook (bookId : Nat)
  deriving DecidableEq, Repr

/-- The store a service call leaves behind, whether it succeeds or fails. -/
def serviceStep (s : Store) : ServiceOp → Store
  | .lifecycle op => step s op
  | .addBookCopy b => (addBookCopy b s).2
  | .removeBookCopy c => (removeBookCopy c s).2
  | .deleteBook b => (deleteBook b s).2

/-- The store after a sequence of service calls. -/
def serviceRun (s : Store) (ops : List ServiceOp) : Store := ops.foldl serviceStep s

/-- The first AVAILABLE copy in the copy list of a book, the list being in the order `order`
in which the data store returns it. -/
def firstAvailableCopy (order : List Nat) (bookId : Nat) (s : Store) : Option BookCopy :=
  (inStoreOrder order (s.bookCopies.filter (fun c => decide (c.bookId = bookId)))).find?
    (fun c => decide (c.status = .AVAILABLE))

/-- Some copy of book `b` has a PENDING or APPROVED borrowing. -/
def BookHasOpenBorrowing (b : Nat) (s : Store) : Prop :=
  ∃ br ∈ s.borrowings, (br.status = .PENDING ∨ br.status = .APPROVED) ∧
    ∃ c, s.copy? br.bookCopyId = some c ∧ c.bookId = b

/-- Some copy of book `b` has a borrowing row, of whatever status. -/
def BookHasBorrowingRow (b : Nat) (s : Store) : Prop :=
  ∃ c ∈ s.bookCopies, (c.bookId = b ∧ ∃ br ∈ s.borrowings, br.bookCopyId = c.id)

/-- Book `b` has a PENDING or ACTIVE reservation. -/
def BookHasOpenReservation (b : Nat) (s : Store) : Prop :=
  ∃ r ∈ s.reservations, r.bookId = b ∧ (r.status = .PENDING ∨ r.status = .ACTIVE)

/-- The key discipline of the data store: within each table the ids are unique and below the
id counter, and so are the copy ids that borrowings refer to. -/
def WellKeyed (s : Store) : Prop :=
  (s.bookCopies.map (fun c => c.id)).Nodup ∧
  (s.borrowings.map (fun b => b.id)).Nodup ∧
  (s.reservations.map (fun r => r.id)).Nodup ∧
  (∀ c ∈ s.bookCopies, c.id < s.nextId) ∧
  (∀ b ∈ s.borrowings, b.id < s.nextId ∧ b.bookCopyId < s.nextId) ∧
  (∀ r ∈ s.reservations, r.id < s.nextId)

/-- The borrowing status changes of the specification, each with the operation that performs
it: PENDING to APPROVED, PENDING to REJECTED, APPROVED to RETURNED, APPROVED to OVERDUE. -/
def BorrowingMove : ServiceOp → BorrowingStatus → BorrowingStatus → Prop
  | .lifecycle (.approveBorrowing _ _), .PENDING, .APPROVED => True
  | .lifecycle (.rejectBorrowing _), .PENDING, .REJECTED => True
  | .lifecycle (.returnBook _ _), .APPROVED, .RETURNED => True
  | .lifecycle (.updateOverdueBorrowings _), .APPROVED, .OVERDUE => True
  | _, _, _ => False

/-- The terminal borrowing statuses. -/
def BorrowingStatus.terminal (st : BorrowingStatus) : Prop :=
  st = .REJECTED ∨ st = .RETURNED ∨ st = .OVERDUE

/-- The reservation status changes the operations perform, each with its operation: PENDING to
ACTIVE, PENDING to CANCELLED, ACTIVE to CANCELLED. -/
def ReservationMove : ServiceOp → ReservationStatus → ReservationStatus → Prop
  | .lifecycle (.approveReservation _ _), .PENDING, .ACTIVE => True
  | .lifecycle (.rejectReservation _), .PENDING, .CANCELLED => True
  | .lifecycle (.cancelReservation _ _), .PENDING, .CANCELLED => True
  | .lifecycle (.cancelReservation _ _), .ACTIVE, .CANCELLED => True
  | _, _, _ => False

/-- Each (member, book) pair has at most one PENDING or ACTIVE reservation. -/
def OneOpenReservationPerPair (s : Store) : Prop :=
  ∀ m b : Nat, (s.reservations.filter (fun r =>
    decide (r.memberId = m) && decide (r.bookId = b)
      && openReservationStatus r.status)).length ≤ 1

/-- No two rows of the reservations table are open reservations of the same member for the same
book. -/
def OpenReservationsDistinct (s : Store) : Prop :=
  s.reservations.Pairwise (fun r1 r2 =>
    ¬ (openReservationStatus r1.status = true ∧ openReservationStatus r2.status = true ∧
      r1.memberId = r2.memberId ∧ r1.bookId = r2.bookId))

/-- The book of every open reservation has a row in the books table. -/
def OpenReservationsHaveBook (s : Store) : Prop :=
  ∀ r ∈ s.reservations, openReservationStatus r.status = true →
    (s.book? r.bookId).isSome = true

/-- Every copy has at most one PENDING or APPROVED borrowing, over all members. -/
def OneOpenBorrowingPerCopy (s : Store) : Prop :=
  ∀ c ∈ s.bookCopies, (s.borrowings.filter (fun b =>
    decide (b.bookCopyId = c.id) && openBorrowingStatus b.status)).length ≤ 1

/-- No two rows of the borrowings table are open borrowings of the same copy. -/
def OpenBorrowingsDistinct (s : Store) : Prop :=
  s.borrowings.Pairwise (fun b1 b2 =>
    ¬ (openBorrowingStatus b1.status = true ∧ openBorrowingStatus b2.status = true ∧
      b1.bookCopyId = b2.bookCopyId))

/-- The copy of a PENDING borrowing is RESERVED and the copy of an APPROVED borrowing is
BORROWED. -/
def CopyStatusMatchesBorrowing (s : Store) : Prop :=
  ∀ b ∈ s.borrowings, ∀ c ∈ s.bookCopies, c.id = b.bookCopyId →
    (b.status = .PENDING → c.status = .RESERVED) ∧
    (b.status = .APPROVED → c.status = .BORROWED)

/-! ## Accounts and categories -/

/-- A row of the members table. -/
structure Member where
  id : Nat
  email : String
  password : String
  firstName : String
  lastName : String
  phone : Option String
  address : Option String
  isActive : Bool
  deriving DecidableEq, Repr

/-- A row of the librarians table. -/
structure Librarian where
  id : Nat
  email : String
  password : String
  firstName : String
  lastName : String
  phone : Option String
  isActive : Bool
  deriving DecidableEq, Repr

/-- A row of the admin users table. -/
structure AdminUser where
  id : Nat
  email : String
  password : String
  firstName : String
  lastName : String
  isActive : Bool
  deriving DecidableEq, Repr

/-- A row of the categories table. -/
structure Category where
  id : Nat
  name : String
  description : Option String
  deriving DecidableEq, Repr

/-- The account and category tables, and the id counter of the data store for them. -/
structure Directory where
  members : List Member
  librarians : List Librarian
  adminUsers : List AdminUser
  categories : List Category
  nextId : Nat
  deriving DecidableEq, Repr

/-- An account row of one of the three account classes, as the variable `user` of `login` and
of `verifyUserActive` holds it. -/
inductive AccountRow where
  | member (m : Member)
  | librarian (l : Librarian)
  | adminUser (a : AdminUser)
  deriving DecidableEq, Repr

/-! ## Objects handed to the client -/

/-- The property names of the account objects. -/
inductive Property where
  | id | email | password | firstName | lastName | phone | address | isActive | role
  deriving DecidableEq, Repr

/-- The values of the properties: a string, an id, a boolean, or `null`. -/
inductive JsonValue where
  | text (s : String)
  | key (n : Nat)
  | flag (b : Bool)
  | null
  deriving DecidableEq, Repr

/-- A JavaScript object: its properties in insertion order. -/
abbrev JsonObject := List (Property × JsonValue)

/-- A nullable string column as a property value. -/
def JsonValue.ofOption : Option String → JsonValue
  | some s => .text s
  | none => .null

/-- The object the data store returns for a member row: one property per column. -/
def Member.toObject (m : Member) : JsonObject :=
  [(.id, .key m.id), (.email, .text m.email), (.password, .text m.password),
   (.firstName, .text m.firstName), (.lastName, .text m.lastName),
   (.phone, .ofOption m.phone), (.address, .ofOption m.address),
   (.isActive, .flag m.isActive)]

/-- The object the data store returns for a librarian row. -/
def Librarian.toObject (l : Librarian) : JsonObject :=
  [(.id, .key l.id), (.email, .text l.email), (.password, .text l.password),
   (.firstName, .text l.firstName), (.lastName, .text l.lastName),
   (.phone, .ofOption l.phone), (.isActive, .flag l.isActive)]

/-- The object the data store returns for an admin row. -/
def AdminUser.toObject (a : AdminUser) : JsonObject :=
  [(.id, .key a.id), (.email, .text a.email), (.password, .text a.password),
   (.firstName, .text a.firstName), (.lastName, .text a.lastName),
   (.isActive, .flag a.isActive)]

/-- The id column of an account row. -/
def AccountRow.id : AccountRow → Nat
  | .member m => m.id
  | .librarian l => l.id
  | .adminUser a => a.id

/-- The email column of an account row. -/
def AccountRow.email : AccountRow → String
  | .member m => m.email
  | .librarian l => l.email
  | .adminUser a => a.email

/-- The password column (the stored hash) of an account row. -/
def AccountRow.password : AccountRow → String
  | .member m => m.password
  | .librarian l => l.password
  | .adminUser a => a.password

/-- The isActive column of an account row. -/
def AccountRow.isActive : AccountRow → Bool
  | .member m => m.isActive
  | .librarian l => l.isActive
  | .adminUser a => a.isActive

/-- The object the data store returns for an account row. -/
def AccountRow.toObject : AccountRow → JsonObject
  | .member m => m.toObject
  | .librarian l => l.toObject
  | .adminUser a => a.toObject

/-- The rest object of the destructuring `const { password: _, ...rest } = row`. -/
def omitPassword (o : JsonObject) : JsonObject :=
  o.filter (fun p => decide (p.1 ≠ Property.password))

/-- The object literal `{ ...o, [k]: v }`: the property is overwritten in place when `o` has
it, and added last otherwise. -/
def setProperty (o : JsonObject) (k : Property) (v : JsonValue) : JsonObject :=
  if o.any (fun p => decide (p.1 = k)) then o.map (fun p => if p.1 = k then (k, v) else p)
  else o ++ [(k, v)]

/-- The value of property `k` of an object (`none` when the object has no such property). -/
def getProperty (o : JsonObject) (k : Property) : Option JsonValue :=
  (o.find? (fun p => decide (p.1 = k))).map (fun p => p.2)

/-! ## External collaborators and the record of store calls -/

/-- The payload of a session token. -/
structure TokenPayload where
  id : Nat
  email : String
  role : String
  deriving DecidableEq, Repr

/-- The collaborators whose code is outside the services: `bcrypt` behind `hashPassword` and
`comparePassword` (`utils/bcrypt.js`), and the token service `generateToken` / `verifyToken`
(`utils/jwt.js`).  `hashPassword` receives the password as the request carries it (`none` when
the property is missing) and may throw; `verifyToken` is `none` when it throws. -/
structure Externals where
  hashPassword : Option String → Except String String
  comparePassword : String → String → Bool
  generateToken : TokenPayload → String
  verifyToken : String → Option TokenPayload

/-- The models of the data store that the account and catalogue services call. -/
inductive Model where
  | member | librarian | adminUser | category | book
  deriving DecidableEq, Repr

/-- The data-store methods the account and catalogue services call; a `findUnique` is named
with the unique column of its `where`. -/
inductive Method where
  | findUniqueById | findUniqueByEmail | findUniqueByName | findUniqueByIsbn | create | update
  deriving DecidableEq, Repr

/-- One call of the data store. -/
structure StoreCall where
  model : Model
  method : Method
  deriving DecidableEq, Repr

/-- What a function leaves behind: its value, the state of the tables, and the store calls it
made, in order. -/
structure Traced (ρ σ : Type) where
  value : ρ
  state : σ
  calls : List StoreCall
  deriving DecidableEq, Repr

/-- JavaScript truthiness of a request property that is missing or a string: a missing
property and the empty string are falsy. -/
def truthy : Option String → Bool
  | some s => decide (s ≠ "")
  | none => false

/-- `String.prototype.toUpperCase`, on ASCII letters. -/
def toUpperCase (s : String) : String := String.mk (s.toList.map Char.toUpper)

/-- `String.prototype.startsWith`. -/
def startsWith (s p : String) : Bool := p.toList.isPrefixOf s.toList

/-- `String.prototype.substring(n)`. -/
def substring (s : String) (n : Nat) : String := String.mk (s.toList.drop n)

/-! ## Data-store primitives of the account and catalogue services

The schema of the data store is not among the sources.  `findUnique` takes one unique column,
so `email` (per account table), `name` (categories) and `isbn` (books) are unique columns; a
`findUnique` whose `where` carries `undefined` and a `create` without a required column are
rejected by the data store before it reads or writes a row.  The message texts of these two
rejections stand for the data store's own.  The `create` and `update` of the embedding do not
check the unique columns themselves: what keeps them unique is the lookups of the services. -/

/-- The data store's rejection of a `findUnique` whose unique column is `undefined`. -/
def whereRejected : String := "Invalid findUnique invocation: the unique argument is missing"

/-- The data store's rejection of a `create` that lacks a required column. -/
def createRejected : String := "Invalid create invocation: a required argument is missing"

/-- The call `member.findUnique({ where: { email } })`. -/
def memberByEmail (email : Option String) (d : Directory) : Except String (Option Member) :=
  match email with
  | none => .error whereRejected
  | some e => .ok (d.members.find? (fun m => decide (m.email = e)))

/-- The call `librarian.findUnique({ where: { email } })`. -/
def librarianByEmail (email : Option String) (d : Directory) :
    Except String (Option Librarian) :=
  match email with
  | none => .error whereRejected
  | some e => .ok (d.librarians.find? (fun l => decide (l.email = e)))

/-- The call `adminUser.findUnique({ where: { email } })`. -/
def adminUserByEmail (email : Option String) (d : Directory) :
    Except String (Option AdminUser) :=
  match email with
  | none => .error whereRejected
  | some e => .ok (d.adminUsers.find? (fun a => decide (a.email = e)))

/-- Modelled from the spec: the required columns of the members table, whose schema is not
among the sources, and with them what `member.create` accepts.  The register endpoint of the
spec takes `{email,password,firstName,lastName,phone?,address?}`: email, password, firstName
and lastName are required, phone and address are nullable; the active flag is not supplied by
the services and starts as true (the rows the tests create carry `isActive: true`).  The new
row takes its id from the id counter. -/
def memberCreate (email : Option String) (password : String)
    (firstName lastName phone address : Option String) (d : Directory) :
    Except String (Member × Directory) :=
  match email, firstName, lastName with
  | some e, some f, some l =>
    let member : Member :=
      { id := d.nextId, email := e, password := password, firstName := f, lastName := l,
        phone := phone, address := address, isActive := true }
    .ok (member, { d with members := d.members ++ [member], nextId := d.nextId + 1 })
  | _, _, _ => .error createRejected

/-- Modelled from the spec: the required columns of the librarians table, whose schema is not
among the sources, as for members (a librarian has no address). -/
def librarianCreate (email : Option String) (password : String)
    (firstName lastName phone : Option String) (d : Directory) :
    Except String (Librarian × Directory) :=
  match email, firstName, lastName with
  | some e, some f, some l =>
    let librarian : Librarian :=
      { id := d.nextId, email := e, password := password, firstName := f, lastName := l,
        phone := phone, isActive := true }
    .ok (librarian, { d with librarians := d.librarians ++ [librarian], nextId := d.nextId + 1 })
  | _, _, _ => .error createRejected

/-- Modelled from the spec: the required columns of the admin users table, whose schema is
not among the sources, as for members (an admin has neither phone nor address). -/
def adminUserCreate (email : Option String) (password : String)
    (firstName lastName : Option String) (d : Directory) :
    Except String (AdminUser × Directory) :=
  match email, firstName, lastName with
  | some e, some f, some l =>
    let admin : AdminUser :=
      { id := d.nextId, email := e, password := password, firstName := f, lastName := l,
        isActive := true }
    .ok (admin, { d with adminUsers := d.adminUsers ++ [admin], nextId := d.nextId + 1 })
  | _, _, _ => .error createRejected

/-- Modelled from the spec: the required columns of the books table, whose schema is not
among the sources.  The spec lists title, author, unique ISBN and a required category
reference, with a description that the services treat as nullable.  The new row takes its id
from the id counter. -/
def bookCreate (title author isbn description : Option String) (categoryId : Option Nat)
    (s : Store) : Except String (Book × Store) :=
  match title, author, isbn, categoryId with
  | some t, some a, some i, some c =>
    let book : Book :=
      { id := s.nextId, title := t, author := a, isbn := i, description := description,
        categoryId := c }
    .ok (book, { s with books := s.books ++ [book], nextId := s.nextId + 1 })
  | _, _, _, _ => .error createRejected

/-- The statement `if (v) updatePayload.column = v` followed by the update: a supplied
non-empty string replaces the stored one, a missing or empty one keeps it. -/
def orKeep (supplied : Option String) (stored : String) : String :=
  match supplied with
  | some v => if v ≠ "" then v else stored
  | none => stored

/-- The statement `if (v !== undefined) updatePayload.column = v` followed by the update: a
supplied value, `null` included, replaces the stored one. -/
def orKeepDefined {α : Type} (supplied : Option α) (stored : α) : α :=
  match supplied with
  | some v => v
  | none => stored

/-! ## Auth service -/

/-- The properties of a registration or member-creation request that the services read; `none`
is a missing property. -/
structure MemberData where
  email : Option String
  password : Option String
  firstName : Option String
  lastName : Option String
  phone : Option String
  address : Option String
  deriving DecidableEq, Repr

/-- The value `{ user, token }` of `login` and `registerMember`. -/
structure AuthResult where
  user : JsonObject
  token : String
  deriving DecidableEq, Repr

/-- `login(email, password, role)` of `authService.js`. -/
def login (x : Externals) (email password role : String) (d : Directory) :
    Traced (Except String AuthResult) Directory :=
  let found : Except String (Option AccountRow × StoreCall) :=
    if role = "MEMBER" then
      .ok ((d.members.find? (fun m => decide (m.email = email))).map AccountRow.member,
        ⟨.member, .findUniqueByEmail⟩)
    else if role = "LIBRARIAN" then
      .ok ((d.librarians.find? (fun l => decide (l.email = email))).map AccountRow.librarian,
        ⟨.librarian, .findUniqueByEmail⟩)
    else if role = "ADMIN" then
      .ok ((d.adminUsers.find? (fun a => decide (a.email = email))).map AccountRow.adminUser,
        ⟨.adminUser, .findUniqueByEmail⟩)
    else .error "Invalid role"
  match found with
  | .error message => ⟨.error message, d, []⟩
  | .ok (none, call) => ⟨.error "Invalid credentials", d, [call]⟩
  | .ok (some user, call) =>
    if user.isActive = false then ⟨.error "Account is inactive", d, [call]⟩
    else if x.comparePassword password user.password = false then
      ⟨.error "Invalid credentials", d, [call]⟩
    else
      let token := x.generateToken
        { id := user.id, email := user.email, role := toUpperCase role }
      ⟨.ok { user := setProperty (omitPassword user.toObject) .role
                (.text (toUpperCase role)),
             token := token }, d, [call]⟩

/-- `registerMember(memberData)` of `authService.js`. -/
def registerMember (x : Externals) (memberData : MemberData) (d : Directory) :
    Traced (Except String AuthResult) Directory :=
  match memberByEmail memberData.email d with
  | .error message => ⟨.error message, d, [⟨.member, .findUniqueByEmail⟩]⟩
  | .ok (some _) => ⟨.error "Email already registered", d, [⟨.member, .findUniqueByEmail⟩]⟩
  | .ok none =>
    match x.hashPassword memberData.password with
    | .error message => ⟨.error message, d, [⟨.member, .findUniqueByEmail⟩]⟩
    | .ok hashedPassword =>
      match memberCreate memberData.email hashedPassword memberData.firstName
          memberData.lastName memberData.phone memberData.address d with
      | .error message =>
        ⟨.error message, d, [⟨.member, .findUniqueByEmail⟩, ⟨.member, .create⟩]⟩
      | .ok (member, d1) =>
        let token := x.generateToken { id := member.id, email := member.email, role := "MEMBER" }
        ⟨.ok { user := setProperty (omitPassword member.toObject) .role (.text "MEMBER"),
               token := token },
          d1, [⟨.member, .findUniqueByEmail⟩, ⟨.member, .create⟩]⟩

/-! ## Admin service: accounts -/

/-- `createMember(memberData)` of `adminService.js`. -/
def createMember (x : Externals) (memberData : MemberData) (d : Directory) :
    Traced (Except String JsonObject) Directory :=
  match memberByEmail memberData.email d with
  | .error message => ⟨.error message, d, [⟨.member, .findUniqueByEmail⟩]⟩
  | .ok (some _) => ⟨.error "Email already registered", d, [⟨.member, .findUniqueByEmail⟩]⟩
  | .ok none =>
    match x.hashPassword memberData.password with
    | .error message => ⟨.error message, d, [⟨.member, .findUniqueByEmail⟩]⟩
    | .ok hashedPassword =>
      match memberCreate memberData.email hashedPassword memberData.firstName
          memberData.lastName memberData.phone memberData.address d with
      | .error message =>
        ⟨.error message, d, [⟨.member, .findUniqueByEmail⟩, ⟨.member, .create⟩]⟩
      | .ok (member, d1) =>
        ⟨.ok (omitPassword member.toObject), d1,
          [⟨.member, .findUniqueByEmail⟩, ⟨.member, .create⟩]⟩

/-- The properties of a librarian-creation request that `createLibrarian` reads. -/
structure LibrarianData where
  email : Option String
  password : Option String
  firstName : Option String
  lastName : Option String
  phone : Option String
  deriving DecidableEq, Repr

/-- `createLibrarian(librarianData)` of `adminService.js`. -/
def createLibrarian (x : Externals) (librarianData : LibrarianData) (d : Directory) :
    Traced (Except String JsonObject) Directory :=
  match librarianByEmail librarianData.email d with
  | .error message => ⟨.error message, d, [⟨.librarian, .findUniqueByEmail⟩]⟩
  | .ok (some _) =>
    ⟨.error "Email already registered", d, [⟨.librarian, .findUniqueByEmail⟩]⟩
  | .ok none =>
    match x.hashPassword librarianData.password with
    | .error message => ⟨.error message, d, [⟨.librarian, .findUniqueByEmail⟩]⟩
    | .ok hashedPassword =>
      match librarianCreate librarianData.email hashedPassword librarianData.firstName
          librarianData.lastName librarianData.phone d with
      | .error message =>
        ⟨.error message, d, [⟨.librarian, .findUniqueByEmail⟩, ⟨.librarian, .create⟩]⟩
      | .ok (librarian, d1) =>
        ⟨.ok (omitPassword librarian.toObject), d1,
          [⟨.librarian, .findUniqueByEmail⟩, ⟨.librarian, .create⟩]⟩

/-- The properties of an admin-creation request that `createAdmin` reads. -/
structure AdminData where
  email : Option String
  password : Option String
  firstName : Option String
  lastName : Option String
  deriving DecidableEq, Repr

/-- `createAdmin(adminData)` of `adminService.js`. -/
def createAdmin (x : Externals) (adminData : AdminData) (d : Directory) :
    Traced (Except String JsonObject) Directory :=
  match adminUserByEmail adminData.email d with
  | .error message => ⟨.error message, d, [⟨.adminUser, .findUniqueByEmail⟩]⟩
  | .ok (some _) =>
    ⟨.error "Email already registered", d, [⟨.adminUser, .findUniqueByEmail⟩]⟩
  | .ok none =>
    match x.hashPassword adminData.password with
    | .error message => ⟨.error message, d, [⟨.adminUser, .findUniqueByEmail⟩]⟩
    | .ok hashedPassword =>
      match adminUserCreate adminData.email hashedPassword adminData.firstName
          adminData.lastName d with
      | .error message =>
        ⟨.error message, d, [⟨.adminUser, .findUniqueByEmail⟩, ⟨.adminUser, .create⟩]⟩
      | .ok (admin, d1) =>
        ⟨.ok (omitPassword admin.toObject), d1,
          [⟨.adminUser, .findUniqueByEmail⟩, ⟨.adminUser, .create⟩]⟩

/-- The properties of a member-update request that `updateMember` reads: `none` is a missing
property, `some none` is `null` for the nullable columns. -/
structure MemberUpdate where
  email : Option String
  firstName : Option String
  lastName : Option String
  phone : Option (Option String)
  address : Option (Option String)
  isActive : Option Bool
  deriving DecidableEq, Repr

/-- The `updatePayload` that `updateMember` builds, applied to a row. -/
def MemberUpdate.apply (u : MemberUpdate) (m : Member) : Member :=
  { m with
    email := orKeep u.email m.email
    firstName := orKeep u.firstName m.firstName
    lastName := orKeep u.lastName m.lastName
    phone := orKeepDefined u.phone m.phone
    address := orKeepDefined u.address m.address
    isActive := orKeepDefined u.isActive m.isActive }

/-- `updateMember(memberId, updateData)` of `adminService.js`.  `emailChecked` is the
condition `email && email !== existingMember.email` under which the email lookup is made. -/
def updateMember (memberId : Nat) (updateData : MemberUpdate) (d : Directory) :
    Traced (Except String JsonObject) Directory :=
  match d.members.find? (fun m => decide (m.id = memberId)) with
  | none => ⟨.error "Member not found", d, [⟨.member, .findUniqueById⟩]⟩
  | some existingMember =>
    let emailChecked : Bool :=
      truthy updateData.email && decide (updateData.email ≠ some existingMember.email)
    let calls : List StoreCall :=
      [⟨.member, .findUniqueById⟩] ++
        (if emailChecked then [⟨.member, .findUniqueByEmail⟩] else [])
    if emailChecked = true ∧
        (d.members.find? (fun m => decide (some m.email = updateData.email))).isSome = true then
      ⟨.error "Email already registered", d, calls⟩
    else
      let d1 : Directory :=
        { d with members := d.members.map (fun m =>
            if m.id = memberId then updateData.apply m else m) }
      ⟨.ok (omitPassword (updateData.apply existingMember).toObject), d1,
        calls ++ [⟨.member, .update⟩]⟩

/-- The properties of a librarian-update request that `updateLibrarian` reads. -/
structure LibrarianUpdate where
  email : Option String
  firstName : Option String
  lastName : Option String
  phone : Option (Option String)
  isActive : Option Bool
  deriving DecidableEq, Repr

/-- The `updatePayload` that `updateLibrarian` builds, applied to a row. -/
def LibrarianUpdate.apply (u : LibrarianUpdate) (l : Librarian) : Librarian :=
  { l with
    email := orKeep u.email l.email
    firstName := orKeep u.firstName l.firstName
    lastName := orKeep u.lastName l.lastName
    phone := orKeepDefined u.phone l.phone
    isActive := orKeepDefined u.isActive l.isActive }

/-- `updateLibrarian(librarianId, updateData)` of `adminService.js`. -/
def updateLibrarian (librarianId : Nat) (updateData : LibrarianUpdate) (d : Directory) :
    Traced (Except String JsonObject) Directory :=
  match d.librarians.find? (fun l => decide (l.id = librarianId)) with
  | none => ⟨.error "Librarian not found", d, [⟨.librarian, .findUniqueById⟩]⟩
  | some existingLibrarian =>
    let emailChecked : Bool :=
      truthy updateData.email && decide (updateData.email ≠ some existingLibrarian.email)
    let calls : List StoreCall :=
      [⟨.librarian, .findUniqueById⟩] ++
        (if emailChecked then [⟨.librarian, .findUniqueByEmail⟩] else [])
    if emailChecked = true ∧
        (d.librarians.find? (fun l => decide (some l.email = updateData.email))).isSome
          = true then
      ⟨.error "Email already registered", d, calls⟩
    else
      let d1 : Directory :=
        { d with librarians := d.librarians.map (fun l =>
            if l.id = librarianId then updateData.apply l else l) }
      ⟨.ok (omitPassword (updateData.apply existingLibrarian).toObject), d1,
        calls ++ [⟨.librarian, .update⟩]⟩

/-- `deactivateUser(userId, role)` of `adminService.js`: the value is the row as the data
store's `update` returns it. -/
def deactivateUser (userId : Nat) (role : String) (d : Directory) :
    Traced (Except String JsonObject) Directory :=
  if role = "MEMBER" then
    match d.members.find? (fun m => decide (m.id = userId)) with
    | none => ⟨.error "Member not found", d, [⟨.member, .findUniqueById⟩]⟩
    | some member =>
      ⟨.ok ({ member with isActive := false } : Member).toObject,
        { d with members := d.members.map (fun m =>
            if m.id = userId then { m with isActive := false } else m) },
        [⟨.member, .findUniqueById⟩, ⟨.member, .update⟩]⟩
  else if role = "LIBRARIAN" then
    match d.librarians.find? (fun l => decide (l.id = userId)) with
    | none => ⟨.error "Librarian not found", d, [⟨.librarian, .findUniqueById⟩]⟩
    | some librarian =>
      ⟨.ok ({ librarian with isActive := false } : Librarian).toObject,
        { d with librarians := d.librarians.map (fun l =>
            if l.id = userId then { l with isActive := false } else l) },
        [⟨.librarian, .findUniqueById⟩, ⟨.librarian, .update⟩]⟩
  else if role = "ADMIN" then
    match d.adminUsers.find? (fun a => decide (a.id = userId)) with
    | none => ⟨.error "Admin not found", d, [⟨.adminUser, .findUniqueById⟩]⟩
    | some admin =>
      ⟨.ok ({ admin with isActive := false } : AdminUser).toObject,
        { d with adminUsers := d.adminUsers.map (fun a =>
            if a.id = userId then { a with isActive := false } else a) },
        [⟨.adminUser, .findUniqueById⟩, ⟨.adminUser, .update⟩]⟩
  else ⟨.error "Invalid role", d, []⟩

/-! ## Admin service: categories and books -/

/-- The properties of a category-update request that `updateCategory` reads. -/
structure CategoryUpdate where
  name : Option String
  description : Option (Option String)
  deriving DecidableEq, Repr

/-- The `updatePayload` that `updateCategory` builds, applied to a row. -/
def CategoryUpdate.apply (u : CategoryUpdate) (c : Category) : Category :=
  { c with
    name := orKeep u.name c.name
    description := orKeepDefined u.description c.description }

/-- `updateCategory(categoryId, updateData)` of `adminService.js`. -/
def updateCategory (categoryId : Nat) (updateData : CategoryUpdate) (d : Directory) :
    Traced (Except String Category) Directory :=
  match d.categories.find? (fun c => decide (c.id = categoryId)) with
  | none => ⟨.error "Category not found", d, [⟨.category, .findUniqueById⟩]⟩
  | some existingCategory =>
    let nameChecked : Bool :=
      truthy updateData.name && decide (updateData.name ≠ some existingCategory.name)
    let calls : List StoreCall :=
      [⟨.category, .findUniqueById⟩] ++
        (if nameChecked then [⟨.category, .findUniqueByName⟩] else [])
    if nameChecked = true ∧
        (d.categories.find? (fun c => decide (some c.name = updateData.name))).isSome
          = true then
      ⟨.error "Category name already exists", d, calls⟩
    else
      let d1 : Directory :=
        { d with categories := d.categories.map (fun c =>
            if c.id = categoryId then updateData.apply c else c) }
      ⟨.ok (updateData.apply existingCategory), d1, calls ++ [⟨.category, .update⟩]⟩

/-- The properties of a book-creation request that `createBook` reads. -/
structure BookData where
  title : Option String
  author : Option String
  isbn : Option String
  description : Option String
  categoryId : Option Nat
  deriving DecidableEq, Repr

/-- `createBook(bookData)` of `adminService.js`; the `include: { category: true }` of the
returned row is left out. -/
def createBook (bookData : BookData) (d : Directory) (s : Store) :
    Traced (Except String Book) Store :=
  match bookData.isbn with
  | none => ⟨.error whereRejected, s, [⟨.book, .findUniqueByIsbn⟩]⟩
  | some isbn =>
    match s.books.find? (fun b => decide (b.isbn = isbn)) with
    | some _ =>
      ⟨.error "Book with this ISBN already exists", s, [⟨.book, .findUniqueByIsbn⟩]⟩
    | none =>
      match bookData.categoryId with
      | none =>
        ⟨.error whereRejected, s, [⟨.book, .findUniqueByIsbn⟩, ⟨.category, .findUniqueById⟩]⟩
      | some categoryId =>
        match d.categories.find? (fun c => decide (c.id = categoryId)) with
        | none =>
          ⟨.error "Category not found", s,
            [⟨.book, .findUniqueByIsbn⟩, ⟨.category, .findUniqueById⟩]⟩
        | some _ =>
          match bookCreate bookData.title bookData.author bookData.isbn bookData.description
              bookData.categoryId s with
          | .error message =>
            ⟨.error message, s,
              [⟨.book, .findUniqueByIsbn⟩, ⟨.category, .findUniqueById⟩, ⟨.book, .create⟩]⟩
          | .ok (book, s1) =>
            ⟨.ok book, s1,
              [⟨.book, .findUniqueByIsbn⟩, ⟨.category, .findUniqueById⟩, ⟨.book, .create⟩]⟩

/-- JavaScript truthiness of a `categoryId` property of a request.  Ids are non-empty strings
in the source and naturals here: `some (some id)` is a supplied id, which is truthy,
`some none` is a property supplied with a falsy value (`null` or the empty string), and `none`
is a missing property. -/
def truthyId : Option (Option Nat) → Bool
  | some (some _) => true
  | _ => false

/-- The statement `if (categoryId) updatePayload.categoryId = categoryId` followed by the
update: a supplied id replaces the stored one; a missing property, `null` and the empty string
keep it. -/
def orKeepId (supplied : Option (Option Nat)) (stored : Nat) : Nat :=
  match supplied with
  | some (some v) => v
  | _ => stored

/-- The properties of a book-update request that `updateBook` reads.  `categoryId` is `none`
when the property is missing, `some none` when it is supplied as `null` or the empty string,
and `some (some id)` when it is supplied as an id. -/
structure BookUpdate where
  title : Option String
  author : Option String
  isbn : Option String
  description : Option (Option String)
  categoryId : Option (Option Nat)
  deriving DecidableEq, Repr

/-- The `updatePayload` that `updateBook` builds, applied to a row: `title`, `author`, `isbn`
and `categoryId` are written under `if (v)`, `description` under `if (v !== undefined)`. -/
def BookUpdate.apply (u : BookUpdate) (b : Book) : Book :=
  { b with
    title := orKeep u.title b.title
    author := orKeep u.author b.author
    isbn := orKeep u.isbn b.isbn
    description := orKeepDefined u.description b.description
    categoryId := orKeepId u.categoryId b.categoryId }

/-- `updateBook(bookId, updateData)` of `adminService.js`.  `isbnChecked` and `categoryChecked`
are the conditions under which the ISBN lookup and the category lookup are made. -/
def updateBook (bookId : Nat) (updateData : BookUpdate) (d : Directory) (s : Store) :
    Traced (Except String Book) Store :=
  match s.books.find? (fun b => decide (b.id = bookId)) with
  | none => ⟨.error "Book not found", s, [⟨.book, .findUniqueById⟩]⟩
  | some existingBook =>
    let isbnChecked : Bool :=
      truthy updateData.isbn && decide (updateData.isbn ≠ some existingBook.isbn)
    let calls1 : List StoreCall :=
      [⟨.book, .findUniqueById⟩] ++ (if isbnChecked then [⟨.book, .findUniqueByIsbn⟩] else [])
    if isbnChecked = true ∧
        (s.books.find? (fun b => decide (some b.isbn = updateData.isbn))).isSome = true then
      ⟨.error "Book with this ISBN already exists", s, calls1⟩
    else
      let categoryChecked : Bool :=
        truthyId updateData.categoryId &&
          decide (updateData.categoryId ≠ some (some existingBook.categoryId))
      let calls2 : List StoreCall :=
        calls1 ++ (if categoryChecked then [⟨.category, .findUniqueById⟩] else [])
      if categoryChecked = true ∧
          (d.categories.find?
            (fun c => decide (some (some c.id) = updateData.categoryId))).isNone = true then
        ⟨.error "Category not found", s, calls2⟩
      else
        let s1 : Store :=
          { s with books := s.books.map (fun b =>
              if b.id = bookId then updateData.apply b else b) }
        ⟨.ok (updateData.apply existingBook), s1, calls2 ++ [⟨.book, .update⟩]⟩

/-! ## Auth and admin controllers -/

/-- The properties of a login request. -/
structure LoginBody where
  email : Option String
  password : Option String
  role : Option String
  deriving DecidableEq, Repr

/-- `loginController` of `authController.js`. -/
def loginController (x : Externals) (body : LoginBody) (d : Directory) :
    Traced (Response AuthResult) Directory :=
  match body.email, body.password, body.role with
  | some email, some password, some role =>
    if email = "" ∨ password = "" ∨ role = "" then
      ⟨{ status := 400, body := .error "Email, password, and role are required" }, d, []⟩
    else
      match login x email password role d with
      | ⟨.ok result, d1, calls⟩ => ⟨{ status := 200, body := .ok result }, d1, calls⟩
      | ⟨.error message, d1, calls⟩ => ⟨{ status := 401, body := .error message }, d1, calls⟩
  | _, _, _ =>
    ⟨{ status := 400, body := .error "Email, password, and role are required" }, d, []⟩

/-- `registerController` of `authController.js`; the answer carries `result.user` and
`result.token`. -/
def registerController (x : Externals) (body : MemberData) (d : Directory) :
    Traced (Response AuthResult) Directory :=
  if truthy body.email = false ∨ truthy body.password = false ∨
      truthy body.firstName = false ∨ truthy body.lastName = false then
    ⟨{ status := 400, body := .error "Email, password, firstName, and lastName are required" },
      d, []⟩
  else
    match registerMember x body d with
    | ⟨.ok result, d1, calls⟩ => ⟨{ status := 201, body := .ok result }, d1, calls⟩
    | ⟨.error message, d1, calls⟩ => ⟨{ status := 400, body := .error message }, d1, calls⟩

/-- `createMemberController` of `adminController.js`: `req.body` goes to the service as it
is. -/
def createMemberController (x : Externals) (body : MemberData) (d : Directory) :
    Traced (Response JsonObject) Directory :=
  match createMember x body d with
  | ⟨.ok member, d1, calls⟩ => ⟨{ status := 201, body := .ok member }, d1, calls⟩
  | ⟨.error message, d1, calls⟩ => ⟨{ status := 400, body := .error message }, d1, calls⟩

/-- `createBookController` of `adminController.js`: `req.body` goes to the service as it
is. -/
def createBookController (body : BookData) (d : Directory) (s : Store) :
    Traced (Response Book) Store :=
  match createBook body d s with
  | ⟨.ok book, s1, calls⟩ => ⟨{ status := 201, body := .ok book }, s1, calls⟩
  | ⟨.error message, s1, calls⟩ => ⟨{ status := 400, body := .error message }, s1, calls⟩

/-- `deactivateUserController` of `adminController.js`: `userId` is the route parameter,
`role` the property of the request body; the answer carries the value of the service as
`user`. -/
def deactivateUserController (userId : Nat) (role : Option String) (d : Directory) :
    Traced (Response JsonObject) Directory :=
  match role with
  | none => ⟨{ status := 400, body := .error "Role is required" }, d, []⟩
  | some role =>
    if role = "" then ⟨{ status := 400, body := .error "Role is required" }, d, []⟩
    else
      match deactivateUser userId role d with
      | ⟨.ok user, d1, calls⟩ => ⟨{ status := 200, body := .ok user }, d1, calls⟩
      | ⟨.error message, d1, calls⟩ => ⟨{ status := 400, body := .error message }, d1, calls⟩

/-! ## Middlewares and routers -/

/-- The parts of a request the middlewares read and write: the `Authorization` header,
`req.user` and `req.userData`. -/
structure Request where
  authorization : Option String
  user : Option TokenPayload
  userData : Option AccountRow
  deriving DecidableEq, Repr

/-- What a middleware does with a request: it answers with a status and an error message, or
it calls `next()` with the request as it has left it. -/
inductive Passage where
  | respond (status : Nat) (error : String)
  | next (req : Request)
  deriving DecidableEq, Repr

/-- `authenticate` of `middlewares/auth.js`. -/
def authenticate (x : Externals) (req : Request) : Passage :=
  match req.authorization with
  | none => .respond 401 "No token provided"
  | some authHeader =>
    if authHeader = "" ∨ startsWith authHeader "Bearer " = false then
      .respond 401 "No token provided"
    else
      match x.verifyToken (substring authHeader 7) with
      | none => .respond 401 "Invalid or expired token"
      | some decoded =>
        .next { req with
          user := some { id := decoded.id, email := decoded.email, role := decoded.role } }

/-- `authorize(...roles)` of `middlewares/auth.js`. -/
def authorize (roles : List String) (req : Request) : Passage :=
  match req.user with
  | none => .respond 401 "Authentication required"
  | some user =>
    if roles.contains user.role = false then .respond 403 "Insufficient permissions"
    else .next req

/-- The `findUnique({ where: { id } })` that `verifyUserActive` makes for the role of the
token; `none` for a role that is none of the three and for a missing row. -/
def accountOfRole (role : String) (id : Nat) (d : Directory) : Option AccountRow :=
  if role = "MEMBER" then
    (d.members.find? (fun m => decide (m.id = id))).map AccountRow.member
  else if role = "LIBRARIAN" then
    (d.librarians.find? (fun l => decide (l.id = id))).map AccountRow.librarian
  else if role = "ADMIN" then
    (d.adminUsers.find? (fun a => decide (a.id = id))).map AccountRow.adminUser
  else none

/-- `verifyUserActive` of `middlewares/auth.js`; destructuring a missing `req.user` throws
inside the `try`. -/
def verifyUserActive (req : Request) (d : Directory) : Passage :=
  match req.user with
  | none => .respond 500 "Error verifying user"
  | some payload =>
    match accountOfRole payload.role payload.id d with
    | none => .respond 401 "User account is inactive or not found"
    | some user =>
      if user.isActive = false then .respond 401 "User account is inactive or not found"
      else .next { req with userData := some user }

/-- The three `router.use` lines in front of every route of a router:
`authenticate`, `authorize(role)`, `verifyUserActive`.  The route handler runs when the value
is `next`. -/
def routerGuard (role : String) (x : Externals) (req : Request) (d : Directory) : Passage :=
  match authenticate x req with
  | .respond status error => .respond status error
  | .next req1 =>
    match authorize [role] req1 with
    | .respond status error => .respond status error
    | .next req2 => verifyUserActive req2 d

/-- The guard of `routes/memberRoutes.js`. -/
def memberRoutes (x : Externals) (req : Request) (d : Directory) : Passage :=
  routerGuard "MEMBER" x req d

/-- The guard of `routes/librarianRoutes.js`. -/
def librarianRoutes (x : Externals) (req : Request) (d : Directory) : Passage :=
  routerGuard "LIBRARIAN" x req d

/-- The guard of `routes/adminRoutes.js`. -/
def adminRoutes (x : Externals) (req : Request) (d : Directory) : Passage :=
  routerGuard "ADMIN" x req d

/-! ## Sequences of account and catalogue operations -/

/-- One call of an operation that writes a member email or a book ISBN. -/
inductive DirectoryOp where
  | registerMember (memberData : MemberData)
  | createMember (memberData : MemberData)
  | updateMember (memberId : Nat) (updateData : MemberUpdate)
  | createBook (bookData : BookData)
  | updateBook (bookId : Nat) (updateData : BookUpdate)
  deriving DecidableEq, Repr

/-- The tables a call leaves behind, whether it succeeds or fails. -/
def directoryStep (x : Externals) (t : Directory × Store) : DirectoryOp → Directory × Store
  | .registerMember memberData => ((registerMember x memberData t.1).state, t.2)
  | .createMember memberData => ((createMember x memberData t.1).state, t.2)
  | .updateMember memberId updateData => ((updateMember memberId updateData t.1).state, t.2)
  | .createBook bookData => (t.1, (createBook bookData t.1 t.2).state)
  | .updateBook bookId updateData => (t.1, (updateBook bookId updateData t.1 t.2).state)

/-- The tables after a sequence of calls. -/
def directoryRun (x : Externals) (t : Directory × Store) (ops : List DirectoryOp) :
    Directory × Store :=
  ops.foldl (directoryStep x) t

/-- No two member rows share an email. -/
def EmailsDistinct (d : Directory) : Prop := (d.members.map (fun m => m.email)).Nodup

/-- No two book rows share an ISBN. -/
def IsbnsDistinct (s : Store) : Prop := (s.books.map (fun b => b.isbn)).Nodup

/-- The key discipline of the data store on members and books: the ids of each table are
unique and below the id counter of the table. -/
def AccountsKeyed (d : Directory) (s : Store) : Prop :=
  (d.members.map (fun m => m.id)).Nodup ∧ (∀ m ∈ d.members, m.id < d.nextId) ∧
  (s.books.map (fun b => b.id)).Nodup ∧ (∀ b ∈ s.books, b.id < s.nextId)

/-- The member row with the given id (`member.findUnique`). -/
def Directory.member? (d : Directory) (id : Nat) : Option Member :=
  d.members.find? (fun m => decide (m.id = id))

/-- The librarian row with the given id (`librarian.findUnique`). -/
def Directory.librarian? (d : Directory) (id : Nat) : Option Librarian :=
  d.librarians.find? (fun l => decide (l.id = id))

/-- The admin row with the given id (`adminUser.findUnique`). -/
def Directory.adminUser? (d : Directory) (id : Nat) : Option AdminUser :=
  d.adminUsers.find? (fun a => decide (a.id = id))

/-- The category row with the given id (`category.findUnique`). -/
def Directory.category? (d : Directory) (id : Nat) : Option Category :=
  d.categories.find? (fun c => decide (c.id = id))

/-- The account with the given email in the collection of the role; `none` for a role that is
none of the three. -/
def accountByEmail (role email : String) (d : Directory) : Option AccountRow :=
  if role = "MEMBER" then
    (d.members.find? (fun m => decide (m.email = email))).map AccountRow.member
  else if role = "LIBRARIAN" then
    (d.librarians.find? (fun l => decide (l.email = email))).map AccountRow.librarian
  else if role = "ADMIN" then
    (d.adminUsers.find? (fun a => decide (a.email = email))).map AccountRow.adminUser
  else none

/-- Object `o` is the row object `row` without its password: `o` has no `password` property,
and every other property of `row` is a property of `o` with the same value. -/
def WithoutPassword (o row : JsonObject) : Prop :=
  getProperty o .password = none ∧
  ∀ (k : Property) (v : JsonValue), k ≠ .password → getProperty row k = some v →
    getProperty o k = some v

/-- A text column that cannot be emptied, after an update: it holds the supplied value when a
non-empty one is supplied, and its previous value when none or the empty string is supplied. -/
def TextApplied (supplied : Option String) (previous stored : String) : Prop :=
  (∀ v, supplied = some v → v ≠ "" → stored = v) ∧
  (supplied = none ∨ supplied = some "" → stored = previous)

/-- A column after an update that takes every supplied value: it holds the supplied value when
one is supplied (`null` and `false` included), and its previous value otherwise. -/
def ValueApplied {α : Type} (supplied : Option α) (previous stored : α) : Prop :=
  (∀ v, supplied = some v → stored = v) ∧ (supplied = none → stored = previous)

/-- A category column after an update that is written under `if (categoryId)`: it holds the
supplied id when an id is supplied, and its previous value when the property is missing or
supplied as `null` or the empty string. -/
def IdApplied (supplied : Option (Option Nat)) (previous stored : Nat) : Prop :=
  (∀ v, supplied = some (some v) → stored = v) ∧
  (supplied = none ∨ supplied = some none → stored = previous)

/-- Every borrowing row refers to a copy that has a row (the foreign key from a borrowing to
its copy). -/
def BorrowingsHaveCopies (s : Store) : Prop :=
  ∀ b ∈ s.borrowings, ∃ c ∈ s.bookCopies, c.id = b.bookCopyId

/-- The copy of every OVERDUE borrowing, as long as it has a row, is BORROWED. -/
def OverdueCopyBorrowed (s : Store) : Prop :=
  ∀ b ∈ s.borrowings, b.status = .OVERDUE →
    ∀ c ∈ s.bookCopies, c.id = b.bookCopyId → c.status = .BORROWED

/-- No APPROVED borrowing is on the copy of an OVERDUE borrowing that still has a row. -/
def OverdueCopyUnclaimed (s : Store) : Prop :=
  ∀ b ∈ s.borrowings, b.status = .OVERDUE →
    ∀ a ∈ s.borrowings, a.status = .APPROVED → a.bookCopyId = b.bookCopyId →
      ∀ c ∈ s.bookCopies, c.id ≠ b.bookCopyId

/-! ## Concrete stores -/

/-- A book of the catalogue. -/
def book1 : Book :=
  { id := 1, title := "Dune", author := "Frank Herbert", isbn := "9780441013593",
    description := none, categoryId := 7 }

/-- A catalogue of one book with one AVAILABLE copy; no borrowing, no reservation. -/
def freshStore : Store :=
  { books := [book1],
    bookCopies := [{ id := 10, bookId := 1, copyNumber := 1, status := .AVAILABLE }],
    borrowings := [], reservations := [], nextId := 100 }

/-- The zone America/New_York in 2024: five hours behind UTC until 2024-03-10 at 07:00 UTC,
four hours behind until 2024-11-03 at 06:00 UTC, five hours behind after that. -/
def newYork : TimeZone :=
  { offset := -18000000,
    transitions := [(1710054000000, -14400000), (1730613600000, -18000000)] }

/-- The one-book catalogue on a server whose zone is America/New_York. -/
def freshStoreNewYork : Store := { freshStore with zone := newYork }

/-- The one-book catalogue after member 1 has borrowed copy 10, the librarian has approved and
the copy has come back: the copy is AVAILABLE again and borrowing 100 is RETURNED. -/
def borrowedAndReturned : Store :=
  run freshStore [.borrowBookCopy 0 1 10, .approveBorrowing 5 100, .returnBook 9 100]

/-- Member 1 borrows the copy and the librarian approves; members 1 and 2 reserve the book and
both reservations are approved; the copy is returned. -/
def twoActiveThenReturn : List Op :=
  [.borrowBookCopy 0 1 10, .approveBorrowing 5 100, .reserveBook 1 1, .reserveBook 2 1,
   .approveReservation [] 101, .approveReservation [] 102, .returnBook 9 100]

/-- The copy is out on an APPROVED borrowing; the queue of the book holds an ACTIVE reservation
at position 1 and a PENDING one at position 2. -/
def pendingBehindActive : Store :=
  { books := [book1],
    bookCopies := [{ id := 10, bookId := 1, copyNumber := 1, status := .BORROWED }],
    borrowings := [{ id := 100, memberId := 1, bookCopyId := 10, status := .APPROVED,
                     borrowDate := 5, dueDate := 1209600000, returnDate := none }],
    reservations := [{ id := 101, memberId := 1, bookId := 1, status := .ACTIVE,
                       queuePosition := 1 },
                     { id := 102, memberId := 2, bookId := 1, status := .PENDING,
                       queuePosition := 2 }],
    nextId := 103 }

/-- The copy is AVAILABLE although member 1 still has an APPROVED borrowing of it. -/
def availableWithOpenBorrowing : Store :=
  { books := [book1],
    bookCopies := [{ id := 10, bookId := 1, copyNumber := 1, status := .AVAILABLE }],
    borrowings := [{ id := 100, memberId := 1, bookCopyId := 10, status := .APPROVED,
                     borrowDate := 5, dueDate := 1209600000, returnDate := none }],
    reservations := [], nextId := 101 }

/-- Two open reservations of book 1 (positions 1 and 2) by members 1 and 2, and a cancelled one
by member 3; the only copy of the book is AVAILABLE. -/
def queueOfTwo : Store :=
  { books := [book1],
    bookCopies := [{ id := 10, bookId := 1, copyNumber := 1, status := .AVAILABLE }],
    borrowings := [],
    reservations := [{ id := 101, memberId := 1, bookId := 1, status := .ACTIVE,
                       queuePosition := 1 },
                     { id := 102, memberId := 3, bookId := 1, status := .CANCELLED,
                       queuePosition := 2 },
                     { id := 103, memberId := 2, bookId := 1, status := .PENDING,
                       queuePosition := 2 }],
    nextId := 104 }

/-- Book 1 has a BORROWED copy followed by two AVAILABLE ones; member 5 holds a PENDING
reservation of the book. -/
def pendingWithFreeCopies : Store :=
  { books := [book1],
    bookCopies := [{ id := 10, bookId := 1, copyNumber := 1, status := .BORROWED },
                   { id := 11, bookId := 1, copyNumber := 2, status := .AVAILABLE },
                   { id := 12, bookId := 1, copyNumber := 3, status := .AVAILABLE }],
    borrowings := [],
    reservations := [{ id := 101, memberId := 5, bookId := 1, status := .PENDING,
                       queuePosition := 1 }],
    nextId := 102 }

/-- Three borrowings of copy 10 at due date 1000: APPROVED, PENDING and RETURNED, and an
APPROVED one due at 5000. -/
def dueStore : Store :=
  { books := [book1],
    bookCopies := [{ id := 10, bookId := 1, copyNumber := 1, status := .BORROWED }],
    borrowings := [{ id := 100, memberId := 1, bookCopyId := 10, status := .APPROVED,
                     borrowDate := 0, dueDate := 1000, returnDate := none },
                   { id := 101, memberId := 2, bookCopyId := 10, status := .PENDING,
                     borrowDate := 0, dueDate := 1000, returnDate := none },
                   { id := 102, memberId := 3, bookCopyId := 10, status := .RETURNED,
                     borrowDate := 0, dueDate := 1000, returnDate := some 7 },
                   { id := 103, memberId := 4, bookCopyId := 10, status := .APPROVED,
                     borrowDate := 0, dueDate := 5000, returnDate := none }],
    reservations := [], nextId := 104 }

/-- Book 1 has two copies: copy 10 is out on an OVERDUE borrowing, copy 11 is AVAILABLE; book 2
has one AVAILABLE copy and a PENDING reservation; book 3 has a copy with a PENDING borrowing. -/
def threeBooks : Store :=
  { books := [book1,
              { id := 2, title := "Emma", author := "Jane Austen", isbn := "9780141439587",
                description := some "novel", categoryId := 7 },
              { id := 3, title := "Ulysses", author := "James Joyce", isbn := "9780199535675",
                description := none, categoryId := 7 }],
    bookCopies := [{ id := 10, bookId := 1, copyNumber := 1, status := .BORROWED },
                   { id := 11, bookId := 1, copyNumber := 2, status := .AVAILABLE },
                   { id := 20, bookId := 2, copyNumber := 1, status := .AVAILABLE },
                   { id := 30, bookId := 3, copyNumber := 1, status := .RESERVED }],
    borrowings := [{ id := 100, memberId := 1, bookCopyId := 10, status := .OVERDUE,
                     borrowDate := 0, dueDate := 1000, returnDate := none },
                   { id := 101, memberId := 2, bookCopyId := 30, status := .PENDING,
                     borrowDate := 0, dueDate := 1000, returnDate := none }],
    reservations := [{ id := 102, memberId := 1, bookId := 2, status := .PENDING,
                       queuePosition := 1 }],
    nextId := 103 }

/-- Some service call, in some store reached from the fresh catalogue by service calls, takes a
reservation from status `a` to status `b`. -/
def ReservationMoveReached (a b : ReservationStatus) : Prop :=
  ∃ (ops : List ServiceOp) (op : ServiceOp) (i : Nat) (x y : Reservation),
    (serviceRun freshStore ops).reservations[i]? = some x ∧
    (serviceStep (serviceRun freshStore ops) op).reservations[i]? = some y ∧
    x.status = a ∧ y.status = b

/-- A catalogue of three books and four AVAILABLE copies with no borrowing and no reservation. -/
def openCatalogue : Store :=
  { threeBooks with
      bookCopies := threeBooks.bookCopies.map (fun c => { c with status := .AVAILABLE }),
      borrowings := [], reservations := [] }

/-- The collaborators as the test setup of the repository replaces them (`tests/setup.js`):
the hash of `p` is `hashed_p`, a token names the id of its payload, and three tokens verify. -/
def testExternals : Externals :=
  { hashPassword := fun p =>
      match p with
      | some password => .ok ("hashed_" ++ password)
      | none => .ok "hashed_undefined"
    comparePassword := fun password hash => decide (hash = "hashed_" ++ password)
    generateToken := fun payload => "mock_jwt_token_" ++ toString payload.id
    verifyToken := fun token =>
      if token = "valid_token" then some { id := 1, email := "member@test.com", role := "MEMBER" }
      else if token = "admin_token" then
        some { id := 1, email := "admin@test.com", role := "ADMIN" }
      else if token = "librarian_token" then
        some { id := 1, email := "librarian@test.com", role := "LIBRARIAN" }
      else none }

/-- Two members (the second one inactive), a librarian, an admin and two categories. -/
def testDirectory : Directory :=
  { members :=
      [{ id := 1, email := "member@test.com", password := "hashed_password123",
         firstName := "John", lastName := "Doe", phone := some "123-456-7890",
         address := none, isActive := true },
       { id := 2, email := "jane@test.com", password := "hashed_secret",
         firstName := "Jane", lastName := "Smith", phone := none,
         address := some "456 Admin St", isActive := false }],
    librarians :=
      [{ id := 1, email := "librarian@test.com", password := "hashed_password123",
         firstName := "Librarian", lastName := "User", phone := some "555-5678",
         isActive := true }],
    adminUsers :=
      [{ id := 1, email := "admin@test.com", password := "hashed_password123",
         firstName := "Admin", lastName := "User", isActive := true }],
    categories :=
      [{ id := 7, name := "Fiction", description := none },
       { id := 8, name := "Science", description := some "Natural sciences" }],
    nextId := 100 }

/-- A registration, a member creation with the email of member 1, an update of member 2 to
the email of member 1, an update of member 2 to a new email, a book creation with the ISBN of
book 1, a book creation with a new ISBN, and an update of the new book to the ISBN of book 1. -/
def directoryOps : List DirectoryOp :=
  [.registerMember
     { email := some "new@test.com", password := some "password123", firstName := some "New",
       lastName := some "Member", phone := none, address := none },
   .createMember
     { email := some "member@test.com", password := some "password123",
       firstName := some "Other", lastName := some "Member", phone := none, address := none },
   .updateMember 2
     { email := some "member@test.com", firstName := none, lastName := none, phone := none,
       address := none, isActive := none },
   .updateMember 2
     { email := some "jane.smith@test.com", firstName := none, lastName := none,
       phone := none, address := none, isActive := none },
   .createBook
     { title := some "Dune again", author := some "Frank Herbert",
       isbn := some "9780441013593", description := none, categoryId := some 7 },
   .createBook
     { title := some "Emma", author := some "Jane Austen", isbn := some "9780141439587",
       description := none, categoryId := some 7 },
   .updateBook 100
     { title := none, author := none, isbn := some "9780441013593", description := none,
       categoryId := none }]

/-- Member 1 borrows copy 10 at time 0, the librarian approves at time 5, and the sweep runs
after the due date. -/
def untilOverdue : List ServiceOp :=
  [.lifecycle (.borrowBookCopy 0 1 10), .lifecycle (.approveBorrowing 5 100),
   .lifecycle (.updateOverdueBorrowings 1300000000)]

/-- Attempts on the overdue borrowing and its copy: a return, a rejection, a new request for
the copy, an approval of a reservation of the book, and a removal of the copy. -/
def afterOverdue : List ServiceOp :=
  [.lifecycle (.returnBook 1400000000 100), .lifecycle (.rejectBorrowing 100),
   .lifecycle (.borrowBookCopy 1400000001 2 10), .lifecycle (.reserveBook 2 1),
   .lifecycle (.approveReservation [] 101), .removeBookCopy 10]

/-! ## Theorems -/

/-- Whatever order the data store returns rows in, it returns the rows asked for: each of
them once. -/
theorem inStoreOrder_perm (order : List Nat) (rows : List BookCopy) :
    (inStoreOrder order rows).Perm rows := by
  induction order generalizing rows with
  | nil => exact List.Perm.refl _
  | cons id order ih =>
    unfold inStoreOrder
    refine ((ih _).append_left _).trans ?_
    have h := List.filter_append_perm (fun c : BookCopy => decide (c.id = id)) rows
    simpa using h

/-- Every order of rows with distinct ids is an order in which the data store may return them:
for the permutation `l` of `rows`, the ids of `l` name that order. -/
theorem inStoreOrder_of_perm (l rows : List BookCopy) (h : l.Perm rows)
    (hk : (rows.map (fun c => c.id)).Nodup) :
    inStoreOrder (l.map (fun c => c.id)) rows = l := by
  induction l generalizing rows with
  | nil =>
    have := h.symm.eq_nil
    subst this
    rfl
  | cons a l ih =>
    have hkl : ((a :: l).map (fun c => c.id)).Nodup := (h.map _).nodup_iff.2 hk
    have hal : ∀ x ∈ l, x.id ≠ a.id := by
      intro x hx e
      have := (List.nodup_cons.1 hkl).1
      exact this (List.mem_map.2 ⟨x, hx, e⟩)
    have hf1 : (a :: l).filter (fun c => decide (c.id = a.id)) = [a] := by
      rw [List.filter_cons_of_pos (by simp)]
      congr 1
      rw [List.filter_eq_nil_iff]
      intro x hx
      simpa using hal x hx
    have hf2 : (a :: l).filter (fun c => decide (c.id ≠ a.id)) = l := by
      rw [List.filter_cons_of_neg (by simp)]
      rw [List.filter_eq_self]
      intro x hx
      simpa using hal x hx
    have hp1 : (rows.filter (fun c => decide (c.id = a.id))).Perm [a] := by
      rw [← hf1]; exact (h.filter _).symm
    have hp2 : l.Perm (rows.filter (fun c => decide (c.id ≠ a.id))) := by
      have := h.filter (fun c => decide (c.id ≠ a.id))
      rw [hf2] at this
      exact this
    have hk2 : ((rows.filter (fun c => decide (c.id ≠ a.id))).map (fun c => c.id)).Nodup :=
      ((List.filter_sublist _).map _).nodup hk
    show rows.filter (fun c => decide (c.id = a.id)) ++
      inStoreOrder (l.map (fun c => c.id)) (rows.filter (fun c => decide (c.id ≠ a.id))) = a :: l
    rw [ih _ hp2 hk2, List.perm_singleton.1 hp1]
    rfl

/-- The first AVAILABLE copy of a book, in whatever order the data store returns the copies, is
an AVAILABLE copy row of that book. -/
theorem firstAvailableCopy_mem (o : List Nat) (b : Nat) (s : Store) (ac : BookCopy)
    (h : firstAvailableCopy o b s = some ac) :
    ac ∈ s.bookCopies ∧ ac.bookId = b ∧ ac.status = .AVAILABLE := by
  unfold firstAvailableCopy at h
  have hm := (inStoreOrder_perm o _).mem_iff.1 (List.mem_of_find?_eq_some h)
  have hm' := List.mem_filter.1 hm
  exact ⟨hm'.1, by simpa using hm'.2, by simpa using List.find?_some h⟩

/-- A book has a first AVAILABLE copy, in whatever order the data store returns the copies,
exactly when it has an AVAILABLE copy. -/
theorem firstAvailableCopy_isSome (o : List Nat) (b : Nat) (s : Store) :
    (firstAvailableCopy o b s).isSome = true ↔
      ∃ c ∈ s.bookCopies, c.bookId = b ∧ c.status = .AVAILABLE := by
  unfold firstAvailableCopy
  rw [List.find?_isSome]
  constructor
  · rintro ⟨c, hc, hst⟩
    have hm := List.mem_filter.1 ((inStoreOrder_perm o _).mem_iff.1 hc)
    exact ⟨c, hm.1, by simpa using hm.2, by simpa using hst⟩
  · rintro ⟨c, hc, hb, hst⟩
    exact ⟨c, (inStoreOrder_perm o _).mem_iff.2 (List.mem_filter.2 ⟨hc, by simpa using hb⟩),
      by simpa using hst⟩

/-- C1, as the code runs: from a store without borrowings and reservations, seven lifecycle
calls reach a state where the two open reservations of the book both sit at position 1. Before
the final `returnBook` the positions are 1 and 2; `returnBook` decrements the ACTIVE reservation
behind the head of the queue while the head keeps its place. -/
theorem returnBook_breaks_queue_contiguity :
    freshStore.borrowings = [] ∧ freshStore.reservations = [] ∧
    QueueContiguous 1 (run freshStore (twoActiveThenReturn.take 6)) ∧
    openPositions 1 (run freshStore (twoActiveThenReturn.take 6)) = [1, 2] ∧
    openPositions 1 (run freshStore twoActiveThenReturn) = [1, 1] ∧
    ¬ QueueContiguous 1 (run freshStore twoActiveThenReturn) := by
  refine ⟨rfl, rfl, by decide, by decide, by decide, by decide⟩

/-- C2, as the code runs: in a store reached from the fresh catalogue by five lifecycle calls,
with an ACTIVE reservation at position 1 and a PENDING one at position 2, `returnBook` hands the
copy over (RESERVED) and leaves the PENDING reservation at position 2. -/
theorem returnBook_skips_pending_reservation :
    run freshStore (twoActiveThenReturn.take 5) = pendingBehindActive ∧
    HasActiveReservation 1 pendingBehindActive ∧
    ((returnBook 9 100 pendingBehindActive).2.copy? 10).map (fun c => c.status)
      = some CopyStatus.RESERVED ∧
    (returnBook 9 100 pendingBehindActive).2.reservations =
      [{ id := 101, memberId := 1, bookId := 1, status := .ACTIVE, queuePosition := 1 },
       { id := 102, memberId := 2, bookId := 1, status := .PENDING, queuePosition := 2 }] := by
  refine ⟨by decide, ⟨_, List.mem_cons_self _ _, rfl, rfl⟩, by decide, by decide⟩

/-- No open borrowing of `(m, c)` means the conflict lookup of `borrowBookCopy` finds nothing. -/
theorem find?_openBorrowing_eq_none (m c : Nat) (s : Store) (h : ¬ HasOpenBorrowing m c s) :
    s.borrowings.find? (fun b =>
      decide (b.memberId = m) && decide (b.bookCopyId = c) && openBorrowingStatus b.status)
      = none := by
  rw [List.find?_eq_none]
  intro b hb hp
  apply h
  simp only [openBorrowingStatus, Bool.and_eq_true, Bool.or_eq_true, decide_eq_true_eq] at hp
  exact ⟨b, hb, hp.1.1, hp.1.2, hp.2⟩

/-- An open borrowing of `(m, c)` means the conflict lookup of `borrowBookCopy` finds one. -/
theorem find?_openBorrowing_isSome (m c : Nat) (s : Store) (h : HasOpenBorrowing m c s) :
    ∃ b, s.borrowings.find? (fun b =>
      decide (b.memberId = m) && decide (b.bookCopyId = c) && openBorrowingStatus b.status)
      = some b := by
  obtain ⟨b, hb, hm, hc, hs⟩ := h
  rw [← Option.isSome_iff_exists, List.find?_isSome]
  refine ⟨b, hb, ?_⟩
  simp only [openBorrowingStatus, Bool.and_eq_true, Bool.or_eq_true, decide_eq_true_eq]
  exact ⟨⟨hm, hc⟩, hs⟩

/-- After `setCopyStatus id st`, the row found for `id` is the old one with status `st`. -/
theorem find?_setCopyStatus_self (id : Nat) (st : CopyStatus) (cs : List BookCopy) :
    (setCopyStatus id st cs).find? (fun c => decide (c.id = id))
      = (cs.find? (fun c => decide (c.id = id))).map (fun c => { c with status := st }) := by
  induction cs with
  | nil => rfl
  | cons c cs ih =>
    unfold setCopyStatus at ih ⊢
    by_cases h : c.id = id
    · simp [List.find?_cons, h]
    · simp [List.find?_cons, h, ih]

/-- The result of `borrowBookCopy` once its three guards pass. -/
theorem borrowBookCopy_eq_ok (now m c : Nat) (s : Store) (bc : BookCopy)
    (hc : s.copy? c = some bc) (hav : bc.status = .AVAILABLE)
    (hno : ¬ HasOpenBorrowing m c s) :
    borrowBookCopy now m c s =
      (.ok { id := s.nextId, memberId := m, bookCopyId := c, status := .PENDING,
             borrowDate := now, dueDate := addDays s.zone now 14, returnDate := none },
       { s with
          borrowings := s.borrowings ++
            [{ id := s.nextId, memberId := m, bookCopyId := c, status := .PENDING,
               borrowDate := now, dueDate := addDays s.zone now 14, returnDate := none }],
          nextId := s.nextId + 1,
          bookCopies := setCopyStatus c .RESERVED s.bookCopies }) := by
  have hfind := find?_openBorrowing_eq_none m c s hno
  unfold Store.copy? at hc
  unfold borrowBookCopy
  rw [hc]
  simp only [hav, ne_eq, not_true_eq_false, if_false, hfind]

/-- In a zone without transitions `setDate(getDate() + n)` adds `n` times 24 hours. -/
theorem addDays_fixed (z : TimeZone) (h : z.transitions = []) (d n : Nat) :
    addDays z d n = d + n * msPerDay := by
  unfold addDays utcOfLocal localTime
  rw [h]
  simp only [offsetAt, instantOf]
  omega

/-- C3, as the claim states it, fails on a server whose zone changes its offset. On a server in
New York, for the AVAILABLE copy 10 and a member without borrowing: a borrowing requested on
2024-03-01 at 12:00 UTC is due on 2024-03-15 at 11:00 UTC, which is 1 206 000 000 ms (13 days
and 23 hours) later, not 14 days; and a borrowing requested on 2024-02-25 at 07:30 UTC, when
the local clock reads 02:30, is due on 2024-03-10 at 07:30 UTC, when the local clock reads
03:30, so that the local reading of the due date is not 14 days after that of the request. -/
theorem borrowBookCopy_due_across_transition :
    freshStoreNewYork.copy? 10 =
      some { id := 10, bookId := 1, copyNumber := 1, status := .AVAILABLE } ∧
    ¬ HasOpenBorrowing 1 10 freshStoreNewYork ∧
    (borrowBookCopy 1709294400000 1 10 freshStoreNewYork).1 =
      .ok { id := 100, memberId := 1, bookCopyId := 10, status := .PENDING,
            borrowDate := 1709294400000, dueDate := 1709294400000 + 1206000000,
            returnDate := none } ∧
    (1709294400000 + 1206000000 : Nat) ≠ 1709294400000 + 14 * msPerDay ∧
    (borrowBookCopy 1708846200000 1 10 freshStoreNewYork).1 =
      .ok { id := 100, memberId := 1, bookCopyId := 10, status := .PENDING,
            borrowDate := 1708846200000, dueDate := 1710055800000, returnDate := none } ∧
    localTime newYork 1710055800000 ≠ localTime newYork 1708846200000 + 14 * msPerDay := by
  refine ⟨rfl, ?_, rfl, by decide, rfl, by decide⟩
  rintro ⟨b, hb, _⟩
  simp [freshStoreNewYork, freshStore] at hb

/-- C3, amended: when copy `c` exists and is AVAILABLE and member `m` has no PENDING or
APPROVED borrowing of it, `borrowBookCopy` succeeds; the store gains exactly one borrowing, for
`m` and `c`, PENDING, borrowed `now`; `c` becomes RESERVED; every other copy, every earlier
borrowing, the reservations and the books stay as they were. The borrowing is due at the
instant `setDate(getDate() + 14)` yields in the zone of the server: the instant at which the
local clock reads what it reads at `now`, 14 days on. On a server whose zone has no transition
that is exactly 14 days (1 209 600 000 ms) after `now`. -/
theorem borrowBookCopy_success (now m c : Nat) (s : Store) (bc : BookCopy)
    (hc : s.copy? c = some bc) (hav : bc.status = .AVAILABLE)
    (hno : ¬ HasOpenBorrowing m c s) :
    ∃ nb s', borrowBookCopy now m c s = (.ok nb, s') ∧
      nb.memberId = m ∧ nb.bookCopyId = c ∧ nb.status = .PENDING ∧
      nb.borrowDate = now ∧
      nb.dueDate = (utcOfLocal s.zone (localTime s.zone now + 1209600000)).toNat ∧
      (s.zone.transitions = [] → nb.dueDate = now + 1209600000) ∧
      nb.returnDate = none ∧
      s'.borrowings = s.borrowings ++ [nb] ∧
      s'.copy? c = some { bc with status := .RESERVED } ∧
      s'.bookCopies = s.bookCopies.map
        (fun x => if x.id = c then { x with status := .RESERVED } else x) ∧
      s'.reservations = s.reservations ∧ s'.books = s.books := by
  have hrun := borrowBookCopy_eq_ok now m c s bc hc hav hno
  have hself := find?_setCopyStatus_self c .RESERVED s.bookCopies
  unfold Store.copy? at hc
  rw [hc] at hself
  refine ⟨_, _, hrun, rfl, rfl, rfl, rfl, rfl, ?_, rfl, rfl, ?_, rfl, rfl, rfl⟩
  · intro hz
    show addDays s.zone now 14 = now + 1209600000
    rw [addDays_fixed s.zone hz]
    rfl
  · simpa [Store.copy?] using hself

/-- Witness for C3 (amended) on the fresh catalogue, whose server runs in UTC: member 1 borrows
copy 10 at time 0, and the borrowing is due 1 209 600 000 ms later. -/
theorem borrowBookCopy_success_witness :
    ∃ nb s', borrowBookCopy 0 1 10 freshStore = (.ok nb, s') ∧
      nb.memberId = 1 ∧ nb.bookCopyId = 10 ∧ nb.status = .PENDING ∧
      nb.borrowDate = 0 ∧ nb.dueDate = 0 + 1209600000 ∧ nb.returnDate = none ∧
      s'.borrowings = freshStore.borrowings ++ [nb] ∧
      s'.copy? 10 = some { id := 10, bookId := 1, copyNumber := 1, status := .RESERVED } ∧
      s'.bookCopies = freshStore.bookCopies.map
        (fun x => if x.id = 10 then { x with status := .RESERVED } else x) ∧
      s'.reservations = freshStore.reservations ∧ s'.books = freshStore.books := by
  obtain ⟨nb, s', h1, h2, h3, h4, h5, -, h7, h8, h9, h10, h11, h12, h13⟩ :=
    borrowBookCopy_success 0 1 10 freshStore
      { id := 10, bookId := 1, copyNumber := 1, status := .AVAILABLE } rfl rfl
      (by rintro ⟨b, hb, _⟩; simp [freshStore] at hb)
  exact ⟨nb, s', h1, h2, h3, h4, h5, h7 rfl, h8, h9, h10, h11, h12, h13⟩

/-- C4, as the claim states it, fails: copy 10 is AVAILABLE, yet `borrowBookCopy` by member 1
is refused, because member 1 still has an APPROVED borrowing of that copy. -/
theorem borrowBookCopy_available_yet_refused :
    (availableWithOpenBorrowing.copy? 10).map (fun c => c.status)
      = some CopyStatus.AVAILABLE ∧
    borrowBookCopy 0 1 10 availableWithOpenBorrowing =
      (.error "You already have a pending or active borrowing for this book copy",
        availableWithOpenBorrowing) := by
  exact ⟨by decide, rfl⟩

/-- C4, amended: for an existing copy `c`, `borrowBookCopy(m, c)` succeeds if and only if `c` is
AVAILABLE and `m` has no PENDING or APPROVED borrowing of `c`; whenever it succeeds, `c` is
RESERVED afterwards. -/
theorem borrowBookCopy_succeeds_iff (now m c : Nat) (s : Store) (bc : BookCopy)
    (hc : s.copy? c = some bc) :
    ((borrowBookCopy now m c s).1.isOk = true ↔
      (bc.status = .AVAILABLE ∧ ¬ HasOpenBorrowing m c s)) ∧
    ((borrowBookCopy now m c s).1.isOk = true →
      ((borrowBookCopy now m c s).2.copy? c).map (fun x => x.status)
        = some CopyStatus.RESERVED) := by
  have key : (bc.status = .AVAILABLE ∧ ¬ HasOpenBorrowing m c s) →
      (borrowBookCopy now m c s).1.isOk = true ∧
      ((borrowBookCopy now m c s).2.copy? c).map (fun x => x.status)
        = some CopyStatus.RESERVED := by
    rintro ⟨hav, hno⟩
    have hself := find?_setCopyStatus_self c .RESERVED s.bookCopies
    rw [borrowBookCopy_eq_ok now m c s bc hc hav hno]
    unfold Store.copy? at hc ⊢
    rw [hc] at hself
    refine ⟨rfl, ?_⟩
    show Option.map (fun x => x.status)
      (List.find? (fun x => decide (x.id = c)) (setCopyStatus c .RESERVED s.bookCopies)) = _
    rw [hself]
    rfl
  have back : (borrowBookCopy now m c s).1.isOk = true →
      (bc.status = .AVAILABLE ∧ ¬ HasOpenBorrowing m c s) := by
    intro hok
    by_cases hav : bc.status = .AVAILABLE
    · refine ⟨hav, fun hopen => ?_⟩
      obtain ⟨b, hb⟩ := find?_openBorrowing_isSome m c s hopen
      unfold Store.copy? at hc
      unfold borrowBookCopy at hok
      rw [hc] at hok
      simp only [hav, ne_eq, not_true_eq_false, if_false, hb] at hok
      exact absurd hok (by simp [Except.isOk, Except.toBool])
    · unfold Store.copy? at hc
      unfold borrowBookCopy at hok
      rw [hc] at hok
      simp only [ne_eq, hav, not_false_eq_true, if_true] at hok
      exact absurd hok (by simp [Except.isOk, Except.toBool])
  exact ⟨⟨back, fun h => (key h).1⟩, fun hok => (key (back hok)).2⟩

/-- Witness for C4 (amended) on the fresh catalogue, where copy 10 is AVAILABLE and nobody has
borrowed it. -/
theorem borrowBookCopy_succeeds_iff_witness :
    ((borrowBookCopy 3 2 10 freshStore).1.isOk = true ↔
      ((BookCopy.mk 10 1 1 .AVAILABLE).status = .AVAILABLE ∧
        ¬ HasOpenBorrowing 2 10 freshStore)) ∧
    ((borrowBookCopy 3 2 10 freshStore).1.isOk = true →
      ((borrowBookCopy 3 2 10 freshStore).2.copy? 10).map (fun x => x.status)
        = some CopyStatus.RESERVED) :=
  borrowBookCopy_succeeds_iff 3 2 10 freshStore (BookCopy.mk 10 1 1 .AVAILABLE) rfl

/-- C5: `borrowBookCopy(m, c)` fails with 'Book copy not found' when `c` is absent, otherwise
with 'Book copy is not available for borrowing' when `c` is not AVAILABLE, otherwise with the
'already have a pending or active borrowing' error when `m` has a PENDING or APPROVED borrowing
of `c`. Every failure leaves the store as it was, and the controller answers 400 with the error
message (as it does when the request carries no `bookCopyId`). -/
theorem borrowBookCopy_failure (now m c : Nat) (s : Store) :
    (s.copy? c = none → borrowBookCopy now m c s = (.error "Book copy not found", s)) ∧
    (∀ bc, s.copy? c = some bc → bc.status ≠ .AVAILABLE →
      borrowBookCopy now m c s = (.error "Book copy is not available for borrowing", s)) ∧
    (∀ bc, s.copy? c = some bc → bc.status = .AVAILABLE → HasOpenBorrowing m c s →
      borrowBookCopy now m c s =
        (.error "You already have a pending or active borrowing for this book copy", s)) ∧
    (∀ e, (borrowBookCopy now m c s).1 = .error e →
      (borrowBookCopy now m c s).2 = s ∧
      borrowBookCopyController now m (some c) s = ({ status := 400, body := .error e }, s)) ∧
    borrowBookCopyController now m none s =
      ({ status := 400, body := .error "bookCopyId is required" }, s) := by
  refine ⟨?_, ?_, ?_, ?_, rfl⟩
  · intro hc
    unfold Store.copy? at hc
    unfold borrowBookCopy
    rw [hc]
  · intro bc hc hav
    unfold Store.copy? at hc
    unfold borrowBookCopy
    rw [hc]
    simp only [ne_eq, hav, not_false_eq_true, if_true]
  · intro bc hc hav hopen
    obtain ⟨b, hb⟩ := find?_openBorrowing_isSome m c s hopen
    unfold Store.copy? at hc
    unfold borrowBookCopy
    rw [hc]
    simp only [hav, ne_eq, not_true_eq_false, if_false, hb]
  · intro e he
    have hstore : (borrowBookCopy now m c s).2 = s := by
      revert he
      unfold borrowBookCopy
      split
      · intro _; rfl
      · split
        · intro _; rfl
        · split
          · intro _; rfl
          · intro he; cases he
    have hpair : borrowBookCopy now m c s = (.error e, s) := Prod.ext he hstore
    refine ⟨hstore, ?_⟩
    simp only [borrowBookCopyController, hpair]

/-- Witness for C5: an absent copy, a BORROWED copy, and an AVAILABLE copy the member already
holds an APPROVED borrowing of. -/
theorem borrowBookCopy_failure_witness :
    borrowBookCopy 0 1 99 freshStore = (.error "Book copy not found", freshStore) ∧
    borrowBookCopy 0 2 10 pendingBehindActive =
      (.error "Book copy is not available for borrowing", pendingBehindActive) ∧
    borrowBookCopyController 0 1 (some 10) availableWithOpenBorrowing =
      ({ status := 400,
         body := .error "You already have a pending or active borrowing for this book copy" },
        availableWithOpenBorrowing) :=
  ⟨(borrowBookCopy_failure 0 1 99 freshStore).1 rfl,
   (borrowBookCopy_failure 0 2 10 pendingBehindActive).2.1
      (BookCopy.mk 10 1 1 .BORROWED) rfl (by decide),
   ((borrowBookCopy_failure 0 1 10 availableWithOpenBorrowing).2.2.2.1 _ rfl).2⟩

/-- Rewriting the rows with key `id` by a key-preserving `f` rewrites the row found for `id`. -/
theorem find?_map_update {α : Type} (key : α → Nat) (id : Nat) (f : α → α)
    (hf : ∀ x, key (f x) = key x) (l : List α) :
    (l.map (fun x => if key x = id then f x else x)).find? (fun x => decide (key x = id))
      = (l.find? (fun x => decide (key x = id))).map f := by
  induction l with
  | nil => rfl
  | cons x l ih =>
    by_cases h : key x = id
    · simp [List.find?_cons, h, hf]
    · simp [List.find?_cons, h, ih]

/-- A book without ACTIVE reservation has no next reservation for `returnBook` to find. -/
theorem firstByQueuePosition_active_eq_none (bookId : Nat) (s : Store)
    (h : ¬ HasActiveReservation bookId s) :
    firstByQueuePosition (s.reservations.filter (fun r =>
      decide (r.bookId = bookId) && decide (r.status = .ACTIVE))) = none := by
  have hnil : s.reservations.filter (fun r =>
      decide (r.bookId = bookId) && decide (r.status = .ACTIVE)) = [] := by
    rw [List.filter_eq_nil_iff]
    intro r hr hp
    simp only [Bool.and_eq_true, decide_eq_true_eq] at hp
    exact h ⟨r, hr, hp.1, hp.2⟩
  rw [hnil]
  rfl

/-- C6: `approveBorrowing(b)` fails and leaves the store as it was when `b` is absent, when `b`
is not PENDING, or when the copy of `b` is not RESERVED. Otherwise it succeeds: `b` becomes
APPROVED with `borrowDate = now`, the copy of `b` goes from RESERVED to BORROWED, and no other
borrowing, no other copy, no reservation and no book changes. -/
theorem approveBorrowing_spec (now b : Nat) (s : Store) :
    (s.borrowing? b = none →
      approveBorrowing now b s = (.error "Borrowing request not found", s)) ∧
    (∀ br, s.borrowing? b = some br → br.status ≠ .PENDING →
      approveBorrowing now b s = (.error "Borrowing request is not pending", s)) ∧
    (∀ br bc, s.borrowing? b = some br → br.status = .PENDING →
      s.copy? br.bookCopyId = some bc → bc.status ≠ .RESERVED →
      approveBorrowing now b s = (.error "Book copy is not in the expected status", s)) ∧
    (∀ br bc, s.borrowing? b = some br → br.status = .PENDING →
      s.copy? br.bookCopyId = some bc → bc.status = .RESERVED →
      ∃ s', approveBorrowing now b s =
          (.ok { br with status := .APPROVED, borrowDate := now }, s') ∧
        s'.borrowing? b = some { br with status := .APPROVED, borrowDate := now } ∧
        s'.copy? br.bookCopyId = some { bc with status := .BORROWED } ∧
        s'.borrowings = s.borrowings.map
          (fun x => if x.id = b then { x with status := .APPROVED, borrowDate := now } else x) ∧
        s'.bookCopies = s.bookCopies.map
          (fun x => if x.id = br.bookCopyId then { x with status := .BORROWED } else x) ∧
        s'.reservations = s.reservations ∧ s'.books = s.books ∧ s'.nextId = s.nextId) := by
  refine ⟨?_, ?_, ?_, ?_⟩
  · intro hb
    unfold Store.borrowing? at hb
    unfold approveBorrowing
    rw [hb]
  · intro br hb hst
    unfold Store.borrowing? at hb
    unfold approveBorrowing
    rw [hb]
    simp only [ne_eq, hst, not_false_eq_true, if_true]
  · intro br bc hb hst hc hcs
    unfold Store.borrowing? at hb
    unfold Store.copy? at hc
    unfold approveBorrowing
    rw [hb]
    simp only [hst, ne_eq, not_true_eq_false, if_false, hc, hcs, not_false_eq_true, if_true]
  · intro br bc hb hst hc hcs
    have hb' := find?_map_update (fun x : Borrowing => x.id) b
      (fun x => { x with status := .APPROVED, borrowDate := now }) (fun _ => rfl) s.borrowings
    have hc' := find?_setCopyStatus_self br.bookCopyId .BORROWED s.bookCopies
    unfold Store.borrowing? at hb
    unfold Store.copy? at hc
    rw [hb] at hb'
    rw [hc] at hc'
    refine ⟨{ s with
        borrowings := s.borrowings.map
          (fun x => if x.id = b then { x with status := .APPROVED, borrowDate := now } else x),
        bookCopies := setCopyStatus br.bookCopyId .BORROWED s.bookCopies }, ?_,
      hb', hc', rfl, rfl, rfl, rfl, rfl⟩
    unfold approveBorrowing
    rw [hb]
    simp only [hst, ne_eq, not_true_eq_false, if_false, hc, hcs]

/-- Witness for C6: approving the PENDING borrowing of a RESERVED copy, a missing borrowing, and
a borrowing that is already APPROVED. -/
theorem approveBorrowing_spec_witness :
    (∃ s', approveBorrowing 5 100 (run freshStore [.borrowBookCopy 0 1 10]) =
        (.ok { id := 100, memberId := 1, bookCopyId := 10, status := .APPROVED,
               borrowDate := 5, dueDate := 1209600000, returnDate := none }, s') ∧
      s'.bookCopies = [{ id := 10, bookId := 1, copyNumber := 1, status := .BORROWED }]) ∧
    approveBorrowing 5 100 freshStore = (.error "Borrowing request not found", freshStore) ∧
    approveBorrowing 5 100 pendingBehindActive =
      (.error "Borrowing request is not pending", pendingBehindActive) := by
  refine ⟨?_, (approveBorrowing_spec 5 100 freshStore).1 rfl,
    (approveBorrowing_spec 5 100 pendingBehindActive).2.1 _ rfl (by decide)⟩
  obtain ⟨s', h1, -, -, -, h2, -⟩ :=
    (approveBorrowing_spec 5 100 (run freshStore [.borrowBookCopy 0 1 10])).2.2.2
      { id := 100, memberId := 1, bookCopyId := 10, status := .PENDING,
        borrowDate := 0, dueDate := 1209600000, returnDate := none }
      { id := 10, bookId := 1, copyNumber := 1, status := .RESERVED } rfl rfl rfl rfl
  exact ⟨s', h1, h2⟩

/-- C7: `returnBook(b)` fails and leaves the store as it was when `b` is absent or not
APPROVED. When `b` is APPROVED and the book of its copy has no ACTIVE reservation, it succeeds:
`b` becomes RETURNED with `returnDate = now`, its copy becomes AVAILABLE, and no other
borrowing, no other copy, no reservation and no book changes. -/
theorem returnBook_without_active_reservation (now b : Nat) (s : Store) :
    (s.borrowing? b = none → returnBook now b s = (.error "Borrowing not found", s)) ∧
    (∀ br, s.borrowing? b = some br → br.status ≠ .APPROVED →
      returnBook now b s = (.error "Only approved borrowings can be returned", s)) ∧
    (∀ br bc, s.borrowing? b = some br → br.status = .APPROVED →
      s.copy? br.bookCopyId = some bc → ¬ HasActiveReservation bc.bookId s →
      ∃ s', returnBook now b s =
          (.ok { br with status := .RETURNED, returnDate := some now }, s') ∧
        s'.borrowing? b = some { br with status := .RETURNED, returnDate := some now } ∧
        s'.copy? br.bookCopyId = some { bc with status := .AVAILABLE } ∧
        s'.borrowings = s.borrowings.map
          (fun x => if x.id = b then { x with status := .RETURNED, returnDate := some now }
            else x) ∧
        s'.bookCopies = s.bookCopies.map
          (fun x => if x.id = br.bookCopyId then { x with status := .AVAILABLE } else x) ∧
        s'.reservations = s.reservations ∧ s'.books = s.books ∧ s'.nextId = s.nextId) := by
  refine ⟨?_, ?_, ?_⟩
  · intro hb
    unfold Store.borrowing? at hb
    unfold returnBook
    rw [hb]
  · intro br hb hst
    unfold Store.borrowing? at hb
    unfold returnBook
    rw [hb]
    simp only [ne_eq, hst, not_false_eq_true, if_true]
  · intro br bc hb hst hc hno
    have hb' := find?_map_update (fun x : Borrowing => x.id) b
      (fun x => { x with status := .RETURNED, returnDate := some now }) (fun _ => rfl)
      s.borrowings
    have hc' := find?_setCopyStatus_self br.bookCopyId .AVAILABLE s.bookCopies
    have hq := firstByQueuePosition_active_eq_none bc.bookId s hno
    unfold Store.borrowing? at hb
    unfold Store.copy? at hc
    rw [hb] at hb'
    rw [hc] at hc'
    refine ⟨{ s with
        borrowings := s.borrowings.map
          (fun x => if x.id = b then { x with status := .RETURNED, returnDate := some now }
            else x),
        bookCopies := setCopyStatus br.bookCopyId .AVAILABLE s.bookCopies }, ?_,
      hb', hc', rfl, rfl, rfl, rfl, rfl⟩
    unfold returnBook
    rw [hb]
    simp only [hst, ne_eq, not_true_eq_false, if_false, hc, hq]

/-- Witness for C7: a return with an empty queue, a missing borrowing, and a borrowing that is
still PENDING. -/
theorem returnBook_without_active_reservation_witness :
    (∃ s', returnBook 9 100
          (run freshStore [.borrowBookCopy 0 1 10, .approveBorrowing 5 100]) =
        (.ok { id := 100, memberId := 1, bookCopyId := 10, status := .RETURNED,
               borrowDate := 5, dueDate := 1209600000, returnDate := some 9 }, s') ∧
      s'.bookCopies = [{ id := 10, bookId := 1, copyNumber := 1, status := .AVAILABLE }]) ∧
    returnBook 9 100 freshStore = (.error "Borrowing not found", freshStore) ∧
    returnBook 9 100 (run freshStore [.borrowBookCopy 0 1 10]) =
      (.error "Only approved borrowings can be returned",
        run freshStore [.borrowBookCopy 0 1 10]) := by
  refine ⟨?_, (returnBook_without_active_reservation 9 100 freshStore).1 rfl,
    (returnBook_without_active_reservation 9 100
      (run freshStore [.borrowBookCopy 0 1 10])).2.1 _ rfl (by decide)⟩
  obtain ⟨s', h1, -, -, -, h2, -⟩ :=
    (returnBook_without_active_reservation 9 100
        (run freshStore [.borrowBookCopy 0 1 10, .approveBorrowing 5 100])).2.2
      { id := 100, memberId := 1, bookCopyId := 10, status := .APPROVED,
        borrowDate := 5, dueDate := 1209600000, returnDate := none }
      { id := 10, bookId := 1, copyNumber := 1, status := .BORROWED } rfl rfl rfl
      (by rintro ⟨r, hr, -⟩; exact absurd hr (List.not_mem_nil r))
  exact ⟨s', h1, h2⟩

/-- C8: `rejectBorrowing(b)` fails and leaves the store as it was when `b` is absent or not
PENDING. Otherwise it succeeds: `b` becomes REJECTED, the copy of `b` becomes AVAILABLE, and no
other borrowing, no other copy, no reservation and no book changes. -/
theorem rejectBorrowing_spec (b : Nat) (s : Store) :
    (s.borrowing? b = none →
      rejectBorrowing b s = (.error "Borrowing request not found", s)) ∧
    (∀ br, s.borrowing? b = some br → br.status ≠ .PENDING →
      rejectBorrowing b s = (.error "Borrowing request is not pending", s)) ∧
    (∀ br bc, s.borrowing? b = some br → br.status = .PENDING →
      s.copy? br.bookCopyId = some bc →
      ∃ s', rejectBorrowing b s = (.ok { br with status := .REJECTED }, s') ∧
        s'.borrowing? b = some { br with status := .REJECTED } ∧
        s'.copy? br.bookCopyId = some { bc with status := .AVAILABLE } ∧
        s'.borrowings = s.borrowings.map
          (fun x => if x.id = b then { x with status := .REJECTED } else x) ∧
        s'.bookCopies = s.bookCopies.map
          (fun x => if x.id = br.bookCopyId then { x with status := .AVAILABLE } else x) ∧
        s'.reservations = s.reservations ∧ s'.books = s.books ∧ s'.nextId = s.nextId) := by
  refine ⟨?_, ?_, ?_⟩
  · intro hb
    unfold Store.borrowing? at hb
    unfold rejectBorrowing
    rw [hb]
  · intro br hb hst
    unfold Store.borrowing? at hb
    unfold rejectBorrowing
    rw [hb]
    simp only [ne_eq, hst, not_false_eq_true, if_true]
  · intro br bc hb hst hc
    have hb' := find?_map_update (fun x : Borrowing => x.id) b
      (fun x => { x with status := .REJECTED }) (fun _ => rfl) s.borrowings
    have hc' := find?_setCopyStatus_self br.bookCopyId .AVAILABLE s.bookCopies
    unfold Store.borrowing? at hb
    unfold Store.copy? at hc
    have hany : s.bookCopies.any (fun c => decide (c.id = br.bookCopyId)) = true := by
      rw [List.any_eq_true]
      have hp := List.find?_some hc
      exact ⟨bc, List.mem_of_find?_eq_some hc, hp⟩
    rw [hb] at hb'
    rw [hc] at hc'
    refine ⟨{ s with
        borrowings := s.borrowings.map
          (fun x => if x.id = b then { x with status := .REJECTED } else x),
        bookCopies := setCopyStatus br.bookCopyId .AVAILABLE s.bookCopies }, ?_,
      hb', hc', rfl, rfl, rfl, rfl, rfl⟩
    unfold rejectBorrowing
    rw [hb]
    simp only [hst, ne_eq, not_true_eq_false, if_false, hany, if_true]

/-- Witness for C8: rejecting the PENDING borrowing of copy 10, a missing borrowing, and a
borrowing that is already APPROVED. -/
theorem rejectBorrowing_spec_witness :
    (∃ s', rejectBorrowing 100 (run freshStore [.borrowBookCopy 0 1 10]) =
        (.ok { id := 100, memberId := 1, bookCopyId := 10, status := .REJECTED,
               borrowDate := 0, dueDate := 1209600000, returnDate := none }, s') ∧
      s'.bookCopies = [{ id := 10, bookId := 1, copyNumber := 1, status := .AVAILABLE }]) ∧
    rejectBorrowing 100 freshStore = (.error "Borrowing request not found", freshStore) ∧
    rejectBorrowing 100 pendingBehindActive =
      (.error "Borrowing request is not pending", pendingBehindActive) := by
  refine ⟨?_, (rejectBorrowing_spec 100 freshStore).1 rfl,
    (rejectBorrowing_spec 100 pendingBehindActive).2.1 _ rfl (by decide)⟩
  obtain ⟨s', h1, -, -, -, h2, -⟩ :=
    (rejectBorrowing_spec 100 (run freshStore [.borrowBookCopy 0 1 10])).2.2
      { id := 100, memberId := 1, bookCopyId := 10, status := .PENDING,
        borrowDate := 0, dueDate := 1209600000, returnDate := none }
      { id := 10, bookId := 1, copyNumber := 1, status := .RESERVED } rfl rfl rfl
  exact ⟨s', h1, h2⟩

/-- The aggregate maximum of a non-empty column is one of its values and bounds them all. -/
theorem aggregateMax_spec (l : List Int) :
    (l = [] → aggregateMax l = none) ∧
    (l ≠ [] → ∃ v, aggregateMax l = some v ∧ v ∈ l ∧ ∀ q ∈ l, q ≤ v) := by
  induction l with
  | nil => exact ⟨fun _ => rfl, fun h => absurd rfl h⟩
  | cons x xs ih =>
    refine ⟨fun h => absurd h (List.cons_ne_nil x xs), fun _ => ?_⟩
    by_cases hxs : xs = []
    · subst hxs
      exact ⟨x, rfl, List.mem_cons_self _ _, by simp⟩
    · obtain ⟨v, hv, hmem, hle⟩ := ih.2 hxs
      refine ⟨max x v, by simp only [aggregateMax, hv], ?_, ?_⟩
      · rcases le_total x v with h | h
        · rw [max_eq_right h]; exact List.mem_cons_of_mem _ hmem
        · rw [max_eq_left h]; exact List.mem_cons_self _ _
      · intro q hq
        rcases List.mem_cons.1 hq with rfl | hq
        · exact le_max_left _ _
        · exact le_trans (hle q hq) (le_max_right _ _)

/-- The fallback `v || 0` returns the value itself when there is one. -/
theorem orZero_some (v : Int) : orZero (some v) = v := by
  unfold orZero
  split <;> simp_all

/-- No open reservation of `(m, b)` means the conflict lookup of `reserveBook` finds nothing. -/
theorem find?_openReservation_eq_none (m b : Nat) (s : Store) (h : ¬ HasOpenReservation m b s) :
    s.reservations.find? (fun r =>
      decide (r.memberId = m) && decide (r.bookId = b) && openReservationStatus r.status)
      = none := by
  rw [List.find?_eq_none]
  intro r hr hp
  apply h
  simp only [openReservationStatus, Bool.and_eq_true, Bool.or_eq_true, decide_eq_true_eq] at hp
  exact ⟨r, hr, hp.1.1, hp.1.2, hp.2⟩

/-- C9: for an existing book `b` and a member `m` without PENDING or ACTIVE reservation of `b`,
`reserveBook` succeeds whatever the statuses of the copies are. The store gains exactly one
reservation, for `m` and `b`, PENDING, at position 1 when `b` has no open reservation and
otherwise at 1 plus the greatest position among the open reservations of `b`; the earlier
reservations, the copies, the borrowings and the books stay as they were. -/
theorem reserveBook_success (m b : Nat) (s : Store) (bk : Book)
    (hb : s.book? b = some bk) (hno : ¬ HasOpenReservation m b s) :
    ∃ nr s', reserveBook m b s = (.ok nr, s') ∧
      nr.memberId = m ∧ nr.bookId = b ∧ nr.status = .PENDING ∧
      (openPositions b s = [] → nr.queuePosition = 1) ∧
      (openPositions b s ≠ [] →
        nr.queuePosition - 1 ∈ openPositions b s ∧
        ∀ q ∈ openPositions b s, q ≤ nr.queuePosition - 1) ∧
      s'.reservations = s.reservations ++ [nr] ∧
      s'.bookCopies = s.bookCopies ∧ s'.borrowings = s.borrowings ∧ s'.books = s.books := by
  have hfind := find?_openReservation_eq_none m b s hno
  unfold Store.book? at hb
  have hrun : reserveBook m b s =
      (.ok { id := s.nextId, memberId := m, bookId := b, status := .PENDING,
             queuePosition := orZero (aggregateMax (openPositions b s)) + 1 },
       { s with
          reservations := s.reservations ++
            [{ id := s.nextId, memberId := m, bookId := b, status := .PENDING,
               queuePosition := orZero (aggregateMax (openPositions b s)) + 1 }],
          nextId := s.nextId + 1 }) := by
    unfold reserveBook openPositions
    rw [hb]
    simp only [hfind]
  refine ⟨_, _, hrun, rfl, rfl, rfl, ?_, ?_, rfl, rfl, rfl, rfl⟩
  · intro hnil
    show orZero (aggregateMax (openPositions b s)) + 1 = 1
    rw [(aggregateMax_spec _).1 hnil]
    rfl
  · intro hne
    obtain ⟨v, hv, hmem, hle⟩ := (aggregateMax_spec _).2 hne
    show orZero (aggregateMax (openPositions b s)) + 1 - 1 ∈ openPositions b s ∧
      ∀ q ∈ openPositions b s, q ≤ orZero (aggregateMax (openPositions b s)) + 1 - 1
    rw [hv, orZero_some, add_sub_cancel_right]
    exact ⟨hmem, hle⟩

/-- Witness for C9: member 4 reserves book 1 behind the open positions 1 and 2, while the copy
of the book is AVAILABLE, and gets position 3. -/
theorem reserveBook_success_witness :
    ∃ nr s', reserveBook 4 1 queueOfTwo = (.ok nr, s') ∧ nr.queuePosition = 3 ∧
      s'.reservations = queueOfTwo.reservations ++ [nr] ∧
      s'.bookCopies = queueOfTwo.bookCopies := by
  obtain ⟨nr, s', hrun, -, -, -, -, hpos, hres, hcop, -⟩ :=
    reserveBook_success 4 1 queueOfTwo book1 rfl
      (by
        rintro ⟨r, hr, hm, -⟩
        simp only [queueOfTwo, List.mem_cons, List.mem_singleton, List.not_mem_nil,
          or_false] at hr
        rcases hr with rfl | rfl | rfl <;> exact absurd hm (by decide))
  refine ⟨nr, s', hrun, ?_, hres, hcop⟩
  have h12 : openPositions 1 queueOfTwo = [1, 2] := by decide
  rw [h12] at hpos
  obtain ⟨hmem, hle⟩ := hpos (by simp)
  have h2 := hle 2 (by simp)
  simp only [List.mem_cons, List.mem_singleton, List.not_mem_nil, or_false] at hmem
  omega

/-- Membership in `1..n`. -/
theorem mem_oneTo (n : Nat) (q : Int) : q ∈ oneTo n ↔ 1 ≤ q ∧ q ≤ n := by
  unfold oneTo
  simp only [List.mem_map, List.mem_range]
  constructor
  · rintro ⟨i, hi, rfl⟩
    omega
  · rintro ⟨h1, h2⟩
    exact ⟨(q - 1).toNat, by omega, by omega⟩

/-- The list `1..n` has no duplicates. -/
theorem nodup_oneTo (n : Nat) : (oneTo n).Nodup := by
  unfold oneTo
  refine List.Nodup.map ?_ (List.nodup_range n)
  intro i j hij
  simp only at hij
  omega

/-- The list `1..n` has `n` entries. -/
theorem length_oneTo (n : Nat) : (oneTo n).length = n := by
  simp [oneTo]

/-- A list is a rearrangement of `1..n`, `n` its length, exactly when it has no duplicates and
all its entries lie between 1 and `n`. -/
theorem perm_oneTo_iff (l : List Int) :
    List.Perm l (oneTo l.length) ↔ l.Nodup ∧ ∀ q ∈ l, 1 ≤ q ∧ q ≤ l.length := by
  constructor
  · intro h
    exact ⟨h.nodup_iff.2 (nodup_oneTo _), fun q hq => (mem_oneTo _ q).1 (h.mem_iff.1 hq)⟩
  · rintro ⟨hnd, hb⟩
    refine (List.subperm_of_subset hnd ?_).perm_of_length_le ?_
    · intro q hq
      exact (mem_oneTo _ q).2 (hb q hq)
    · rw [length_oneTo]

/-- Taking position `k` out of a queue `1..n` and moving the positions behind it down by one
leaves a queue `1..n-1`. -/
theorem shift_perm_oneTo (P P' : List Int) (k : Int) (hsplit : List.Perm P (k :: P'))
    (hP : List.Perm P (oneTo P.length)) :
    List.Perm (P'.map (fun q => if q > k then q - 1 else q))
      (oneTo (P'.map (fun q => if q > k then q - 1 else q)).length) := by
  obtain ⟨hnd, hb⟩ := (perm_oneTo_iff P).1 hP
  have hnd' : (k :: P').Nodup := hsplit.nodup_iff.1 hnd
  have hlen : P.length = P'.length + 1 := by rw [hsplit.length_eq]; rfl
  have hk : 1 ≤ k ∧ k ≤ (P'.length : Int) + 1 := by
    have := hb k (hsplit.mem_iff.2 (List.mem_cons_self _ _))
    refine ⟨this.1, ?_⟩
    have h2 := this.2
    rw [hlen] at h2
    push_cast at h2
    exact h2
  have hkP' : k ∉ P' := (List.nodup_cons.1 hnd').1
  have hb' : ∀ q ∈ P', 1 ≤ q ∧ q ≤ (P'.length : Int) + 1 ∧ q ≠ k := by
    intro q hq
    have := hb q (hsplit.mem_iff.2 (List.mem_cons_of_mem _ hq))
    refine ⟨this.1, ?_, fun h => hkP' (h ▸ hq)⟩
    have h2 := this.2
    rw [hlen] at h2
    push_cast at h2
    exact h2
  rw [perm_oneTo_iff]
  refine ⟨List.Nodup.map_on ?_ (List.nodup_cons.1 hnd').2, ?_⟩
  · intro x hx y hy hxy
    have hx' := hb' x hx
    have hy' := hb' y hy
    simp only at hxy
    split_ifs at hxy <;> omega
  · intro q hq
    rw [List.length_map]
    obtain ⟨x, hx, rfl⟩ := List.mem_map.1 hq
    have hx' := hb' x hx
    split_ifs <;> omega

/-- Cancelling reservation `r` and then compacting the queue behind position `k` of book `B`
rewrites each row once: row `r` becomes CANCELLED, every other open row of `B` behind `k` moves
down by one. -/
theorem compactOpenAfter_setCancelled (r B : Nat) (k : Int) (rs : List Reservation) :
    compactOpenAfter B k (setReservationStatus r .CANCELLED rs) =
      rs.map (fun x =>
        if x.id = r then { x with status := .CANCELLED }
        else if x.bookId = B ∧ (x.status = .PENDING ∨ x.status = .ACTIVE) ∧ x.queuePosition > k
          then { x with queuePosition := x.queuePosition - 1 }
        else x) := by
  unfold compactOpenAfter setReservationStatus
  rw [List.map_map]
  apply List.map_congr_left
  intro x _
  by_cases h : x.id = r
  · simp [h, openReservationStatus]
  · simp [h, openReservationStatus]

/-- The open positions of book `B` after the rewrite of `compactOpenAfter_setCancelled`: those
of the open rows other than `r`, each moved down by one when it was behind `k`. -/
theorem openPositions_after_cancel (r B : Nat) (k : Int) (rs : List Reservation) :
    ((rs.map (fun x =>
        if x.id = r then { x with status := .CANCELLED }
        else if x.bookId = B ∧ (x.status = .PENDING ∨ x.status = .ACTIVE) ∧ x.queuePosition > k
          then { x with queuePosition := x.queuePosition - 1 }
        else x)).filter (fun x =>
          decide (x.bookId = B) && openReservationStatus x.status)).map
        (fun x => x.queuePosition)
      = (((rs.filter (fun x => decide (x.bookId = B) && openReservationStatus x.status)).filter
            (fun x => decide (x.id ≠ r))).map (fun x => x.queuePosition)).map
          (fun q => if q > k then q - 1 else q) := by
  rw [List.filter_map, List.map_map, List.map_map, List.filter_filter]
  have hfilter : rs.filter ((fun x =>
        decide (x.bookId = B) && openReservationStatus x.status) ∘ (fun x =>
        if x.id = r then { x with status := .CANCELLED }
        else if x.bookId = B ∧ (x.status = .PENDING ∨ x.status = .ACTIVE) ∧ x.queuePosition > k
          then { x with queuePosition := x.queuePosition - 1 }
        else x))
      = rs.filter (fun x => decide (x.id ≠ r) &&
          (decide (x.bookId = B) && openReservationStatus x.status)) := by
    apply List.filter_congr
    intro x _
    by_cases hid : x.id = r
    · simp [hid, openReservationStatus]
    · by_cases hc : x.bookId = B ∧ (x.status = .PENDING ∨ x.status = .ACTIVE) ∧
          x.queuePosition > k
      · simp [hid, hc]
      · simp [hid, hc]
  rw [hfilter]
  apply List.map_congr_left
  intro x hx
  rw [List.mem_filter] at hx
  have hp := hx.2
  simp only [openReservationStatus, Bool.and_eq_true, Bool.or_eq_true, decide_eq_true_eq] at hp
  obtain ⟨hid, hB, hst⟩ := hp
  by_cases hk : x.queuePosition > k
  · simp [hid, hB, hst, hk]
  · simp [hid, hB, hst, hk]

/-- With unique ids, the open positions of a book are the position of its open reservation `rv`
followed by those of its other open reservations, up to order. -/
theorem openPositions_split (B : Nat) (rs : List Reservation) (rv : Reservation)
    (hids : (rs.map (fun x => x.id)).Nodup) (hmem : rv ∈ rs) (hB : rv.bookId = B)
    (hopen : rv.status = .PENDING ∨ rv.status = .ACTIVE) :
    List.Perm
      ((rs.filter (fun x => decide (x.bookId = B) && openReservationStatus x.status)).map
        (fun x => x.queuePosition))
      (rv.queuePosition ::
        ((rs.filter (fun x => decide (x.bookId = B) && openReservationStatus x.status)).filter
          (fun x => decide (x.id ≠ rv.id))).map (fun x => x.queuePosition)) := by
  have hsub : (rs.filter (fun x => decide (x.bookId = B) && openReservationStatus x.status)).Sublist
      rs := List.filter_sublist rs
  have hids' := List.Nodup.sublist (hsub.map (fun x => x.id)) hids
  have hndL := List.Nodup.of_map _ hids'
  have hrv : rv ∈ rs.filter (fun x => decide (x.bookId = B) && openReservationStatus x.status) := by
    rw [List.mem_filter]
    refine ⟨hmem, ?_⟩
    simpa [openReservationStatus, hB] using hopen
  have herase : (rs.filter (fun x =>
        decide (x.bookId = B) && openReservationStatus x.status)).filter
        (fun x => decide (x.id ≠ rv.id))
      = (rs.filter (fun x => decide (x.bookId = B) && openReservationStatus x.status)).erase
          rv := by
    rw [List.Nodup.erase_eq_filter hndL]
    apply List.filter_congr
    intro x hx
    by_cases hxr : x = rv
    · simp [hxr]
    · have : x.id ≠ rv.id := fun h => hxr (List.inj_on_of_nodup_map hids' hx hrv h)
      simp [hxr, this]
  rw [herase]
  exact (List.perm_cons_erase hrv).map (fun x => x.queuePosition)

/-- C10: in a store with unique reservation ids where the open reservations of the book of
reservation `r` carry exactly the positions `1..n`, let `r` stand at position `k`.
`cancelReservation` by the owner of an open `r`, and `rejectReservation` of a PENDING `r`, both
succeed and leave the same store: `r` is CANCELLED, every other open reservation of the book
behind `k` has moved down by exactly one, every other row and field is unchanged; and the open
reservations of the book then carry exactly the positions `1..n-1`. -/
theorem cancel_reject_compact_queue (m r : Nat) (s : Store) (rv : Reservation)
    (hids : (s.reservations.map (fun x => x.id)).Nodup)
    (hr : s.reservation? r = some rv)
    (hopen : rv.status = .PENDING ∨ rv.status = .ACTIVE)
    (hq : QueueContiguous rv.bookId s) :
    (rv.memberId = m → cancelReservation m r s =
      (.ok { rv with status := .CANCELLED },
        { s with reservations := cancelAt r rv.bookId rv.queuePosition s.reservations })) ∧
    (rv.status = .PENDING → rejectReservation r s =
      (.ok { rv with status := .CANCELLED },
        { s with reservations := cancelAt r rv.bookId rv.queuePosition s.reservations })) ∧
    QueueContiguous rv.bookId
      { s with reservations := cancelAt r rv.bookId rv.queuePosition s.reservations } ∧
    (openPositions rv.bookId
      { s with reservations := cancelAt r rv.bookId rv.queuePosition s.reservations }).length + 1
      = (openPositions rv.bookId s).length := by
  unfold Store.reservation? at hr
  have hmem : rv ∈ s.reservations := List.mem_of_find?_eq_some hr
  have hrid : rv.id = r := by simpa using List.find?_some hr
  have hcompact := compactOpenAfter_setCancelled r rv.bookId rv.queuePosition s.reservations
  have hsplit := openPositions_split rv.bookId s.reservations rv hids hmem rfl hopen
  have hafter := openPositions_after_cancel r rv.bookId rv.queuePosition s.reservations
  rw [hrid] at hsplit
  have hpos : openPositions rv.bookId
      { s with reservations := cancelAt r rv.bookId rv.queuePosition s.reservations }
      = (((s.reservations.filter (fun x =>
            decide (x.bookId = rv.bookId) && openReservationStatus x.status)).filter
            (fun x => decide (x.id ≠ r))).map (fun x => x.queuePosition)).map
          (fun q => if q > rv.queuePosition then q - 1 else q) := hafter
  refine ⟨?_, ?_, ?_, ?_⟩
  · intro hm
    have hst : ¬ (rv.status = .COMPLETED ∨ rv.status = .CANCELLED) := by
      rcases hopen with h | h <;> simp [h]
    unfold cancelReservation
    rw [hr]
    simp only [hm, ne_eq, not_true_eq_false, if_false, hst, hcompact, cancelAt]
  · intro hp
    unfold rejectReservation
    rw [hr]
    simp only [hp, ne_eq, not_true_eq_false, if_false, hcompact, cancelAt]
  · unfold QueueContiguous
    rw [hpos]
    exact shift_perm_oneTo _ _ _ hsplit hq
  · rw [hpos]
    have := hsplit.length_eq
    simp only [List.length_map, List.length_cons] at this ⊢
    unfold openPositions
    rw [List.length_map]
    exact this.symm

/-- Witness for C10 on the queue with open positions 1 and 2: member 1 cancels the ACTIVE
reservation at position 1, and the PENDING reservation behind it moves to position 1. -/
theorem cancel_reject_compact_queue_witness :
    cancelReservation 1 101 queueOfTwo =
      (.ok { id := 101, memberId := 1, bookId := 1, status := .CANCELLED, queuePosition := 1 },
        { queueOfTwo with reservations := cancelAt 101 1 1 queueOfTwo.reservations }) ∧
    QueueContiguous 1
      { queueOfTwo with reservations := cancelAt 101 1 1 queueOfTwo.reservations } ∧
    cancelAt 101 1 1 queueOfTwo.reservations =
      [{ id := 101, memberId := 1, bookId := 1, status := .CANCELLED, queuePosition := 1 },
       { id := 102, memberId := 3, bookId := 1, status := .CANCELLED, queuePosition := 2 },
       { id := 103, memberId := 2, bookId := 1, status := .PENDING, queuePosition := 1 }] := by
  have h := cancel_reject_compact_queue 1 101 queueOfTwo
    { id := 101, memberId := 1, bookId := 1, status := .ACTIVE, queuePosition := 1 }
    (by decide) rfl (Or.inr rfl) (by decide)
  exact ⟨h.1 rfl, h.2.2.1, by decide⟩

/-- C11: `cancelReservation(m, r)` fails with 'Reservation not found' when `r` is absent,
otherwise with the 'Unauthorized' error when `r` belongs to another member, otherwise with the
invalid-state error when `r` is CANCELLED or COMPLETED. Every failure leaves the store, hence
every reservation's status and queuePosition, as it was. The call succeeds exactly when `r`
exists, belongs to `m` and is PENDING or ACTIVE. -/
theorem cancelReservation_guards (m r : Nat) (s : Store) :
    (s.reservation? r = none →
      cancelReservation m r s = (.error "Reservation not found", s)) ∧
    (∀ rv, s.reservation? r = some rv → rv.memberId ≠ m →
      cancelReservation m r s =
        (.error "Unauthorized: This reservation does not belong to you", s)) ∧
    (∀ rv, s.reservation? r = some rv → rv.memberId = m →
      (rv.status = .CANCELLED ∨ rv.status = .COMPLETED) →
      cancelReservation m r s =
        (.error "Cannot cancel a completed or already cancelled reservation", s)) ∧
    ((cancelReservation m r s).1.isOk = false → (cancelReservation m r s).2 = s) ∧
    ((cancelReservation m r s).1.isOk = true ↔
      ∃ rv, s.reservation? r = some rv ∧ rv.memberId = m ∧
        (rv.status = .PENDING ∨ rv.status = .ACTIVE)) := by
  have hbad : ∀ e : String, ¬ ((Except.error e : Except String Reservation).isOk = true) := by
    intro e h
    simp [Except.isOk, Except.toBool] at h
  cases hr : s.reservation? r with
  | none =>
    have hrun : cancelReservation m r s = (.error "Reservation not found", s) := by
      unfold Store.reservation? at hr
      unfold cancelReservation
      rw [hr]
    refine ⟨fun _ => hrun, ?_, ?_, ?_, ?_⟩
    · intro rv h; cases h
    · intro rv h; cases h
    · intro _; rw [hrun]
    · rw [hrun]
      constructor
      · intro h; exact absurd h (hbad _)
      · rintro ⟨rv, h, -⟩; cases h
  | some rv =>
    unfold Store.reservation? at hr
    by_cases hm : rv.memberId = m
    · by_cases hst : rv.status = .COMPLETED ∨ rv.status = .CANCELLED
      · have hrun : cancelReservation m r s =
            (.error "Cannot cancel a completed or already cancelled reservation", s) := by
          unfold cancelReservation
          rw [hr]
          simp only [hm, ne_eq, not_true_eq_false, if_false, hst, if_true]
        refine ⟨?_, ?_, ?_, ?_, ?_⟩
        · intro h; cases h
        · intro rv' h hne
          cases h
          exact absurd hm hne
        · intro _ _ _ _; exact hrun
        · intro _; rw [hrun]
        · rw [hrun]
          constructor
          · intro h; exact absurd h (hbad _)
          · rintro ⟨rv', h, -, hopen⟩
            cases h
            rcases hst with h1 | h1 <;> rcases hopen with h2 | h2 <;> rw [h1] at h2 <;> cases h2
      · have hrun : cancelReservation m r s =
            (.ok { rv with status := .CANCELLED },
              { s with reservations := (compactOpenAfter rv.bookId rv.queuePosition
                  (setReservationStatus r .CANCELLED s.reservations)) }) := by
          unfold cancelReservation
          rw [hr]
          simp only [hm, ne_eq, not_true_eq_false, if_false, hst]
        have hopen : rv.status = .PENDING ∨ rv.status = .ACTIVE := by
          cases hs : rv.status <;> simp_all
        refine ⟨?_, ?_, ?_, ?_, ?_⟩
        · intro h; cases h
        · intro rv' h hne
          cases h
          exact absurd hm hne
        · intro rv' h _ hcc
          cases h
          exact absurd hcc.symm hst
        · intro h
          rw [hrun] at h
          simp [Except.isOk, Except.toBool] at h
        · rw [hrun]
          exact ⟨fun _ => ⟨rv, rfl, hm, hopen⟩, fun _ => rfl⟩
    · have hrun : cancelReservation m r s =
          (.error "Unauthorized: This reservation does not belong to you", s) := by
        unfold cancelReservation
        rw [hr]
        simp only [ne_eq, hm, not_false_eq_true, if_true]
      refine ⟨?_, fun _ _ _ => hrun, ?_, ?_, ?_⟩
      · intro h; cases h
      · intro rv' h hm'
        cases h
        exact absurd hm' hm
      · intro _; rw [hrun]
      · rw [hrun]
        constructor
        · intro h; exact absurd h (hbad _)
        · rintro ⟨rv', h, hm', -⟩
          cases h
          exact absurd hm' hm

/-- Witness for C11 on the queue of two: a missing reservation, member 2 trying to cancel the
reservation of member 1, member 3 cancelling an already cancelled reservation, and member 1
cancelling their own ACTIVE reservation. -/
theorem cancelReservation_guards_witness :
    cancelReservation 1 999 queueOfTwo = (.error "Reservation not found", queueOfTwo) ∧
    cancelReservation 2 101 queueOfTwo =
      (.error "Unauthorized: This reservation does not belong to you", queueOfTwo) ∧
    cancelReservation 3 102 queueOfTwo =
      (.error "Cannot cancel a completed or already cancelled reservation", queueOfTwo) ∧
    (cancelReservation 1 101 queueOfTwo).1.isOk = true :=
  ⟨(cancelReservation_guards 1 999 queueOfTwo).1 rfl,
   (cancelReservation_guards 2 101 queueOfTwo).2.1 _ rfl (by decide),
   (cancelReservation_guards 3 102 queueOfTwo).2.2.1 _ rfl rfl (Or.inl rfl),
   (cancelReservation_guards 1 101 queueOfTwo).2.2.2.2.2 ⟨_, rfl, rfl, Or.inr rfl⟩⟩

/-- C12: `approveReservation(r)` fails and leaves the store as it was when `r` is absent or not
PENDING. Otherwise (the book row of `r` exists) it succeeds: `r` becomes ACTIVE, no
queuePosition changes, and the borrowings and books stay as they were. The book's copy list is
the list of its copies in the order `o` in which the data store returns it to this call, and
the statement holds for every such order: when the book has no AVAILABLE copy no copy changes;
when it has one, the first AVAILABLE copy of that list, an AVAILABLE copy of the book, becomes
RESERVED and every other copy row stays as it was (copy ids being unique). -/
theorem approveReservation_spec (o : List Nat) (r : Nat) (s : Store)
    (hk : (s.bookCopies.map (fun c => c.id)).Nodup) :
    (s.reservation? r = none →
      approveReservation o r s = (.error "Reservation request not found", s)) ∧
    (∀ rv, s.reservation? r = some rv → rv.status ≠ .PENDING →
      approveReservation o r s = (.error "Reservation request is not pending", s)) ∧
    (∀ rv bk, s.reservation? r = some rv → rv.status = .PENDING →
      s.book? rv.bookId = some bk →
      ∃ s', approveReservation o r s = (.ok { rv with status := .ACTIVE }, s') ∧
        s'.reservations = s.reservations.map
          (fun x => if x.id = r then { x with status := .ACTIVE } else x) ∧
        s'.reservations.map (fun x => x.queuePosition)
          = s.reservations.map (fun x => x.queuePosition) ∧
        s'.borrowings = s.borrowings ∧ s'.books = s.books ∧ s'.nextId = s.nextId ∧
        ((∀ c ∈ s.bookCopies, c.bookId = rv.bookId → c.status ≠ .AVAILABLE) →
          s'.bookCopies = s.bookCopies) ∧
        ((∃ c ∈ s.bookCopies, c.bookId = rv.bookId ∧ c.status = .AVAILABLE) →
          ∃ ac, (inStoreOrder o
              (s.bookCopies.filter (fun c => decide (c.bookId = rv.bookId)))).find?
                (fun c => decide (c.status = .AVAILABLE)) = some ac ∧
            ac ∈ s.bookCopies ∧ ac.bookId = rv.bookId ∧ ac.status = .AVAILABLE ∧
            s'.bookCopies = s.bookCopies.map
              (fun x => if x = ac then { x with status := .RESERVED } else x))) := by
  refine ⟨?_, ?_, ?_⟩
  · intro hr
    unfold Store.reservation? at hr
    unfold approveReservation
    rw [hr]
  · intro rv hr hst
    unfold Store.reservation? at hr
    unfold approveReservation
    rw [hr]
    simp only [ne_eq, hst, not_false_eq_true, if_true]
  · intro rv bk hr hst hb
    unfold Store.reservation? at hr
    unfold Store.book? at hb
    have hid : bk.id = rv.bookId := by simpa using List.find?_some hb
    have hpos : (s.reservations.map
          (fun x => if x.id = r then { x with status := .ACTIVE } else x)).map
          (fun x => x.queuePosition) = s.reservations.map (fun x => x.queuePosition) := by
      rw [List.map_map]
      apply List.map_congr_left
      intro x _
      by_cases h : x.id = r <;> simp [h]
    have hsome := firstAvailableCopy_isSome o rv.bookId s
    cases hav : firstAvailableCopy o rv.bookId s with
    | none =>
      rw [hav] at hsome
      refine ⟨{ s with reservations := setReservationStatus r .ACTIVE s.reservations }, ?_,
        rfl, hpos, rfl, rfl, rfl, fun _ => rfl, ?_⟩
      · unfold firstAvailableCopy at hav
        unfold approveReservation
        rw [hr]
        simp only [hst, ne_eq, not_true_eq_false, if_false, hb, hid, hav]
      · intro h
        exact absurd (hsome.2 h) (by simp)
    | some ac0 =>
      rw [hav] at hsome
      have hav' := hav
      unfold firstAvailableCopy at hav'
      obtain ⟨hmem, hbook, hstat⟩ := firstAvailableCopy_mem o rv.bookId s ac0 hav
      refine ⟨{ s with reservations := setReservationStatus r .ACTIVE s.reservations,
                       bookCopies := setCopyStatus ac0.id .RESERVED s.bookCopies }, ?_,
        rfl, hpos, rfl, rfl, rfl, ?_, ?_⟩
      · unfold approveReservation
        rw [hr]
        simp only [hst, ne_eq, not_true_eq_false, if_false, hb, hid, hav']
      · intro h
        exact absurd hstat (h ac0 hmem hbook)
      · intro _
        refine ⟨ac0, hav', hmem, hbook, hstat, ?_⟩
        show setCopyStatus ac0.id .RESERVED s.bookCopies = _
        unfold setCopyStatus
        apply List.map_congr_left
        intro x hx
        by_cases hx0 : x = ac0
        · simp [hx0]
        · have : x.id ≠ ac0.id := fun h => hx0 (List.inj_on_of_nodup_map hk hx hmem h)
          simp [hx0, this]

/-- Witness for C12 on a book with the copies 10 (BORROWED), 11 and 12 (both AVAILABLE) and a
PENDING reservation. When the data store returns the copies in table order, copy 11 becomes
RESERVED. After `borrowBookCopy(1, 11)` and `rejectBorrowing(102)` have rewritten the row of
copy 11 and the data store returns the copies as 10, 12, 11, copy 12 becomes RESERVED: in both
cases the first AVAILABLE copy of the list as returned, and no other copy row changes. -/
theorem approveReservation_spec_witness :
    (∃ s', approveReservation [] 101 pendingWithFreeCopies =
        (.ok { id := 101, memberId := 5, bookId := 1, status := .ACTIVE, queuePosition := 1 },
          s') ∧
      s'.bookCopies = [{ id := 10, bookId := 1, copyNumber := 1, status := .BORROWED },
                       { id := 11, bookId := 1, copyNumber := 2, status := .RESERVED },
                       { id := 12, bookId := 1, copyNumber := 3, status := .AVAILABLE }]) ∧
    (run pendingWithFreeCopies [.borrowBookCopy 0 1 11, .rejectBorrowing 102]).bookCopies =
      pendingWithFreeCopies.bookCopies ∧
    (∃ s', approveReservation [10, 12, 11] 101
          (run pendingWithFreeCopies [.borrowBookCopy 0 1 11, .rejectBorrowing 102]) =
        (.ok { id := 101, memberId := 5, bookId := 1, status := .ACTIVE, queuePosition := 1 },
          s') ∧
      s'.bookCopies = [{ id := 10, bookId := 1, copyNumber := 1, status := .BORROWED },
                       { id := 11, bookId := 1, copyNumber := 2, status := .AVAILABLE },
                       { id := 12, bookId := 1, copyNumber := 3, status := .RESERVED }]) := by
  obtain ⟨s1, hrun1, -, -, -, -, -, -, hsome1⟩ :=
    (approveReservation_spec [] 101 pendingWithFreeCopies (by decide)).2.2
      { id := 101, memberId := 5, bookId := 1, status := .PENDING, queuePosition := 1 }
      book1 rfl rfl rfl
  obtain ⟨s2, hrun2, -, -, -, -, -, -, hsome2⟩ :=
    (approveReservation_spec [10, 12, 11] 101
      (run pendingWithFreeCopies [.borrowBookCopy 0 1 11, .rejectBorrowing 102])
      (by decide)).2.2
      { id := 101, memberId := 5, bookId := 1, status := .PENDING, queuePosition := 1 }
      book1 rfl rfl rfl
  obtain ⟨a1, ha1, -, -, -, hc1⟩ := hsome1
    ⟨{ id := 11, bookId := 1, copyNumber := 2, status := .AVAILABLE }, by decide, rfl, rfl⟩
  obtain ⟨a2, ha2, -, -, -, hc2⟩ := hsome2
    ⟨{ id := 11, bookId := 1, copyNumber := 2, status := .AVAILABLE }, by decide, rfl, rfl⟩
  have e1 : a1 = { id := 11, bookId := 1, copyNumber := 2, status := .AVAILABLE } :=
    Option.some.inj (ha1.symm.trans (by decide))
  have e2 : a2 = { id := 12, bookId := 1, copyNumber := 3, status := .AVAILABLE } :=
    Option.some.inj (ha2.symm.trans (by decide))
  subst e1
  subst e2
  refine ⟨⟨s1, hrun1, ?_⟩, by decide, ⟨s2, hrun2, ?_⟩⟩
  · rw [hc1]; decide
  · rw [hc2]; decide

/-- C15: `updateOverdueBorrowings` at time `now` rewrites each borrowing row in place: a row
that is APPROVED with `dueDate < now` becomes OVERDUE, every other row stays as it was. The
count it returns is the number of rows that were APPROVED with `dueDate < now`. Copies,
reservations and books are untouched. A second run at the same `now` changes nothing and
returns 0. -/
theorem updateOverdueBorrowings_spec (now : Nat) (s : Store) :
    List.Forall₂
      (fun x y => y = if x.status = .APPROVED ∧ x.dueDate < now
        then { x with status := .OVERDUE } else x)
      s.borrowings (updateOverdueBorrowings now s).2.borrowings ∧
    (updateOverdueBorrowings now s).1 =
      (s.borrowings.filter
        (fun b => decide (b.status = .APPROVED ∧ b.dueDate < now))).length ∧
    (updateOverdueBorrowings now s).2.bookCopies = s.bookCopies ∧
    (updateOverdueBorrowings now s).2.reservations = s.reservations ∧
    (updateOverdueBorrowings now s).2.books = s.books ∧
    (updateOverdueBorrowings now s).2.nextId = s.nextId ∧
    updateOverdueBorrowings now (updateOverdueBorrowings now s).2 =
      (0, (updateOverdueBorrowings now s).2) := by
  refine ⟨?_, rfl, rfl, rfl, rfl, rfl, ?_⟩
  · unfold updateOverdueBorrowings
    rw [List.forall₂_map_right_iff, List.forall₂_same]
    intro x _
    rfl
  · have hnone : ∀ x : Borrowing,
        ¬ ((if x.status = .APPROVED ∧ x.dueDate < now
            then { x with status := BorrowingStatus.OVERDUE } else x).status = .APPROVED ∧
          (if x.status = .APPROVED ∧ x.dueDate < now
            then { x with status := BorrowingStatus.OVERDUE } else x).dueDate < now) := by
      intro x
      by_cases h : x.status = .APPROVED ∧ x.dueDate < now
      · simp [h]
      · simp [h]
    have hmap : (s.borrowings.map (fun b =>
          if b.status = .APPROVED ∧ b.dueDate < now
          then { b with status := BorrowingStatus.OVERDUE } else b)).map (fun b =>
          if b.status = .APPROVED ∧ b.dueDate < now
          then { b with status := BorrowingStatus.OVERDUE } else b)
        = s.borrowings.map (fun b =>
          if b.status = .APPROVED ∧ b.dueDate < now
          then { b with status := BorrowingStatus.OVERDUE } else b) := by
      rw [List.map_map]
      apply List.map_congr_left
      intro x _
      have := hnone x
      simp only [Function.comp]
      rw [if_neg this]
    unfold updateOverdueBorrowings
    refine Prod.ext ?_ ?_
    · show (List.filter _ (List.map _ s.borrowings)).length = 0
      rw [List.length_eq_zero, List.filter_eq_nil_iff]
      intro y hy
      obtain ⟨x, -, rfl⟩ := List.mem_map.1 hy
      simpa using hnone x
    · show ({ books := s.books, bookCopies := s.bookCopies,
              borrowings := (s.borrowings.map (fun b =>
                if b.status = .APPROVED ∧ b.dueDate < now
                then { b with status := BorrowingStatus.OVERDUE } else b)).map (fun b =>
                if b.status = .APPROVED ∧ b.dueDate < now
                then { b with status := BorrowingStatus.OVERDUE } else b),
              reservations := s.reservations, nextId := s.nextId, zone := s.zone } : Store) =
            { books := s.books, bookCopies := s.bookCopies,
              borrowings := s.borrowings.map (fun b =>
                if b.status = .APPROVED ∧ b.dueDate < now
                then { b with status := BorrowingStatus.OVERDUE } else b),
              reservations := s.reservations, nextId := s.nextId, zone := s.zone }
      rw [hmap]

/-- Witness for C15 at time 2000: of four borrowings only the APPROVED one due at 1000 becomes
OVERDUE, the count is 1, and the second run returns 0. -/
theorem updateOverdueBorrowings_spec_witness :
    (updateOverdueBorrowings 2000 dueStore).1 = 1 ∧
    (updateOverdueBorrowings 2000 dueStore).2.borrowings.map (fun b => b.status)
      = [.OVERDUE, .PENDING, .RETURNED, .APPROVED] ∧
    updateOverdueBorrowings 2000 (updateOverdueBorrowings 2000 dueStore).2 =
      (0, (updateOverdueBorrowings 2000 dueStore).2) :=
  ⟨by rw [(updateOverdueBorrowings_spec 2000 dueStore).2.1]; decide, by decide,
   (updateOverdueBorrowings_spec 2000 dueStore).2.2.2.2.2.2⟩

/-- C18, as the claim states it, fails: book 1 has one copy, numbered 1. A first `addBookCopy`
creates copy 100 with number 2, `removeBookCopy` removes that copy, and a second `addBookCopy`
creates copy 101 with number 2 again. -/
theorem addBookCopy_reuses_removed_number :
    (addBookCopy 1 freshStore).1.toOption.map (fun c => (c.id, c.copyNumber))
      = some (100, 2) ∧
    (removeBookCopy 100 (addBookCopy 1 freshStore).2).1.toOption.map
      (fun c => (c.id, c.copyNumber)) = some (100, 2) ∧
    (addBookCopy 1 (removeBookCopy 100 (addBookCopy 1 freshStore).2).2).1.toOption.map
      (fun c => (c.id, c.copyNumber)) = some (101, 2) := by
  refine ⟨by decide, by decide, by decide⟩

/-- C18, amended: in every store state, hence after every sequence of `addBookCopy` and
`removeBookCopy` calls, `addBookCopy` on an existing book `b` creates exactly one copy, of `b`,
AVAILABLE, numbered 1 when `b` has no copy and otherwise 1 plus the greatest number among the
copies `b` has at that moment; the number differs from the number of every copy `b` has at that
moment (not from the numbers of removed copies). Nothing else changes. -/
theorem addBookCopy_number (b : Nat) (s : Store) (bk : Book) (hb : s.book? b = some bk) :
    ∃ nc s', addBookCopy b s = (.ok nc, s') ∧
      nc.bookId = b ∧ nc.status = .AVAILABLE ∧
      ((∀ c ∈ s.bookCopies, c.bookId ≠ b) → nc.copyNumber = 1) ∧
      ((∃ c ∈ s.bookCopies, c.bookId = b) →
        (∃ c ∈ s.bookCopies, c.bookId = b ∧ c.copyNumber = nc.copyNumber - 1) ∧
        ∀ c ∈ s.bookCopies, c.bookId = b → c.copyNumber ≤ nc.copyNumber - 1) ∧
      (∀ c ∈ s.bookCopies, c.bookId = b → c.copyNumber ≠ nc.copyNumber) ∧
      s'.bookCopies = s.bookCopies ++ [nc] ∧ s'.books = s.books ∧
      s'.borrowings = s.borrowings ∧ s'.reservations = s.reservations := by
  unfold Store.book? at hb
  have hrun : addBookCopy b s =
      (.ok { id := s.nextId, bookId := b, status := .AVAILABLE,
             copyNumber := orZero (aggregateMax ((s.bookCopies.filter
               (fun c => decide (c.bookId = b))).map (fun c => c.copyNumber))) + 1 },
       { s with
          bookCopies := s.bookCopies ++
            [{ id := s.nextId, bookId := b, status := .AVAILABLE,
               copyNumber := orZero (aggregateMax ((s.bookCopies.filter
                 (fun c => decide (c.bookId = b))).map (fun c => c.copyNumber))) + 1 }],
          nextId := s.nextId + 1 }) := by
    unfold addBookCopy
    rw [hb]
  have hmemP : ∀ q, q ∈ (s.bookCopies.filter (fun c => decide (c.bookId = b))).map
      (fun c => c.copyNumber) ↔ ∃ c ∈ s.bookCopies, c.bookId = b ∧ c.copyNumber = q := by
    intro q
    simp only [List.mem_map, List.mem_filter, decide_eq_true_eq]
    constructor
    · rintro ⟨c, ⟨hc, hcb⟩, rfl⟩; exact ⟨c, hc, hcb, rfl⟩
    · rintro ⟨c, hc, hcb, rfl⟩; exact ⟨c, ⟨hc, hcb⟩, rfl⟩
  have hsome : (∃ c ∈ s.bookCopies, c.bookId = b) →
      (∃ c ∈ s.bookCopies, c.bookId = b ∧ c.copyNumber =
        orZero (aggregateMax ((s.bookCopies.filter
          (fun c => decide (c.bookId = b))).map (fun c => c.copyNumber))) + 1 - 1) ∧
      ∀ c ∈ s.bookCopies, c.bookId = b → c.copyNumber ≤
        orZero (aggregateMax ((s.bookCopies.filter
          (fun c => decide (c.bookId = b))).map (fun c => c.copyNumber))) + 1 - 1 := by
    rintro ⟨c0, hc0, hcb0⟩
    have hne : (s.bookCopies.filter (fun c => decide (c.bookId = b))).map
        (fun c => c.copyNumber) ≠ [] := by
      intro h
      have : c0.copyNumber ∈ (s.bookCopies.filter (fun c => decide (c.bookId = b))).map
          (fun c => c.copyNumber) := (hmemP _).2 ⟨c0, hc0, hcb0, rfl⟩
      rw [h] at this
      exact absurd this (List.not_mem_nil _)
    obtain ⟨v, hv, hmem, hle⟩ := (aggregateMax_spec _).2 hne
    rw [hv, orZero_some, add_sub_cancel_right]
    refine ⟨?_, fun c hc hcb => hle _ ((hmemP _).2 ⟨c, hc, hcb, rfl⟩)⟩
    obtain ⟨c, hc, hcb, hcn⟩ := (hmemP _).1 hmem
    exact ⟨c, hc, hcb, hcn⟩
  refine ⟨_, _, hrun, rfl, rfl, ?_, hsome, ?_, rfl, rfl, rfl, rfl⟩
  · intro hnone
    have hnil : (s.bookCopies.filter (fun c => decide (c.bookId = b))).map
        (fun c => c.copyNumber) = [] := by
      rw [List.map_eq_nil_iff, List.filter_eq_nil_iff]
      intro c hc
      simpa using hnone c hc
    show orZero (aggregateMax _) + 1 = 1
    rw [hnil]
    rfl
  · intro c hc hcb heq
    have hle := (hsome ⟨c, hc, hcb⟩).2 c hc hcb
    have heq' : c.copyNumber = orZero (aggregateMax ((s.bookCopies.filter
        (fun c => decide (c.bookId = b))).map (fun c => c.copyNumber))) + 1 := heq
    omega

/-- Witness for C18 (amended): book 1 has copies numbered 1 and 2, so the new copy gets
number 3. -/
theorem addBookCopy_number_witness :
    ∃ nc s', addBookCopy 1 threeBooks = (.ok nc, s') ∧ nc.copyNumber = 3 ∧
      nc.status = .AVAILABLE ∧ s'.bookCopies = threeBooks.bookCopies ++ [nc] := by
  obtain ⟨nc, s', hrun, -, hst, -, hmax, -, hcopies, -⟩ :=
    addBookCopy_number 1 threeBooks book1 rfl
  refine ⟨nc, s', hrun, ?_, hst, hcopies⟩
  obtain ⟨⟨c, hc, hcb, hcn⟩, hle⟩ := hmax ⟨_, List.mem_cons_self _ _, rfl⟩
  have h2 := hle { id := 11, bookId := 1, copyNumber := 2, status := .AVAILABLE }
    (by decide) rfl
  simp only [threeBooks, List.mem_cons, List.mem_singleton, List.not_mem_nil, or_false] at hc
  rcases hc with rfl | rfl | rfl | rfl
  · simp only at hcn h2; omega
  · simp only at hcn; omega
  · exact absurd hcb (by decide)
  · exact absurd hcb (by decide)

/-- The borrowing guard of `deleteBook` finds a row exactly when some copy of the book has a
PENDING or APPROVED borrowing. -/
theorem deleteBook_borrowing_guard (b : Nat) (s : Store) :
    (s.borrowings.find? (fun br =>
      (match s.bookCopies.find? (fun c => decide (c.id = br.bookCopyId)) with
        | some c => decide (c.bookId = b)
        | none => false)
      && openBorrowingStatus br.status)).isSome = true ↔ BookHasOpenBorrowing b s := by
  rw [List.find?_isSome]
  unfold BookHasOpenBorrowing Store.copy?
  constructor
  · rintro ⟨br, hbr, hp⟩
    simp only [Bool.and_eq_true, openBorrowingStatus, Bool.or_eq_true, decide_eq_true_eq] at hp
    refine ⟨br, hbr, hp.2, ?_⟩
    cases hc : s.bookCopies.find? (fun c => decide (c.id = br.bookCopyId)) with
    | none => rw [hc] at hp; exact absurd hp.1 (by simp)
    | some c => rw [hc] at hp; exact ⟨c, rfl, by simpa using hp.1⟩
  · rintro ⟨br, hbr, hst, c, hc, hcb⟩
    refine ⟨br, hbr, ?_⟩
    simp only [Bool.and_eq_true, openBorrowingStatus, Bool.or_eq_true, decide_eq_true_eq]
    rw [hc]
    exact ⟨by simpa using hcb, hst⟩

/-- The reservation guard of `deleteBook` finds a row exactly when the book has a PENDING or
ACTIVE reservation. -/
theorem deleteBook_reservation_guard (b : Nat) (s : Store) :
    (s.reservations.find? (fun r =>
      decide (r.bookId = b) && openReservationStatus r.status)).isSome = true
      ↔ BookHasOpenReservation b s := by
  rw [List.find?_isSome]
  unfold BookHasOpenReservation
  simp only [Bool.and_eq_true, openReservationStatus, Bool.or_eq_true, decide_eq_true_eq]

/-- The foreign-key test of `deleteBook` is the predicate `BookHasBorrowingRow`. -/
theorem deleteBook_key_guard (b : Nat) (s : Store) :
    s.bookCopies.any (fun c => decide (c.bookId = b) && copyReferenced c.id s) = true
      ↔ BookHasBorrowingRow b s := by
  unfold BookHasBorrowingRow copyReferenced
  simp only [List.any_eq_true, Bool.and_eq_true, decide_eq_true_eq]

/-- C19, as the code runs: for an existing book `b`, `deleteBook(b)` fails, leaving the store
as it was, exactly when some copy of `b` has a PENDING or APPROVED borrowing, or `b` has a
PENDING or ACTIVE reservation, or some copy of `b` has a borrowing row of any other status.
The first two refusals are the guards of the service. The third is not: with no open
borrowing and no open reservation the service goes on to `deleteMany`, which the data store
refuses for the borrowing rows that refer to the copies, and the call throws where C19 says
the book is removed. Only when no borrowing row at all refers to a copy of `b` (and `b` has no
open reservation) does the call succeed and remove the row of `b` and the rows of all copies
of `b`, every other book row and copy row staying in order. -/
theorem deleteBook_blocked_by_closed_borrowing (b : Nat) (s : Store) (bk : Book)
    (hb : s.book? b = some bk) :
    ((deleteBook b s).1.isOk = false ↔
      (BookHasOpenBorrowing b s ∨ BookHasOpenReservation b s ∨ BookHasBorrowingRow b s)) ∧
    ((deleteBook b s).1.isOk = false → (deleteBook b s).2 = s) ∧
    (BookHasOpenBorrowing b s →
      deleteBook b s = (.error "Cannot delete book with active borrowings", s)) ∧
    (¬ BookHasOpenBorrowing b s → BookHasOpenReservation b s →
      deleteBook b s = (.error "Cannot delete book with active reservations", s)) ∧
    (¬ BookHasOpenBorrowing b s → ¬ BookHasOpenReservation b s → BookHasBorrowingRow b s →
      deleteBook b s = (.error foreignKeyViolated, s)) ∧
    (¬ BookHasOpenBorrowing b s → ¬ BookHasOpenReservation b s → ¬ BookHasBorrowingRow b s →
      deleteBook b s = (.ok bk,
        { s with
            bookCopies := s.bookCopies.filter (fun c => decide (c.bookId ≠ b)),
            books := s.books.filter (fun x => decide (x.id ≠ b)) })) := by
  unfold Store.book? at hb
  have hB := deleteBook_borrowing_guard b s
  have hR := deleteBook_reservation_guard b s
  have hK := deleteBook_key_guard b s
  have c1 : BookHasOpenBorrowing b s →
      deleteBook b s = (.error "Cannot delete book with active borrowings", s) := by
    intro h
    obtain ⟨x, hx⟩ := Option.isSome_iff_exists.1 (hB.2 h)
    unfold deleteBook
    rw [hx]
  have c2 : ¬ BookHasOpenBorrowing b s → BookHasOpenReservation b s →
      deleteBook b s = (.error "Cannot delete book with active reservations", s) := by
    intro h1 h2
    have hx1 := Option.not_isSome_iff_eq_none.1 (fun h => h1 (hB.1 h))
    obtain ⟨x, hx⟩ := Option.isSome_iff_exists.1 (hR.2 h2)
    unfold deleteBook
    rw [hx1, hx]
  have c3 : ¬ BookHasOpenBorrowing b s → ¬ BookHasOpenReservation b s →
      BookHasBorrowingRow b s → deleteBook b s = (.error foreignKeyViolated, s) := by
    intro h1 h2 h3
    have hx1 := Option.not_isSome_iff_eq_none.1 (fun h => h1 (hB.1 h))
    have hx2 := Option.not_isSome_iff_eq_none.1 (fun h => h2 (hR.1 h))
    have hx3 := hK.2 h3
    unfold deleteBook
    rw [hx1, hx2]
    simp only [hx3, if_true]
  have c4 : ¬ BookHasOpenBorrowing b s → ¬ BookHasOpenReservation b s →
      ¬ BookHasBorrowingRow b s →
      deleteBook b s = (.ok bk,
        { s with
            bookCopies := s.bookCopies.filter (fun c => decide (c.bookId ≠ b)),
            books := s.books.filter (fun x => decide (x.id ≠ b)) }) := by
    intro h1 h2 h3
    have hx1 := Option.not_isSome_iff_eq_none.1 (fun h => h1 (hB.1 h))
    have hx2 := Option.not_isSome_iff_eq_none.1 (fun h => h2 (hR.1 h))
    have hx3 : ¬ s.bookCopies.any
        (fun c => decide (c.bookId = b) && copyReferenced c.id s) = true :=
      fun h => h3 (hK.1 h)
    unfold deleteBook
    rw [hx1, hx2]
    simp only [hx3, Bool.false_eq_true, if_false, hb]
  refine ⟨?_, ?_, c1, c2, c3, c4⟩
  · constructor
    · intro hfail
      by_contra hcon
      rw [not_or, not_or] at hcon
      rw [c4 hcon.1 hcon.2.1 hcon.2.2] at hfail
      simp [Except.isOk, Except.toBool] at hfail
    · intro h
      by_cases h1 : BookHasOpenBorrowing b s
      · rw [c1 h1]; rfl
      · by_cases h2 : BookHasOpenReservation b s
        · rw [c2 h1 h2]; rfl
        · rcases h with h | h | h
          · exact absurd h h1
          · exact absurd h h2
          · rw [c3 h1 h2 h]; rfl
  · intro hfail
    by_cases h1 : BookHasOpenBorrowing b s
    · rw [c1 h1]
    · by_cases h2 : BookHasOpenReservation b s
      · rw [c2 h1 h2]
      · by_cases h3 : BookHasBorrowingRow b s
        · rw [c3 h1 h2 h3]
        · rw [c4 h1 h2 h3] at hfail
          simp [Except.isOk, Except.toBool] at hfail

/-- Witness for C19. Member 1 has borrowed copy 10 of book 1 and returned it: the book has no
open borrowing and no open reservation, and `deleteBook(1)` throws, the store as it was. On
three books: book 1 (only an OVERDUE borrowing on its copies) is refused in the same way, book
2 is refused for its PENDING reservation and book 3 for the PENDING borrowing of its copy. In
the catalogue in which nothing was ever borrowed, book 1 is deleted with its copy. -/
theorem deleteBook_blocked_by_closed_borrowing_witness :
    (¬ BookHasOpenBorrowing 1 borrowedAndReturned ∧
      ¬ BookHasOpenReservation 1 borrowedAndReturned ∧
      deleteBook 1 borrowedAndReturned = (.error foreignKeyViolated, borrowedAndReturned)) ∧
    deleteBook 1 threeBooks = (.error foreignKeyViolated, threeBooks) ∧
    deleteBook 2 threeBooks =
      (.error "Cannot delete book with active reservations", threeBooks) ∧
    deleteBook 3 threeBooks =
      (.error "Cannot delete book with active borrowings", threeBooks) ∧
    deleteBook 1 freshStore = (.ok book1, { freshStore with books := [], bookCopies := [] }) := by
  have hB0 : ¬ BookHasOpenBorrowing 1 borrowedAndReturned := by
    rw [← deleteBook_borrowing_guard]; decide
  have hR0 : ¬ BookHasOpenReservation 1 borrowedAndReturned := by
    rw [← deleteBook_reservation_guard]; decide
  have hK0 : BookHasBorrowingRow 1 borrowedAndReturned := by
    rw [← deleteBook_key_guard]; decide
  have hB1 : ¬ BookHasOpenBorrowing 1 threeBooks := by
    rw [← deleteBook_borrowing_guard]; decide
  have hR1 : ¬ BookHasOpenReservation 1 threeBooks := by
    rw [← deleteBook_reservation_guard]; decide
  have hK1 : BookHasBorrowingRow 1 threeBooks := by
    rw [← deleteBook_key_guard]; decide
  have hB2 : ¬ BookHasOpenBorrowing 2 threeBooks := by
    rw [← deleteBook_borrowing_guard]; decide
  have hR2 : BookHasOpenReservation 2 threeBooks := by
    rw [← deleteBook_reservation_guard]; decide
  have hB3 : BookHasOpenBorrowing 3 threeBooks := by
    rw [← deleteBook_borrowing_guard]; decide
  have hB4 : ¬ BookHasOpenBorrowing 1 freshStore := by
    rw [← deleteBook_borrowing_guard]; decide
  have hR4 : ¬ BookHasOpenReservation 1 freshStore := by
    rw [← deleteBook_reservation_guard]; decide
  have hK4 : ¬ BookHasBorrowingRow 1 freshStore := by
    rw [← deleteBook_key_guard]; decide
  exact ⟨⟨hB0, hR0,
      (deleteBook_blocked_by_closed_borrowing 1 borrowedAndReturned book1 rfl).2.2.2.2.1
        hB0 hR0 hK0⟩,
    (deleteBook_blocked_by_closed_borrowing 1 threeBooks book1 rfl).2.2.2.2.1 hB1 hR1 hK1,
    (deleteBook_blocked_by_closed_borrowing 2 threeBooks _ rfl).2.2.2.1 hB2 hR2,
    (deleteBook_blocked_by_closed_borrowing 3 threeBooks _ rfl).2.2.1 hB3,
    (deleteBook_blocked_by_closed_borrowing 1 freshStore book1 rfl).2.2.2.2.2 hB4 hR4 hK4⟩

/-- C20, as the code runs: `removeBookCopy(c)` fails, leaving the store as it was, when `c` is
absent or its status is RESERVED or BORROWED, so a copy with a claim in flight is never
removed. An AVAILABLE copy is removed only when no borrowing row refers to it: for an
AVAILABLE copy that was once borrowed (its borrowing RETURNED or REJECTED) the status check of
the service passes, the data store refuses the `delete`, and the call throws where C20 says
the copy is deleted. So the call succeeds exactly when `c` exists, is AVAILABLE and has no
borrowing row; then the row of `c` is gone while every other copy row stays, in order, and
nothing else is written. -/
theorem removeBookCopy_blocked_by_closed_borrowing (c : Nat) (s : Store) :
    (s.copy? c = none → removeBookCopy c s = (.error "Book copy not found", s)) ∧
    (∀ bc, s.copy? c = some bc → (bc.status = .RESERVED ∨ bc.status = .BORROWED) →
      removeBookCopy c s = (.error "Cannot remove book copy that is not available", s)) ∧
    (∀ bc, s.copy? c = some bc → bc.status = .AVAILABLE →
      (∃ br ∈ s.borrowings, br.bookCopyId = c) →
      removeBookCopy c s = (.error foreignKeyViolated, s)) ∧
    (∀ bc, s.copy? c = some bc → bc.status = .AVAILABLE →
      (¬ ∃ br ∈ s.borrowings, br.bookCopyId = c) →
      removeBookCopy c s = (.ok bc,
        { s with bookCopies := s.bookCopies.filter (fun x => decide (x.id ≠ c)) }) ∧
      (removeBookCopy c s).2.copy? c = none) ∧
    ((removeBookCopy c s).1.isOk = true ↔
      ∃ bc, s.copy? c = some bc ∧ bc.status = .AVAILABLE ∧
        ¬ ∃ br ∈ s.borrowings, br.bookCopyId = c) ∧
    ((removeBookCopy c s).1.isOk = false → (removeBookCopy c s).2 = s) := by
  have hK : copyReferenced c s = true ↔ ∃ br ∈ s.borrowings, br.bookCopyId = c := by
    unfold copyReferenced
    simp only [List.any_eq_true, decide_eq_true_eq]
  have c1 : s.copy? c = none → removeBookCopy c s = (.error "Book copy not found", s) := by
    intro hc
    unfold Store.copy? at hc
    unfold removeBookCopy
    rw [hc]
  have c2 : ∀ bc, s.copy? c = some bc → bc.status ≠ .AVAILABLE →
      removeBookCopy c s = (.error "Cannot remove book copy that is not available", s) := by
    intro bc hc hst
    unfold Store.copy? at hc
    unfold removeBookCopy
    rw [hc]
    simp only [ne_eq, hst, not_false_eq_true, if_true]
  have c3 : ∀ bc, s.copy? c = some bc → bc.status = .AVAILABLE →
      (∃ br ∈ s.borrowings, br.bookCopyId = c) →
      removeBookCopy c s = (.error foreignKeyViolated, s) := by
    intro bc hc hst hr
    have hr' := hK.2 hr
    unfold Store.copy? at hc
    unfold removeBookCopy
    rw [hc]
    simp only [hst, ne_eq, not_true_eq_false, if_false, hr', if_true]
  have c4 : ∀ bc, s.copy? c = some bc → bc.status = .AVAILABLE →
      (¬ ∃ br ∈ s.borrowings, br.bookCopyId = c) →
      removeBookCopy c s = (.ok bc,
        { s with bookCopies := s.bookCopies.filter (fun x => decide (x.id ≠ c)) }) := by
    intro bc hc hst hr
    have hr' : ¬ copyReferenced c s = true := fun h => hr (hK.1 h)
    unfold Store.copy? at hc
    unfold removeBookCopy
    rw [hc]
    simp only [hst, ne_eq, not_true_eq_false, if_false, hr', Bool.false_eq_true]
  refine ⟨c1, ?_, c3, ?_, ?_, ?_⟩
  · intro bc hc hst
    refine c2 bc hc ?_
    rcases hst with h | h <;> rw [h] <;> decide
  · intro bc hc hst hr
    refine ⟨c4 bc hc hst hr, ?_⟩
    rw [c4 bc hc hst hr]
    unfold Store.copy?
    rw [List.find?_eq_none]
    intro x hx
    simpa using (List.mem_filter.1 hx).2
  · constructor
    · intro hok
      cases hc : s.copy? c with
      | none =>
        rw [c1 hc] at hok
        simp [Except.isOk, Except.toBool] at hok
      | some bc =>
        by_cases hst : bc.status = .AVAILABLE
        · by_cases hr : ∃ br ∈ s.borrowings, br.bookCopyId = c
          · rw [c3 bc hc hst hr] at hok
            simp [Except.isOk, Except.toBool] at hok
          · exact ⟨bc, rfl, hst, hr⟩
        · rw [c2 bc hc hst] at hok
          simp [Except.isOk, Except.toBool] at hok
    · rintro ⟨bc, hc, hst, hr⟩
      rw [c4 bc hc hst hr]
      rfl
  · intro hfail
    cases hc : s.copy? c with
    | none => rw [c1 hc]
    | some bc =>
      by_cases hst : bc.status = .AVAILABLE
      · by_cases hr : ∃ br ∈ s.borrowings, br.bookCopyId = c
        · rw [c3 bc hc hst hr]
        · rw [c4 bc hc hst hr] at hfail
          simp [Except.isOk, Except.toBool] at hfail
      · rw [c2 bc hc hst]

/-- Witness for C20. Member 1 has borrowed copy 10 and returned it: the copy is AVAILABLE, and
`removeBookCopy(10)` throws, the store as it was. On three books: the AVAILABLE copy 11, which
no borrowing refers to, is removed; the BORROWED copy 10 and the RESERVED copy 30 are refused,
and so is a copy that does not exist. -/
theorem removeBookCopy_blocked_by_closed_borrowing_witness :
    (borrowedAndReturned.copy? 10 =
        some { id := 10, bookId := 1, copyNumber := 1, status := .AVAILABLE } ∧
      removeBookCopy 10 borrowedAndReturned =
        (.error foreignKeyViolated, borrowedAndReturned)) ∧
    (removeBookCopy 11 threeBooks).2.bookCopies.map (fun c => c.id) = [10, 20, 30] ∧
    removeBookCopy 10 threeBooks =
      (.error "Cannot remove book copy that is not available", threeBooks) ∧
    removeBookCopy 30 threeBooks =
      (.error "Cannot remove book copy that is not available", threeBooks) ∧
    removeBookCopy 99 threeBooks = (.error "Book copy not found", threeBooks) := by
  have h11 := ((removeBookCopy_blocked_by_closed_borrowing 11 threeBooks).2.2.2.1
    { id := 11, bookId := 1, copyNumber := 2, status := .AVAILABLE } rfl rfl (by decide)).1
  refine ⟨⟨rfl, (removeBookCopy_blocked_by_closed_borrowing 10 borrowedAndReturned).2.2.1
      { id := 10, bookId := 1, copyNumber := 1, status := .AVAILABLE } rfl rfl (by decide)⟩,
    by rw [h11]; decide,
    (removeBookCopy_blocked_by_closed_borrowing 10 threeBooks).2.1 _ rfl (Or.inr rfl),
    (removeBookCopy_blocked_by_closed_borrowing 30 threeBooks).2.1 _ rfl (Or.inl rfl),
    (removeBookCopy_blocked_by_closed_borrowing 99 threeBooks).1 rfl⟩

/-- The store `borrowBookCopy` leaves behind: the old one, or the old one with the new PENDING
borrowing appended and the copy RESERVED. -/
theorem borrowBookCopy_store (now m c : Nat) (s : Store) :
    (borrowBookCopy now m c s).2 = s ∨
    ∃ bc, s.copy? c = some bc ∧ bc.status = .AVAILABLE ∧ ¬ HasOpenBorrowing m c s ∧
      (borrowBookCopy now m c s).2 =
        { s with
            borrowings := s.borrowings ++
              [{ id := s.nextId, memberId := m, bookCopyId := c, status := .PENDING,
                 borrowDate := now, dueDate := addDays s.zone now 14, returnDate := none }],
            nextId := s.nextId + 1,
            bookCopies := setCopyStatus c .RESERVED s.bookCopies } := by
  by_cases h : ∃ bc, s.copy? c = some bc ∧ bc.status = .AVAILABLE ∧ ¬ HasOpenBorrowing m c s
  · obtain ⟨bc, hc, hav, hno⟩ := h
    exact Or.inr ⟨bc, hc, hav, hno, by rw [borrowBookCopy_eq_ok now m c s bc hc hav hno]⟩
  · left
    unfold borrowBookCopy
    split
    · rfl
    · rename_i bc hbc
      split
      · rfl
      · rename_i hst
        split
        · rfl
        · rename_i hnone
          exfalso
          apply h
          refine ⟨bc, hbc, by simpa using hst, fun hopen => ?_⟩
          obtain ⟨x, hx⟩ := find?_openBorrowing_isSome m c s hopen
          rw [hx] at hnone
          cases hnone

/-- The store `reserveBook` leaves behind: the old one, or the old one with the new PENDING
reservation appended. -/
theorem reserveBook_store (m b : Nat) (s : Store) :
    (reserveBook m b s).2 = s ∨
    ∃ bk q, s.book? b = some bk ∧ ¬ HasOpenReservation m b s ∧
      (reserveBook m b s).2 =
        { s with
            reservations := s.reservations ++
              [{ id := s.nextId, memberId := m, bookId := b, status := .PENDING,
                 queuePosition := q }],
            nextId := s.nextId + 1 } := by
  unfold reserveBook Store.book?
  split
  · left; rfl
  · rename_i bk hbk
    split
    · left; rfl
    · rename_i hnone
      right
      refine ⟨bk, _, hbk, ?_, rfl⟩
      rintro ⟨r, hr, hm, hb, hst⟩
      rw [List.find?_eq_none] at hnone
      apply hnone r hr
      simp only [openReservationStatus, Bool.and_eq_true, Bool.or_eq_true, decide_eq_true_eq]
      exact ⟨⟨hm, hb⟩, hst⟩

/-- The store `cancelReservation` leaves behind: the old one, or the old one with the
reservation cancelled and the queue of its book closed up. -/
theorem cancelReservation_store (m r : Nat) (s : Store) :
    (cancelReservation m r s).2 = s ∨
    ∃ rv, s.reservation? r = some rv ∧ rv.memberId = m ∧
      (rv.status = .PENDING ∨ rv.status = .ACTIVE) ∧
      (cancelReservation m r s).2 =
        { s with reservations := cancelAt r rv.bookId rv.queuePosition s.reservations } := by
  unfold cancelReservation Store.reservation?
  split
  · left; rfl
  · rename_i rv hrv
    split
    · left; rfl
    · rename_i hm
      split
      · left; rfl
      · rename_i hst
        right
        refine ⟨rv, hrv, by simpa using hm, ?_, ?_⟩
        · cases hs : rv.status <;> simp_all
        · simp only [compactOpenAfter_setCancelled, cancelAt]

/-- The store `rejectReservation` leaves behind: the old one, or the old one with the
reservation cancelled and the queue of its book closed up. -/
theorem rejectReservation_store (r : Nat) (s : Store) :
    (rejectReservation r s).2 = s ∨
    ∃ rv, s.reservation? r = some rv ∧ rv.status = .PENDING ∧
      (rejectReservation r s).2 =
        { s with reservations := cancelAt r rv.bookId rv.queuePosition s.reservations } := by
  unfold rejectReservation Store.reservation?
  split
  · left; rfl
  · rename_i rv hrv
    split
    · left; rfl
    · rename_i hst
      right
      refine ⟨rv, hrv, by simpa using hst, ?_⟩
      simp only [compactOpenAfter_setCancelled, cancelAt]

/-- The store `approveReservation` leaves behind: the old one, or the old one with the
reservation ACTIVE and, when the book has an AVAILABLE copy, one such copy RESERVED. -/
theorem approveReservation_store (o : List Nat) (r : Nat) (s : Store) :
    (approveReservation o r s).2 = s ∨
    ∃ rv, s.reservation? r = some rv ∧ rv.status = .PENDING ∧
      ((approveReservation o r s).2 =
          { s with reservations := setReservationStatus r .ACTIVE s.reservations } ∨
       ∃ ac, ac ∈ s.bookCopies ∧ ac.status = .AVAILABLE ∧
        (approveReservation o r s).2 =
          { s with reservations := setReservationStatus r .ACTIVE s.reservations,
                   bookCopies := setCopyStatus ac.id .RESERVED s.bookCopies }) := by
  unfold approveReservation Store.reservation?
  split
  · left; rfl
  · rename_i rv hrv
    split
    · left; rfl
    · rename_i hst
      split
      · left; rfl
      · rename_i bk hbk
        right
        cases hac : (inStoreOrder o
            (s.bookCopies.filter (fun c => decide (c.bookId = bk.id)))).find?
            (fun copy => decide (copy.status = CopyStatus.AVAILABLE)) with
        | none =>
          refine ⟨rv, hrv, by simpa using hst, Or.inl ?_⟩
          simp only [hac]
        | some ac =>
          refine ⟨rv, hrv, by simpa using hst, Or.inr ⟨ac, ?_, ?_, ?_⟩⟩
          · exact (List.mem_filter.1
              ((inStoreOrder_perm o _).mem_iff.1 (List.mem_of_find?_eq_some hac))).1
          · simpa using List.find?_some hac
          · simp only [hac]

/-- The store `approveBorrowing` leaves behind: the old one, or the old one with the borrowing
APPROVED and its copy BORROWED. -/
theorem approveBorrowing_store (now b : Nat) (s : Store) :
    (approveBorrowing now b s).2 = s ∨
    ∃ br bc, s.borrowing? b = some br ∧ br.status = .PENDING ∧
      s.copy? br.bookCopyId = some bc ∧ bc.status = .RESERVED ∧
      (approveBorrowing now b s).2 =
        { s with
            borrowings := s.borrowings.map (fun x =>
              if x.id = b then { x with status := .APPROVED, borrowDate := now } else x),
            bookCopies := setCopyStatus br.bookCopyId .BORROWED s.bookCopies } := by
  unfold approveBorrowing Store.borrowing? Store.copy?
  split
  · left; rfl
  · rename_i br hbr
    split
    · left; rfl
    · rename_i hst
      split
      · left; rfl
      · rename_i bc hbc
        split
        · left; rfl
        · rename_i hcs
          right
          exact ⟨br, bc, hbr, by simpa using hst, hbc, by simpa using hcs, rfl⟩

/-- The store `rejectBorrowing` leaves behind: the old one, or the old one with the borrowing
REJECTED and (when the copy row exists) its copy AVAILABLE. -/
theorem rejectBorrowing_store (b : Nat) (s : Store) :
    (rejectBorrowing b s).2 = s ∨
    ∃ br, s.borrowing? b = some br ∧ br.status = .PENDING ∧
      ((rejectBorrowing b s).2 =
          { s with borrowings := s.borrowings.map (fun x =>
              if x.id = b then { x with status := .REJECTED } else x) } ∨
       (rejectBorrowing b s).2 =
          { s with
              borrowings := s.borrowings.map (fun x =>
                if x.id = b then { x with status := .REJECTED } else x),
              bookCopies := setCopyStatus br.bookCopyId .AVAILABLE s.bookCopies }) := by
  unfold rejectBorrowing Store.borrowing?
  split
  · left; rfl
  · rename_i br hbr
    split
    · left; rfl
    · rename_i hst
      right
      refine ⟨br, hbr, by simpa using hst, ?_⟩
      by_cases hany : s.bookCopies.any (fun c => decide (c.id = br.bookCopyId)) = true
      · right; simp only [hany, if_true]
      · left; simp only [hany]; rfl

/-- The store `returnBook` leaves behind: the old one, or the old one with the borrowing
RETURNED, possibly its copy set to some status, and possibly the positions of ACTIVE
reservations of a book behind some position moved down. -/
theorem returnBook_store (now b : Nat) (s : Store) :
    (returnBook now b s).2 = s ∨
    ∃ br, s.borrowing? b = some br ∧ br.status = .APPROVED ∧
      ((returnBook now b s).2 =
          { s with borrowings := s.borrowings.map (fun x =>
              if x.id = b then { x with status := .RETURNED, returnDate := some now }
              else x) } ∨
       (returnBook now b s).2 =
          { s with
              borrowings := s.borrowings.map (fun x =>
                if x.id = b then { x with status := .RETURNED, returnDate := some now }
                else x),
              bookCopies := setCopyStatus br.bookCopyId .AVAILABLE s.bookCopies } ∨
       ∃ bk k, (returnBook now b s).2 =
          { s with
              borrowings := s.borrowings.map (fun x =>
                if x.id = b then { x with status := .RETURNED, returnDate := some now }
                else x),
              bookCopies := setCopyStatus br.bookCopyId .RESERVED s.bookCopies,
              reservations := compactActiveAfter bk k s.reservations }) := by
  unfold returnBook Store.borrowing?
  split
  · left; rfl
  · rename_i br hbr
    split
    · left; rfl
    · rename_i hst
      right
      refine ⟨br, hbr, by simpa using hst, ?_⟩
      split
      · left; rfl
      · rename_i bc hbc
        dsimp only
        split
        · rename_i nx hnx
          right; right
          exact ⟨bc.bookId, nx.queuePosition, rfl⟩
        · right; left; rfl

/-- The store `addBookCopy` leaves behind: the old one, or the old one with a new AVAILABLE copy
of the book appended. -/
theorem addBookCopy_store (b : Nat) (s : Store) :
    (addBookCopy b s).2 = s ∨
    ∃ n, (addBookCopy b s).2 =
      { s with
          bookCopies := s.bookCopies ++
            [{ id := s.nextId, bookId := b, copyNumber := n, status := .AVAILABLE }],
          nextId := s.nextId + 1 } := by
  unfold addBookCopy
  split
  · left; rfl
  · right; exact ⟨_, rfl⟩

/-- The store `removeBookCopy` leaves behind: the old one, or the old one without the rows of
the copy. -/
theorem removeBookCopy_store (c : Nat) (s : Store) :
    (removeBookCopy c s).2 = s ∨
    (removeBookCopy c s).2 =
      { s with bookCopies := s.bookCopies.filter (fun x => decide (x.id ≠ c)) } := by
  unfold removeBookCopy
  split
  · left; rfl
  · split
    · left; rfl
    · split
      · left; rfl
      · right; rfl

/-- The store `deleteBook` leaves behind: the old one, or, for a book without open reservation,
the old one without the copies of the book and possibly without the book. -/
theorem deleteBook_store (b : Nat) (s : Store) :
    (deleteBook b s).2 = s ∨
    (¬ BookHasOpenReservation b s ∧
      ((deleteBook b s).2 =
          { s with bookCopies := s.bookCopies.filter (fun c => decide (c.bookId ≠ b)) } ∨
       (deleteBook b s).2 =
          { s with
              bookCopies := s.bookCopies.filter (fun c => decide (c.bookId ≠ b)),
              books := s.books.filter (fun x => decide (x.id ≠ b)) })) := by
  have hR := deleteBook_reservation_guard b s
  unfold deleteBook
  split
  · left; rfl
  · split
    · left; rfl
    · rename_i hnone
      by_cases hk : s.bookCopies.any
          (fun c => decide (c.bookId = b) && copyReferenced c.id s) = true
      · left
        rw [if_pos hk]
      · right
        refine ⟨fun h => ?_, ?_⟩
        · have := hR.2 h
          rw [hnone] at this
          cases this
        · rw [if_neg hk]
          dsimp only
          split
          · left; rfl
          · right; rfl

/-- The key discipline survives a change of the tables in which the copy ids shrink or gain
the counter value, the borrowing keys stay or gain a row with the counter value as id, the
reservation ids stay or gain the counter value, and the counter moves past each new id. -/
theorem wellKeyed_of_tables (s s' : Store) (h : WellKeyed s)
    (hn : s.nextId ≤ s'.nextId)
    (hc : (s'.bookCopies.map (fun c => c.id)).Sublist (s.bookCopies.map (fun c => c.id)) ∨
      (s'.bookCopies.map (fun c => c.id) = s.bookCopies.map (fun c => c.id) ++ [s.nextId] ∧
        s.nextId < s'.nextId))
    (hb : s'.borrowings.map (fun b => (b.id, b.bookCopyId))
        = s.borrowings.map (fun b => (b.id, b.bookCopyId)) ∨
      (∃ c, c < s.nextId ∧ s'.borrowings.map (fun b => (b.id, b.bookCopyId))
        = s.borrowings.map (fun b => (b.id, b.bookCopyId)) ++ [(s.nextId, c)] ∧
        s.nextId < s'.nextId))
    (hr : s'.reservations.map (fun r => r.id) = s.reservations.map (fun r => r.id) ∨
      (s'.reservations.map (fun r => r.id) = s.reservations.map (fun r => r.id) ++ [s.nextId] ∧
        s.nextId < s'.nextId)) :
    WellKeyed s' := by
  obtain ⟨k1, k2, k3, k4, k5, k6⟩ := h
  have fresh : ∀ (l : List Nat), l.Nodup → (∀ i ∈ l, i < s.nextId) →
      (l ++ [s.nextId]).Nodup := by
    intro l hl hlt
    rw [List.nodup_append]
    refine ⟨hl, List.nodup_singleton _, ?_⟩
    intro a ha hb
    rw [List.mem_singleton] at hb
    subst hb
    exact absurd (hlt _ ha) (lt_irrefl _)
  have k4c : ∀ i ∈ s.bookCopies.map (fun c => c.id), i < s.nextId := by
    intro i hi
    obtain ⟨c, hc, rfl⟩ := List.mem_map.1 hi
    exact k4 c hc
  have k5p : ∀ q ∈ s.borrowings.map (fun b => (b.id, b.bookCopyId)),
      q.1 < s.nextId ∧ q.2 < s.nextId := by
    intro q hq
    obtain ⟨b, hb, rfl⟩ := List.mem_map.1 hq
    exact k5 b hb
  have k6r : ∀ i ∈ s.reservations.map (fun r => r.id), i < s.nextId := by
    intro i hi
    obtain ⟨r, hr, rfl⟩ := List.mem_map.1 hi
    exact k6 r hr
  have hbid : ∀ t : Store, t.borrowings.map (fun b => b.id)
      = (t.borrowings.map (fun b => (b.id, b.bookCopyId))).map Prod.fst := by
    intro t; rw [List.map_map]; rfl
  refine ⟨?_, ?_, ?_, ?_, ?_, ?_⟩
  · rcases hc with hc | ⟨hc, -⟩
    · exact k1.sublist hc
    · rw [hc]; exact fresh _ k1 k4c
  · rw [hbid s']
    rcases hb with hb | ⟨c, -, hb, -⟩
    · rw [hb, ← hbid s]; exact k2
    · rw [hb, List.map_append, ← hbid s]
      exact fresh _ k2 (fun i hi => by
        obtain ⟨b, hb', rfl⟩ := List.mem_map.1 hi
        exact (k5 b hb').1)
  · rcases hr with hr | ⟨hr, -⟩
    · rw [hr]; exact k3
    · rw [hr]; exact fresh _ k3 k6r
  · intro c hc'
    have hmem : c.id ∈ s'.bookCopies.map (fun c => c.id) := List.mem_map.2 ⟨c, hc', rfl⟩
    rcases hc with hc | ⟨hc, hlt⟩
    · exact lt_of_lt_of_le (k4c _ (hc.subset hmem)) hn
    · rw [hc, List.mem_append, List.mem_singleton] at hmem
      rcases hmem with hmem | hmem
      · exact lt_of_lt_of_le (k4c _ hmem) hn
      · rw [hmem]; exact hlt
  · intro b hb'
    have hmem : (b.id, b.bookCopyId) ∈ s'.borrowings.map (fun b => (b.id, b.bookCopyId)) :=
      List.mem_map.2 ⟨b, hb', rfl⟩
    rcases hb with hb | ⟨c, hclt, hb, hlt⟩
    · rw [hb] at hmem
      have := k5p _ hmem
      exact ⟨lt_of_lt_of_le this.1 hn, lt_of_lt_of_le this.2 hn⟩
    · rw [hb, List.mem_append, List.mem_singleton] at hmem
      rcases hmem with hmem | hmem
      · have := k5p _ hmem
        exact ⟨lt_of_lt_of_le this.1 hn, lt_of_lt_of_le this.2 hn⟩
      · have h1 : b.id = s.nextId := congrArg Prod.fst hmem
        have h2 : b.bookCopyId = c := congrArg Prod.snd hmem
        rw [h1, h2]
        exact ⟨hlt, lt_of_lt_of_le hclt hn⟩
  · intro r hr'
    have hmem : r.id ∈ s'.reservations.map (fun r => r.id) := List.mem_map.2 ⟨r, hr', rfl⟩
    rcases hr with hr | ⟨hr, hlt⟩
    · rw [hr] at hmem; exact lt_of_lt_of_le (k6r _ hmem) hn
    · rw [hr, List.mem_append, List.mem_singleton] at hmem
      rcases hmem with hmem | hmem
      · exact lt_of_lt_of_le (k6r _ hmem) hn
      · rw [hmem]; exact hlt

/-- Setting the status of a copy keeps the copy ids. -/
theorem map_id_setCopyStatus (i : Nat) (st : CopyStatus) (cs : List BookCopy) :
    (setCopyStatus i st cs).map (fun c => c.id) = cs.map (fun c => c.id) := by
  unfold setCopyStatus
  rw [List.map_map]
  apply List.map_congr_left
  intro x _
  by_cases h : x.id = i <;> simp [h]

/-- Setting the status of a reservation keeps the reservation ids. -/
theorem map_id_setReservationStatus (i : Nat) (st : ReservationStatus)
    (rs : List Reservation) :
    (setReservationStatus i st rs).map (fun r => r.id) = rs.map (fun r => r.id) := by
  unfold setReservationStatus
  rw [List.map_map]
  apply List.map_congr_left
  intro x _
  by_cases h : x.id = i <;> simp [h]

/-- Cancelling a reservation and closing up its queue keeps the reservation ids. -/
theorem map_id_cancelAt (r b : Nat) (k : Int) (rs : List Reservation) :
    (cancelAt r b k rs).map (fun x => x.id) = rs.map (fun x => x.id) := by
  unfold cancelAt
  rw [List.map_map]
  apply List.map_congr_left
  intro x _
  simp only [Function.comp]
  split_ifs <;> rfl

/-- The compaction of `returnBook` keeps the reservation ids. -/
theorem map_id_compactActiveAfter (b : Nat) (k : Int) (rs : List Reservation) :
    (compactActiveAfter b k rs).map (fun x => x.id) = rs.map (fun x => x.id) := by
  unfold compactActiveAfter
  rw [List.map_map]
  apply List.map_congr_left
  intro x _
  simp only [Function.comp]
  split_ifs <;> rfl

/-- Rewriting borrowing rows by a function that keeps `id` and `bookCopyId` keeps the keys of
the table. -/
theorem map_keys_borrowings (f : Borrowing → Borrowing)
    (hf : ∀ x, (f x).id = x.id ∧ (f x).bookCopyId = x.bookCopyId) (bs : List Borrowing) :
    (bs.map f).map (fun b => (b.id, b.bookCopyId)) = bs.map (fun b => (b.id, b.bookCopyId)) := by
  rw [List.map_map]
  apply List.map_congr_left
  intro x _
  simp only [Function.comp, (hf x).1, (hf x).2]

/-- Under the key discipline, the id of a copy that is found is below the id counter. -/
theorem copy?_lt_nextId (s : Store) (c : Nat) (bc : BookCopy) (h : WellKeyed s)
    (hc : s.copy? c = some bc) : c < s.nextId := by
  unfold Store.copy? at hc
  have hid : bc.id = c := by simpa using List.find?_some hc
  rw [← hid]
  exact h.2.2.2.1 bc (List.mem_of_find?_eq_some hc)

/-- Every service call keeps the key discipline of the data store. -/
theorem wellKeyed_serviceStep (s : Store) (op : ServiceOp) (h : WellKeyed s) :
    WellKeyed (serviceStep s op) := by
  have same : ∀ l : List Nat, l.Sublist l := fun l => List.Sublist.refl l
  cases op with
  | lifecycle op =>
    cases op with
    | reserveBook m b =>
      show WellKeyed (reserveBook m b s).2
      rcases reserveBook_store m b s with e | ⟨bk, q, -, -, e⟩
      · rw [e]; exact h
      · rw [e]
        exact wellKeyed_of_tables s _ h (Nat.le_succ _) (Or.inl (same _)) (Or.inl rfl)
          (Or.inr ⟨by simp, Nat.lt_succ_self _⟩)
    | approveReservation o r =>
      show WellKeyed (approveReservation o r s).2
      rcases approveReservation_store o r s with e | ⟨rv, -, -, e | ⟨ac, -, -, e⟩⟩
      · rw [e]; exact h
      · rw [e]
        exact wellKeyed_of_tables s _ h (le_refl _) (Or.inl (same _)) (Or.inl rfl)
          (Or.inl (map_id_setReservationStatus _ _ _))
      · rw [e]
        exact wellKeyed_of_tables s _ h (le_refl _)
          (Or.inl (by simp only [map_id_setCopyStatus]; exact same _)) (Or.inl rfl)
          (Or.inl (map_id_setReservationStatus _ _ _))
    | rejectReservation r =>
      show WellKeyed (rejectReservation r s).2
      rcases rejectReservation_store r s with e | ⟨rv, -, -, e⟩
      · rw [e]; exact h
      · rw [e]
        exact wellKeyed_of_tables s _ h (le_refl _) (Or.inl (same _)) (Or.inl rfl)
          (Or.inl (map_id_cancelAt _ _ _ _))
    | cancelReservation m r =>
      show WellKeyed (cancelReservation m r s).2
      rcases cancelReservation_store m r s with e | ⟨rv, -, -, -, e⟩
      · rw [e]; exact h
      · rw [e]
        exact wellKeyed_of_tables s _ h (le_refl _) (Or.inl (same _)) (Or.inl rfl)
          (Or.inl (map_id_cancelAt _ _ _ _))
    | borrowBookCopy now m c =>
      show WellKeyed (borrowBookCopy now m c s).2
      rcases borrowBookCopy_store now m c s with e | ⟨bc, hc, -, -, e⟩
      · rw [e]; exact h
      · rw [e]
        exact wellKeyed_of_tables s _ h (Nat.le_succ _)
          (Or.inl (by simp only [map_id_setCopyStatus]; exact same _))
          (Or.inr ⟨c, copy?_lt_nextId s c bc h hc, by simp, Nat.lt_succ_self _⟩)
          (Or.inl rfl)
    | approveBorrowing now b =>
      show WellKeyed (approveBorrowing now b s).2
      rcases approveBorrowing_store now b s with e | ⟨br, bc, -, -, -, -, e⟩
      · rw [e]; exact h
      · rw [e]
        exact wellKeyed_of_tables s _ h (le_refl _)
          (Or.inl (by simp only [map_id_setCopyStatus]; exact same _))
          (Or.inl (map_keys_borrowings _ (fun x => by split_ifs <;> exact ⟨rfl, rfl⟩) _))
          (Or.inl rfl)
    | rejectBorrowing b =>
      show WellKeyed (rejectBorrowing b s).2
      rcases rejectBorrowing_store b s with e | ⟨br, -, -, e | e⟩
      · rw [e]; exact h
      · rw [e]
        exact wellKeyed_of_tables s _ h (le_refl _) (Or.inl (same _))
          (Or.inl (map_keys_borrowings _ (fun x => by split_ifs <;> exact ⟨rfl, rfl⟩) _))
          (Or.inl rfl)
      · rw [e]
        exact wellKeyed_of_tables s _ h (le_refl _)
          (Or.inl (by simp only [map_id_setCopyStatus]; exact same _))
          (Or.inl (map_keys_borrowings _ (fun x => by split_ifs <;> exact ⟨rfl, rfl⟩) _))
          (Or.inl rfl)
    | returnBook now b =>
      show WellKeyed (returnBook now b s).2
      rcases returnBook_store now b s with e | ⟨br, -, -, e | e | ⟨bk, k, e⟩⟩
      · rw [e]; exact h
      · rw [e]
        exact wellKeyed_of_tables s _ h (le_refl _) (Or.inl (same _))
          (Or.inl (map_keys_borrowings _ (fun x => by split_ifs <;> exact ⟨rfl, rfl⟩) _))
          (Or.inl rfl)
      · rw [e]
        exact wellKeyed_of_tables s _ h (le_refl _)
          (Or.inl (by simp only [map_id_setCopyStatus]; exact same _))
          (Or.inl (map_keys_borrowings _ (fun x => by split_ifs <;> exact ⟨rfl, rfl⟩) _))
          (Or.inl rfl)
      · rw [e]
        exact wellKeyed_of_tables s _ h (le_refl _)
          (Or.inl (by simp only [map_id_setCopyStatus]; exact same _))
          (Or.inl (map_keys_borrowings _ (fun x => by split_ifs <;> exact ⟨rfl, rfl⟩) _))
          (Or.inl (map_id_compactActiveAfter _ _ _))
    | updateOverdueBorrowings now =>
      show WellKeyed (updateOverdueBorrowings now s).2
      exact wellKeyed_of_tables s _ h (le_refl _) (Or.inl (same _))
        (Or.inl (map_keys_borrowings _ (fun x => by split_ifs <;> exact ⟨rfl, rfl⟩) _))
        (Or.inl rfl)
  | addBookCopy b =>
    show WellKeyed (addBookCopy b s).2
    rcases addBookCopy_store b s with e | ⟨n, e⟩
    · rw [e]; exact h
    · rw [e]
      exact wellKeyed_of_tables s _ h (Nat.le_succ _)
        (Or.inr ⟨by simp, Nat.lt_succ_self _⟩) (Or.inl rfl) (Or.inl rfl)
  | removeBookCopy c =>
    show WellKeyed (removeBookCopy c s).2
    rcases removeBookCopy_store c s with e | e
    · rw [e]; exact h
    · rw [e]
      exact wellKeyed_of_tables s _ h (le_refl _)
        (Or.inl ((List.filter_sublist _).map _)) (Or.inl rfl) (Or.inl rfl)
  | deleteBook b =>
    show WellKeyed (deleteBook b s).2
    rcases deleteBook_store b s with e | ⟨-, e | e⟩
    · rw [e]; exact h
    · rw [e]
      exact wellKeyed_of_tables s _ h (le_refl _)
        (Or.inl ((List.filter_sublist _).map _)) (Or.inl rfl) (Or.inl rfl)
    · rw [e]
      exact wellKeyed_of_tables s _ h (le_refl _)
        (Or.inl ((List.filter_sublist _).map _)) (Or.inl rfl) (Or.inl rfl)

/-- Every sequence of service calls keeps the key discipline of the data store. -/
theorem wellKeyed_serviceRun (ops : List ServiceOp) (s : Store) (h : WellKeyed s) :
    WellKeyed (serviceRun s ops) := by
  induction ops generalizing s with
  | nil => exact h
  | cons op ops ih => exact ih _ (wellKeyed_serviceStep s op h)

/-- With unique keys, a row with key `i` is the row found for `i`. -/
theorem eq_of_find?_of_nodup {α : Type} (key : α → Nat) (l : List α)
    (hk : (l.map key).Nodup) (i : Nat) (a : α)
    (ha : l.find? (fun x => decide (key x = i)) = some a) (x : α) (hx : x ∈ l)
    (hid : key x = i) : x = a := by
  have hai : key a = i := by simpa using List.find?_some ha
  exact List.inj_on_of_nodup_map hk hx (List.mem_of_find?_eq_some ha) (hid.trans hai.symm)

/-- A row rewrite keeps each row in its place. -/
theorem getElem?_map_some {α : Type} (f : α → α) (l : List α) (i : Nat) (x : α)
    (h : l[i]? = some x) : (l.map f)[i]? = some (f x) := by
  rw [List.getElem?_map, h]
  rfl

/-- Appending rows keeps each earlier row in its place. -/
theorem getElem?_append_some {α : Type} (l l' : List α) (i : Nat) (x : α)
    (h : l[i]? = some x) : (l ++ l')[i]? = some x := by
  obtain ⟨hi, -⟩ := List.getElem?_eq_some.1 h
  rw [List.getElem?_append_left hi]
  exact h

/-- One service call on a store with unique borrowing ids keeps every borrowing row in its
place, with its id, and either keeps its status or makes a move of `BorrowingMove`. -/
theorem borrowing_step (s : Store) (op : ServiceOp)
    (hk : (s.borrowings.map (fun b => b.id)).Nodup) (i : Nat) (x : Borrowing)
    (hx : s.borrowings[i]? = some x) :
    ∃ y, (serviceStep s op).borrowings[i]? = some y ∧ y.id = x.id ∧
      (y.status = x.status ∨ BorrowingMove op x.status y.status) := by
  have hmem : x ∈ s.borrowings := List.getElem?_mem hx
  have keep : ∀ s' : Store, s'.borrowings = s.borrowings →
      ∃ y, s'.borrowings[i]? = some y ∧ y.id = x.id ∧
        (y.status = x.status ∨ BorrowingMove op x.status y.status) := by
    intro s' e
    exact ⟨x, by rw [e]; exact hx, rfl, Or.inl rfl⟩
  have mapped : ∀ (s' : Store) (f : Borrowing → Borrowing),
      s'.borrowings = s.borrowings.map f → (f x).id = x.id →
      ((f x).status = x.status ∨ BorrowingMove op x.status (f x).status) →
      ∃ y, s'.borrowings[i]? = some y ∧ y.id = x.id ∧
        (y.status = x.status ∨ BorrowingMove op x.status y.status) := by
    intro s' f e h1 h2
    exact ⟨f x, by rw [e]; exact getElem?_map_some _ _ _ _ hx, h1, h2⟩
  cases op with
  | lifecycle op =>
    cases op with
    | reserveBook m b =>
      rcases reserveBook_store m b s with e | ⟨bk, q, -, -, e⟩ <;>
        exact keep (reserveBook m b s).2 (by rw [e])
    | approveReservation o r =>
      rcases approveReservation_store o r s with e | ⟨rv, -, -, e | ⟨ac, -, -, e⟩⟩ <;>
        exact keep (approveReservation o r s).2 (by rw [e])
    | rejectReservation r =>
      rcases rejectReservation_store r s with e | ⟨rv, -, -, e⟩ <;>
        exact keep (rejectReservation r s).2 (by rw [e])
    | cancelReservation m r =>
      rcases cancelReservation_store m r s with e | ⟨rv, -, -, -, e⟩ <;>
        exact keep (cancelReservation m r s).2 (by rw [e])
    | borrowBookCopy now m c =>
      rcases borrowBookCopy_store now m c s with e | ⟨bc, -, -, -, e⟩
      · exact keep (borrowBookCopy now m c s).2 (by rw [e])
      · refine ⟨x, ?_, rfl, Or.inl rfl⟩
        show (borrowBookCopy now m c s).2.borrowings[i]? = some x
        rw [e]
        exact getElem?_append_some _ _ _ _ hx
    | approveBorrowing now b =>
      rcases approveBorrowing_store now b s with e | ⟨br, bc, hbr, hst, -, -, e⟩
      · exact keep (approveBorrowing now b s).2 (by rw [e])
      · refine mapped (approveBorrowing now b s).2
          (fun x => if x.id = b then { x with status := .APPROVED, borrowDate := now } else x)
          (by rw [e]) (by beta_reduce; split_ifs <;> rfl) ?_
        by_cases hid : x.id = b
        · have := eq_of_find?_of_nodup (fun b : Borrowing => b.id) _ hk b br hbr x hmem hid
          subst this
          right
          simp only [hid, if_true, hst]
          trivial
        · left; simp only [hid, if_false]
    | rejectBorrowing b =>
      have hmove : ∀ br, s.borrowing? b = some br → br.status = .PENDING →
          ((if x.id = b then { x with status := BorrowingStatus.REJECTED } else x).status
              = x.status ∨
            BorrowingMove (.lifecycle (.rejectBorrowing b)) x.status
              (if x.id = b then { x with status := BorrowingStatus.REJECTED } else x).status) := by
        intro br hbr hst
        by_cases hid : x.id = b
        · have := eq_of_find?_of_nodup (fun b : Borrowing => b.id) _ hk b br hbr x hmem hid
          subst this
          right
          simp only [hid, if_true, hst]
          trivial
        · left; simp only [hid, if_false]
      rcases rejectBorrowing_store b s with e | ⟨br, hbr, hst, e | e⟩
      · exact keep (rejectBorrowing b s).2 (by rw [e])
      · exact mapped (rejectBorrowing b s).2
          (fun x => if x.id = b then { x with status := .REJECTED } else x)
          (by rw [e]) (by beta_reduce; split_ifs <;> rfl) (hmove br hbr hst)
      · exact mapped (rejectBorrowing b s).2
          (fun x => if x.id = b then { x with status := .REJECTED } else x)
          (by rw [e]) (by beta_reduce; split_ifs <;> rfl) (hmove br hbr hst)
    | returnBook now b =>
      have hmove : ∀ br, s.borrowing? b = some br → br.status = .APPROVED →
          ((if x.id = b then { x with status := BorrowingStatus.RETURNED,
                                      returnDate := some now } else x).status = x.status ∨
            BorrowingMove (.lifecycle (.returnBook now b)) x.status
              (if x.id = b then { x with status := BorrowingStatus.RETURNED,
                                         returnDate := some now } else x).status) := by
        intro br hbr hst
        by_cases hid : x.id = b
        · have := eq_of_find?_of_nodup (fun b : Borrowing => b.id) _ hk b br hbr x hmem hid
          subst this
          right
          simp only [hid, if_true, hst]
          trivial
        · left; simp only [hid, if_false]
      rcases returnBook_store now b s with e | ⟨br, hbr, hst, e | e | ⟨bk, k, e⟩⟩
      · exact keep (returnBook now b s).2 (by rw [e])
      · exact mapped (returnBook now b s).2
          (fun x => if x.id = b then { x with status := .RETURNED, returnDate := some now }
            else x)
          (by rw [e]) (by beta_reduce; split_ifs <;> rfl) (hmove br hbr hst)
      · exact mapped (returnBook now b s).2
          (fun x => if x.id = b then { x with status := .RETURNED, returnDate := some now }
            else x)
          (by rw [e]) (by beta_reduce; split_ifs <;> rfl) (hmove br hbr hst)
      · exact mapped (returnBook now b s).2
          (fun x => if x.id = b then { x with status := .RETURNED, returnDate := some now }
            else x)
          (by rw [e]) (by beta_reduce; split_ifs <;> rfl) (hmove br hbr hst)
    | updateOverdueBorrowings now =>
      refine mapped (updateOverdueBorrowings now s).2
        (fun b => if b.status = .APPROVED ∧ b.dueDate < now
          then { b with status := .OVERDUE } else b) rfl (by beta_reduce; split_ifs <;> rfl) ?_
      by_cases hc : x.status = .APPROVED ∧ x.dueDate < now
      · right
        simp only [hc, and_self, if_true]
        trivial
      · left; simp only [hc, if_false]
  | addBookCopy b =>
    rcases addBookCopy_store b s with e | ⟨n, e⟩ <;>
      exact keep (addBookCopy b s).2 (by rw [e])
  | removeBookCopy c =>
    rcases removeBookCopy_store c s with e | e <;>
      exact keep (removeBookCopy c s).2 (by rw [e])
  | deleteBook b =>
    rcases deleteBook_store b s with e | ⟨-, e | e⟩ <;>
      exact keep (deleteBook b s).2 (by rw [e])

/-- No move of `BorrowingMove` starts from a terminal status. -/
theorem borrowingMove_not_terminal (op : ServiceOp) (a b : BorrowingStatus)
    (h : BorrowingMove op a b) : ¬ a.terminal := by
  unfold BorrowingStatus.terminal
  cases op with
  | lifecycle o => cases o <;> cases a <;> cases b <;> simp_all [BorrowingMove]
  | addBookCopy _ => cases a <;> cases b <;> simp_all [BorrowingMove]
  | removeBookCopy _ => cases a <;> cases b <;> simp_all [BorrowingMove]
  | deleteBook _ => cases a <;> cases b <;> simp_all [BorrowingMove]

/-- C16: in a store that keeps the key discipline, every service call keeps each borrowing row
in its place with its id, and either keeps its status or changes it by PENDING to APPROVED
(`approveBorrowing`), PENDING to REJECTED (`rejectBorrowing`), APPROVED to RETURNED
(`returnBook`) or APPROVED to OVERDUE (`updateOverdueBorrowings`). Consequently a borrowing
that is REJECTED, RETURNED or OVERDUE keeps its status under every sequence of service
calls. -/
theorem borrowing_status_machine (s : Store) (hk : WellKeyed s) :
    (∀ (op : ServiceOp) (i : Nat) (x : Borrowing), s.borrowings[i]? = some x →
      ∃ y, (serviceStep s op).borrowings[i]? = some y ∧ y.id = x.id ∧
        (y.status = x.status ∨ BorrowingMove op x.status y.status)) ∧
    (∀ (ops : List ServiceOp) (i : Nat) (x : Borrowing), s.borrowings[i]? = some x →
      x.status.terminal →
      ∃ y, (serviceRun s ops).borrowings[i]? = some y ∧ y.id = x.id ∧
        y.status = x.status) := by
  refine ⟨fun op i x hx => borrowing_step s op hk.2.1 i x hx, ?_⟩
  intro ops
  induction ops generalizing s with
  | nil => intro i x hx _; exact ⟨x, hx, rfl, rfl⟩
  | cons op ops ih =>
    intro i x hx hterm
    obtain ⟨y, hy, hid, hst⟩ := borrowing_step s op hk.2.1 i x hx
    have hsame : y.status = x.status := by
      rcases hst with h | h
      · exact h
      · exact absurd hterm (borrowingMove_not_terminal op _ _ h)
    obtain ⟨z, hz, hzid, hzst⟩ :=
      ih (serviceStep s op) (wellKeyed_serviceStep s op hk) i y hy (hsame ▸ hterm)
    exact ⟨z, hz, hzid.trans hid, hzst.trans hsame⟩

/-- Witness for C16: the RETURNED borrowing 102 is still RETURNED after a `returnBook` on it,
an `approveBorrowing` on it and an overdue sweep. -/
theorem borrowing_status_machine_witness :
    ∃ y, (serviceRun dueStore [.lifecycle (.returnBook 5 102),
        .lifecycle (.approveBorrowing 6 102),
        .lifecycle (.updateOverdueBorrowings 2000)]).borrowings[2]? = some y ∧
      y.id = 102 ∧ y.status = .RETURNED :=
  (borrowing_status_machine dueStore (by unfold WellKeyed; decide)).2 _ 2
    { id := 102, memberId := 3, bookCopyId := 10, status := .RETURNED,
      borrowDate := 0, dueDate := 1000, returnDate := some 7 } rfl (Or.inr (Or.inl rfl))

/-- One service call keeps every reservation row in its place, with its id, and either keeps
its status or gives it the status a move of `ReservationMove` leads to from the status of the
row found for its id. -/
theorem reservation_step_raw (s : Store) (op : ServiceOp) (i : Nat) (x : Reservation)
    (hx : s.reservations[i]? = some x) :
    ∃ y, (serviceStep s op).reservations[i]? = some y ∧ y.id = x.id ∧
      (y.status = x.status ∨
        ∃ rv, s.reservation? x.id = some rv ∧ ReservationMove op rv.status y.status) := by
  have keep : ∀ s' : Store, s'.reservations = s.reservations →
      ∃ y, s'.reservations[i]? = some y ∧ y.id = x.id ∧
        (y.status = x.status ∨
          ∃ rv, s.reservation? x.id = some rv ∧ ReservationMove op rv.status y.status) := by
    intro s' e
    exact ⟨x, by rw [e]; exact hx, rfl, Or.inl rfl⟩
  have mapped : ∀ (s' : Store) (f : Reservation → Reservation),
      s'.reservations = s.reservations.map f → (f x).id = x.id →
      ((f x).status = x.status ∨
        ∃ rv, s.reservation? x.id = some rv ∧ ReservationMove op rv.status (f x).status) →
      ∃ y, s'.reservations[i]? = some y ∧ y.id = x.id ∧
        (y.status = x.status ∨
          ∃ rv, s.reservation? x.id = some rv ∧ ReservationMove op rv.status y.status) := by
    intro s' f e h1 h2
    exact ⟨f x, by rw [e]; exact getElem?_map_some _ _ _ _ hx, h1, h2⟩
  cases op with
  | lifecycle op =>
    cases op with
    | reserveBook m b =>
      rcases reserveBook_store m b s with e | ⟨bk, q, -, -, e⟩
      · exact keep (reserveBook m b s).2 (by rw [e])
      · refine ⟨x, ?_, rfl, Or.inl rfl⟩
        show (reserveBook m b s).2.reservations[i]? = some x
        rw [e]
        exact getElem?_append_some _ _ _ _ hx
    | approveReservation o r =>
      have hmove : ∀ rv, s.reservation? r = some rv → rv.status = .PENDING →
          ((if x.id = r then { x with status := ReservationStatus.ACTIVE } else x).status
              = x.status ∨
            ∃ rv, s.reservation? x.id = some rv ∧
              ReservationMove (.lifecycle (.approveReservation o r)) rv.status
                (if x.id = r then { x with status := ReservationStatus.ACTIVE } else x).status) := by
        intro rv hrv hst
        by_cases hid : x.id = r
        · right
          refine ⟨rv, by rw [hid]; exact hrv, ?_⟩
          simp only [hid, if_true, hst]
          trivial
        · left; simp only [hid, if_false]
      rcases approveReservation_store o r s with e | ⟨rv, hrv, hst, e | ⟨ac, -, -, e⟩⟩
      · exact keep (approveReservation o r s).2 (by rw [e])
      · exact mapped (approveReservation o r s).2
          (fun x => if x.id = r then { x with status := .ACTIVE } else x)
          (by rw [e]; rfl) (by beta_reduce; split_ifs <;> rfl) (hmove rv hrv hst)
      · exact mapped (approveReservation o r s).2
          (fun x => if x.id = r then { x with status := .ACTIVE } else x)
          (by rw [e]; rfl) (by beta_reduce; split_ifs <;> rfl) (hmove rv hrv hst)
    | rejectReservation r =>
      rcases rejectReservation_store r s with e | ⟨rv, hrv, hst, e⟩
      · exact keep (rejectReservation r s).2 (by rw [e])
      · refine mapped (rejectReservation r s).2
          (fun x =>
            if x.id = r then { x with status := .CANCELLED }
            else if x.bookId = rv.bookId ∧ (x.status = .PENDING ∨ x.status = .ACTIVE) ∧
                x.queuePosition > rv.queuePosition
              then { x with queuePosition := x.queuePosition - 1 }
            else x)
          (by rw [e]; rfl) (by beta_reduce; split_ifs <;> rfl) ?_
        by_cases hid : x.id = r
        · right
          refine ⟨rv, by rw [hid]; exact hrv, ?_⟩
          simp only [hid, if_true, hst]
          trivial
        · left
          simp only [hid, if_false]
          split_ifs <;> rfl
    | cancelReservation m r =>
      rcases cancelReservation_store m r s with e | ⟨rv, hrv, -, hst, e⟩
      · exact keep (cancelReservation m r s).2 (by rw [e])
      · refine mapped (cancelReservation m r s).2
          (fun x =>
            if x.id = r then { x with status := .CANCELLED }
            else if x.bookId = rv.bookId ∧ (x.status = .PENDING ∨ x.status = .ACTIVE) ∧
                x.queuePosition > rv.queuePosition
              then { x with queuePosition := x.queuePosition - 1 }
            else x)
          (by rw [e]; rfl) (by beta_reduce; split_ifs <;> rfl) ?_
        by_cases hid : x.id = r
        · right
          refine ⟨rv, by rw [hid]; exact hrv, ?_⟩
          simp only [hid, if_true]
          rcases hst with h | h <;> rw [h] <;> trivial
        · left
          simp only [hid, if_false]
          split_ifs <;> rfl
    | borrowBookCopy now m c =>
      rcases borrowBookCopy_store now m c s with e | ⟨bc, -, -, -, e⟩ <;>
        exact keep (borrowBookCopy now m c s).2 (by rw [e])
    | approveBorrowing now b =>
      rcases approveBorrowing_store now b s with e | ⟨br, bc, -, -, -, -, e⟩ <;>
        exact keep (approveBorrowing now b s).2 (by rw [e])
    | rejectBorrowing b =>
      rcases rejectBorrowing_store b s with e | ⟨br, -, -, e | e⟩ <;>
        exact keep (rejectBorrowing b s).2 (by rw [e])
    | returnBook now b =>
      rcases returnBook_store now b s with e | ⟨br, -, -, e | e | ⟨bk, k, e⟩⟩
      · exact keep (returnBook now b s).2 (by rw [e])
      · exact keep (returnBook now b s).2 (by rw [e])
      · exact keep (returnBook now b s).2 (by rw [e])
      · exact mapped (returnBook now b s).2
          (fun r =>
            if r.bookId = bk ∧ r.status = .ACTIVE ∧ r.queuePosition > k then
              { r with queuePosition := r.queuePosition - 1 }
            else r)
          (by rw [e]; rfl) (by beta_reduce; split_ifs <;> rfl)
          (Or.inl (by beta_reduce; split_ifs <;> rfl))
    | updateOverdueBorrowings now =>
      exact keep (updateOverdueBorrowings now s).2 rfl
  | addBookCopy b =>
    rcases addBookCopy_store b s with e | ⟨n, e⟩ <;>
      exact keep (addBookCopy b s).2 (by rw [e])
  | removeBookCopy c =>
    rcases removeBookCopy_store c s with e | e <;>
      exact keep (removeBookCopy c s).2 (by rw [e])
  | deleteBook b =>
    rcases deleteBook_store b s with e | ⟨-, e | e⟩ <;>
      exact keep (deleteBook b s).2 (by rw [e])

/-- No move of `ReservationMove` leads to COMPLETED. -/
theorem reservationMove_not_completed (op : ServiceOp) (a : ReservationStatus)
    (h : ReservationMove op a .COMPLETED) : False := by
  cases op with
  | lifecycle o => cases o <;> cases a <;> simp_all [ReservationMove]
  | addBookCopy _ => cases a <;> simp_all [ReservationMove]
  | removeBookCopy _ => cases a <;> simp_all [ReservationMove]
  | deleteBook _ => cases a <;> simp_all [ReservationMove]

/-- A reservation row that is not COMPLETED is not COMPLETED after any sequence of service
calls. -/
theorem reservation_run_not_completed (ops : List ServiceOp) (s : Store) (i : Nat)
    (x : Reservation) (hx : s.reservations[i]? = some x) (hst : x.status ≠ .COMPLETED) :
    ∃ y, (serviceRun s ops).reservations[i]? = some y ∧ y.id = x.id ∧
      y.status ≠ .COMPLETED := by
  induction ops generalizing s x with
  | nil => exact ⟨x, hx, rfl, hst⟩
  | cons op ops ih =>
    obtain ⟨y, hy, hid, hmove⟩ := reservation_step_raw s op i x hx
    have hy' : y.status ≠ .COMPLETED := by
      rcases hmove with h | ⟨rv, -, h⟩
      · rw [h]; exact hst
      · intro hc
        rw [hc] at h
        exact reservationMove_not_completed op _ h
    obtain ⟨z, hz, hzid, hzst⟩ := ih (serviceStep s op) y hy hy'
    exact ⟨z, hz, hzid.trans hid, hzst⟩

/-- C17, as the claim states it, fails: from no store does any sequence of service calls take an
ACTIVE reservation to COMPLETED (no operation writes the status COMPLETED). -/
theorem no_run_completes_a_reservation :
    ¬ ∃ (s : Store) (ops : List ServiceOp) (i : Nat) (x y : Reservation),
      s.reservations[i]? = some x ∧ (serviceRun s ops).reservations[i]? = some y ∧
      x.status = .ACTIVE ∧ y.status = .COMPLETED := by
  rintro ⟨s, ops, i, x, y, hx, hy, hxs, hys⟩
  obtain ⟨z, hz, -, hzs⟩ := reservation_run_not_completed ops s i x hx (by rw [hxs]; decide)
  rw [hy] at hz
  cases hz
  exact hzs hys

/-- C17, amended: in a store that keeps the key discipline, every service call keeps each
reservation row in its place with its id, and either keeps its status or changes it by PENDING
to ACTIVE (`approveReservation`), PENDING to CANCELLED (`rejectReservation`,
`cancelReservation`) or ACTIVE to CANCELLED (`cancelReservation`); a reservation that is not
COMPLETED never becomes COMPLETED under any sequence of service calls; and each of the three
changes is performed by some call in some store reached from the fresh catalogue. -/
theorem reservation_status_machine (s : Store) (hk : WellKeyed s) :
    (∀ (op : ServiceOp) (i : Nat) (x : Reservation), s.reservations[i]? = some x →
      ∃ y, (serviceStep s op).reservations[i]? = some y ∧ y.id = x.id ∧
        (y.status = x.status ∨ ReservationMove op x.status y.status)) ∧
    (∀ (ops : List ServiceOp) (i : Nat) (x : Reservation), s.reservations[i]? = some x →
      x.status ≠ .COMPLETED →
      ∃ y, (serviceRun s ops).reservations[i]? = some y ∧ y.id = x.id ∧
        y.status ≠ .COMPLETED) ∧
    ReservationMoveReached .PENDING .ACTIVE ∧
    ReservationMoveReached .PENDING .CANCELLED ∧
    ReservationMoveReached .ACTIVE .CANCELLED := by
  refine ⟨?_, fun ops i x hx hst => reservation_run_not_completed ops s i x hx hst,
    ?_, ?_, ?_⟩
  · intro op i x hx
    obtain ⟨y, hy, hid, hmove⟩ := reservation_step_raw s op i x hx
    refine ⟨y, hy, hid, ?_⟩
    rcases hmove with h | ⟨rv, hrv, h⟩
    · exact Or.inl h
    · have hxr : x = rv :=
        eq_of_find?_of_nodup (fun r : Reservation => r.id) _ hk.2.2.1 x.id rv hrv x
          (List.getElem?_mem hx) rfl
      rw [hxr]
      exact Or.inr h
  · exact ⟨[.lifecycle (.reserveBook 1 1)], .lifecycle (.approveReservation [] 100), 0,
      { id := 100, memberId := 1, bookId := 1, status := .PENDING, queuePosition := 1 },
      { id := 100, memberId := 1, bookId := 1, status := .ACTIVE, queuePosition := 1 },
      by decide, by decide, rfl, rfl⟩
  · exact ⟨[.lifecycle (.reserveBook 1 1)], .lifecycle (.rejectReservation 100), 0,
      { id := 100, memberId := 1, bookId := 1, status := .PENDING, queuePosition := 1 },
      { id := 100, memberId := 1, bookId := 1, status := .CANCELLED, queuePosition := 1 },
      by decide, by decide, rfl, rfl⟩
  · exact ⟨[.lifecycle (.reserveBook 1 1), .lifecycle (.approveReservation [] 100)],
      .lifecycle (.cancelReservation 1 100), 0,
      { id := 100, memberId := 1, bookId := 1, status := .ACTIVE, queuePosition := 1 },
      { id := 100, memberId := 1, bookId := 1, status := .CANCELLED, queuePosition := 1 },
      by decide, by decide, rfl, rfl⟩

/-- Witness for C17 (amended) on the queue of two: member 1 cancels their ACTIVE reservation,
which is the change ACTIVE to CANCELLED of `cancelReservation`. -/
theorem reservation_status_machine_witness :
    ∃ y, (serviceStep queueOfTwo (.lifecycle (.cancelReservation 1 101))).reservations[0]?
        = some y ∧ y.id = 101 ∧
      (y.status = .ACTIVE ∨
        ReservationMove (.lifecycle (.cancelReservation 1 101)) .ACTIVE y.status) :=
  (reservation_status_machine queueOfTwo (by unfold WellKeyed; decide)).1
    (.lifecycle (.cancelReservation 1 101)) 0
    { id := 101, memberId := 1, bookId := 1, status := .ACTIVE, queuePosition := 1 } rfl

/-- A filter keeps at most one row when no two rows of the table can both pass it. -/
theorem filter_length_le_one {α : Type} (R : α → α → Prop) (p : α → Bool) (l : List α)
    (hR : l.Pairwise R) (hp : ∀ a b, p a = true → p b = true → ¬ R a b) :
    (l.filter p).length ≤ 1 := by
  have hpw : (l.filter p).Pairwise R := hR.sublist (List.filter_sublist l)
  have hall : ∀ a ∈ l.filter p, p a = true := fun a ha => (List.mem_filter.1 ha).2
  cases hf : l.filter p with
  | nil => simp
  | cons a t =>
    cases t with
    | nil => simp
    | cons b t' =>
      rw [hf] at hpw hall
      have hab := (List.pairwise_cons.1 hpw).1 b (List.mem_cons_self _ _)
      exact absurd hab (hp a b (hall a (List.mem_cons_self _ _))
        (hall b (List.mem_cons_of_mem _ (List.mem_cons_self _ _))))

/-- Rewriting reservation rows keeps them pairwise distinct as open reservations when the
rewrite keeps member and book and opens no closed reservation. -/
theorem openDistinct_map (rs : List Reservation) (f : Reservation → Reservation)
    (hf : ∀ x ∈ rs, (f x).memberId = x.memberId ∧ (f x).bookId = x.bookId ∧
      (openReservationStatus (f x).status = true → openReservationStatus x.status = true))
    (h : rs.Pairwise (fun r1 r2 =>
      ¬ (openReservationStatus r1.status = true ∧ openReservationStatus r2.status = true ∧
        r1.memberId = r2.memberId ∧ r1.bookId = r2.bookId))) :
    (rs.map f).Pairwise (fun r1 r2 =>
      ¬ (openReservationStatus r1.status = true ∧ openReservationStatus r2.status = true ∧
        r1.memberId = r2.memberId ∧ r1.bookId = r2.bookId)) := by
  rw [List.pairwise_map]
  refine h.imp_of_mem ?_
  intro a b ha hb hR hcon
  obtain ⟨ha1, ha2, ha3⟩ := hf a ha
  obtain ⟨hb1, hb2, hb3⟩ := hf b hb
  apply hR
  refine ⟨ha3 hcon.1, hb3 hcon.2.1, ?_, ?_⟩
  · rw [← ha1, ← hb1]; exact hcon.2.2.1
  · rw [← ha2, ← hb2]; exact hcon.2.2.2

/-- Rewriting reservation rows keeps the books of open reservations present when the rewrite
keeps the book and opens no closed reservation, and the books table is the same. -/
theorem openHaveBook_map (s s' : Store) (f : Reservation → Reservation)
    (hr : s'.reservations = s.reservations.map f) (hb : s'.books = s.books)
    (hf : ∀ x ∈ s.reservations, (f x).memberId = x.memberId ∧ (f x).bookId = x.bookId ∧
      (openReservationStatus (f x).status = true → openReservationStatus x.status = true))
    (h : OpenReservationsHaveBook s) : OpenReservationsHaveBook s' := by
  intro y hy hopen
  rw [hr] at hy
  obtain ⟨x, hx, rfl⟩ := List.mem_map.1 hy
  obtain ⟨-, h2, h3⟩ := hf x hx
  have := h x hx (h3 hopen)
  unfold Store.book? at this ⊢
  rw [hb, h2]
  exact this

/-- Deleting the rows of book `b` does not change which row is found for another book id. -/
theorem find?_book_filter_ne (b i : Nat) (hne : i ≠ b) (l : List Book) :
    (l.filter (fun x => decide (x.id ≠ b))).find? (fun x => decide (x.id = i))
      = l.find? (fun x => decide (x.id = i)) := by
  rw [List.find?_filter]
  congr 1
  funext a
  by_cases h : a.id = i
  · simp [h, hne]
  · simp [h]

/-- Every service call on a store that keeps the key discipline keeps the open reservations
pairwise distinct per (member, book) and keeps their books present. -/
theorem reservationInv_step (s : Store) (op : ServiceOp) (hk : WellKeyed s)
    (h1 : OpenReservationsDistinct s) (h2 : OpenReservationsHaveBook s) :
    OpenReservationsDistinct (serviceStep s op) ∧
    OpenReservationsHaveBook (serviceStep s op) := by
  have keep : ∀ s' : Store, s'.reservations = s.reservations → s'.books = s.books →
      OpenReservationsDistinct s' ∧ OpenReservationsHaveBook s' := by
    intro s' er eb
    refine ⟨?_, ?_⟩
    · unfold OpenReservationsDistinct; rw [er]; exact h1
    · intro r hr hopen
      rw [er] at hr
      have := h2 r hr hopen
      unfold Store.book? at this ⊢
      rw [eb]; exact this
  have mapped : ∀ (s' : Store) (f : Reservation → Reservation),
      s'.reservations = s.reservations.map f → s'.books = s.books →
      (∀ x ∈ s.reservations, (f x).memberId = x.memberId ∧ (f x).bookId = x.bookId ∧
        (openReservationStatus (f x).status = true →
          openReservationStatus x.status = true)) →
      OpenReservationsDistinct s' ∧ OpenReservationsHaveBook s' := by
    intro s' f er eb hf
    refine ⟨?_, openHaveBook_map s s' f er eb hf h2⟩
    unfold OpenReservationsDistinct
    rw [er]
    exact openDistinct_map _ f hf h1
  cases op with
  | lifecycle op =>
    cases op with
    | reserveBook m b =>
      rcases reserveBook_store m b s with e | ⟨bk, q, hbk, hno, e⟩
      · exact keep (reserveBook m b s).2 (by rw [e]) (by rw [e])
      · show OpenReservationsDistinct (reserveBook m b s).2 ∧
          OpenReservationsHaveBook (reserveBook m b s).2
        rw [e]
        refine ⟨?_, ?_⟩
        · unfold OpenReservationsDistinct
          show List.Pairwise _ (s.reservations ++ [_])
          rw [List.pairwise_append]
          refine ⟨h1, List.pairwise_singleton _ _, ?_⟩
          intro a ha c hc hcon
          rw [List.mem_singleton] at hc
          subst hc
          apply hno
          refine ⟨a, ha, hcon.2.2.1, hcon.2.2.2, ?_⟩
          simpa [openReservationStatus] using hcon.1
        · intro r hr hopen
          have hr' : r ∈ s.reservations ++
              [{ id := s.nextId, memberId := m, bookId := b, status := .PENDING,
                 queuePosition := q }] := hr
          rw [List.mem_append, List.mem_singleton] at hr'
          rcases hr' with hr' | hr'
          · exact h2 r hr' hopen
          · subst hr'
            show (s.book? b).isSome = true
            rw [hbk]; rfl
    | approveReservation o r =>
      have hf : ∀ rv, s.reservation? r = some rv → rv.status = .PENDING →
          ∀ x ∈ s.reservations,
            (if x.id = r then { x with status := ReservationStatus.ACTIVE } else x).memberId
              = x.memberId ∧
            (if x.id = r then { x with status := ReservationStatus.ACTIVE } else x).bookId
              = x.bookId ∧
            (openReservationStatus
              (if x.id = r then { x with status := ReservationStatus.ACTIVE } else x).status
                = true → openReservationStatus x.status = true) := by
        intro rv hrv hst x hx
        by_cases hid : x.id = r
        · have := eq_of_find?_of_nodup (fun r : Reservation => r.id) _ hk.2.2.1 r rv hrv x
            hx hid
          subst this
          simp [hid, hst, openReservationStatus]
        · simp [hid]
      rcases approveReservation_store o r s with e | ⟨rv, hrv, hst, e | ⟨ac, -, -, e⟩⟩
      · exact keep (approveReservation o r s).2 (by rw [e]) (by rw [e])
      · exact mapped (approveReservation o r s).2
          (fun x => if x.id = r then { x with status := .ACTIVE } else x)
          (by rw [e]; rfl) (by rw [e]) (hf rv hrv hst)
      · exact mapped (approveReservation o r s).2
          (fun x => if x.id = r then { x with status := .ACTIVE } else x)
          (by rw [e]; rfl) (by rw [e]) (hf rv hrv hst)
    | rejectReservation r =>
      rcases rejectReservation_store r s with e | ⟨rv, hrv, hst, e⟩
      · exact keep (rejectReservation r s).2 (by rw [e]) (by rw [e])
      · refine mapped (rejectReservation r s).2
          (fun x =>
            if x.id = r then { x with status := .CANCELLED }
            else if x.bookId = rv.bookId ∧ (x.status = .PENDING ∨ x.status = .ACTIVE) ∧
                x.queuePosition > rv.queuePosition
              then { x with queuePosition := x.queuePosition - 1 }
            else x)
          (by rw [e]; rfl) (by rw [e]) ?_
        intro x _
        beta_reduce
        split_ifs <;> simp [openReservationStatus]
    | cancelReservation m r =>
      rcases cancelReservation_store m r s with e | ⟨rv, hrv, -, hst, e⟩
      · exact keep (cancelReservation m r s).2 (by rw [e]) (by rw [e])
      · refine mapped (cancelReservation m r s).2
          (fun x =>
            if x.id = r then { x with status := .CANCELLED }
            else if x.bookId = rv.bookId ∧ (x.status = .PENDING ∨ x.status = .ACTIVE) ∧
                x.queuePosition > rv.queuePosition
              then { x with queuePosition := x.queuePosition - 1 }
            else x)
          (by rw [e]; rfl) (by rw [e]) ?_
        intro x _
        beta_reduce
        split_ifs <;> simp [openReservationStatus]
    | borrowBookCopy now m c =>
      rcases borrowBookCopy_store now m c s with e | ⟨bc, -, -, -, e⟩ <;>
        exact keep (borrowBookCopy now m c s).2 (by rw [e]) (by rw [e])
    | approveBorrowing now b =>
      rcases approveBorrowing_store now b s with e | ⟨br, bc, -, -, -, -, e⟩ <;>
        exact keep (approveBorrowing now b s).2 (by rw [e]) (by rw [e])
    | rejectBorrowing b =>
      rcases rejectBorrowing_store b s with e | ⟨br, -, -, e | e⟩ <;>
        exact keep (rejectBorrowing b s).2 (by rw [e]) (by rw [e])
    | returnBook now b =>
      rcases returnBook_store now b s with e | ⟨br, -, -, e | e | ⟨bk, k, e⟩⟩
      · exact keep (returnBook now b s).2 (by rw [e]) (by rw [e])
      · exact keep (returnBook now b s).2 (by rw [e]) (by rw [e])
      · exact keep (returnBook now b s).2 (by rw [e]) (by rw [e])
      · refine mapped (returnBook now b s).2
          (fun r =>
            if r.bookId = bk ∧ r.status = .ACTIVE ∧ r.queuePosition > k then
              { r with queuePosition := r.queuePosition - 1 }
            else r)
          (by rw [e]; rfl) (by rw [e]) ?_
        intro x _
        beta_reduce
        split_ifs <;> simp
    | updateOverdueBorrowings now =>
      exact keep (updateOverdueBorrowings now s).2 rfl rfl
  | addBookCopy b =>
    rcases addBookCopy_store b s with e | ⟨n, e⟩ <;>
      exact keep (addBookCopy b s).2 (by rw [e]) (by rw [e])
  | removeBookCopy c =>
    rcases removeBookCopy_store c s with e | e <;>
      exact keep (removeBookCopy c s).2 (by rw [e]) (by rw [e])
  | deleteBook b =>
    rcases deleteBook_store b s with e | ⟨hno, e | e⟩
    · exact keep (deleteBook b s).2 (by rw [e]) (by rw [e])
    · exact keep (deleteBook b s).2 (by rw [e]) (by rw [e])
    · show OpenReservationsDistinct (deleteBook b s).2 ∧
        OpenReservationsHaveBook (deleteBook b s).2
      rw [e]
      refine ⟨h1, ?_⟩
      intro r hr hopen
      have hr' : r ∈ s.reservations := hr
      have hne : r.bookId ≠ b := by
        intro hb
        apply hno
        refine ⟨r, hr', hb, ?_⟩
        simpa [openReservationStatus] using hopen
      have := h2 r hr' hopen
      unfold Store.book? at this ⊢
      show (List.find? _ (s.books.filter _)).isSome = true
      rw [find?_book_filter_ne b r.bookId hne]
      exact this

/-- An open reservation of `(m, b)` means the conflict lookup of `reserveBook` finds one. -/
theorem find?_openReservation_isSome (m b : Nat) (s : Store) (h : HasOpenReservation m b s) :
    ∃ r, s.reservations.find? (fun r =>
      decide (r.memberId = m) && decide (r.bookId = b) && openReservationStatus r.status)
      = some r := by
  obtain ⟨r, hr, hm, hb, hs⟩ := h
  rw [← Option.isSome_iff_exists, List.find?_isSome]
  refine ⟨r, hr, ?_⟩
  simp only [openReservationStatus, Bool.and_eq_true, Bool.or_eq_true, decide_eq_true_eq]
  exact ⟨⟨hm, hb⟩, hs⟩

/-- Every sequence of service calls on a store that keeps the key discipline keeps the open
reservations pairwise distinct per (member, book) and keeps their books present. -/
theorem reservationInv_run (ops : List ServiceOp) (s : Store) (hk : WellKeyed s)
    (h1 : OpenReservationsDistinct s) (h2 : OpenReservationsHaveBook s) :
    OpenReservationsDistinct (serviceRun s ops) ∧
    OpenReservationsHaveBook (serviceRun s ops) := by
  induction ops generalizing s with
  | nil => exact ⟨h1, h2⟩
  | cons op ops ih =>
    obtain ⟨h1', h2'⟩ := reservationInv_step s op hk h1 h2
    exact ih _ (wellKeyed_serviceStep s op hk) h1' h2'

/-- C13: in every store reached by service calls from a store without reservations (that keeps
the key discipline of the data store), each (member, book) pair has at most one PENDING or
ACTIVE reservation, and `reserveBook(m, b)` fails with the 'already have an active
reservation' error, leaving the store as it was, whenever `m` has an open reservation of
`b`. -/
theorem one_open_reservation_per_pair (s0 : Store) (ops : List ServiceOp)
    (hk : WellKeyed s0) (h0 : s0.reservations = []) :
    OneOpenReservationPerPair (serviceRun s0 ops) ∧
    ∀ m b : Nat, HasOpenReservation m b (serviceRun s0 ops) →
      reserveBook m b (serviceRun s0 ops) =
        (.error "You already have an active reservation for this book",
          serviceRun s0 ops) := by
  have hd0 : OpenReservationsDistinct s0 := by
    unfold OpenReservationsDistinct; rw [h0]; exact List.Pairwise.nil
  have hb0 : OpenReservationsHaveBook s0 := by
    intro r hr; rw [h0] at hr; exact absurd hr (List.not_mem_nil r)
  obtain ⟨hd, hb⟩ := reservationInv_run ops s0 hk hd0 hb0
  refine ⟨?_, ?_⟩
  · intro m b
    refine filter_length_le_one _ _ _ hd ?_
    intro x y hx hy hR
    simp only [Bool.and_eq_true, decide_eq_true_eq] at hx hy
    exact hR ⟨hx.2, hy.2, hx.1.1.trans hy.1.1.symm, hx.1.2.trans hy.1.2.symm⟩
  · intro m b hopen
    obtain ⟨x, hx⟩ := find?_openReservation_isSome m b _ hopen
    obtain ⟨r, hr, -, hrb, hrs⟩ := hopen
    have hbook := hb r hr (by simpa [openReservationStatus] using hrs)
    rw [hrb] at hbook
    obtain ⟨bk, hbk⟩ := Option.isSome_iff_exists.1 hbook
    unfold Store.book? at hbk
    unfold reserveBook
    rw [hbk]
    simp only [hx]

/-- Witness for C13 on the open catalogue: after member 1 has reserved book 2, had the
reservation approved, and book 1 has been deleted, a second `reserveBook(1, 2)` is refused,
and the pair (1, 2) has one open reservation. -/
theorem one_open_reservation_per_pair_witness :
    (serviceRun openCatalogue
      [.lifecycle (.reserveBook 1 2), .lifecycle (.approveReservation [] 103),
       .deleteBook 1, .lifecycle (.reserveBook 1 2)]).reservations.map
        (fun r => (r.memberId, r.bookId, r.status))
      = [(1, 2, .ACTIVE)] ∧
    OneOpenReservationPerPair (serviceRun openCatalogue
      [.lifecycle (.reserveBook 1 2), .lifecycle (.approveReservation [] 103),
       .deleteBook 1, .lifecycle (.reserveBook 1 2)]) :=
  ⟨by decide,
   (one_open_reservation_per_pair openCatalogue _ (by unfold WellKeyed; decide) rfl).1⟩

/-- Under the key discipline, the open borrowing found for id `b` is the only open borrowing of
its copy. -/
theorem sole_open_borrowing (s : Store) (hA : OpenBorrowingsDistinct s)
    (b : Nat) (br : Borrowing) (hbr : s.borrowing? b = some br)
    (hopen : openBorrowingStatus br.status = true) :
    ∀ a ∈ s.borrowings, a.bookCopyId = br.bookCopyId → a.id ≠ b →
      openBorrowingStatus a.status = false := by
  intro a ha hcopy hid
  unfold Store.borrowing? at hbr
  have hbrm : br ∈ s.borrowings := List.mem_of_find?_eq_some hbr
  have hbid : br.id = b := by simpa using List.find?_some hbr
  have hne : a ≠ br := fun h => hid (h ▸ hbid)
  have hsymm : Symmetric (fun b1 b2 : Borrowing =>
      ¬ (openBorrowingStatus b1.status = true ∧ openBorrowingStatus b2.status = true ∧
        b1.bookCopyId = b2.bookCopyId)) := by
    intro x y h hcon
    exact h ⟨hcon.2.1, hcon.1, hcon.2.2.symm⟩
  have := List.Pairwise.forall hsymm hA ha hbrm hne
  by_contra hcon
  exact this ⟨by simpa using hcon, hopen, hcopy⟩

/-- A copy row with id `i` has status `st` after `setCopyStatus i st`, and every other row is
an old row. -/
theorem mem_setCopyStatus (i : Nat) (st : CopyStatus) (cs : List BookCopy) (c : BookCopy)
    (hc : c ∈ setCopyStatus i st cs) :
    (c.id = i → c.status = st) ∧ (c.id ≠ i → c ∈ cs) := by
  unfold setCopyStatus at hc
  obtain ⟨x, hx, rfl⟩ := List.mem_map.1 hc
  by_cases h : x.id = i
  · simp [h]
  · simp [h, hx]

/-- Rewriting borrowing rows keeps the open borrowings pairwise on distinct copies when the
rewrite keeps the copy and opens no closed borrowing. -/
theorem openBorrowingsDistinct_map (bs : List Borrowing) (f : Borrowing → Borrowing)
    (hf : ∀ x ∈ bs, (f x).bookCopyId = x.bookCopyId ∧
      (openBorrowingStatus (f x).status = true → openBorrowingStatus x.status = true))
    (h : bs.Pairwise (fun b1 b2 =>
      ¬ (openBorrowingStatus b1.status = true ∧ openBorrowingStatus b2.status = true ∧
        b1.bookCopyId = b2.bookCopyId))) :
    (bs.map f).Pairwise (fun b1 b2 =>
      ¬ (openBorrowingStatus b1.status = true ∧ openBorrowingStatus b2.status = true ∧
        b1.bookCopyId = b2.bookCopyId)) := by
  rw [List.pairwise_map]
  refine h.imp_of_mem ?_
  intro a b ha hb hR hcon
  obtain ⟨ha1, ha2⟩ := hf a ha
  obtain ⟨hb1, hb2⟩ := hf b hb
  apply hR
  refine ⟨ha2 hcon.1, hb2 hcon.2.1, ?_⟩
  rw [← ha1, ← hb1]; exact hcon.2.2

/-- The copy statuses still match the borrowings after the borrowing rows are rewritten and the
copies with id `i` get status `st`, when rows of other copies keep or lose their PENDING or
APPROVED status and the rewritten rows of copy `i` agree with `st`. -/
theorem matches_update (s s' : Store) (f : Borrowing → Borrowing) (i : Nat) (st : CopyStatus)
    (hb : s'.borrowings = s.borrowings.map f)
    (hc : s'.bookCopies = setCopyStatus i st s.bookCopies)
    (hf : ∀ a ∈ s.borrowings, (f a).bookCopyId = a.bookCopyId)
    (hother : ∀ a ∈ s.borrowings, a.bookCopyId ≠ i →
      ((f a).status = .PENDING → a.status = .PENDING) ∧
      ((f a).status = .APPROVED → a.status = .APPROVED))
    (hthis : ∀ a ∈ s.borrowings, a.bookCopyId = i →
      ((f a).status = .PENDING → st = .RESERVED) ∧
      ((f a).status = .APPROVED → st = .BORROWED))
    (hB : CopyStatusMatchesBorrowing s) : CopyStatusMatchesBorrowing s' := by
  intro y hy c hcm hid
  rw [hb] at hy
  rw [hc] at hcm
  obtain ⟨a, ha, rfl⟩ := List.mem_map.1 hy
  rw [hf a ha] at hid
  obtain ⟨h1, h2⟩ := mem_setCopyStatus i st _ c hcm
  by_cases hi : c.id = i
  · have hai : a.bookCopyId = i := hid ▸ hi
    rw [h1 hi]
    exact hthis a ha hai
  · have hai : a.bookCopyId ≠ i := fun h => hi (hid.trans h)
    obtain ⟨o1, o2⟩ := hother a ha hai
    obtain ⟨b1, b2⟩ := hB a ha c (h2 hi) hid
    exact ⟨fun h => b1 (o1 h), fun h => b2 (o2 h)⟩

/-- The copy statuses still match the borrowings after the borrowing rows are rewritten and
copy rows are removed, when every row keeps or loses its PENDING or APPROVED status. -/
theorem matches_rows (s s' : Store) (f : Borrowing → Borrowing)
    (hb : s'.borrowings = s.borrowings.map f)
    (hc : ∀ c ∈ s'.bookCopies, c ∈ s.bookCopies)
    (hf : ∀ a ∈ s.borrowings, (f a).bookCopyId = a.bookCopyId)
    (hrows : ∀ a ∈ s.borrowings,
      ((f a).status = .PENDING → a.status = .PENDING) ∧
      ((f a).status = .APPROVED → a.status = .APPROVED))
    (hB : CopyStatusMatchesBorrowing s) : CopyStatusMatchesBorrowing s' := by
  intro y hy c hcm hid
  rw [hb] at hy
  obtain ⟨a, ha, rfl⟩ := List.mem_map.1 hy
  rw [hf a ha] at hid
  obtain ⟨o1, o2⟩ := hrows a ha
  obtain ⟨b1, b2⟩ := hB a ha c (hc c hcm) hid
  exact ⟨fun h => b1 (o1 h), fun h => b2 (o2 h)⟩

/-- Every service call on a store that keeps the key discipline keeps the open borrowings on
pairwise distinct copies and keeps the copy statuses matching the borrowings. -/
theorem borrowingInv_step (s : Store) (op : ServiceOp) (hk : WellKeyed s)
    (hA : OpenBorrowingsDistinct s) (hB : CopyStatusMatchesBorrowing s) :
    OpenBorrowingsDistinct (serviceStep s op) ∧
    CopyStatusMatchesBorrowing (serviceStep s op) := by
  have keepSub : ∀ s' : Store, s'.borrowings = s.borrowings →
      (∀ c ∈ s'.bookCopies, c ∈ s.bookCopies) →
      OpenBorrowingsDistinct s' ∧ CopyStatusMatchesBorrowing s' := by
    intro s' eb hc
    refine ⟨?_, ?_⟩
    · unfold OpenBorrowingsDistinct; rw [eb]; exact hA
    · exact matches_rows s s' id (by rw [eb, List.map_id]) hc (fun _ _ => rfl)
        (fun _ _ => ⟨id, id⟩) hB
  have keep : ∀ s' : Store, s'.borrowings = s.borrowings → s'.bookCopies = s.bookCopies →
      OpenBorrowingsDistinct s' ∧ CopyStatusMatchesBorrowing s' := by
    intro s' eb ec
    exact keepSub s' eb (fun c hc => by rw [ec] at hc; exact hc)
  have closing : ∀ (s' : Store) (b : Nat) (br : Borrowing) (f : Borrowing → Borrowing),
      s.borrowing? b = some br → openBorrowingStatus br.status = true →
      s'.borrowings = s.borrowings.map f →
      (∀ a, (f a).bookCopyId = a.bookCopyId) →
      (∀ a, a.id ≠ b → f a = a) →
      (∀ a, a.id = b → openBorrowingStatus (f a).status = false) →
      ((∀ c ∈ s'.bookCopies, c ∈ s.bookCopies) ∨
        ∃ st, s'.bookCopies = setCopyStatus br.bookCopyId st s.bookCopies) →
      OpenBorrowingsDistinct s' ∧ CopyStatusMatchesBorrowing s' := by
    intro s' b br f hbr hopen eb hf hne heq hcopies
    have hclosed : ∀ a, a.id = b →
        ((f a).status = .PENDING → False) ∧ ((f a).status = .APPROVED → False) := by
      intro a ha
      have := heq a ha
      constructor <;> intro h <;> rw [h] at this <;> simp [openBorrowingStatus] at this
    have hsole := sole_open_borrowing s hA b br hbr hopen
    refine ⟨?_, ?_⟩
    · unfold OpenBorrowingsDistinct
      rw [eb]
      refine openBorrowingsDistinct_map _ f ?_ hA
      intro x _
      refine ⟨hf x, fun h => ?_⟩
      by_cases hid : x.id = b
      · rw [heq x hid] at h; cases h
      · rw [hne x hid] at h; exact h
    · have hrows : ∀ a ∈ s.borrowings,
          ((f a).status = .PENDING → a.status = .PENDING) ∧
          ((f a).status = .APPROVED → a.status = .APPROVED) := by
        intro a _
        by_cases hid : a.id = b
        · exact ⟨fun h => ((hclosed a hid).1 h).elim, fun h => ((hclosed a hid).2 h).elim⟩
        · rw [hne a hid]; exact ⟨id, id⟩
      rcases hcopies with hc | ⟨st, hc⟩
      · exact matches_rows s s' f eb hc (fun a _ => hf a) hrows hB
      · refine matches_update s s' f br.bookCopyId st eb hc (fun a _ => hf a)
          (fun a ha _ => hrows a ha) ?_ hB
        intro a ha hcopy
        by_cases hid : a.id = b
        · exact ⟨fun h => ((hclosed a hid).1 h).elim, fun h => ((hclosed a hid).2 h).elim⟩
        · have hno := hsole a ha hcopy hid
          rw [hne a hid]
          constructor <;> intro h <;> rw [h] at hno <;>
            simp [openBorrowingStatus] at hno
  cases op with
  | lifecycle op =>
    cases op with
    | reserveBook m b =>
      rcases reserveBook_store m b s with e | ⟨bk, q, -, -, e⟩ <;>
        exact keep (reserveBook m b s).2 (by rw [e]) (by rw [e])
    | approveReservation o r =>
      rcases approveReservation_store o r s with e | ⟨rv, -, -, e | ⟨ac, hac, hav, e⟩⟩
      · exact keep (approveReservation o r s).2 (by rw [e]) (by rw [e])
      · exact keep (approveReservation o r s).2 (by rw [e]) (by rw [e])
      · show OpenBorrowingsDistinct (approveReservation o r s).2 ∧
          CopyStatusMatchesBorrowing (approveReservation o r s).2
        refine ⟨?_, ?_⟩
        · unfold OpenBorrowingsDistinct; rw [e]; exact hA
        · refine matches_update s _ id ac.id .RESERVED (by rw [e]; exact (List.map_id _).symm)
            (by rw [e]) (fun _ _ => rfl) (fun _ _ _ => ⟨id, id⟩) ?_ hB
          intro a ha hcopy
          refine ⟨fun _ => rfl, fun h => ?_⟩
          have := (hB a ha ac hac hcopy.symm).2 h
          rw [hav] at this
          cases this
    | rejectReservation r =>
      rcases rejectReservation_store r s with e | ⟨rv, -, -, e⟩ <;>
        exact keep (rejectReservation r s).2 (by rw [e]) (by rw [e])
    | cancelReservation m r =>
      rcases cancelReservation_store m r s with e | ⟨rv, -, -, -, e⟩ <;>
        exact keep (cancelReservation m r s).2 (by rw [e]) (by rw [e])
    | borrowBookCopy now m c =>
      rcases borrowBookCopy_store now m c s with e | ⟨bc, hbc, hav, -, e⟩
      · exact keep (borrowBookCopy now m c s).2 (by rw [e]) (by rw [e])
      · unfold Store.copy? at hbc
        have hbcm : bc ∈ s.bookCopies := List.mem_of_find?_eq_some hbc
        have hbcid : bc.id = c := by simpa using List.find?_some hbc
        have hnoopen : ∀ a ∈ s.borrowings, a.bookCopyId = c →
            a.status ≠ .PENDING ∧ a.status ≠ .APPROVED := by
          intro a ha hcopy
          obtain ⟨h1, h2⟩ := hB a ha bc hbcm (hbcid.trans hcopy.symm)
          constructor <;> intro h
          · have := h1 h; rw [hav] at this; cases this
          · have := h2 h; rw [hav] at this; cases this
        show OpenBorrowingsDistinct (borrowBookCopy now m c s).2 ∧
          CopyStatusMatchesBorrowing (borrowBookCopy now m c s).2
        rw [e]
        refine ⟨?_, ?_⟩
        · unfold OpenBorrowingsDistinct
          show List.Pairwise _ (s.borrowings ++ [_])
          rw [List.pairwise_append]
          refine ⟨hA, List.pairwise_singleton _ _, ?_⟩
          intro a ha x hx hcon
          rw [List.mem_singleton] at hx
          subst hx
          obtain ⟨n1, n2⟩ := hnoopen a ha hcon.2.2
          have := hcon.1
          simp only [openBorrowingStatus, Bool.or_eq_true, decide_eq_true_eq] at this
          rcases this with h | h
          · exact n1 h
          · exact n2 h
        · intro y hy x hx hid
          have hy' : y ∈ s.borrowings ++
              [{ id := s.nextId, memberId := m, bookCopyId := c, status := .PENDING,
                 borrowDate := now, dueDate := addDays s.zone now 14, returnDate := none }] := hy
          have hx' : x ∈ setCopyStatus c .RESERVED s.bookCopies := hx
          obtain ⟨x1, x2⟩ := mem_setCopyStatus c .RESERVED _ x hx'
          rw [List.mem_append, List.mem_singleton] at hy'
          rcases hy' with hy' | hy'
          · by_cases hxc : x.id = c
            · obtain ⟨n1, n2⟩ := hnoopen y hy' (hid.symm.trans hxc)
              exact ⟨fun h => (n1 h).elim, fun h => (n2 h).elim⟩
            · exact hB y hy' x (x2 hxc) hid
          · subst hy'
            refine ⟨fun _ => x1 hid, fun h => ?_⟩
            cases h
    | approveBorrowing now b =>
      rcases approveBorrowing_store now b s with e | ⟨br, bc, hbr, hst, -, -, e⟩
      · exact keep (approveBorrowing now b s).2 (by rw [e]) (by rw [e])
      · have hopen : openBorrowingStatus br.status = true := by
          rw [hst]; rfl
        have hsole := sole_open_borrowing s hA b br hbr hopen
        have hrow : ∀ a ∈ s.borrowings, a.id = b → a = br := fun a ha hid =>
          eq_of_find?_of_nodup (fun x : Borrowing => x.id) _ hk.2.1 b br hbr a ha hid
        show OpenBorrowingsDistinct (approveBorrowing now b s).2 ∧
          CopyStatusMatchesBorrowing (approveBorrowing now b s).2
        refine ⟨?_, ?_⟩
        · unfold OpenBorrowingsDistinct
          rw [e]
          refine openBorrowingsDistinct_map _ _ ?_ hA
          intro x hx
          by_cases hid : x.id = b
          · have := hrow x hx hid
            subst this
            simp [hid, hopen]
          · simp [hid]
        · refine matches_update s _
            (fun x => if x.id = b then { x with status := .APPROVED, borrowDate := now }
              else x)
            br.bookCopyId .BORROWED (by rw [e]) (by rw [e]) ?_ ?_ ?_ hB
          · intro a _; beta_reduce; split_ifs <;> rfl
          · intro a ha hcopy
            by_cases hid : a.id = b
            · exact absurd (congrArg Borrowing.bookCopyId (hrow a ha hid)) hcopy
            · simp [hid]
          · intro a ha hcopy
            by_cases hid : a.id = b
            · simp [hid]
            · have hno := hsole a ha hcopy hid
              simp only [hid, if_false]
              constructor <;> intro h <;> rw [h] at hno <;>
                simp [openBorrowingStatus] at hno
    | rejectBorrowing b =>
      rcases rejectBorrowing_store b s with e | ⟨br, hbr, hst, e | e⟩
      · exact keep (rejectBorrowing b s).2 (by rw [e]) (by rw [e])
      · exact closing (rejectBorrowing b s).2 b br
          (fun x => if x.id = b then { x with status := .REJECTED } else x)
          hbr (by rw [hst]; rfl) (by rw [e])
          (fun a => by beta_reduce; split_ifs <;> rfl)
          (fun a h => by simp [h]) (fun a h => by simp [h, openBorrowingStatus])
          (Or.inl (fun c hc => by rw [e] at hc; exact hc))
      · exact closing (rejectBorrowing b s).2 b br
          (fun x => if x.id = b then { x with status := .REJECTED } else x)
          hbr (by rw [hst]; rfl) (by rw [e])
          (fun a => by beta_reduce; split_ifs <;> rfl)
          (fun a h => by simp [h]) (fun a h => by simp [h, openBorrowingStatus])
          (Or.inr ⟨.AVAILABLE, by rw [e]⟩)
    | returnBook now b =>
      rcases returnBook_store now b s with e | ⟨br, hbr, hst, e | e | ⟨bk, k, e⟩⟩
      · exact keep (returnBook now b s).2 (by rw [e]) (by rw [e])
      · exact closing (returnBook now b s).2 b br
          (fun x => if x.id = b then { x with status := .RETURNED, returnDate := some now }
            else x)
          hbr (by rw [hst]; rfl) (by rw [e])
          (fun a => by beta_reduce; split_ifs <;> rfl)
          (fun a h => by simp [h]) (fun a h => by simp [h, openBorrowingStatus])
          (Or.inl (fun c hc => by rw [e] at hc; exact hc))
      · exact closing (returnBook now b s).2 b br
          (fun x => if x.id = b then { x with status := .RETURNED, returnDate := some now }
            else x)
          hbr (by rw [hst]; rfl) (by rw [e])
          (fun a => by beta_reduce; split_ifs <;> rfl)
          (fun a h => by simp [h]) (fun a h => by simp [h, openBorrowingStatus])
          (Or.inr ⟨.AVAILABLE, by rw [e]⟩)
      · exact closing (returnBook now b s).2 b br
          (fun x => if x.id = b then { x with status := .RETURNED, returnDate := some now }
            else x)
          hbr (by rw [hst]; rfl) (by rw [e])
          (fun a => by beta_reduce; split_ifs <;> rfl)
          (fun a h => by simp [h]) (fun a h => by simp [h, openBorrowingStatus])
          (Or.inr ⟨.RESERVED, by rw [e]⟩)
    | updateOverdueBorrowings now =>
      show OpenBorrowingsDistinct (updateOverdueBorrowings now s).2 ∧
        CopyStatusMatchesBorrowing (updateOverdueBorrowings now s).2
      have hrows : ∀ a : Borrowing,
          ((if a.status = .APPROVED ∧ a.dueDate < now
              then { a with status := BorrowingStatus.OVERDUE } else a).status = .PENDING →
            a.status = .PENDING) ∧
          ((if a.status = .APPROVED ∧ a.dueDate < now
              then { a with status := BorrowingStatus.OVERDUE } else a).status = .APPROVED →
            a.status = .APPROVED) := by
        intro a
        by_cases hc : a.status = .APPROVED ∧ a.dueDate < now
        · simp [hc]
        · simp only [hc, if_false]; exact ⟨id, id⟩
      refine ⟨?_, ?_⟩
      · unfold OpenBorrowingsDistinct
        show List.Pairwise _ (s.borrowings.map _)
        refine openBorrowingsDistinct_map _ _ ?_ hA
        intro x _
        refine ⟨by split_ifs <;> rfl, fun h => ?_⟩
        simp only [openBorrowingStatus, Bool.or_eq_true, decide_eq_true_eq] at h ⊢
        rcases h with h | h
        · exact Or.inl ((hrows x).1 h)
        · exact Or.inr ((hrows x).2 h)
      · exact matches_rows s _
          (fun b => if b.status = .APPROVED ∧ b.dueDate < now
            then { b with status := .OVERDUE } else b)
          rfl (fun c hc => hc) (fun a _ => by beta_reduce; split_ifs <;> rfl)
          (fun a _ => hrows a) hB
  | addBookCopy b =>
    rcases addBookCopy_store b s with e | ⟨n, e⟩
    · exact keep (addBookCopy b s).2 (by rw [e]) (by rw [e])
    · show OpenBorrowingsDistinct (addBookCopy b s).2 ∧
        CopyStatusMatchesBorrowing (addBookCopy b s).2
      rw [e]
      refine ⟨hA, ?_⟩
      intro y hy x hx hid
      have hy' : y ∈ s.borrowings := hy
      have hx' : x ∈ s.bookCopies ++
          [{ id := s.nextId, bookId := b, copyNumber := n, status := .AVAILABLE }] := hx
      rw [List.mem_append, List.mem_singleton] at hx'
      rcases hx' with hx' | hx'
      · exact hB y hy' x hx' hid
      · subst hx'
        have := (hk.2.2.2.2.1 y hy').2
        have hid' : s.nextId = y.bookCopyId := hid
        omega
  | removeBookCopy c =>
    rcases removeBookCopy_store c s with e | e
    · exact keep (removeBookCopy c s).2 (by rw [e]) (by rw [e])
    · exact keepSub (removeBookCopy c s).2 (by rw [e])
        (fun x hx => by rw [e] at hx; exact (List.mem_filter.1 hx).1)
  | deleteBook b =>
    rcases deleteBook_store b s with e | ⟨-, e | e⟩
    · exact keep (deleteBook b s).2 (by rw [e]) (by rw [e])
    · exact keepSub (deleteBook b s).2 (by rw [e])
        (fun x hx => by rw [e] at hx; exact (List.mem_filter.1 hx).1)
    · exact keepSub (deleteBook b s).2 (by rw [e])
        (fun x hx => by rw [e] at hx; exact (List.mem_filter.1 hx).1)

/-- Every sequence of service calls on a store that keeps the key discipline keeps the open
borrowings on pairwise distinct copies and keeps the copy statuses matching the borrowings. -/
theorem borrowingInv_run (ops : List ServiceOp) (s : Store) (hk : WellKeyed s)
    (hA : OpenBorrowingsDistinct s) (hB : CopyStatusMatchesBorrowing s) :
    OpenBorrowingsDistinct (serviceRun s ops) ∧
    CopyStatusMatchesBorrowing (serviceRun s ops) := by
  induction ops generalizing s with
  | nil => exact ⟨hA, hB⟩
  | cons op ops ih =>
    obtain ⟨hA', hB'⟩ := borrowingInv_step s op hk hA hB
    exact ih _ (wellKeyed_serviceStep s op hk) hA' hB'

/-- C14: in every store reached by service calls from a store without borrowings (that keeps
the key discipline of the data store; the copies may have any status, in particular all
AVAILABLE), every copy has at most one PENDING or APPROVED borrowing over all members, hence
at most one per (member, copy) pair; the copy of a PENDING borrowing is RESERVED and the copy
of an APPROVED borrowing is BORROWED. -/
theorem one_open_borrowing_per_copy (s0 : Store) (ops : List ServiceOp)
    (hk : WellKeyed s0) (h0 : s0.borrowings = []) :
    OneOpenBorrowingPerCopy (serviceRun s0 ops) ∧
    (∀ m : Nat, ∀ c ∈ (serviceRun s0 ops).bookCopies,
      ((serviceRun s0 ops).borrowings.filter (fun b =>
        decide (b.memberId = m) && decide (b.bookCopyId = c.id)
          && openBorrowingStatus b.status)).length ≤ 1) ∧
    CopyStatusMatchesBorrowing (serviceRun s0 ops) := by
  have hA0 : OpenBorrowingsDistinct s0 := by
    unfold OpenBorrowingsDistinct; rw [h0]; exact List.Pairwise.nil
  have hB0 : CopyStatusMatchesBorrowing s0 := by
    intro b hb; rw [h0] at hb; exact absurd hb (List.not_mem_nil b)
  obtain ⟨hA, hB⟩ := borrowingInv_run ops s0 hk hA0 hB0
  refine ⟨?_, ?_, hB⟩
  · intro c _
    refine filter_length_le_one _ _ _ hA ?_
    intro x y hx hy hR
    simp only [Bool.and_eq_true, decide_eq_true_eq] at hx hy
    exact hR ⟨hx.2, hy.2, hx.1.trans hy.1.symm⟩
  · intro m c _
    refine filter_length_le_one _ _ _ hA ?_
    intro x y hx hy hR
    simp only [Bool.and_eq_true, decide_eq_true_eq] at hx hy
    exact hR ⟨hx.2, hy.2, hx.1.2.trans hy.1.2.symm⟩

/-- Witness for C14 on the open catalogue: member 1 borrows copy 11 and is approved, member 2
tries to borrow the same copy, member 2 borrows copy 20; copy 11 is BORROWED and copy 20
RESERVED, each with one open borrowing. -/
theorem one_open_borrowing_per_copy_witness :
    (serviceRun openCatalogue
      [.lifecycle (.borrowBookCopy 0 1 11), .lifecycle (.approveBorrowing 5 103),
       .lifecycle (.borrowBookCopy 6 2 11), .lifecycle (.borrowBookCopy 7 2 20)]).borrowings.map
        (fun b => (b.memberId, b.bookCopyId, b.status))
      = [(1, 11, .APPROVED), (2, 20, .PENDING)] ∧
    CopyStatusMatchesBorrowing (serviceRun openCatalogue
      [.lifecycle (.borrowBookCopy 0 1 11), .lifecycle (.approveBorrowing 5 103),
       .lifecycle (.borrowBookCopy 6 2 11), .lifecycle (.borrowBookCopy 7 2 20)]) :=
  ⟨by decide,
   (one_open_borrowing_per_copy openCatalogue _ (by unfold WellKeyed; decide) rfl).2.2⟩

/-- The value and the store of `approveReservation` once its guards pass: the reservation is
ACTIVE and the first AVAILABLE copy of its book, if there is one, is RESERVED. -/
theorem approveReservation_eq_ok (o : List Nat) (r : Nat) (s : Store) (rv : Reservation) (bk : Book)
    (hr : s.reservation? r = some rv) (hst : rv.status = .PENDING)
    (hbk : s.book? rv.bookId = some bk) :
    approveReservation o r s =
      (.ok { rv with status := .ACTIVE },
        match firstAvailableCopy o rv.bookId s with
        | some ac =>
          { s with reservations := setReservationStatus r .ACTIVE s.reservations,
                   bookCopies := setCopyStatus ac.id .RESERVED s.bookCopies }
        | none => { s with reservations := setReservationStatus r .ACTIVE s.reservations }) := by
  unfold Store.reservation? at hr
  unfold Store.book? at hbk
  have hid : bk.id = rv.bookId := by simpa using List.find?_some hbk
  unfold approveReservation firstAvailableCopy
  rw [hr]
  simp only [hst, ne_eq, not_true_eq_false, if_false, hbk, hid]
  cases hac : (inStoreOrder o
      (s.bookCopies.filter (fun c => decide (c.bookId = rv.bookId)))).find?
      (fun copy => decide (copy.status = CopyStatus.AVAILABLE)) with
  | none => rfl
  | some ac => rfl

/-- C28: `cancelReservation` and `rejectReservation` leave the copies table as it was, whether
they succeed or fail. So when `approveReservation` has set the first AVAILABLE copy of the
book (first in whatever order `o` the data store returned the copies) to RESERVED for a
reservation and the member then cancels that reservation (which succeeds), the copy is still
RESERVED. -/
theorem cancel_reject_keep_copies (s : Store) :
    (∀ m r : Nat, (cancelReservation m r s).2.bookCopies = s.bookCopies) ∧
    (∀ r : Nat, (rejectReservation r s).2.bookCopies = s.bookCopies) ∧
    (∀ (o : List Nat) (r : Nat) (rv : Reservation) (bk : Book) (ac : BookCopy),
      s.reservation? r = some rv → rv.status = .PENDING → s.book? rv.bookId = some bk →
      firstAvailableCopy o rv.bookId s = some ac →
      ∃ s1 s2, approveReservation o r s = (.ok { rv with status := .ACTIVE }, s1) ∧
        ({ ac with status := .RESERVED } : BookCopy) ∈ s1.bookCopies ∧
        cancelReservation rv.memberId r s1 = (.ok { rv with status := .CANCELLED }, s2) ∧
        s2.bookCopies = s1.bookCopies ∧
        ({ ac with status := .RESERVED } : BookCopy) ∈ s2.bookCopies ∧
        ∀ c ∈ s2.bookCopies, c.id = ac.id → c.status = .RESERVED) := by
  have hcancel : ∀ (t : Store) (m r : Nat),
      (cancelReservation m r t).2.bookCopies = t.bookCopies := by
    intro t m r
    rcases cancelReservation_store m r t with e | ⟨rv, -, -, -, e⟩ <;> rw [e]
  refine ⟨hcancel s, ?_, ?_⟩
  · intro r
    rcases rejectReservation_store r s with e | ⟨rv, -, -, e⟩ <;> rw [e]
  · intro o r rv bk ac hr hst hbk hac
    have happ := approveReservation_eq_ok o r s rv bk hr hst hbk
    rw [hac] at happ
    have hacm : ac ∈ s.bookCopies := (firstAvailableCopy_mem o rv.bookId s ac hac).1
    have hres : ({ ac with status := .RESERVED } : BookCopy) ∈
        setCopyStatus ac.id .RESERVED s.bookCopies := by
      unfold setCopyStatus
      exact List.mem_map.2 ⟨ac, hacm, by simp⟩
    have hall : ∀ c ∈ setCopyStatus ac.id .RESERVED s.bookCopies, c.id = ac.id →
        c.status = .RESERVED := fun c hc hid => (mem_setCopyStatus _ _ _ c hc).1 hid
    have hr1 : (setReservationStatus r .ACTIVE s.reservations).find?
        (fun x => decide (x.id = r)) = some { rv with status := .ACTIVE } := by
      have h := find?_map_update (fun x : Reservation => x.id) r
        (fun x => { x with status := .ACTIVE }) (fun _ => rfl) s.reservations
      unfold Store.reservation? at hr
      rw [hr] at h
      exact h
    have hc2 : cancelReservation rv.memberId r
        { s with reservations := setReservationStatus r .ACTIVE s.reservations,
                 bookCopies := setCopyStatus ac.id .RESERVED s.bookCopies } =
        (.ok { rv with status := .CANCELLED },
          (cancelReservation rv.memberId r
            { s with reservations := setReservationStatus r .ACTIVE s.reservations,
                     bookCopies := setCopyStatus ac.id .RESERVED s.bookCopies }).2) := by
      unfold cancelReservation
      simp only [hr1]
      simp
    refine ⟨_, _, happ, hres, hc2, hcancel _ _ _, ?_, ?_⟩
    · rw [hcancel]; exact hres
    · rw [hcancel]; exact hall

/-- Witness for C28 on a store whose book has a PENDING reservation and two AVAILABLE copies:
copy 11 is RESERVED after the approval, and still RESERVED after member 5 has cancelled the
reservation. -/
theorem cancel_reject_keep_copies_witness :
    (cancelReservation 5 101 (approveReservation [] 101 pendingWithFreeCopies).2).1 =
      .ok { id := 101, memberId := 5, bookId := 1, status := .CANCELLED, queuePosition := 1 } ∧
    (cancelReservation 5 101 (approveReservation [] 101 pendingWithFreeCopies).2).2.bookCopies =
      [{ id := 10, bookId := 1, copyNumber := 1, status := .BORROWED },
       { id := 11, bookId := 1, copyNumber := 2, status := .RESERVED },
       { id := 12, bookId := 1, copyNumber := 3, status := .AVAILABLE }] ∧
    (rejectReservation 101 pendingWithFreeCopies).2.bookCopies =
      pendingWithFreeCopies.bookCopies :=
  ⟨rfl,
   ((cancel_reject_keep_copies (approveReservation [] 101 pendingWithFreeCopies).2).1 5 101).trans
     (by decide),
   (cancel_reject_keep_copies pendingWithFreeCopies).2.1 101⟩

/-- C29, as the claim states it, fails on a server whose zone changes its offset. On a server
in New York: a borrowing requested on 2024-03-01 at 12:00 UTC and approved a minute later is
due, after the approval, on 2024-03-15 at 11:00 UTC, which is 13 days and 23 hours after the
request, not 14 days. And a borrowing requested on 2024-02-25 at 07:30 UTC (02:30 local) and
approved at 08:30 UTC (03:30 local) is due, after the approval, on 2024-03-10 at 07:30 UTC,
which is the instant `setDate(getDate() + 14)` yields from the new borrowDate as well: the
local clock skips 02:30 on 2024-03-10, so both computations give 03:30 of that day. -/
theorem approveBorrowing_due_across_transition :
    (approveBorrowing 1709294460000 100
        (borrowBookCopy 1709294400000 1 10 freshStoreNewYork).2).1 =
      .ok { id := 100, memberId := 1, bookCopyId := 10, status := .APPROVED,
            borrowDate := 1709294460000, dueDate := 1709294400000 + 1206000000,
            returnDate := none } ∧
    (1709294400000 + 1206000000 : Nat) ≠ 1709294400000 + 14 * msPerDay ∧
    (approveBorrowing 1708849800000 100
        (borrowBookCopy 1708846200000 1 10 freshStoreNewYork).2).1 =
      .ok { id := 100, memberId := 1, bookCopyId := 10, status := .APPROVED,
            borrowDate := 1708849800000, dueDate := 1710055800000, returnDate := none } ∧
    (1708849800000 : Nat) ≠ 1708846200000 ∧
    addDays freshStoreNewYork.zone 1708849800000 14 = 1710055800000 := by
  exact ⟨rfl, by decide, rfl, by decide, by decide⟩

/-- C29, amended: a successful `approveBorrowing` at time `now` returns and stores the
borrowing with status APPROVED and `borrowDate = now`, and with the `dueDate`, `returnDate`,
`memberId` and `bookCopyId` it had. So for a borrowing requested by `borrowBookCopy` at time
`t0` and approved at time `t1`, the dueDate is still the instant computed at the request,
`setDate(getDate() + 14)` of `t0` in the zone of the server, whatever `t1` is; it is not the
instant the same computation yields from the new borrowDate whenever the two differ. On a
server whose zone has no transition the dueDate is 14 days (1 209 600 000 ms) after `t0`, and
not 14 days after the new borrowDate unless `t1 = t0`. -/
theorem approveBorrowing_keeps_dueDate (s : Store) :
    (∀ (now b : Nat) (br v : Borrowing) (s' : Store),
      s.borrowing? b = some br → approveBorrowing now b s = (.ok v, s') →
      v = { br with status := .APPROVED, borrowDate := now } ∧
      s'.borrowing? b = some v ∧
      v.borrowDate = now ∧ v.dueDate = br.dueDate ∧ v.returnDate = br.returnDate ∧
      v.memberId = br.memberId ∧ v.bookCopyId = br.bookCopyId) ∧
    (∀ (t0 t1 m c : Nat) (rq v : Borrowing) (s1 s2 : Store),
      borrowBookCopy t0 m c s = (.ok rq, s1) → s1.borrowing? rq.id = some rq →
      approveBorrowing t1 rq.id s1 = (.ok v, s2) →
      v.borrowDate = t1 ∧ v.dueDate = rq.dueDate ∧
      v.dueDate = (utcOfLocal s.zone (localTime s.zone t0 + 1209600000)).toNat ∧
      (addDays s.zone t1 14 ≠ addDays s.zone t0 14 →
        v.dueDate ≠ addDays s.zone v.borrowDate 14) ∧
      (s.zone.transitions = [] →
        v.dueDate = t0 + 1209600000 ∧
        (t1 ≠ t0 → v.dueDate ≠ v.borrowDate + 1209600000))) := by
  have frame : ∀ (t : Store) (now b : Nat) (br v : Borrowing) (s' : Store),
      t.borrowing? b = some br → approveBorrowing now b t = (.ok v, s') →
      v = { br with status := .APPROVED, borrowDate := now } ∧ s'.borrowing? b = some v := by
    intro t now b br v s' hb hok
    have hb' := find?_map_update (fun x : Borrowing => x.id) b
      (fun x => { x with status := .APPROVED, borrowDate := now }) (fun _ => rfl) t.borrowings
    unfold Store.borrowing? at hb
    rw [hb] at hb'
    unfold approveBorrowing at hok
    rw [hb] at hok
    dsimp only at hok
    split at hok
    · cases hok
    · split at hok
      · cases hok
      · split at hok
        · cases hok
        · simp only [Prod.mk.injEq, Except.ok.injEq] at hok
          obtain ⟨hv, hs⟩ := hok
          refine ⟨hv.symm, ?_⟩
          rw [← hs, ← hv]
          exact hb'
  refine ⟨?_, ?_⟩
  · intro now b br v s' hb hok
    obtain ⟨hv, hs⟩ := frame s now b br v s' hb hok
    refine ⟨hv, hs, ?_, ?_, ?_, ?_, ?_⟩ <;> rw [hv]
  · intro t0 t1 m c rq v s1 s2 hreq hfind hok
    obtain ⟨hv, -⟩ := frame s1 t1 rq.id rq v s2 hfind hok
    have hdue : rq.dueDate = addDays s.zone t0 14 := by
      unfold borrowBookCopy at hreq
      split at hreq
      · cases hreq
      · split at hreq
        · cases hreq
        · split at hreq
          · cases hreq
          · simp only [Prod.mk.injEq, Except.ok.injEq] at hreq
            rw [← hreq.1]
    have hvd : v.dueDate = rq.dueDate := by rw [hv]
    have hvb : v.borrowDate = t1 := by rw [hv]
    refine ⟨hvb, hvd, by rw [hvd, hdue]; rfl, ?_, ?_⟩
    · intro hne h
      rw [hvd, hdue, hvb] at h
      exact hne h.symm
    · intro hz
      have h0 : addDays s.zone t0 14 = t0 + 1209600000 := by
        rw [addDays_fixed s.zone hz]; rfl
      refine ⟨by rw [hvd, hdue, h0], ?_⟩
      intro hne h
      rw [hvd, hdue, h0, hvb] at h
      omega

/-- Witness for C29 (amended) on the fresh catalogue, whose server runs in UTC: member 1
requests copy 10 at time 0 and the librarian approves at time 5; the borrowDate is 5 and the
dueDate is 14 days after 0, not 14 days after 5. -/
theorem approveBorrowing_keeps_dueDate_witness :
    (approveBorrowing 5 100 (borrowBookCopy 0 1 10 freshStore).2).1 =
      .ok { id := 100, memberId := 1, bookCopyId := 10, status := .APPROVED,
            borrowDate := 5, dueDate := 1209600000, returnDate := none } ∧
    (5 : Nat) ≠ 0 ∧
    (1209600000 : Nat) ≠ 5 + 1209600000 :=
  have h := (approveBorrowing_keeps_dueDate freshStore).2 0 5 1 10
    { id := 100, memberId := 1, bookCopyId := 10, status := .PENDING,
      borrowDate := 0, dueDate := 1209600000, returnDate := none }
    { id := 100, memberId := 1, bookCopyId := 10, status := .APPROVED,
      borrowDate := 5, dueDate := 1209600000, returnDate := none }
    (borrowBookCopy 0 1 10 freshStore).2
    (approveBorrowing 5 100 (borrowBookCopy 0 1 10 freshStore).2).2 rfl rfl rfl
  ⟨rfl, by decide, (h.2.2.2.2 rfl).2 (by decide)⟩

/-- An object without its `password` property has no `password` property. -/
theorem getProperty_omitPassword (o : JsonObject) :
    getProperty (omitPassword o) .password = none := by
  unfold getProperty omitPassword
  rw [List.find?_filter]
  have h : (o.find? (fun a => (decide (a.1 ≠ Property.password))
      && (decide (a.1 = Property.password)))) = none := by
    rw [List.find?_eq_none]
    intro a _
    by_cases hp : a.1 = Property.password <;> simp [hp]
  simp [h]

/-- Every property other than `password` is the same with and without the `password`
property. -/
theorem getProperty_omitPassword_of_ne (o : JsonObject) (k : Property)
    (hk : k ≠ .password) : getProperty (omitPassword o) k = getProperty o k := by
  unfold getProperty omitPassword
  rw [List.find?_filter]
  congr 2
  funext a
  by_cases h : a.1 = k
  · simp [h, hk]
  · simp [h]

/-- C30: for each of the roles MEMBER, LIBRARIAN and ADMIN and an existing account of the role,
`deactivateUser` rewrites the row of the account with `isActive = false`, leaving every other
column, every other row and every other table as they were, and returns the row as the store
holds it, its `password` property included; `deactivateUserController` answers 200 with that
object as `user`. The same deactivation through `updateMember` returns an object without
`password`. For an absent account it fails with the not-found error of the role and for any
other role with 'Invalid role', leaving the tables as they were. -/
theorem deactivateUser_spec (userId : Nat) (d : Directory) :
    (∀ m, d.member? userId = some m →
      deactivateUser userId "MEMBER" d =
        ⟨.ok ({ m with isActive := false } : Member).toObject,
          { d with members := d.members.map (fun x =>
              if x.id = userId then { x with isActive := false } else x) },
          [⟨.member, .findUniqueById⟩, ⟨.member, .update⟩]⟩ ∧
      (deactivateUser userId "MEMBER" d).state.member? userId
        = some { m with isActive := false } ∧
      getProperty ({ m with isActive := false } : Member).toObject .password
        = some (.text m.password) ∧
      (deactivateUserController userId (some "MEMBER") d).value =
        { status := 200, body := .ok ({ m with isActive := false } : Member).toObject } ∧
      ∃ o, (updateMember userId
          { email := none, firstName := none, lastName := none, phone := none,
            address := none, isActive := some false } d).value = .ok o ∧
        getProperty o .password = none ∧ getProperty o .isActive = some (.flag false)) ∧
    (∀ l, d.librarian? userId = some l →
      deactivateUser userId "LIBRARIAN" d =
        ⟨.ok ({ l with isActive := false } : Librarian).toObject,
          { d with librarians := d.librarians.map (fun x =>
              if x.id = userId then { x with isActive := false } else x) },
          [⟨.librarian, .findUniqueById⟩, ⟨.librarian, .update⟩]⟩ ∧
      (deactivateUser userId "LIBRARIAN" d).state.librarian? userId
        = some { l with isActive := false } ∧
      getProperty ({ l with isActive := false } : Librarian).toObject .password
        = some (.text l.password) ∧
      (deactivateUserController userId (some "LIBRARIAN") d).value =
        { status := 200, body := .ok ({ l with isActive := false } : Librarian).toObject }) ∧
    (∀ a, d.adminUser? userId = some a →
      deactivateUser userId "ADMIN" d =
        ⟨.ok ({ a with isActive := false } : AdminUser).toObject,
          { d with adminUsers := d.adminUsers.map (fun x =>
              if x.id = userId then { x with isActive := false } else x) },
          [⟨.adminUser, .findUniqueById⟩, ⟨.adminUser, .update⟩]⟩ ∧
      (deactivateUser userId "ADMIN" d).state.adminUser? userId
        = some { a with isActive := false } ∧
      getProperty ({ a with isActive := false } : AdminUser).toObject .password
        = some (.text a.password) ∧
      (deactivateUserController userId (some "ADMIN") d).value =
        { status := 200, body := .ok ({ a with isActive := false } : AdminUser).toObject }) ∧
    (d.member? userId = none →
      deactivateUser userId "MEMBER" d =
        ⟨.error "Member not found", d, [⟨.member, .findUniqueById⟩]⟩) ∧
    (d.librarian? userId = none →
      deactivateUser userId "LIBRARIAN" d =
        ⟨.error "Librarian not found", d, [⟨.librarian, .findUniqueById⟩]⟩) ∧
    (d.adminUser? userId = none →
      deactivateUser userId "ADMIN" d =
        ⟨.error "Admin not found", d, [⟨.adminUser, .findUniqueById⟩]⟩) ∧
    (∀ role : String, role ≠ "MEMBER" → role ≠ "LIBRARIAN" → role ≠ "ADMIN" →
      deactivateUser userId role d = ⟨.error "Invalid role", d, []⟩) := by
  refine ⟨?_, ?_, ?_, ?_, ?_, ?_, ?_⟩
  · intro m hm
    unfold Directory.member? at hm
    have hval : deactivateUser userId "MEMBER" d =
        ⟨.ok ({ m with isActive := false } : Member).toObject,
          { d with members := d.members.map (fun x =>
              if x.id = userId then { x with isActive := false } else x) },
          [⟨.member, .findUniqueById⟩, ⟨.member, .update⟩]⟩ := by
      unfold deactivateUser
      rw [if_pos rfl, hm]
    refine ⟨hval, ?_, rfl, ?_, ?_⟩
    · rw [hval]
      have h := find?_map_update (fun x : Member => x.id) userId
        (fun x => { x with isActive := false }) (fun _ => rfl) d.members
      rw [hm] at h
      exact h
    · unfold deactivateUserController
      simp only [hval]
      rfl
    · have hu : (updateMember userId
          { email := none, firstName := none, lastName := none, phone := none,
            address := none, isActive := some false } d).value =
          .ok (omitPassword ({ m with isActive := false } : Member).toObject) := by
        unfold updateMember
        rw [hm]
        simp [truthy, MemberUpdate.apply, orKeep, orKeepDefined]
      exact ⟨_, hu, getProperty_omitPassword _, rfl⟩
  · intro l hl
    unfold Directory.librarian? at hl
    have hval : deactivateUser userId "LIBRARIAN" d =
        ⟨.ok ({ l with isActive := false } : Librarian).toObject,
          { d with librarians := d.librarians.map (fun x =>
              if x.id = userId then { x with isActive := false } else x) },
          [⟨.librarian, .findUniqueById⟩, ⟨.librarian, .update⟩]⟩ := by
      unfold deactivateUser
      rw [if_neg (by decide), if_pos rfl, hl]
    refine ⟨hval, ?_, rfl, ?_⟩
    · rw [hval]
      have h := find?_map_update (fun x : Librarian => x.id) userId
        (fun x => { x with isActive := false }) (fun _ => rfl) d.librarians
      rw [hl] at h
      exact h
    · unfold deactivateUserController
      simp only [hval]
      rfl
  · intro a ha
    unfold Directory.adminUser? at ha
    have hval : deactivateUser userId "ADMIN" d =
        ⟨.ok ({ a with isActive := false } : AdminUser).toObject,
          { d with adminUsers := d.adminUsers.map (fun x =>
              if x.id = userId then { x with isActive := false } else x) },
          [⟨.adminUser, .findUniqueById⟩, ⟨.adminUser, .update⟩]⟩ := by
      unfold deactivateUser
      rw [if_neg (by decide), if_neg (by decide), if_pos rfl, ha]
    refine ⟨hval, ?_, rfl, ?_⟩
    · rw [hval]
      have h := find?_map_update (fun x : AdminUser => x.id) userId
        (fun x => { x with isActive := false }) (fun _ => rfl) d.adminUsers
      rw [ha] at h
      exact h
    · unfold deactivateUserController
      simp only [hval]
      rfl
  · intro h
    unfold Directory.member? at h
    unfold deactivateUser
    rw [if_pos rfl, h]
  · intro h
    unfold Directory.librarian? at h
    unfold deactivateUser
    rw [if_neg (by decide), if_pos rfl, h]
  · intro h
    unfold Directory.adminUser? at h
    unfold deactivateUser
    rw [if_neg (by decide), if_neg (by decide), if_pos rfl, h]
  · intro role h1 h2 h3
    unfold deactivateUser
    rw [if_neg h1, if_neg h2, if_neg h3]

/-- Witness for C30 on the test directory: deactivating member 1 answers 200 with the row,
`password` included and `isActive` false; a role that is none of the three and an absent admin
are refused with the tables as they were. -/
theorem deactivateUser_spec_witness :
    (deactivateUserController 1 (some "MEMBER") testDirectory).value =
      { status := 200,
        body := .ok [(.id, .key 1), (.email, .text "member@test.com"),
          (.password, .text "hashed_password123"), (.firstName, .text "John"),
          (.lastName, .text "Doe"), (.phone, .text "123-456-7890"), (.address, .null),
          (.isActive, .flag false)] } ∧
    deactivateUser 1 "GUEST" testDirectory = ⟨.error "Invalid role", testDirectory, []⟩ ∧
    deactivateUser 9 "ADMIN" testDirectory =
      ⟨.error "Admin not found", testDirectory, [⟨.adminUser, .findUniqueById⟩]⟩ :=
  ⟨((deactivateUser_spec 1 testDirectory).1 _ rfl).2.2.2.1,
   (deactivateUser_spec 1 testDirectory).2.2.2.2.2.2 "GUEST" (by decide) (by decide)
     (by decide),
   (deactivateUser_spec 9 testDirectory).2.2.2.2.2.1 rfl⟩

/-- The value of `login` in terms of the account found for the role and the email: the role
returned and put into the token is the role given, since upper-casing leaves the three role
names as they are. -/
theorem login_value (x : Externals) (email password role : String) (d : Directory) :
    (login x email password role d).state = d ∧
    (login x email password role d).value =
      if role = "MEMBER" ∨ role = "LIBRARIAN" ∨ role = "ADMIN" then
        match accountByEmail role email d with
        | none => .error "Invalid credentials"
        | some user =>
          if user.isActive = false then .error "Account is inactive"
          else if x.comparePassword password user.password = false then
            .error "Invalid credentials"
          else
            .ok { user := setProperty (omitPassword user.toObject) .role (.text role),
                  token := x.generateToken
                    { id := user.id, email := user.email, role := role } }
      else .error "Invalid role" := by
  have up1 : toUpperCase "MEMBER" = "MEMBER" := by decide
  have up2 : toUpperCase "LIBRARIAN" = "LIBRARIAN" := by decide
  have up3 : toUpperCase "ADMIN" = "ADMIN" := by decide
  by_cases h1 : role = "MEMBER"
  · subst h1
    unfold login accountByEmail
    simp only [if_true, true_or, up1]
    cases d.members.find? (fun m => decide (m.email = email)) with
    | none => exact ⟨rfl, rfl⟩
    | some m =>
      simp only [Option.map_some']
      cases ha : (AccountRow.member m).isActive <;>
        cases hp : x.comparePassword password (AccountRow.member m).password <;> simp
  · by_cases h2 : role = "LIBRARIAN"
    · subst h2
      unfold login accountByEmail
      simp only [if_true, true_or, or_true, up2, if_neg h1]
      cases d.librarians.find? (fun l => decide (l.email = email)) with
      | none => exact ⟨rfl, rfl⟩
      | some l =>
        simp only [Option.map_some']
        cases ha : (AccountRow.librarian l).isActive <;>
          cases hp : x.comparePassword password (AccountRow.librarian l).password <;> simp
    · by_cases h3 : role = "ADMIN"
      · subst h3
        unfold login accountByEmail
        simp only [if_true, or_true, up3, if_neg h1, if_neg h2]
        cases d.adminUsers.find? (fun a => decide (a.email = email)) with
        | none => exact ⟨rfl, rfl⟩
        | some a =>
          simp only [Option.map_some']
          cases ha : (AccountRow.adminUser a).isActive <;>
            cases hp : x.comparePassword password (AccountRow.adminUser a).password <;> simp
      · unfold login
        simp only [h1, h2, h3, if_false, or_self, and_self]

/-- A property that has just been set has the value set. -/
theorem getProperty_setProperty (o : JsonObject) (k : Property) (v : JsonValue) :
    getProperty (setProperty o k v) k = some v := by
  unfold getProperty setProperty
  by_cases h : o.any (fun p => decide (p.1 = k)) = true
  · rw [if_pos h]
    obtain ⟨a, ha, hak⟩ := List.any_eq_true.1 h
    have hak' : a.1 = k := by simpa using hak
    induction o with
    | nil => cases ha
    | cons b o ih =>
      by_cases hb : b.1 = k
      · simp [List.find?_cons, hb]
      · have hao : a ∈ o := by
          rcases List.mem_cons.1 ha with e | e
          · exact absurd (e ▸ hak') hb
          · exact e
        have hany : o.any (fun p => decide (p.1 = k)) = true :=
          List.any_eq_true.2 ⟨a, hao, hak⟩
        simpa [List.find?_cons, hb] using ih hany hao
  · rw [if_neg h]
    have hnone : o.find? (fun p => decide (p.1 = k)) = none := by
      rw [List.find?_eq_none]
      intro a ha hak
      exact h (List.any_eq_true.2 ⟨a, ha, hak⟩)
    simp [List.find?_append, hnone]

/-- Setting a property leaves every other property as it was. -/
theorem getProperty_setProperty_of_ne (o : JsonObject) (k k' : Property) (v : JsonValue)
    (hk : k' ≠ k) : getProperty (setProperty o k v) k' = getProperty o k' := by
  unfold getProperty setProperty
  by_cases h : o.any (fun p => decide (p.1 = k)) = true
  · rw [if_pos h]
    clear h
    induction o with
    | nil => rfl
    | cons b o ih =>
      by_cases hb : b.1 = k
      · have hb' : ¬ b.1 = k' := fun e => hk (e.symm.trans hb)
        simpa [List.find?_cons, hb, hb', hk.symm] using ih
      · by_cases hb' : b.1 = k'
        · simp [List.find?_cons, hb', hk]
        · simpa [List.find?_cons, hb, hb'] using ih
  · rw [if_neg h]
    simp [List.find?_append, hk.symm]

/-- C23: `login(email, password, role)` succeeds exactly when the role is MEMBER, LIBRARIAN or
ADMIN, the collection of that role holds an account with that email, the account is active and
the password verifies against the stored hash. On success it returns the account without its
password and with the role, and the token generated for the id and email of the account and the
role; it never writes. `loginController` answers 400 when email, password or role is missing
(or empty) and otherwise 200 with the result of `login`, or 401 with its error message and
no result, hence no token. -/
theorem login_spec (x : Externals) (d : Directory) (email password role : String) :
    ((∃ r, (login x email password role d).value = .ok r) ↔
      ((role = "MEMBER" ∨ role = "LIBRARIAN" ∨ role = "ADMIN") ∧
        ∃ u, accountByEmail role email d = some u ∧ u.isActive = true ∧
          x.comparePassword password u.password = true)) ∧
    (∀ r, (login x email password role d).value = .ok r →
      ∃ u, accountByEmail role email d = some u ∧
        r.user = setProperty (omitPassword u.toObject) .role (.text role) ∧
        getProperty r.user .role = some (.text role) ∧
        getProperty r.user .password = none ∧
        r.token = x.generateToken { id := u.id, email := u.email, role := role }) ∧
    (login x email password role d).state = d ∧
    (∀ body : LoginBody,
      truthy body.email = false ∨ truthy body.password = false ∨ truthy body.role = false →
      loginController x body d =
        ⟨{ status := 400, body := .error "Email, password, and role are required" }, d, []⟩) ∧
    (email ≠ "" → password ≠ "" → role ≠ "" →
      (∀ r, (login x email password role d).value = .ok r →
        (loginController x
            { email := some email, password := some password, role := some role } d).value
          = { status := 200, body := .ok r }) ∧
      (∀ message, (login x email password role d).value = .error message →
        (loginController x
            { email := some email, password := some password, role := some role } d).value
          = { status := 401, body := .error message })) := by
  obtain ⟨hstate, hvalue⟩ := login_value x email password role d
  have hok : ∀ r, (login x email password role d).value = .ok r →
      (role = "MEMBER" ∨ role = "LIBRARIAN" ∨ role = "ADMIN") ∧
      ∃ u, accountByEmail role email d = some u ∧ u.isActive = true ∧
        x.comparePassword password u.password = true ∧
        r = { user := setProperty (omitPassword u.toObject) .role (.text role),
              token := x.generateToken { id := u.id, email := u.email, role := role } } := by
    intro r hr
    rw [hvalue] at hr
    by_cases hrole : role = "MEMBER" ∨ role = "LIBRARIAN" ∨ role = "ADMIN"
    · rw [if_pos hrole] at hr
      refine ⟨hrole, ?_⟩
      cases hu : accountByEmail role email d with
      | none => rw [hu] at hr; cases hr
      | some u =>
        rw [hu] at hr
        dsimp only at hr
        cases ha : u.isActive with
        | false => simp [ha] at hr
        | true =>
          cases hp : x.comparePassword password u.password with
          | false => simp [ha, hp] at hr
          | true =>
            simp only [ha, hp, Bool.true_eq_false, if_false, Except.ok.injEq] at hr
            exact ⟨u, rfl, ha, hp, hr.symm⟩
    · rw [if_neg hrole] at hr
      cases hr
  refine ⟨⟨?_, ?_⟩, ?_, hstate, ?_, ?_⟩
  · rintro ⟨r, hr⟩
    obtain ⟨hrole, u, hu, ha, hp, -⟩ := hok r hr
    exact ⟨hrole, u, hu, ha, hp⟩
  · rintro ⟨hrole, u, hu, ha, hp⟩
    rw [hvalue, if_pos hrole, hu]
    simp [ha, hp]
  · intro r hr
    obtain ⟨-, u, hu, -, -, hreq⟩ := hok r hr
    refine ⟨u, hu, by rw [hreq], ?_, ?_, by rw [hreq]⟩
    · rw [hreq]
      exact getProperty_setProperty _ _ _
    · rw [hreq]
      show getProperty (setProperty (omitPassword u.toObject) .role (.text role)) .password = none
      rw [getProperty_setProperty_of_ne _ _ _ _ (by decide)]
      exact getProperty_omitPassword _
  · intro body hmiss
    rcases body with ⟨_ | e, _ | p, _ | r⟩ <;>
      simp only [loginController, truthy, decide_eq_false_iff_not, not_not, or_true,
        true_or, or_self, Bool.false_eq_true] at hmiss ⊢
    rw [if_pos hmiss]
  · intro he hp hr
    unfold loginController
    simp only [he, hp, hr, or_self, if_false]
    rcases hlog : login x email password role d with ⟨v, st, cs⟩
    cases v with
    | ok res =>
      refine ⟨fun r h => ?_, fun message h => ?_⟩
      · simp only [Except.ok.injEq] at h
        rw [h]
      · cases h
    | error msg =>
      refine ⟨fun r h => ?_, fun message h => ?_⟩
      · cases h
      · simp only [Except.error.injEq] at h
        rw [h]

/-- Witness for C23 on the test directory: member 1 logs in with the right password, with a
wrong password, the inactive member 2 logs in, and a request without password and role. -/
theorem login_spec_witness :
    (loginController testExternals
        { email := some "member@test.com", password := some "password123",
          role := some "MEMBER" } testDirectory).value =
      { status := 200,
        body := .ok
          { user := [(.id, .key 1), (.email, .text "member@test.com"),
              (.firstName, .text "John"), (.lastName, .text "Doe"),
              (.phone, .text "123-456-7890"), (.address, .null), (.isActive, .flag true),
              (.role, .text "MEMBER")],
            token := "mock_jwt_token_1" } } ∧
    (loginController testExternals
        { email := some "member@test.com", password := some "wrongpassword",
          role := some "MEMBER" } testDirectory).value =
      { status := 401, body := .error "Invalid credentials" } ∧
    (loginController testExternals
        { email := some "jane@test.com", password := some "secret",
          role := some "MEMBER" } testDirectory).value =
      { status := 401, body := .error "Account is inactive" } ∧
    loginController testExternals
        { email := some "member@test.com", password := none, role := none } testDirectory =
      ⟨{ status := 400, body := .error "Email, password, and role are required" },
        testDirectory, []⟩ :=
  ⟨((login_spec testExternals testDirectory "member@test.com" "password123" "MEMBER").2.2.2.2
      (by decide) (by decide) (by decide)).1 _ rfl,
   ((login_spec testExternals testDirectory "member@test.com" "wrongpassword" "MEMBER").2.2.2.2
      (by decide) (by decide) (by decide)).2 _ rfl,
   ((login_spec testExternals testDirectory "jane@test.com" "secret" "MEMBER").2.2.2.2
      (by decide) (by decide) (by decide)).2 _ rfl,
   (login_spec testExternals testDirectory "" "" "").2.2.2.1 _ (Or.inr (Or.inl rfl))⟩

/-- The guard of a router, step by step: the header, the token, the role of the token, the
account of the token. -/
theorem routerGuard_eq (role : String) (x : Externals) (req : Request) (d : Directory) :
    routerGuard role x req d =
      match req.authorization with
      | none => .respond 401 "No token provided"
      | some authHeader =>
        if authHeader = "" ∨ startsWith authHeader "Bearer " = false then
          .respond 401 "No token provided"
        else
          match x.verifyToken (substring authHeader 7) with
          | none => .respond 401 "Invalid or expired token"
          | some decoded =>
            if decoded.role ≠ role then .respond 403 "Insufficient permissions"
            else
              match accountOfRole decoded.role decoded.id d with
              | none => .respond 401 "User account is inactive or not found"
              | some user =>
                if user.isActive = false then
                  .respond 401 "User account is inactive or not found"
                else .next { req with user := some decoded, userData := some user } := by
  unfold routerGuard authenticate
  cases req.authorization with
  | none => rfl
  | some authHeader =>
    dsimp only
    by_cases hh : authHeader = "" ∨ startsWith authHeader "Bearer " = false
    · rw [if_pos hh, if_pos hh]
    · rw [if_neg hh, if_neg hh]
      cases x.verifyToken (substring authHeader 7) with
      | none => rfl
      | some decoded =>
        dsimp only
        unfold authorize
        dsimp only
        by_cases hr : decoded.role = role
        · subst hr
          have hc : [decoded.role].contains decoded.role = true := by simp
          simp only [hc, Bool.true_eq_false, if_false, ne_eq, not_true_eq_false]
          rfl
        · have hc : [role].contains decoded.role = false := by simp [hr]
          simp only [hc, if_true, ne_eq, hr, not_false_eq_true]

/-- C24: in front of every route of the member, librarian and admin routers stands the guard
of the router's role. The guard passes the request on to the route handler exactly when the
`Authorization` header carries a bearer token that verifies, the role of the decoded token is
the role of the router, and the account with the id of the token exists in the collection of
that role and is active. A token of another role is answered 403, a missing or inactive
account 401, and `authorize` answers a request without `req.user` with 401; a request that is
answered is not passed on. -/
theorem routerGuard_spec (x : Externals) (d : Directory) (req : Request) (role : String) :
    (memberRoutes x req d = routerGuard "MEMBER" x req d ∧
      librarianRoutes x req d = routerGuard "LIBRARIAN" x req d ∧
      adminRoutes x req d = routerGuard "ADMIN" x req d) ∧
    (∀ req', routerGuard role x req d = .next req' ↔
      ∃ authHeader decoded user, req.authorization = some authHeader ∧
        startsWith authHeader "Bearer " = true ∧
        x.verifyToken (substring authHeader 7) = some decoded ∧
        decoded.role = role ∧ accountOfRole role decoded.id d = some user ∧
        user.isActive = true ∧
        req' = { req with user := some decoded, userData := some user }) ∧
    (∀ authHeader decoded, req.authorization = some authHeader →
      startsWith authHeader "Bearer " = true →
      x.verifyToken (substring authHeader 7) = some decoded → decoded.role ≠ role →
      routerGuard role x req d = .respond 403 "Insufficient permissions") ∧
    (∀ authHeader decoded, req.authorization = some authHeader →
      startsWith authHeader "Bearer " = true →
      x.verifyToken (substring authHeader 7) = some decoded → decoded.role = role →
      (accountOfRole role decoded.id d = none ∨
        ∃ user, accountOfRole role decoded.id d = some user ∧ user.isActive = false) →
      routerGuard role x req d = .respond 401 "User account is inactive or not found") ∧
    (∀ roles : List String, req.user = none →
      authorize roles req = .respond 401 "Authentication required") ∧
    (∀ (roles : List String) (payload : TokenPayload), req.user = some payload →
      payload.role ∉ roles → authorize roles req = .respond 403 "Insufficient permissions") ∧
    (∀ payload : TokenPayload, req.user = some payload →
      (accountOfRole payload.role payload.id d = none ∨
        ∃ user, accountOfRole payload.role payload.id d = some user ∧ user.isActive = false) →
      verifyUserActive req d = .respond 401 "User account is inactive or not found") ∧
    (∀ id : Nat,
      accountOfRole "MEMBER" id d = (d.member? id).map AccountRow.member ∧
      accountOfRole "LIBRARIAN" id d = (d.librarian? id).map AccountRow.librarian ∧
      accountOfRole "ADMIN" id d = (d.adminUser? id).map AccountRow.adminUser) := by
  have hempty : ∀ h : String, startsWith h "Bearer " = true → h ≠ "" := by
    intro h hs e
    rw [e] at hs
    revert hs
    decide
  refine ⟨⟨rfl, rfl, rfl⟩, ?_, ?_, ?_, ?_, ?_, ?_, ?_⟩
  · intro req'
    rw [routerGuard_eq]
    constructor
    · intro h
      cases hauth : req.authorization with
      | none => rw [hauth] at h; cases h
      | some authHeader =>
        rw [hauth] at h
        dsimp only at h
        by_cases hh : authHeader = "" ∨ startsWith authHeader "Bearer " = false
        · rw [if_pos hh] at h; cases h
        · rw [if_neg hh] at h
          cases htok : x.verifyToken (substring authHeader 7) with
          | none => rw [htok] at h; cases h
          | some decoded =>
            rw [htok] at h
            dsimp only at h
            by_cases hr : decoded.role = role
            · rw [if_neg (by simpa using hr)] at h
              cases hacc : accountOfRole decoded.role decoded.id d with
              | none => rw [hacc] at h; cases h
              | some user =>
                rw [hacc] at h
                dsimp only at h
                cases hact : user.isActive with
                | false => rw [hact] at h; simp at h
                | true =>
                  rw [hact] at h
                  simp only [Bool.true_eq_false, if_false, Passage.next.injEq] at h
                  refine ⟨authHeader, decoded, user, rfl, ?_, htok, hr, ?_, hact, h.symm⟩
                  · cases hs : startsWith authHeader "Bearer " with
                    | true => rfl
                    | false => exact absurd (Or.inr hs) hh
                  · rw [← hr]; exact hacc
            · rw [if_pos (by simpa using hr)] at h; cases h
    · rintro ⟨authHeader, decoded, user, hauth, hs, htok, hr, hacc, hact, hreq⟩
      rw [hauth]
      dsimp only
      rw [if_neg (by
        rintro (e | e)
        · exact hempty _ hs e
        · rw [hs] at e; cases e), htok]
      dsimp only
      rw [if_neg (by simpa using hr), hr, hacc]
      dsimp only
      rw [hact, hreq]
      simp [hauth]
  · intro authHeader decoded hauth hs htok hr
    rw [routerGuard_eq, hauth]
    dsimp only
    rw [if_neg (by
      rintro (e | e)
      · exact hempty _ hs e
      · rw [hs] at e; cases e), htok]
    dsimp only
    rw [if_pos hr]
  · intro authHeader decoded hauth hs htok hr hacc
    rw [routerGuard_eq, hauth]
    dsimp only
    rw [if_neg (by
      rintro (e | e)
      · exact hempty _ hs e
      · rw [hs] at e; cases e), htok]
    dsimp only
    rw [if_neg (by simpa using hr), hr]
    rcases hacc with hnone | ⟨user, hsome, hact⟩
    · rw [hnone]
    · rw [hsome]
      dsimp only
      rw [if_pos hact]
  · intro roles hu
    unfold authorize
    rw [hu]
  · intro roles payload hu hnot
    unfold authorize
    rw [hu]
    dsimp only
    rw [if_pos (by simpa using hnot)]
  · intro payload hu hacc
    unfold verifyUserActive
    rw [hu]
    dsimp only
    rcases hacc with hnone | ⟨user, hsome, hact⟩
    · rw [hnone]
    · rw [hsome]
      dsimp only
      rw [if_pos hact]
  · intro id
    unfold accountOfRole Directory.member? Directory.librarian? Directory.adminUser?
    refine ⟨by rw [if_pos rfl], by rw [if_neg (by decide), if_pos rfl],
      by rw [if_neg (by decide), if_neg (by decide), if_pos rfl]⟩

/-- Witness for C24 with the tokens of the test setup: the member token passes the member
router, is answered 403 by the librarian router, and is answered 401 by the member router once
member 1 has been deactivated. -/
theorem routerGuard_spec_witness :
    memberRoutes testExternals
        { authorization := some "Bearer valid_token", user := none, userData := none }
        testDirectory =
      .next
        { authorization := some "Bearer valid_token",
          user := some { id := 1, email := "member@test.com", role := "MEMBER" },
          userData := some (.member
            { id := 1, email := "member@test.com", password := "hashed_password123",
              firstName := "John", lastName := "Doe", phone := some "123-456-7890",
              address := none, isActive := true }) } ∧
    librarianRoutes testExternals
        { authorization := some "Bearer valid_token", user := none, userData := none }
        testDirectory =
      .respond 403 "Insufficient permissions" ∧
    memberRoutes testExternals
        { authorization := some "Bearer valid_token", user := none, userData := none }
        (deactivateUser 1 "MEMBER" testDirectory).state =
      .respond 401 "User account is inactive or not found" :=
  ⟨((routerGuard_spec testExternals testDirectory
        { authorization := some "Bearer valid_token", user := none, userData := none }
        "MEMBER").2.1 _).2
      ⟨"Bearer valid_token", { id := 1, email := "member@test.com", role := "MEMBER" },
        .member
          { id := 1, email := "member@test.com", password := "hashed_password123",
            firstName := "John", lastName := "Doe", phone := some "123-456-7890",
            address := none, isActive := true },
        rfl, by decide, rfl, rfl, rfl, rfl, rfl⟩,
   (routerGuard_spec testExternals testDirectory
        { authorization := some "Bearer valid_token", user := none, userData := none }
        "LIBRARIAN").2.2.1 "Bearer valid_token"
      { id := 1, email := "member@test.com", role := "MEMBER" } rfl (by decide) rfl
      (by decide),
   (routerGuard_spec testExternals (deactivateUser 1 "MEMBER" testDirectory).state
        { authorization := some "Bearer valid_token", user := none, userData := none }
        "MEMBER").2.2.2.1 "Bearer valid_token"
      { id := 1, email := "member@test.com", role := "MEMBER" } rfl (by decide) rfl rfl
      (Or.inr ⟨.member
          { id := 1, email := "member@test.com", password := "hashed_password123",
            firstName := "John", lastName := "Doe", phone := some "123-456-7890",
            address := none, isActive := false }, rfl, rfl⟩)⟩

/-- What `member.create` does when it accepts the row: it appends a row with the counter as id,
the columns given and the active flag set. -/
theorem memberCreate_ok (email : Option String) (password : String)
    (firstName lastName phone address : Option String) (d d1 : Directory) (m : Member)
    (h : memberCreate email password firstName lastName phone address d = .ok (m, d1)) :
    d1 = { d with members := d.members ++ [m], nextId := d.nextId + 1 } ∧
    m.id = d.nextId ∧ email = some m.email ∧ m.password = password ∧
    firstName = some m.firstName ∧ lastName = some m.lastName ∧
    m.phone = phone ∧ m.address = address ∧ m.isActive = true := by
  unfold memberCreate at h
  split at h
  · simp only [Except.ok.injEq, Prod.mk.injEq] at h
    obtain ⟨hm, hd⟩ := h
    subst hm
    exact ⟨hd.symm, rfl, rfl, rfl, rfl, rfl, rfl, rfl, rfl⟩
  · cases h

/-- The outcome of `createMember`: an error with the tables as they were, or a new member row
whose email no member had, returned without its password. -/
theorem createMember_outcome (x : Externals) (data : MemberData) (d : Directory) :
    ((createMember x data d).state = d ∧ ∃ message, (createMember x data d).value
        = .error message) ∨
    ∃ m : Member, m.id = d.nextId ∧ data.email = some m.email ∧
      (∀ m' ∈ d.members, m'.email ≠ m.email) ∧
      (createMember x data d).state =
        { d with members := d.members ++ [m], nextId := d.nextId + 1 } ∧
      (createMember x data d).value = .ok (omitPassword m.toObject) := by
  unfold createMember memberByEmail
  cases he : data.email with
  | none => exact Or.inl ⟨rfl, _, rfl⟩
  | some e =>
    dsimp only
    cases hf : d.members.find? (fun m => decide (m.email = e)) with
    | some _ => exact Or.inl ⟨rfl, _, rfl⟩
    | none =>
      dsimp only
      cases hh : x.hashPassword data.password with
      | error _ => exact Or.inl ⟨rfl, _, rfl⟩
      | ok hashed =>
        dsimp only
        cases hc : memberCreate (some e) hashed data.firstName data.lastName data.phone
            data.address d with
        | error _ => exact Or.inl ⟨rfl, _, rfl⟩
        | ok v =>
          obtain ⟨m, d1⟩ := v
          obtain ⟨hd1, hid, hem, -⟩ := memberCreate_ok _ _ _ _ _ _ _ _ _ hc
          right
          refine ⟨m, hid, hem, ?_, hd1, rfl⟩
          intro m' hm' heq
          rw [List.find?_eq_none] at hf
          have := hf m' hm'
          simp only [decide_eq_true_eq] at this
          apply this
          rw [heq]
          exact (Option.some.inj hem).symm

/-- The outcome of `registerMember`: an error with the tables as they were, or a new member
row whose email no member had, returned without its password and with the role MEMBER,
together with the token for its id, its email and the role MEMBER. -/
theorem registerMember_outcome (x : Externals) (data : MemberData) (d : Directory) :
    ((registerMember x data d).state = d ∧ ∃ message, (registerMember x data d).value
        = .error message) ∨
    ∃ m : Member, m.id = d.nextId ∧ data.email = some m.email ∧
      (∀ m' ∈ d.members, m'.email ≠ m.email) ∧
      (registerMember x data d).state =
        { d with members := d.members ++ [m], nextId := d.nextId + 1 } ∧
      (registerMember x data d).value =
        .ok { user := setProperty (omitPassword m.toObject) .role (.text "MEMBER"),
              token := x.generateToken { id := m.id, email := m.email, role := "MEMBER" } } := by
  unfold registerMember memberByEmail
  cases he : data.email with
  | none => exact Or.inl ⟨rfl, _, rfl⟩
  | some e =>
    dsimp only
    cases hf : d.members.find? (fun m => decide (m.email = e)) with
    | some _ => exact Or.inl ⟨rfl, _, rfl⟩
    | none =>
      dsimp only
      cases hh : x.hashPassword data.password with
      | error _ => exact Or.inl ⟨rfl, _, rfl⟩
      | ok hashed =>
        dsimp only
        cases hc : memberCreate (some e) hashed data.firstName data.lastName data.phone
            data.address d with
        | error _ => exact Or.inl ⟨rfl, _, rfl⟩
        | ok v =>
          obtain ⟨m, d1⟩ := v
          obtain ⟨hd1, hid, hem, -⟩ := memberCreate_ok _ _ _ _ _ _ _ _ _ hc
          right
          refine ⟨m, hid, hem, ?_, hd1, rfl⟩
          intro m' hm' heq
          rw [List.find?_eq_none] at hf
          have := hf m' hm'
          simp only [decide_eq_true_eq] at this
          apply this
          rw [heq]
          exact (Option.some.inj hem).symm

/-- The outcome of `createLibrarian`: an error with the tables as they were, or a new librarian
row, returned without its password. -/
theorem createLibrarian_outcome (x : Externals) (data : LibrarianData) (d : Directory) :
    ((createLibrarian x data d).state = d ∧ ∃ message, (createLibrarian x data d).value
        = .error message) ∨
    ∃ l : Librarian,
      (createLibrarian x data d).state =
        { d with librarians := d.librarians ++ [l], nextId := d.nextId + 1 } ∧
      (createLibrarian x data d).value = .ok (omitPassword l.toObject) := by
  unfold createLibrarian librarianByEmail
  cases he : data.email with
  | none => exact Or.inl ⟨rfl, _, rfl⟩
  | some e =>
    dsimp only
    cases hf : d.librarians.find? (fun l => decide (l.email = e)) with
    | some _ => exact Or.inl ⟨rfl, _, rfl⟩
    | none =>
      dsimp only
      cases hh : x.hashPassword data.password with
      | error _ => exact Or.inl ⟨rfl, _, rfl⟩
      | ok hashed =>
        dsimp only
        cases hc : librarianCreate (some e) hashed data.firstName data.lastName data.phone d with
        | error _ => exact Or.inl ⟨rfl, _, rfl⟩
        | ok v =>
          obtain ⟨l, d1⟩ := v
          right
          unfold librarianCreate at hc
          split at hc
          · simp only [Except.ok.injEq, Prod.mk.injEq] at hc
            obtain ⟨hrow, hd1⟩ := hc
            subst hrow
            subst hd1
            exact ⟨_, rfl, rfl⟩
          · cases hc

/-- The outcome of `createAdmin`: an error with the tables as they were, or a new admin row,
returned without its password. -/
theorem createAdmin_outcome (x : Externals) (data : AdminData) (d : Directory) :
    ((createAdmin x data d).state = d ∧ ∃ message, (createAdmin x data d).value
        = .error message) ∨
    ∃ a : AdminUser,
      (createAdmin x data d).state =
        { d with adminUsers := d.adminUsers ++ [a], nextId := d.nextId + 1 } ∧
      (createAdmin x data d).value = .ok (omitPassword a.toObject) := by
  unfold createAdmin adminUserByEmail
  cases he : data.email with
  | none => exact Or.inl ⟨rfl, _, rfl⟩
  | some e =>
    dsimp only
    cases hf : d.adminUsers.find? (fun a => decide (a.email = e)) with
    | some _ => exact Or.inl ⟨rfl, _, rfl⟩
    | none =>
      dsimp only
      cases hh : x.hashPassword data.password with
      | error _ => exact Or.inl ⟨rfl, _, rfl⟩
      | ok hashed =>
        dsimp only
        cases hc : adminUserCreate (some e) hashed data.firstName data.lastName d with
        | error _ => exact Or.inl ⟨rfl, _, rfl⟩
        | ok v =>
          obtain ⟨a, d1⟩ := v
          right
          unfold adminUserCreate at hc
          split at hc
          · simp only [Except.ok.injEq, Prod.mk.injEq] at hc
            obtain ⟨hrow, hd1⟩ := hc
            subst hrow
            subst hd1
            exact ⟨_, rfl, rfl⟩
          · cases hc

/-- The outcome of `updateMember`: an error with the tables as they were, or the row of the
member rewritten by the payload and returned without its password.  The email lookup is made
exactly when a non-empty email is supplied that differs from the stored one, and the update is
refused exactly when that lookup finds a member. -/
theorem updateMember_outcome (memberId : Nat) (u : MemberUpdate) (d : Directory) :
    (d.member? memberId = none ∧
      updateMember memberId u d =
        ⟨.error "Member not found", d, [⟨.member, .findUniqueById⟩]⟩) ∨
    ∃ m, d.member? memberId = some m ∧
      ((truthy u.email = true ∧ u.email ≠ some m.email ∧
          (∃ m' ∈ d.members, some m'.email = u.email) ∧
          updateMember memberId u d =
            ⟨.error "Email already registered", d,
              [⟨.member, .findUniqueById⟩, ⟨.member, .findUniqueByEmail⟩]⟩) ∨
       (truthy u.email = true ∧ u.email ≠ some m.email ∧
          (∀ m' ∈ d.members, some m'.email ≠ u.email) ∧
          updateMember memberId u d =
            ⟨.ok (omitPassword (u.apply m).toObject),
              { d with members := d.members.map (fun r =>
                  if r.id = memberId then u.apply r else r) },
              [⟨.member, .findUniqueById⟩, ⟨.member, .findUniqueByEmail⟩,
               ⟨.member, .update⟩]⟩) ∨
       (¬ (truthy u.email = true ∧ u.email ≠ some m.email) ∧
          updateMember memberId u d =
            ⟨.ok (omitPassword (u.apply m).toObject),
              { d with members := d.members.map (fun r =>
                  if r.id = memberId then u.apply r else r) },
              [⟨.member, .findUniqueById⟩, ⟨.member, .update⟩]⟩)) := by
  unfold Directory.member? updateMember
  cases hm : d.members.find? (fun m => decide (m.id = memberId)) with
  | none => exact Or.inl ⟨rfl, rfl⟩
  | some m =>
    right
    refine ⟨m, rfl, ?_⟩
    dsimp only
    by_cases hc : truthy u.email = true ∧ u.email ≠ some m.email
    · have hb : (truthy u.email && decide (u.email ≠ some m.email)) = true := by
        simp [hc.1, hc.2]
      cases hf : d.members.find? (fun r => decide (some r.email = u.email)) with
      | some m' =>
        left
        refine ⟨hc.1, hc.2, ⟨m', List.mem_of_find?_eq_some hf, ?_⟩, ?_⟩
        · simpa using List.find?_some hf
        · simp only [hb, Option.isSome_some, and_self, if_true]
          rfl
      | none =>
        right; left
        refine ⟨hc.1, hc.2, ?_, ?_⟩
        · intro m' hm' heq
          rw [List.find?_eq_none] at hf
          exact hf m' hm' (by simpa using heq)
        · simp only [hb, Option.isSome_none, Bool.false_eq_true, and_false, if_false, if_true]
          rfl
    · right; right
      have hb : (truthy u.email && decide (u.email ≠ some m.email)) = false := by
        cases ht : truthy u.email with
        | false => rfl
        | true =>
          have : ¬ u.email ≠ some m.email := fun h => hc ⟨ht, h⟩
          simp [this]
      refine ⟨hc, ?_⟩
      simp only [hb, Bool.false_eq_true, false_and, if_false]
      rfl

/-- The outcome of `updateLibrarian`, as for `updateMember`. -/
theorem updateLibrarian_outcome (librarianId : Nat) (u : LibrarianUpdate) (d : Directory) :
    (d.librarian? librarianId = none ∧
      updateLibrarian librarianId u d =
        ⟨.error "Librarian not found", d, [⟨.librarian, .findUniqueById⟩]⟩) ∨
    ∃ l, d.librarian? librarianId = some l ∧
      ((truthy u.email = true ∧ u.email ≠ some l.email ∧
          (∃ l' ∈ d.librarians, some l'.email = u.email) ∧
          updateLibrarian librarianId u d =
            ⟨.error "Email already registered", d,
              [⟨.librarian, .findUniqueById⟩, ⟨.librarian, .findUniqueByEmail⟩]⟩) ∨
       (truthy u.email = true ∧ u.email ≠ some l.email ∧
          (∀ l' ∈ d.librarians, some l'.email ≠ u.email) ∧
          updateLibrarian librarianId u d =
            ⟨.ok (omitPassword (u.apply l).toObject),
              { d with librarians := d.librarians.map (fun r =>
                  if r.id = librarianId then u.apply r else r) },
              [⟨.librarian, .findUniqueById⟩, ⟨.librarian, .findUniqueByEmail⟩,
               ⟨.librarian, .update⟩]⟩) ∨
       (¬ (truthy u.email = true ∧ u.email ≠ some l.email) ∧
          updateLibrarian librarianId u d =
            ⟨.ok (omitPassword (u.apply l).toObject),
              { d with librarians := d.librarians.map (fun r =>
                  if r.id = librarianId then u.apply r else r) },
              [⟨.librarian, .findUniqueById⟩, ⟨.librarian, .update⟩]⟩)) := by
  unfold Directory.librarian? updateLibrarian
  cases hm : d.librarians.find? (fun l => decide (l.id = librarianId)) with
  | none => exact Or.inl ⟨rfl, rfl⟩
  | some l =>
    right
    refine ⟨l, rfl, ?_⟩
    dsimp only
    by_cases hc : truthy u.email = true ∧ u.email ≠ some l.email
    · have hb : (truthy u.email && decide (u.email ≠ some l.email)) = true := by
        simp [hc.1, hc.2]
      cases hf : d.librarians.find? (fun r => decide (some r.email = u.email)) with
      | some l' =>
        left
        refine ⟨hc.1, hc.2, ⟨l', List.mem_of_find?_eq_some hf, ?_⟩, ?_⟩
        · simpa using List.find?_some hf
        · simp only [hb, Option.isSome_some, and_self, if_true]
          rfl
      | none =>
        right; left
        refine ⟨hc.1, hc.2, ?_, ?_⟩
        · intro l' hl' heq
          rw [List.find?_eq_none] at hf
          exact hf l' hl' (by simpa using heq)
        · simp only [hb, Option.isSome_none, Bool.false_eq_true, and_false, if_false, if_true]
          rfl
    · right; right
      have hb : (truthy u.email && decide (u.email ≠ some l.email)) = false := by
        cases ht : truthy u.email with
        | false => rfl
        | true =>
          have : ¬ u.email ≠ some l.email := fun h => hc ⟨ht, h⟩
          simp [this]
      refine ⟨hc, ?_⟩
      simp only [hb, Bool.false_eq_true, false_and, if_false]
      rfl

/-- The rest of a row object after its password has been taken out is the row without its
password. -/
theorem withoutPassword_omit (row : JsonObject) : WithoutPassword (omitPassword row) row :=
  ⟨getProperty_omitPassword row, fun k v hk h => by
    rw [getProperty_omitPassword_of_ne row k hk]; exact h⟩

/-- Adding the role to the row without its password keeps it the row without its password,
for a row that has no role column. -/
theorem withoutPassword_role (row : JsonObject) (role : String)
    (hrow : getProperty row .role = none) :
    WithoutPassword (setProperty (omitPassword row) .role (.text role)) row := by
  refine ⟨?_, ?_⟩
  · rw [getProperty_setProperty_of_ne _ _ _ _ (by decide)]
    exact getProperty_omitPassword row
  · intro k v hk h
    have hkr : k ≠ .role := by
      intro e
      rw [e, hrow] at h
      cases h
    rw [getProperty_setProperty_of_ne _ _ _ _ hkr, getProperty_omitPassword_of_ne row k hk]
    exact h

/-- C25: the user object that a successful `registerMember`, `login`, `createMember`,
`createLibrarian`, `createAdmin`, `updateMember` or `updateLibrarian` returns has no
`password` property, and every other property of the stored account row (the row created,
the row found, the row as rewritten) is returned with the value the row has. -/
theorem returned_user_without_password (x : Externals) (d : Directory) :
    (∀ (data : MemberData) (r : AuthResult), (registerMember x data d).value = .ok r →
      ∃ m : Member, (registerMember x data d).state.members = d.members ++ [m] ∧
        WithoutPassword r.user m.toObject) ∧
    (∀ (email password role : String) (r : AuthResult),
      (login x email password role d).value = .ok r →
      ∃ u : AccountRow, accountByEmail role email d = some u ∧
        WithoutPassword r.user u.toObject) ∧
    (∀ (data : MemberData) (o : JsonObject), (createMember x data d).value = .ok o →
      ∃ m : Member, (createMember x data d).state.members = d.members ++ [m] ∧
        WithoutPassword o m.toObject) ∧
    (∀ (data : LibrarianData) (o : JsonObject), (createLibrarian x data d).value = .ok o →
      ∃ l : Librarian, (createLibrarian x data d).state.librarians = d.librarians ++ [l] ∧
        WithoutPassword o l.toObject) ∧
    (∀ (data : AdminData) (o : JsonObject), (createAdmin x data d).value = .ok o →
      ∃ a : AdminUser, (createAdmin x data d).state.adminUsers = d.adminUsers ++ [a] ∧
        WithoutPassword o a.toObject) ∧
    (∀ (memberId : Nat) (u : MemberUpdate) (o : JsonObject),
      (updateMember memberId u d).value = .ok o →
      ∃ m : Member, (updateMember memberId u d).state.member? memberId = some m ∧
        WithoutPassword o m.toObject) ∧
    (∀ (librarianId : Nat) (u : LibrarianUpdate) (o : JsonObject),
      (updateLibrarian librarianId u d).value = .ok o →
      ∃ l : Librarian, (updateLibrarian librarianId u d).state.librarian? librarianId
          = some l ∧
        WithoutPassword o l.toObject) := by
  refine ⟨?_, ?_, ?_, ?_, ?_, ?_, ?_⟩
  · intro data r hr
    rcases registerMember_outcome x data d with ⟨-, msg, he⟩ | ⟨m, -, -, -, hs, hv⟩
    · rw [he] at hr; cases hr
    · rw [hv] at hr
      simp only [Except.ok.injEq] at hr
      refine ⟨m, by rw [hs], ?_⟩
      rw [← hr]
      exact withoutPassword_role m.toObject _ rfl
  · intro email password role r hr
    obtain ⟨-, hvalue⟩ := login_value x email password role d
    rw [hvalue] at hr
    by_cases hrole : role = "MEMBER" ∨ role = "LIBRARIAN" ∨ role = "ADMIN"
    · rw [if_pos hrole] at hr
      cases hu : accountByEmail role email d with
      | none => rw [hu] at hr; cases hr
      | some u =>
        rw [hu] at hr
        dsimp only at hr
        refine ⟨u, rfl, ?_⟩
        cases ha : u.isActive with
        | false => simp [ha] at hr
        | true =>
          cases hp : x.comparePassword password u.password with
          | false => simp [ha, hp] at hr
          | true =>
            simp only [ha, hp, Bool.true_eq_false, if_false, Except.ok.injEq] at hr
            rw [← hr]
            refine withoutPassword_role u.toObject _ ?_
            cases u <;> rfl
    · rw [if_neg hrole] at hr
      cases hr
  · intro data o ho
    rcases createMember_outcome x data d with ⟨-, msg, he⟩ | ⟨m, -, -, -, hs, hv⟩
    · rw [he] at ho; cases ho
    · rw [hv] at ho
      simp only [Except.ok.injEq] at ho
      refine ⟨m, by rw [hs], ?_⟩
      rw [← ho]
      exact withoutPassword_omit _
  · intro data o ho
    rcases createLibrarian_outcome x data d with ⟨-, msg, he⟩ | ⟨l, hs, hv⟩
    · rw [he] at ho; cases ho
    · rw [hv] at ho
      simp only [Except.ok.injEq] at ho
      refine ⟨l, by rw [hs], ?_⟩
      rw [← ho]
      exact withoutPassword_omit _
  · intro data o ho
    rcases createAdmin_outcome x data d with ⟨-, msg, he⟩ | ⟨a, hs, hv⟩
    · rw [he] at ho; cases ho
    · rw [hv] at ho
      simp only [Except.ok.injEq] at ho
      refine ⟨a, by rw [hs], ?_⟩
      rw [← ho]
      exact withoutPassword_omit _
  · intro memberId u o ho
    have hfind : ∀ m, d.member? memberId = some m →
        ({ d with members := d.members.map (fun r =>
            if r.id = memberId then u.apply r else r) } : Directory).member? memberId
          = some (u.apply m) := by
      intro m hm
      have h := find?_map_update (fun r : Member => r.id) memberId u.apply (fun _ => rfl)
        d.members
      unfold Directory.member? at hm ⊢
      rw [hm] at h
      exact h
    rcases updateMember_outcome memberId u d with ⟨-, he⟩ | ⟨m, hm, h⟩
    · rw [he] at ho; cases ho
    · rcases h with ⟨-, -, -, he⟩ | ⟨-, -, -, he⟩ | ⟨-, he⟩
      · rw [he] at ho; cases ho
      · rw [he] at ho ⊢
        simp only [Except.ok.injEq] at ho
        refine ⟨u.apply m, hfind m hm, ?_⟩
        rw [← ho]
        exact withoutPassword_omit _
      · rw [he] at ho ⊢
        simp only [Except.ok.injEq] at ho
        refine ⟨u.apply m, hfind m hm, ?_⟩
        rw [← ho]
        exact withoutPassword_omit _
  · intro librarianId u o ho
    have hfind : ∀ l, d.librarian? librarianId = some l →
        ({ d with librarians := d.librarians.map (fun r =>
            if r.id = librarianId then u.apply r else r) } : Directory).librarian? librarianId
          = some (u.apply l) := by
      intro l hl
      have h := find?_map_update (fun r : Librarian => r.id) librarianId u.apply
        (fun _ => rfl) d.librarians
      unfold Directory.librarian? at hl ⊢
      rw [hl] at h
      exact h
    rcases updateLibrarian_outcome librarianId u d with ⟨-, he⟩ | ⟨l, hl, h⟩
    · rw [he] at ho; cases ho
    · rcases h with ⟨-, -, -, he⟩ | ⟨-, -, -, he⟩ | ⟨-, he⟩
      · rw [he] at ho; cases ho
      · rw [he] at ho ⊢
        simp only [Except.ok.injEq] at ho
        refine ⟨u.apply l, hfind l hl, ?_⟩
        rw [← ho]
        exact withoutPassword_omit _
      · rw [he] at ho ⊢
        simp only [Except.ok.injEq] at ho
        refine ⟨u.apply l, hfind l hl, ?_⟩
        rw [← ho]
        exact withoutPassword_omit _

/-- Witness for C25 on the test directory: the admin creates a member; the row stored carries
the hash, the object returned does not. -/
theorem returned_user_without_password_witness :
    (createMember testExternals
        { email := some "admincreated@test.com", password := some "password123",
          firstName := some "Admin", lastName := some "Created", phone := some "555-1234",
          address := some "456 Admin St" } testDirectory).value =
      .ok [(.id, .key 100), (.email, .text "admincreated@test.com"),
        (.firstName, .text "Admin"), (.lastName, .text "Created"),
        (.phone, .text "555-1234"), (.address, .text "456 Admin St"),
        (.isActive, .flag true)] ∧
    ∃ m : Member,
      (createMember testExternals
        { email := some "admincreated@test.com", password := some "password123",
          firstName := some "Admin", lastName := some "Created", phone := some "555-1234",
          address := some "456 Admin St" } testDirectory).state.members
        = testDirectory.members ++ [m] ∧
      WithoutPassword
        [(.id, .key 100), (.email, .text "admincreated@test.com"),
          (.firstName, .text "Admin"), (.lastName, .text "Created"),
          (.phone, .text "555-1234"), (.address, .text "456 Admin St"),
          (.isActive, .flag true)] m.toObject :=
  ⟨rfl, (returned_user_without_password testExternals testDirectory).2.2.1 _ _ rfl⟩

/-- The outcome of `updateCategory`, as for `updateMember`, with the name in the place of the
email. -/
theorem updateCategory_outcome (categoryId : Nat) (u : CategoryUpdate) (d : Directory) :
    (d.category? categoryId = none ∧
      updateCategory categoryId u d =
        ⟨.error "Category not found", d, [⟨.category, .findUniqueById⟩]⟩) ∨
    ∃ c, d.category? categoryId = some c ∧
      ((truthy u.name = true ∧ u.name ≠ some c.name ∧
          (∃ c' ∈ d.categories, some c'.name = u.name) ∧
          updateCategory categoryId u d =
            ⟨.error "Category name already exists", d,
              [⟨.category, .findUniqueById⟩, ⟨.category, .findUniqueByName⟩]⟩) ∨
       (truthy u.name = true ∧ u.name ≠ some c.name ∧
          (∀ c' ∈ d.categories, some c'.name ≠ u.name) ∧
          updateCategory categoryId u d =
            ⟨.ok (u.apply c),
              { d with categories := d.categories.map (fun r =>
                  if r.id = categoryId then u.apply r else r) },
              [⟨.category, .findUniqueById⟩, ⟨.category, .findUniqueByName⟩,
               ⟨.category, .update⟩]⟩) ∨
       (¬ (truthy u.name = true ∧ u.name ≠ some c.name) ∧
          updateCategory categoryId u d =
            ⟨.ok (u.apply c),
              { d with categories := d.categories.map (fun r =>
                  if r.id = categoryId then u.apply r else r) },
              [⟨.category, .findUniqueById⟩, ⟨.category, .update⟩]⟩)) := by
  unfold Directory.category? updateCategory
  cases hm : d.categories.find? (fun c => decide (c.id = categoryId)) with
  | none => exact Or.inl ⟨rfl, rfl⟩
  | some c =>
    right
    refine ⟨c, rfl, ?_⟩
    dsimp only
    by_cases hc : truthy u.name = true ∧ u.name ≠ some c.name
    · have hb : (truthy u.name && decide (u.name ≠ some c.name)) = true := by
        simp [hc.1, hc.2]
      cases hf : d.categories.find? (fun r => decide (some r.name = u.name)) with
      | some c' =>
        left
        refine ⟨hc.1, hc.2, ⟨c', List.mem_of_find?_eq_some hf, ?_⟩, ?_⟩
        · simpa using List.find?_some hf
        · simp only [hb, Option.isSome_some, and_self, if_true]
          rfl
      | none =>
        right; left
        refine ⟨hc.1, hc.2, ?_, ?_⟩
        · intro c' hc' heq
          rw [List.find?_eq_none] at hf
          exact hf c' hc' (by simpa using heq)
        · simp only [hb, Option.isSome_none, Bool.false_eq_true, and_false, if_false, if_true]
          rfl
    · right; right
      have hb : (truthy u.name && decide (u.name ≠ some c.name)) = false := by
        cases ht : truthy u.name with
        | false => rfl
        | true =>
          have : ¬ u.name ≠ some c.name := fun h => hc ⟨ht, h⟩
          simp [this]
      refine ⟨hc, ?_⟩
      simp only [hb, Bool.false_eq_true, false_and, if_false]
      rfl

/-- The outcome of `updateBook` on a book that exists: the ISBN lookup is made exactly when a
non-empty ISBN is supplied that differs from the stored one, the category lookup exactly when
the ISBN guard has passed and a category id (not `null`, not the empty string) is supplied
that differs from the stored one; the
update is refused, with the tables as they were, when the ISBN lookup finds a book or the
category lookup finds none, and otherwise the row of the book is rewritten by the payload. -/
theorem updateBook_outcome (bookId : Nat) (u : BookUpdate) (d : Directory) (s : Store)
    (b : Book) (hb : s.book? bookId = some b) :
    (⟨.book, .findUniqueByIsbn⟩ ∈ (updateBook bookId u d s).calls ↔
      (truthy u.isbn = true ∧ u.isbn ≠ some b.isbn)) ∧
    (⟨.category, .findUniqueById⟩ ∈ (updateBook bookId u d s).calls ↔
      (¬ (truthy u.isbn = true ∧ u.isbn ≠ some b.isbn ∧
          ∃ b' ∈ s.books, some b'.isbn = u.isbn) ∧
        truthyId u.categoryId = true ∧ u.categoryId ≠ some (some b.categoryId))) ∧
    (((updateBook bookId u d s).value = .error "Book with this ISBN already exists" ∧
        (updateBook bookId u d s).state = s ∧
        truthy u.isbn = true ∧ u.isbn ≠ some b.isbn ∧ ∃ b' ∈ s.books, some b'.isbn = u.isbn) ∨
     ((updateBook bookId u d s).value = .error "Category not found" ∧
        (updateBook bookId u d s).state = s ∧
        truthyId u.categoryId = true ∧ u.categoryId ≠ some (some b.categoryId) ∧
        ∀ c ∈ d.categories, some (some c.id) ≠ u.categoryId) ∨
     ((updateBook bookId u d s).value = .ok (u.apply b) ∧
        (updateBook bookId u d s).state =
          { s with books := s.books.map (fun r => if r.id = bookId then u.apply r else r) } ∧
        (truthy u.isbn = true → u.isbn ≠ some b.isbn →
          ∀ b' ∈ s.books, some b'.isbn ≠ u.isbn))) := by
  unfold Store.book? at hb
  have hfind : (s.books.find? (fun r => decide (some r.isbn = u.isbn))).isSome = true ↔
      ∃ b' ∈ s.books, some b'.isbn = u.isbn := by
    rw [List.find?_isSome]
    simp
  have hcat : (d.categories.find? (fun c => decide (some (some c.id) = u.categoryId))).isNone = true ↔
      ∀ c ∈ d.categories, some (some c.id) ≠ u.categoryId := by
    rw [Option.isNone_iff_eq_none, List.find?_eq_none]
    simp
  have hbool : ∀ (p : Bool) (q : Prop) [Decidable q], ¬ (p = true ∧ q) →
      (p && decide q) = false := by
    intro p q _ h
    cases hp : p with
    | false => rfl
    | true =>
      have : ¬ q := fun hq => h ⟨hp, hq⟩
      simp [this]
  by_cases hi : truthy u.isbn = true ∧ u.isbn ≠ some b.isbn
  · have hib : (truthy u.isbn && decide (u.isbn ≠ some b.isbn)) = true := by
      simp [hi.1, hi.2]
    by_cases ht : ∃ b' ∈ s.books, some b'.isbn = u.isbn
    · have ht' := hfind.2 ht
      have heq : updateBook bookId u d s =
          ⟨.error "Book with this ISBN already exists", s,
            [⟨.book, .findUniqueById⟩, ⟨.book, .findUniqueByIsbn⟩]⟩ := by
        unfold updateBook
        rw [hb]
        simp only [hib, ht', and_self, if_true]
        rfl
      rw [heq]
      exact ⟨iff_of_true (by simp) hi,
        iff_of_false (by simp) (fun h => h.1 ⟨hi.1, hi.2, ht⟩),
        Or.inl ⟨rfl, rfl, hi.1, hi.2, ht⟩⟩
    · have ht' : ¬ (s.books.find? (fun r => decide (some r.isbn = u.isbn))).isSome = true :=
        fun h => ht (hfind.1 h)
      have hnt : ¬ (truthy u.isbn = true ∧ u.isbn ≠ some b.isbn ∧
          ∃ b' ∈ s.books, some b'.isbn = u.isbn) := fun h => ht h.2.2
      by_cases hc : truthyId u.categoryId = true ∧ u.categoryId ≠ some (some b.categoryId)
      · have hcb : (truthyId u.categoryId && decide (u.categoryId ≠ some (some b.categoryId)))
            = true := by simp [hc.1, hc.2]
        by_cases hm : ∀ c ∈ d.categories, some (some c.id) ≠ u.categoryId
        · have hm' := hcat.2 hm
          have heq : updateBook bookId u d s =
              ⟨.error "Category not found", s,
                [⟨.book, .findUniqueById⟩, ⟨.book, .findUniqueByIsbn⟩,
                 ⟨.category, .findUniqueById⟩]⟩ := by
            unfold updateBook
            rw [hb]
            simp only [hib, ht', hcb, hm', and_self, and_false, if_true, if_false]
            rfl
          rw [heq]
          exact ⟨iff_of_true (by simp) hi, iff_of_true (by simp) ⟨hnt, hc.1, hc.2⟩,
            Or.inr (Or.inl ⟨rfl, rfl, hc.1, hc.2, hm⟩)⟩
        · have hm' : ¬ (d.categories.find?
              (fun c => decide (some (some c.id) = u.categoryId))).isNone = true :=
            fun h => hm (hcat.1 h)
          have heq : updateBook bookId u d s =
              ⟨.ok (u.apply b),
                { s with books := s.books.map (fun r =>
                    if r.id = bookId then u.apply r else r) },
                [⟨.book, .findUniqueById⟩, ⟨.book, .findUniqueByIsbn⟩,
                 ⟨.category, .findUniqueById⟩, ⟨.book, .update⟩]⟩ := by
            unfold updateBook
            rw [hb]
            simp only [hib, ht', hcb, hm', and_self, and_false, if_true, if_false]
            rfl
          rw [heq]
          exact ⟨iff_of_true (by simp) hi, iff_of_true (by simp) ⟨hnt, hc.1, hc.2⟩,
            Or.inr (Or.inr ⟨rfl, rfl, fun _ _ b' hb' e => ht ⟨b', hb', e⟩⟩)⟩
      · have hcb := hbool _ _ hc
        have heq : updateBook bookId u d s =
            ⟨.ok (u.apply b),
              { s with books := s.books.map (fun r =>
                  if r.id = bookId then u.apply r else r) },
              [⟨.book, .findUniqueById⟩, ⟨.book, .findUniqueByIsbn⟩, ⟨.book, .update⟩]⟩ := by
          unfold updateBook
          rw [hb]
          simp only [hib, ht', hcb, and_false, false_and, Bool.false_eq_true, if_true, if_false]
          rfl
        rw [heq]
        exact ⟨iff_of_true (by simp) hi,
          iff_of_false (by simp) (fun h => hc ⟨h.2.1, h.2.2⟩),
          Or.inr (Or.inr ⟨rfl, rfl, fun _ _ b' hb' e => ht ⟨b', hb', e⟩⟩)⟩
  · have hib := hbool _ _ hi
    have hnt : ¬ (truthy u.isbn = true ∧ u.isbn ≠ some b.isbn ∧
        ∃ b' ∈ s.books, some b'.isbn = u.isbn) := fun h => hi ⟨h.1, h.2.1⟩
    by_cases hc : truthyId u.categoryId = true ∧ u.categoryId ≠ some (some b.categoryId)
    · have hcb : (truthyId u.categoryId && decide (u.categoryId ≠ some (some b.categoryId)))
          = true := by simp [hc.1, hc.2]
      by_cases hm : ∀ c ∈ d.categories, some (some c.id) ≠ u.categoryId
      · have hm' := hcat.2 hm
        have heq : updateBook bookId u d s =
            ⟨.error "Category not found", s,
              [⟨.book, .findUniqueById⟩, ⟨.category, .findUniqueById⟩]⟩ := by
          unfold updateBook
          rw [hb]
          simp only [hib, hcb, hm', and_self, false_and, Bool.false_eq_true, if_true, if_false]
          rfl
        rw [heq]
        exact ⟨iff_of_false (by simp) hi, iff_of_true (by simp) ⟨hnt, hc.1, hc.2⟩,
          Or.inr (Or.inl ⟨rfl, rfl, hc.1, hc.2, hm⟩)⟩
      · have hm' : ¬ (d.categories.find?
            (fun c => decide (some (some c.id) = u.categoryId))).isNone = true :=
          fun h => hm (hcat.1 h)
        have heq : updateBook bookId u d s =
            ⟨.ok (u.apply b),
              { s with books := s.books.map (fun r =>
                  if r.id = bookId then u.apply r else r) },
              [⟨.book, .findUniqueById⟩, ⟨.category, .findUniqueById⟩, ⟨.book, .update⟩]⟩ := by
          unfold updateBook
          rw [hb]
          simp only [hib, hcb, hm', and_self, and_false, false_and, Bool.false_eq_true, if_true,
            if_false]
          rfl
        rw [heq]
        exact ⟨iff_of_false (by simp) hi, iff_of_true (by simp) ⟨hnt, hc.1, hc.2⟩,
          Or.inr (Or.inr ⟨rfl, rfl, fun h1 h2 => absurd ⟨h1, h2⟩ hi⟩)⟩
    · have hcb := hbool _ _ hc
      have heq : updateBook bookId u d s =
          ⟨.ok (u.apply b),
            { s with books := s.books.map (fun r =>
                if r.id = bookId then u.apply r else r) },
            [⟨.book, .findUniqueById⟩, ⟨.book, .update⟩]⟩ := by
        unfold updateBook
        rw [hb]
        simp only [hib, hcb, false_and, Bool.false_eq_true, if_false]
        rfl
      rw [heq]
      exact ⟨iff_of_false (by simp) hi,
        iff_of_false (by simp) (fun h => hc ⟨h.2.1, h.2.2⟩),
        Or.inr (Or.inr ⟨rfl, rfl, fun h1 h2 => absurd ⟨h1, h2⟩ hi⟩)⟩

/-- `orKeep` applies a supplied non-empty text and keeps the stored one otherwise. -/
theorem textApplied_orKeep (supplied : Option String) (previous : String) :
    TextApplied supplied previous (orKeep supplied previous) := by
  unfold TextApplied orKeep
  refine ⟨?_, ?_⟩
  · intro v hv hne
    rw [hv]
    simp [hne]
  · rintro (h | h)
    · rw [h]
    · rw [h]; simp

/-- `orKeepId` applies a supplied id and keeps the stored one otherwise. -/
theorem idApplied_orKeepId (supplied : Option (Option Nat)) (previous : Nat) :
    IdApplied supplied previous (orKeepId supplied previous) := by
  unfold IdApplied orKeepId
  refine ⟨?_, ?_⟩
  · intro v h
    rw [h]
  · intro h
    rcases h with h | h <;> rw [h]

/-- `orKeepDefined` applies every supplied value and keeps the stored one otherwise. -/
theorem valueApplied_orKeepDefined {α : Type} (supplied : Option α) (previous : α) :
    ValueApplied supplied previous (orKeepDefined supplied previous) := by
  unfold ValueApplied orKeepDefined
  refine ⟨?_, ?_⟩
  · intro v hv
    rw [hv]
  · intro h
    rw [h]

/-- The condition of the uniqueness lookups: a non-empty value is supplied and it differs from
the stored one. -/
theorem truthy_and_ne_iff (supplied : Option String) (stored : String) :
    (truthy supplied = true ∧ supplied ≠ some stored) ↔
      ∃ v, supplied = some v ∧ v ≠ "" ∧ v ≠ stored := by
  cases supplied with
  | none => simp [truthy]
  | some v => simp [truthy]

/-- C22, as the claim states it, fails: the payload `{ firstName: "" }` is accepted by
`updateMember` for member 1 of the test directory, and the stored `firstName`, explicitly
supplied as the empty string, is still "John". -/
theorem updateMember_keeps_name_supplied_empty :
    (updateMember 1
        { email := none, firstName := some "", lastName := none, phone := none,
          address := none, isActive := none } testDirectory).value =
      .ok [(.id, .key 1), (.email, .text "member@test.com"), (.firstName, .text "John"),
        (.lastName, .text "Doe"), (.phone, .text "123-456-7890"), (.address, .null),
        (.isActive, .flag true)] ∧
    ((updateMember 1
        { email := none, firstName := some "", lastName := none, phone := none,
          address := none, isActive := none } testDirectory).state.member? 1).map
        (fun m => m.firstName) = some "John" := by
  exact ⟨rfl, rfl⟩

/-- C22, amended: for an existing row and a payload that the update accepts, the stored row
holds, in each of the columns written under `if (v)` (email, firstName, lastName of members
and librarians; name of categories; title, author, isbn and categoryId of books), the supplied
value when a truthy one is supplied (a non-empty string, an id) and the previous value when
the property is missing or supplied falsy (the empty string; for categoryId also `null`), and
in each column written under `if (v !== undefined)` (phone, address, isActive, description)
the supplied value when one is supplied, `null` and `false` included, and the previous value
otherwise; id and password stay. The uniqueness lookup on email (name, ISBN) is made exactly
when a non-empty value is supplied that differs from the stored one. -/
theorem update_applies_supplied_fields (d : Directory) (s : Store) :
    (∀ (id : Nat) (u : MemberUpdate) (m : Member), d.member? id = some m →
      (⟨.member, .findUniqueByEmail⟩ ∈ (updateMember id u d).calls ↔
        ∃ v, u.email = some v ∧ v ≠ "" ∧ v ≠ m.email) ∧
      ∀ o, (updateMember id u d).value = .ok o →
        ∃ m', (updateMember id u d).state.member? id = some m' ∧
          TextApplied u.email m.email m'.email ∧
          TextApplied u.firstName m.firstName m'.firstName ∧
          TextApplied u.lastName m.lastName m'.lastName ∧
          ValueApplied u.phone m.phone m'.phone ∧
          ValueApplied u.address m.address m'.address ∧
          ValueApplied u.isActive m.isActive m'.isActive ∧
          m'.id = m.id ∧ m'.password = m.password) ∧
    (∀ (id : Nat) (u : LibrarianUpdate) (l : Librarian), d.librarian? id = some l →
      (⟨.librarian, .findUniqueByEmail⟩ ∈ (updateLibrarian id u d).calls ↔
        ∃ v, u.email = some v ∧ v ≠ "" ∧ v ≠ l.email) ∧
      ∀ o, (updateLibrarian id u d).value = .ok o →
        ∃ l', (updateLibrarian id u d).state.librarian? id = some l' ∧
          TextApplied u.email l.email l'.email ∧
          TextApplied u.firstName l.firstName l'.firstName ∧
          TextApplied u.lastName l.lastName l'.lastName ∧
          ValueApplied u.phone l.phone l'.phone ∧
          ValueApplied u.isActive l.isActive l'.isActive ∧
          l'.id = l.id ∧ l'.password = l.password) ∧
    (∀ (id : Nat) (u : CategoryUpdate) (c : Category), d.category? id = some c →
      (⟨.category, .findUniqueByName⟩ ∈ (updateCategory id u d).calls ↔
        ∃ v, u.name = some v ∧ v ≠ "" ∧ v ≠ c.name) ∧
      ∀ o, (updateCategory id u d).value = .ok o →
        ∃ c', (updateCategory id u d).state.category? id = some c' ∧ o = c' ∧
          TextApplied u.name c.name c'.name ∧
          ValueApplied u.description c.description c'.description ∧
          c'.id = c.id) ∧
    (∀ (id : Nat) (u : BookUpdate) (b : Book), s.book? id = some b →
      (⟨.book, .findUniqueByIsbn⟩ ∈ (updateBook id u d s).calls ↔
        ∃ v, u.isbn = some v ∧ v ≠ "" ∧ v ≠ b.isbn) ∧
      ∀ o, (updateBook id u d s).value = .ok o →
        ∃ b', (updateBook id u d s).state.book? id = some b' ∧ o = b' ∧
          TextApplied u.title b.title b'.title ∧
          TextApplied u.author b.author b'.author ∧
          TextApplied u.isbn b.isbn b'.isbn ∧
          ValueApplied u.description b.description b'.description ∧
          IdApplied u.categoryId b.categoryId b'.categoryId ∧
          b'.id = b.id) := by
  refine ⟨?_, ?_, ?_, ?_⟩
  · intro id u m hm
    have hfind : ({ d with members := d.members.map (fun r =>
          if r.id = id then u.apply r else r) } : Directory).member? id
        = some (u.apply m) := by
      have h := find?_map_update (fun r : Member => r.id) id u.apply (fun _ => rfl) d.members
      unfold Directory.member? at hm ⊢
      rw [hm] at h
      exact h
    have fields : TextApplied u.email m.email (u.apply m).email ∧
        TextApplied u.firstName m.firstName (u.apply m).firstName ∧
        TextApplied u.lastName m.lastName (u.apply m).lastName ∧
        ValueApplied u.phone m.phone (u.apply m).phone ∧
        ValueApplied u.address m.address (u.apply m).address ∧
        ValueApplied u.isActive m.isActive (u.apply m).isActive ∧
        (u.apply m).id = m.id ∧ (u.apply m).password = m.password :=
      ⟨textApplied_orKeep _ _, textApplied_orKeep _ _, textApplied_orKeep _ _,
        valueApplied_orKeepDefined _ _, valueApplied_orKeepDefined _ _,
        valueApplied_orKeepDefined _ _, rfl, rfl⟩
    rw [← truthy_and_ne_iff]
    rcases updateMember_outcome id u d with ⟨hnone, -⟩ | ⟨m0, hm0, h⟩
    · rw [hm] at hnone; cases hnone
    · rw [hm] at hm0
      cases hm0
      rcases h with ⟨h1, h2, -, he⟩ | ⟨h1, h2, -, he⟩ | ⟨hn, he⟩
      · rw [he]
        exact ⟨iff_of_true (by simp) ⟨h1, h2⟩, fun o ho => by cases ho⟩
      · rw [he]
        exact ⟨iff_of_true (by simp) ⟨h1, h2⟩, fun o _ => ⟨u.apply m, hfind, fields⟩⟩
      · rw [he]
        exact ⟨iff_of_false (by simp) hn, fun o _ => ⟨u.apply m, hfind, fields⟩⟩
  · intro id u l hl
    have hfind : ({ d with librarians := d.librarians.map (fun r =>
          if r.id = id then u.apply r else r) } : Directory).librarian? id
        = some (u.apply l) := by
      have h := find?_map_update (fun r : Librarian => r.id) id u.apply (fun _ => rfl)
        d.librarians
      unfold Directory.librarian? at hl ⊢
      rw [hl] at h
      exact h
    have fields : TextApplied u.email l.email (u.apply l).email ∧
        TextApplied u.firstName l.firstName (u.apply l).firstName ∧
        TextApplied u.lastName l.lastName (u.apply l).lastName ∧
        ValueApplied u.phone l.phone (u.apply l).phone ∧
        ValueApplied u.isActive l.isActive (u.apply l).isActive ∧
        (u.apply l).id = l.id ∧ (u.apply l).password = l.password :=
      ⟨textApplied_orKeep _ _, textApplied_orKeep _ _, textApplied_orKeep _ _,
        valueApplied_orKeepDefined _ _, valueApplied_orKeepDefined _ _, rfl, rfl⟩
    rw [← truthy_and_ne_iff]
    rcases updateLibrarian_outcome id u d with ⟨hnone, -⟩ | ⟨l0, hl0, h⟩
    · rw [hl] at hnone; cases hnone
    · rw [hl] at hl0
      cases hl0
      rcases h with ⟨h1, h2, -, he⟩ | ⟨h1, h2, -, he⟩ | ⟨hn, he⟩
      · rw [he]
        exact ⟨iff_of_true (by simp) ⟨h1, h2⟩, fun o ho => by cases ho⟩
      · rw [he]
        exact ⟨iff_of_true (by simp) ⟨h1, h2⟩, fun o _ => ⟨u.apply l, hfind, fields⟩⟩
      · rw [he]
        exact ⟨iff_of_false (by simp) hn, fun o _ => ⟨u.apply l, hfind, fields⟩⟩
  · intro id u c hc
    have hfind : ({ d with categories := d.categories.map (fun r =>
          if r.id = id then u.apply r else r) } : Directory).category? id
        = some (u.apply c) := by
      have h := find?_map_update (fun r : Category => r.id) id u.apply (fun _ => rfl)
        d.categories
      unfold Directory.category? at hc ⊢
      rw [hc] at h
      exact h
    have fields : TextApplied u.name c.name (u.apply c).name ∧
        ValueApplied u.description c.description (u.apply c).description ∧
        (u.apply c).id = c.id :=
      ⟨textApplied_orKeep _ _, valueApplied_orKeepDefined _ _, rfl⟩
    rw [← truthy_and_ne_iff]
    rcases updateCategory_outcome id u d with ⟨hnone, -⟩ | ⟨c0, hc0, h⟩
    · rw [hc] at hnone; cases hnone
    · rw [hc] at hc0
      cases hc0
      rcases h with ⟨h1, h2, -, he⟩ | ⟨h1, h2, -, he⟩ | ⟨hn, he⟩
      · rw [he]
        exact ⟨iff_of_true (by simp) ⟨h1, h2⟩, fun o ho => by cases ho⟩
      · rw [he]
        exact ⟨iff_of_true (by simp) ⟨h1, h2⟩,
          fun o ho => ⟨u.apply c, hfind, (Except.ok.inj ho).symm, fields⟩⟩
      · rw [he]
        exact ⟨iff_of_false (by simp) hn,
          fun o ho => ⟨u.apply c, hfind, (Except.ok.inj ho).symm, fields⟩⟩
  · intro id u b hb
    have hfind : ({ s with books := s.books.map (fun r =>
          if r.id = id then u.apply r else r) } : Store).book? id = some (u.apply b) := by
      have h := find?_map_update (fun r : Book => r.id) id u.apply (fun _ => rfl) s.books
      unfold Store.book? at hb ⊢
      rw [hb] at h
      exact h
    have fields : TextApplied u.title b.title (u.apply b).title ∧
        TextApplied u.author b.author (u.apply b).author ∧
        TextApplied u.isbn b.isbn (u.apply b).isbn ∧
        ValueApplied u.description b.description (u.apply b).description ∧
        IdApplied u.categoryId b.categoryId (u.apply b).categoryId ∧
        (u.apply b).id = b.id :=
      ⟨textApplied_orKeep _ _, textApplied_orKeep _ _, textApplied_orKeep _ _,
        valueApplied_orKeepDefined _ _, idApplied_orKeepId _ _, rfl⟩
    rw [← truthy_and_ne_iff]
    obtain ⟨hcall, -, h⟩ := updateBook_outcome id u d s b hb
    refine ⟨hcall, ?_⟩
    intro o ho
    rcases h with ⟨he, -⟩ | ⟨he, -⟩ | ⟨hv, hs, -⟩
    · rw [he] at ho; cases ho
    · rw [he] at ho; cases ho
    · rw [hv] at ho
      rw [hs]
      exact ⟨u.apply b, hfind, (Except.ok.inj ho).symm, fields⟩

/-- Witness for C22 (amended) on member 1 of the test directory, for a payload that repeats the
stored email, renames the member, clears the phone and deactivates the account: no email
lookup is made, and the row takes the three new values; and on book 1 of the one-book
catalogue, for the payload `{ title: "Dune Messiah", categoryId: null }`: the update is
accepted, the title is written and the category stays 7. -/
theorem update_applies_supplied_fields_witness :
    ((⟨.member, .findUniqueByEmail⟩ ∈ (updateMember 1
        { email := some "member@test.com", firstName := some "Johnny", lastName := none,
          phone := some none, address := none, isActive := some false } testDirectory).calls ↔
      ∃ v, some "member@test.com" = some v ∧ v ≠ "" ∧ v ≠ "member@test.com") ∧
    ∃ m' : Member, (updateMember 1
        { email := some "member@test.com", firstName := some "Johnny", lastName := none,
          phone := some none, address := none, isActive := some false }
        testDirectory).state.member? 1 = some m' ∧
      TextApplied (some "member@test.com") "member@test.com" m'.email ∧
      TextApplied (some "Johnny") "John" m'.firstName ∧
      TextApplied none "Doe" m'.lastName ∧
      ValueApplied (some none) (some "123-456-7890") m'.phone ∧
      ValueApplied none none m'.address ∧
      ValueApplied (some false) true m'.isActive ∧
      m'.id = 1 ∧ m'.password = "hashed_password123") ∧
    ∃ b' : Book, (updateBook 1
        { title := some "Dune Messiah", author := none, isbn := none, description := none,
          categoryId := some none } testDirectory freshStore).state.book? 1 = some b' ∧
      { book1 with title := "Dune Messiah" } = b' ∧
      TextApplied (some "Dune Messiah") "Dune" b'.title ∧
      TextApplied none "Frank Herbert" b'.author ∧
      TextApplied none "9780441013593" b'.isbn ∧
      ValueApplied none none b'.description ∧
      IdApplied (some none) 7 b'.categoryId ∧
      b'.id = 1 :=
  have h := (update_applies_supplied_fields testDirectory freshStore).1 1
    { email := some "member@test.com", firstName := some "Johnny", lastName := none,
      phone := some none, address := none, isActive := some false }
    { id := 1, email := "member@test.com", password := "hashed_password123",
      firstName := "John", lastName := "Doe", phone := some "123-456-7890",
      address := none, isActive := true } rfl
  have k := (update_applies_supplied_fields testDirectory freshStore).2.2.2 1
    { title := some "Dune Messiah", author := none, isbn := none, description := none,
      categoryId := some none } book1 rfl
  ⟨⟨h.1, h.2 _ rfl⟩, k.2 { book1 with title := "Dune Messiah" } rfl⟩

/-- C26, as the code runs: the admin controllers hand the request body to the service, whose
first statement is a store lookup, so every request to create a member or a book reaches the
data store before anything is refused. For the body `{ email }` of the repository's test the
answer is 400 with the conflict message of the email lookup when the email is registered;
when it is not, the lookup is made and (with the collaborators of the test setup, whose hash
accepts a missing password) the 400 comes from the rejected `create`. For the body `{ title }`
the answer is 400 from the ISBN lookup. `registerController`, in front of the same member
creation, refuses a body without a required property with no store call made. -/
theorem admin_create_reaches_store (x : Externals) (d : Directory) (s : Store) :
    (∀ body : MemberData,
      (createMemberController x body d).calls.head? = some ⟨.member, .findUniqueByEmail⟩) ∧
    (∀ body : BookData,
      (createBookController body d s).calls.head? = some ⟨.book, .findUniqueByIsbn⟩) ∧
    (∀ body : MemberData,
      truthy body.email = false ∨ truthy body.password = false ∨
        truthy body.firstName = false ∨ truthy body.lastName = false →
      registerController x body d =
        ⟨{ status := 400,
           body := .error "Email, password, firstName, and lastName are required" }, d, []⟩) ∧
    createMemberController testExternals
        { email := some "member@test.com", password := none, firstName := none,
          lastName := none, phone := none, address := none } testDirectory =
      ⟨{ status := 400, body := .error "Email already registered" }, testDirectory,
        [⟨.member, .findUniqueByEmail⟩]⟩ ∧
    createMemberController testExternals
        { email := some "test@test.com", password := none, firstName := none,
          lastName := none, phone := none, address := none } testDirectory =
      ⟨{ status := 400, body := .error createRejected }, testDirectory,
        [⟨.member, .findUniqueByEmail⟩, ⟨.member, .create⟩]⟩ ∧
    createBookController
        { title := some "Test Book", author := none, isbn := none, description := none,
          categoryId := none } testDirectory freshStore =
      ⟨{ status := 400, body := .error whereRejected }, freshStore,
        [⟨.book, .findUniqueByIsbn⟩]⟩ := by
  refine ⟨?_, ?_, ?_, rfl, rfl, rfl⟩
  · intro body
    unfold createMemberController createMember memberByEmail
    cases body.email with
    | none => rfl
    | some e =>
      dsimp only
      cases d.members.find? (fun m => decide (m.email = e)) with
      | some _ => rfl
      | none =>
        dsimp only
        cases x.hashPassword body.password with
        | error _ => rfl
        | ok hashed =>
          dsimp only
          cases memberCreate (some e) hashed body.firstName body.lastName body.phone
              body.address d with
          | error _ => rfl
          | ok v => rfl
  · intro body
    unfold createBookController createBook
    cases body.isbn with
    | none => rfl
    | some isbn =>
      dsimp only
      cases s.books.find? (fun b => decide (b.isbn = isbn)) with
      | some _ => rfl
      | none =>
        dsimp only
        cases body.categoryId with
        | none => rfl
        | some categoryId =>
          dsimp only
          cases d.categories.find? (fun c => decide (c.id = categoryId)) with
          | none => rfl
          | some _ =>
            dsimp only
            cases bookCreate body.title body.author (some isbn) body.description
                (some categoryId) s with
            | error _ => rfl
            | ok v => rfl
  · intro body h
    unfold registerController
    rw [if_pos h]

/-- What `book.create` does when it accepts the row. -/
theorem bookCreate_ok (title author isbn description : Option String)
    (categoryId : Option Nat) (s s1 : Store) (b : Book)
    (h : bookCreate title author isbn description categoryId s = .ok (b, s1)) :
    s1 = { s with books := s.books ++ [b], nextId := s.nextId + 1 } ∧
    b.id = s.nextId ∧ isbn = some b.isbn := by
  unfold bookCreate at h
  split at h
  · simp only [Except.ok.injEq, Prod.mk.injEq] at h
    obtain ⟨hb, hs⟩ := h
    subst hb
    exact ⟨hs.symm, rfl, rfl⟩
  · cases h

/-- The outcome of `createBook`: an error with the tables as they were, or a new book row whose
ISBN no book had. -/
theorem createBook_outcome (data : BookData) (d : Directory) (s : Store) :
    ((createBook data d s).state = s ∧ ∃ message, (createBook data d s).value
        = .error message) ∨
    ∃ b : Book, b.id = s.nextId ∧ data.isbn = some b.isbn ∧
      (∀ b' ∈ s.books, b'.isbn ≠ b.isbn) ∧
      (createBook data d s).state =
        { s with books := s.books ++ [b], nextId := s.nextId + 1 } ∧
      (createBook data d s).value = .ok b := by
  unfold createBook
  cases hi : data.isbn with
  | none => exact Or.inl ⟨rfl, _, rfl⟩
  | some isbn =>
    dsimp only
    cases hf : s.books.find? (fun b => decide (b.isbn = isbn)) with
    | some _ => exact Or.inl ⟨rfl, _, rfl⟩
    | none =>
      dsimp only
      cases hc : data.categoryId with
      | none => exact Or.inl ⟨rfl, _, rfl⟩
      | some categoryId =>
        dsimp only
        cases hcat : d.categories.find? (fun c => decide (c.id = categoryId)) with
        | none => exact Or.inl ⟨rfl, _, rfl⟩
        | some _ =>
          dsimp only
          cases hb : bookCreate data.title data.author (some isbn) data.description
              (some categoryId) s with
          | error _ => exact Or.inl ⟨rfl, _, rfl⟩
          | ok v =>
            obtain ⟨b, s1⟩ := v
            obtain ⟨hs1, hid, hisbn⟩ := bookCreate_ok _ _ _ _ _ _ _ _ hb
            right
            refine ⟨b, hid, hisbn, ?_, hs1, rfl⟩
            intro b' hb' heq
            rw [List.find?_eq_none] at hf
            have := hf b' hb'
            simp only [decide_eq_true_eq] at this
            apply this
            rw [heq]
            exact (Option.some.inj hisbn).symm

/-- Appending a row whose column value no row has keeps the column free of duplicates. -/
theorem nodup_map_append {α β : Type} (col : α → β) (l : List α) (x : α)
    (h : (l.map col).Nodup) (hx : ∀ y ∈ l, col y ≠ col x) :
    ((l ++ [x]).map col).Nodup := by
  rw [List.map_append, List.nodup_append]
  refine ⟨h, by simp, ?_⟩
  intro a ha hb
  obtain ⟨y, hy, rfl⟩ := List.mem_map.1 ha
  simp only [List.map_cons, List.map_nil, List.mem_singleton] at hb
  exact hx y hy hb

/-- Rewriting the row with key `i` keeps a column free of duplicates when the keys are unique
and the rewritten row keeps its column value or takes one that no row has. -/
theorem nodup_map_update {α β : Type} (key : α → Nat) (col : α → β) (i : Nat) (f : α → α)
    (l : List α) (hk : (l.map key).Nodup) (hc : (l.map col).Nodup)
    (hf : ∀ r ∈ l, key r = i → col (f r) = col r ∨ ∀ r' ∈ l, col r' ≠ col (f r)) :
    ((l.map (fun r => if key r = i then f r else r)).map col).Nodup := by
  unfold List.Nodup at hk hc ⊢
  rw [List.pairwise_map] at hk hc
  rw [List.pairwise_map, List.pairwise_map]
  refine (hk.and hc).imp_of_mem ?_
  intro a b ha hb hab
  obtain ⟨hkey, hcol⟩ := hab
  by_cases h1 : key a = i
  · have h2 : ¬ key b = i := fun e => hkey (h1.trans e.symm)
    simp only [h1, h2, if_true, if_false]
    rcases hf a ha h1 with e | e
    · rw [e]; exact hcol
    · exact fun h => e b hb h.symm
  · by_cases h2 : key b = i
    · simp only [h1, h2, if_true, if_false]
      rcases hf b hb h2 with e | e
      · rw [e]; exact hcol
      · exact e a ha
    · simp only [h1, h2, if_false]
      exact hcol

/-- The value `orKeep` stores: the stored one unless a non-empty value is supplied that
differs from it, and then the supplied one. -/
theorem orKeep_cases (supplied : Option String) (stored : String) :
    (¬ (truthy supplied = true ∧ supplied ≠ some stored) → orKeep supplied stored = stored) ∧
    (truthy supplied = true → supplied = some (orKeep supplied stored)) := by
  cases supplied with
  | none => simp [truthy, orKeep]
  | some v =>
    by_cases hv : v = ""
    · simp [truthy, orKeep, hv]
    · simp only [truthy, orKeep, hv, ne_eq, not_false_eq_true, decide_True, if_true,
        Option.some.injEq, true_and, not_not, implies_true, and_true]
      exact fun h => h

/-- One call of an account or catalogue operation keeps the key discipline, the emails of the
members pairwise distinct and the ISBNs of the books pairwise distinct. -/
theorem directoryInv_step (x : Externals) (t : Directory × Store) (op : DirectoryOp)
    (hk : AccountsKeyed t.1 t.2) (he : EmailsDistinct t.1) (hi : IsbnsDistinct t.2) :
    AccountsKeyed (directoryStep x t op).1 (directoryStep x t op).2 ∧
    EmailsDistinct (directoryStep x t op).1 ∧ IsbnsDistinct (directoryStep x t op).2 := by
  obtain ⟨d, s⟩ := t
  dsimp only at hk he hi
  obtain ⟨hmk, hml, hbk, hbl⟩ := hk
  have newMember : ∀ m : Member, m.id = d.nextId → (∀ m' ∈ d.members, m'.email ≠ m.email) →
      AccountsKeyed { d with members := d.members ++ [m], nextId := d.nextId + 1 } s ∧
      EmailsDistinct { d with members := d.members ++ [m], nextId := d.nextId + 1 } ∧
      IsbnsDistinct s := by
    intro m hid hfresh
    refine ⟨⟨?_, ?_, hbk, hbl⟩, ?_, hi⟩
    · refine nodup_map_append (fun m : Member => m.id) d.members m hmk ?_
      intro y hy e
      have e' : y.id = m.id := e
      have := hml y hy
      omega
    · intro y hy
      rcases List.mem_append.1 hy with h | h
      · exact Nat.lt_succ_of_lt (hml y h)
      · simp only [List.mem_singleton] at h
        rw [h, hid]
        exact Nat.lt_succ_self _
    · exact nodup_map_append (fun m : Member => m.email) d.members m he hfresh
  have updMember : ∀ (id : Nat) (u : MemberUpdate) (m : Member), d.member? id = some m →
      (u.apply m).email = m.email ∨ (∀ m' ∈ d.members, m'.email ≠ (u.apply m).email) →
      AccountsKeyed { d with members := d.members.map (fun r =>
          if r.id = id then u.apply r else r) } s ∧
      EmailsDistinct { d with members := d.members.map (fun r =>
          if r.id = id then u.apply r else r) } ∧
      IsbnsDistinct s := by
    intro id u m hm hem
    have hids : (d.members.map (fun r => if r.id = id then u.apply r else r)).map
        (fun m : Member => m.id) = d.members.map (fun m : Member => m.id) := by
      rw [List.map_map]
      apply List.map_congr_left
      intro r _
      by_cases h : r.id = id
      · simp only [Function.comp, h, if_true]
        exact (show (u.apply r).id = r.id from rfl).trans h
      · simp only [Function.comp, h, if_false]
    refine ⟨⟨?_, ?_, hbk, hbl⟩, ?_, hi⟩
    · show ((d.members.map (fun r => if r.id = id then u.apply r else r)).map
        (fun m : Member => m.id)).Nodup
      rw [hids]; exact hmk
    · intro y hy
      obtain ⟨r, hr, rfl⟩ := List.mem_map.1 hy
      by_cases h : r.id = id
      · simp only [h, if_true]
        exact (show (u.apply r).id = r.id from rfl) ▸ hml r hr
      · simp only [h, if_false]
        exact hml r hr
    · refine nodup_map_update (fun m : Member => m.id) (fun m : Member => m.email) id u.apply
        d.members hmk he ?_
      intro r hr hrid
      have hrm : r = m :=
        eq_of_find?_of_nodup (fun m : Member => m.id) d.members hmk id m hm r hr hrid
      rw [hrm]
      exact hem
  have newBook : ∀ b : Book, b.id = s.nextId → (∀ b' ∈ s.books, b'.isbn ≠ b.isbn) →
      AccountsKeyed d { s with books := s.books ++ [b], nextId := s.nextId + 1 } ∧
      EmailsDistinct d ∧
      IsbnsDistinct { s with books := s.books ++ [b], nextId := s.nextId + 1 } := by
    intro b hid hfresh
    refine ⟨⟨hmk, hml, ?_, ?_⟩, he, ?_⟩
    · refine nodup_map_append (fun b : Book => b.id) s.books b hbk ?_
      intro y hy e
      have e' : y.id = b.id := e
      have := hbl y hy
      omega
    · intro y hy
      rcases List.mem_append.1 hy with h | h
      · exact Nat.lt_succ_of_lt (hbl y h)
      · simp only [List.mem_singleton] at h
        rw [h, hid]
        exact Nat.lt_succ_self _
    · exact nodup_map_append (fun b : Book => b.isbn) s.books b hi hfresh
  have updBook : ∀ (id : Nat) (u : BookUpdate) (b : Book), s.book? id = some b →
      (u.apply b).isbn = b.isbn ∨ (∀ b' ∈ s.books, b'.isbn ≠ (u.apply b).isbn) →
      AccountsKeyed d { s with books := s.books.map (fun r =>
          if r.id = id then u.apply r else r) } ∧
      EmailsDistinct d ∧
      IsbnsDistinct { s with books := s.books.map (fun r =>
          if r.id = id then u.apply r else r) } := by
    intro id u b hb hisbn
    have hids : (s.books.map (fun r => if r.id = id then u.apply r else r)).map
        (fun b : Book => b.id) = s.books.map (fun b : Book => b.id) := by
      rw [List.map_map]
      apply List.map_congr_left
      intro r _
      by_cases h : r.id = id
      · simp only [Function.comp, h, if_true]
        exact (show (u.apply r).id = r.id from rfl).trans h
      · simp only [Function.comp, h, if_false]
    refine ⟨⟨hmk, hml, ?_, ?_⟩, he, ?_⟩
    · show ((s.books.map (fun r => if r.id = id then u.apply r else r)).map
        (fun b : Book => b.id)).Nodup
      rw [hids]; exact hbk
    · intro y hy
      obtain ⟨r, hr, rfl⟩ := List.mem_map.1 hy
      by_cases h : r.id = id
      · simp only [h, if_true]
        exact (show (u.apply r).id = r.id from rfl) ▸ hbl r hr
      · simp only [h, if_false]
        exact hbl r hr
    · refine nodup_map_update (fun b : Book => b.id) (fun b : Book => b.isbn) id u.apply
        s.books hbk hi ?_
      intro r hr hrid
      have hrb : r = b :=
        eq_of_find?_of_nodup (fun b : Book => b.id) s.books hbk id b hb r hr hrid
      rw [hrb]
      exact hisbn
  have same : AccountsKeyed d s ∧ EmailsDistinct d ∧ IsbnsDistinct s :=
    ⟨⟨hmk, hml, hbk, hbl⟩, he, hi⟩
  cases op with
  | registerMember data =>
    show AccountsKeyed (registerMember x data d).state s ∧
      EmailsDistinct (registerMember x data d).state ∧ IsbnsDistinct s
    rcases registerMember_outcome x data d with ⟨e, -⟩ | ⟨m, hid, -, hfresh, e, -⟩
    · rw [e]; exact same
    · rw [e]; exact newMember m hid hfresh
  | createMember data =>
    show AccountsKeyed (createMember x data d).state s ∧
      EmailsDistinct (createMember x data d).state ∧ IsbnsDistinct s
    rcases createMember_outcome x data d with ⟨e, -⟩ | ⟨m, hid, -, hfresh, e, -⟩
    · rw [e]; exact same
    · rw [e]; exact newMember m hid hfresh
  | updateMember id u =>
    show AccountsKeyed (updateMember id u d).state s ∧
      EmailsDistinct (updateMember id u d).state ∧ IsbnsDistinct s
    rcases updateMember_outcome id u d with ⟨-, e⟩ | ⟨m, hm, h⟩
    · rw [e]; exact same
    · rcases h with ⟨-, -, -, e⟩ | ⟨h1, -, hfresh, e⟩ | ⟨hn, e⟩
      · rw [e]; exact same
      · rw [e]
        refine updMember id u m hm (Or.inr ?_)
        intro m' hm' heq
        apply hfresh m' hm'
        rw [(orKeep_cases u.email m.email).2 h1]
        exact congrArg some heq
      · rw [e]
        exact updMember id u m hm (Or.inl ((orKeep_cases u.email m.email).1 hn))
  | createBook data =>
    show AccountsKeyed d (createBook data d s).state ∧ EmailsDistinct d ∧
      IsbnsDistinct (createBook data d s).state
    rcases createBook_outcome data d s with ⟨e, -⟩ | ⟨b, hid, -, hfresh, e, -⟩
    · rw [e]; exact same
    · rw [e]; exact newBook b hid hfresh
  | updateBook id u =>
    show AccountsKeyed d (updateBook id u d s).state ∧ EmailsDistinct d ∧
      IsbnsDistinct (updateBook id u d s).state
    cases hb : s.book? id with
    | none =>
      have e : (updateBook id u d s).state = s := by
        unfold Store.book? at hb
        unfold updateBook
        rw [hb]
      rw [e]; exact same
    | some b =>
      obtain ⟨-, -, h⟩ := updateBook_outcome id u d s b hb
      rcases h with ⟨-, e, -⟩ | ⟨-, e, -⟩ | ⟨-, e, hfresh⟩
      · rw [e]; exact same
      · rw [e]; exact same
      · rw [e]
        by_cases hc : truthy u.isbn = true ∧ u.isbn ≠ some b.isbn
        · refine updBook id u b hb (Or.inr ?_)
          intro b' hb' heq
          apply hfresh hc.1 hc.2 b' hb'
          rw [(orKeep_cases u.isbn b.isbn).2 hc.1]
          exact congrArg some heq
        · exact updBook id u b hb (Or.inl ((orKeep_cases u.isbn b.isbn).1 hc))

/-- Every sequence of account and catalogue operations keeps the key discipline, the emails
of the members pairwise distinct and the ISBNs of the books pairwise distinct. -/
theorem directoryInv_run (x : Externals) (ops : List DirectoryOp) (t : Directory × Store)
    (hk : AccountsKeyed t.1 t.2) (he : EmailsDistinct t.1) (hi : IsbnsDistinct t.2) :
    AccountsKeyed (directoryRun x t ops).1 (directoryRun x t ops).2 ∧
    EmailsDistinct (directoryRun x t ops).1 ∧ IsbnsDistinct (directoryRun x t ops).2 := by
  induction ops generalizing t with
  | nil => exact ⟨hk, he, hi⟩
  | cons op ops ih =>
    obtain ⟨hk', he', hi'⟩ := directoryInv_step x t op hk he hi
    exact ih _ hk' he' hi'

/-- C21: in every state reached by a sequence of `registerMember`, `createMember`,
`updateMember`, `createBook` and `updateBook` from tables with pairwise distinct member emails
and book ISBNs (that keep the key discipline of the data store), no two members share an
email and no two books share an ISBN. There a `registerMember` or `createMember` with the
email of a member fails with 'Email already registered' and a `createBook` with the ISBN of a
book fails with 'Book with this ISBN already exists', each leaving the tables as they were. -/
theorem emails_and_isbns_stay_unique (x : Externals) (d0 : Directory) (s0 : Store)
    (ops : List DirectoryOp) (hk : AccountsKeyed d0 s0) (he : EmailsDistinct d0)
    (hi : IsbnsDistinct s0) :
    EmailsDistinct (directoryRun x (d0, s0) ops).1 ∧
    IsbnsDistinct (directoryRun x (d0, s0) ops).2 ∧
    (∀ (data : MemberData) (m : Member), m ∈ (directoryRun x (d0, s0) ops).1.members →
      data.email = some m.email →
      (registerMember x data (directoryRun x (d0, s0) ops).1).value
          = .error "Email already registered" ∧
        (registerMember x data (directoryRun x (d0, s0) ops).1).state
          = (directoryRun x (d0, s0) ops).1 ∧
        (createMember x data (directoryRun x (d0, s0) ops).1).value
          = .error "Email already registered" ∧
        (createMember x data (directoryRun x (d0, s0) ops).1).state
          = (directoryRun x (d0, s0) ops).1) ∧
    (∀ (data : BookData) (b : Book), b ∈ (directoryRun x (d0, s0) ops).2.books →
      data.isbn = some b.isbn →
      (createBook data (directoryRun x (d0, s0) ops).1 (directoryRun x (d0, s0) ops).2).value
          = .error "Book with this ISBN already exists" ∧
        (createBook data (directoryRun x (d0, s0) ops).1
            (directoryRun x (d0, s0) ops).2).state
          = (directoryRun x (d0, s0) ops).2) := by
  obtain ⟨-, he', hi'⟩ := directoryInv_run x ops (d0, s0) hk he hi
  refine ⟨he', hi', ?_, ?_⟩
  · intro data m hm hdata
    obtain ⟨m', hm'⟩ : ∃ m', (directoryRun x (d0, s0) ops).1.members.find?
        (fun r => decide (r.email = m.email)) = some m' := by
      rw [← Option.isSome_iff_exists, List.find?_isSome]
      exact ⟨m, hm, by simp⟩
    unfold registerMember createMember memberByEmail
    rw [hdata]
    simp only [hm', and_self]
  · intro data b hb hdata
    obtain ⟨b', hb'⟩ : ∃ b', (directoryRun x (d0, s0) ops).2.books.find?
        (fun r => decide (r.isbn = b.isbn)) = some b' := by
      rw [← Option.isSome_iff_exists, List.find?_isSome]
      exact ⟨b, hb, by simp⟩
    unfold createBook
    rw [hdata]
    simp only [hb', and_self]

/-- Witness for C21 on the test directory and the fresh catalogue: of seven calls, the
registration, one member update and one book creation go through, and the emails and ISBNs
stay pairwise distinct. -/
theorem emails_and_isbns_stay_unique_witness :
    (directoryRun testExternals (testDirectory, freshStore) directoryOps).1.members.map
        (fun m => m.email) = ["member@test.com", "jane.smith@test.com", "new@test.com"] ∧
    (directoryRun testExternals (testDirectory, freshStore) directoryOps).2.books.map
        (fun b => b.isbn) = ["9780441013593", "9780141439587"] ∧
    EmailsDistinct (directoryRun testExternals (testDirectory, freshStore) directoryOps).1 ∧
    IsbnsDistinct (directoryRun testExternals (testDirectory, freshStore) directoryOps).2 :=
  have h := emails_and_isbns_stay_unique testExternals testDirectory freshStore directoryOps
    (by unfold AccountsKeyed; decide) (by unfold EmailsDistinct; decide)
    (by unfold IsbnsDistinct; decide)
  ⟨by decide, by decide, h.1, h.2.1⟩

/-- One service call on a store with unique borrowing ids leaves every borrowing row that is
neither PENDING nor APPROVED as it is, in its place. -/
theorem closed_borrowing_step (s : Store) (op : ServiceOp)
    (hk : (s.borrowings.map (fun b => b.id)).Nodup) (i : Nat) (x : Borrowing)
    (hx : s.borrowings[i]? = some x) (hcl : openBorrowingStatus x.status = false) :
    (serviceStep s op).borrowings[i]? = some x := by
  have hmem : x ∈ s.borrowings := List.getElem?_mem hx
  have hnp : x.status ≠ .PENDING := by
    intro h; rw [h] at hcl; revert hcl; decide
  have hna : x.status ≠ .APPROVED := by
    intro h; rw [h] at hcl; revert hcl; decide
  have keep : ∀ s' : Store, s'.borrowings = s.borrowings → s'.borrowings[i]? = some x := by
    intro s' e
    rw [e]; exact hx
  have mapped : ∀ (s' : Store) (f : Borrowing → Borrowing),
      s'.borrowings = s.borrowings.map f → f x = x → s'.borrowings[i]? = some x := by
    intro s' f e h
    rw [e, getElem?_map_some f _ _ _ hx, h]
  have other : ∀ (b : Nat) (br : Borrowing), s.borrowing? b = some br →
      openBorrowingStatus br.status = true → x.id ≠ b := by
    intro b br hbr hopen hid
    have := eq_of_find?_of_nodup (fun b : Borrowing => b.id) _ hk b br hbr x hmem hid
    rw [this, hopen] at hcl
    cases hcl
  cases op with
  | lifecycle op =>
    cases op with
    | reserveBook m b =>
      rcases reserveBook_store m b s with e | ⟨bk, q, -, -, e⟩ <;>
        exact keep (reserveBook m b s).2 (by rw [e])
    | approveReservation o r =>
      rcases approveReservation_store o r s with e | ⟨rv, -, -, e | ⟨ac, -, -, e⟩⟩ <;>
        exact keep (approveReservation o r s).2 (by rw [e])
    | rejectReservation r =>
      rcases rejectReservation_store r s with e | ⟨rv, -, -, e⟩ <;>
        exact keep (rejectReservation r s).2 (by rw [e])
    | cancelReservation m r =>
      rcases cancelReservation_store m r s with e | ⟨rv, -, -, -, e⟩ <;>
        exact keep (cancelReservation m r s).2 (by rw [e])
    | borrowBookCopy now m c =>
      rcases borrowBookCopy_store now m c s with e | ⟨bc, -, -, -, e⟩
      · exact keep (borrowBookCopy now m c s).2 (by rw [e])
      · show (borrowBookCopy now m c s).2.borrowings[i]? = some x
        rw [e]
        exact getElem?_append_some _ _ _ _ hx
    | approveBorrowing now b =>
      rcases approveBorrowing_store now b s with e | ⟨br, bc, hbr, hst, -, -, e⟩
      · exact keep (approveBorrowing now b s).2 (by rw [e])
      · refine mapped (approveBorrowing now b s).2
          (fun x => if x.id = b then { x with status := .APPROVED, borrowDate := now } else x)
          (by rw [e]) ?_
        have hid := other b br hbr (by rw [hst]; decide)
        simp only [hid, if_false]
    | rejectBorrowing b =>
      rcases rejectBorrowing_store b s with e | ⟨br, hbr, hst, e | e⟩
      · exact keep (rejectBorrowing b s).2 (by rw [e])
      · refine mapped (rejectBorrowing b s).2
          (fun x => if x.id = b then { x with status := .REJECTED } else x) (by rw [e]) ?_
        have hid := other b br hbr (by rw [hst]; decide)
        simp only [hid, if_false]
      · refine mapped (rejectBorrowing b s).2
          (fun x => if x.id = b then { x with status := .REJECTED } else x) (by rw [e]) ?_
        have hid := other b br hbr (by rw [hst]; decide)
        simp only [hid, if_false]
    | returnBook now b =>
      rcases returnBook_store now b s with e | ⟨br, hbr, hst, e | e | ⟨bk, k, e⟩⟩
      · exact keep (returnBook now b s).2 (by rw [e])
      · refine mapped (returnBook now b s).2
          (fun x => if x.id = b then { x with status := .RETURNED, returnDate := some now }
            else x) (by rw [e]) ?_
        have hid := other b br hbr (by rw [hst]; decide)
        simp only [hid, if_false]
      · refine mapped (returnBook now b s).2
          (fun x => if x.id = b then { x with status := .RETURNED, returnDate := some now }
            else x) (by rw [e]) ?_
        have hid := other b br hbr (by rw [hst]; decide)
        simp only [hid, if_false]
      · refine mapped (returnBook now b s).2
          (fun x => if x.id = b then { x with status := .RETURNED, returnDate := some now }
            else x) (by rw [e]) ?_
        have hid := other b br hbr (by rw [hst]; decide)
        simp only [hid, if_false]
    | updateOverdueBorrowings now =>
      refine mapped (updateOverdueBorrowings now s).2
        (fun b => if b.status = .APPROVED ∧ b.dueDate < now
          then { b with status := .OVERDUE } else b) rfl ?_
      simp only [hna, false_and, if_false]
  | addBookCopy b =>
    rcases addBookCopy_store b s with e | ⟨n, e⟩ <;>
      exact keep (addBookCopy b s).2 (by rw [e])
  | removeBookCopy c =>
    rcases removeBookCopy_store c s with e | e <;>
      exact keep (removeBookCopy c s).2 (by rw [e])
  | deleteBook b =>
    rcases deleteBook_store b s with e | ⟨-, e | e⟩ <;>
      exact keep (deleteBook b s).2 (by rw [e])

/-- Every sequence of service calls on a store that keeps the key discipline leaves every
borrowing row that is neither PENDING nor APPROVED as it is, in its place. -/
theorem closed_borrowing_run (ops : List ServiceOp) (s : Store) (hk : WellKeyed s)
    (i : Nat) (x : Borrowing) (hx : s.borrowings[i]? = some x)
    (hcl : openBorrowingStatus x.status = false) :
    (serviceRun s ops).borrowings[i]? = some x := by
  induction ops generalizing s with
  | nil => exact hx
  | cons op ops ih =>
    exact ih _ (wellKeyed_serviceStep s op hk)
      (closed_borrowing_step s op hk.2.1 i x hx hcl)

/-- A row of the copies table after a status update comes from a row with the same id. -/
theorem mem_setCopyStatus_origin (i : Nat) (st : CopyStatus) (cs : List BookCopy)
    (c : BookCopy) (hc : c ∈ setCopyStatus i st cs) : ∃ c0 ∈ cs, c0.id = c.id := by
  unfold setCopyStatus at hc
  obtain ⟨x, hx, rfl⟩ := List.mem_map.1 hc
  refine ⟨x, hx, ?_⟩
  by_cases h : x.id = i
  · simp [h]
  · simp [h]

/-- Two different borrowing rows that are both open are on different copies. -/
theorem open_borrowings_on_distinct_copies (s : Store) (hA : OpenBorrowingsDistinct s)
    (a b : Borrowing) (ha : a ∈ s.borrowings) (hb : b ∈ s.borrowings) (hne : a ≠ b)
    (hoa : openBorrowingStatus a.status = true) (hob : openBorrowingStatus b.status = true) :
    a.bookCopyId ≠ b.bookCopyId := by
  have hsymm : Symmetric (fun b1 b2 : Borrowing =>
      ¬ (openBorrowingStatus b1.status = true ∧ openBorrowingStatus b2.status = true ∧
        b1.bookCopyId = b2.bookCopyId)) := by
    intro x y h hcon
    exact h ⟨hcon.2.1, hcon.1, hcon.2.2.symm⟩
  intro e
  exact hA.forall hsymm ha hb hne ⟨hoa, hob, e⟩

/-- One service call keeps the copy of every OVERDUE borrowing BORROWED and unclaimed, in a
store that keeps the key discipline and in which open borrowings are on distinct copies whose
status matches. -/
theorem overdueInv_step (s : Store) (op : ServiceOp) (hk : WellKeyed s)
    (hA : OpenBorrowingsDistinct s) (hB : CopyStatusMatchesBorrowing s)
    (hJ : OverdueCopyBorrowed s) (hK : OverdueCopyUnclaimed s) :
    OverdueCopyBorrowed (serviceStep s op) ∧ OverdueCopyUnclaimed (serviceStep s op) := by
  -- the copies change, the borrowings do not
  have copiesOnly : ∀ s' : Store, s'.borrowings = s.borrowings →
      (∀ c' ∈ s'.bookCopies, c' ∈ s.bookCopies ∨
        ∀ b ∈ s.borrowings, b.status = .OVERDUE → c'.id ≠ b.bookCopyId) →
      OverdueCopyBorrowed s' ∧ OverdueCopyUnclaimed s' := by
    intro s' eb hc
    refine ⟨?_, ?_⟩
    · intro b hb hst c' hc' hid
      rw [eb] at hb
      rcases hc c' hc' with h | h
      · exact hJ b hb hst c' h hid
      · exact absurd hid (h b hb hst)
    · intro b hb hst a ha hsa hcopy c' hc' hid
      rw [eb] at hb ha
      rcases hc c' hc' with h | h
      · exact hK b hb hst a ha hsa hcopy c' h hid
      · exact h b hb hst hid
  have same : ∀ s' : Store, s'.borrowings = s.borrowings →
      (∀ c' ∈ s'.bookCopies, c' ∈ s.bookCopies) →
      OverdueCopyBorrowed s' ∧ OverdueCopyUnclaimed s' :=
    fun s' eb hc => copiesOnly s' eb (fun c' hc' => Or.inl (hc c' hc'))
  -- a borrowing is rewritten by id to a status that is not OVERDUE, and a copy is set
  have rewritten : ∀ (s' : Store) (b : Nat) (br : Borrowing) (g : Borrowing → Borrowing)
      (k : Nat) (st : CopyStatus),
      s.borrowing? b = some br →
      s'.borrowings = s.borrowings.map (fun x => if x.id = b then g x else x) →
      (∀ x, (g x).status ≠ .OVERDUE ∧ (g x).bookCopyId = x.bookCopyId) →
      (s'.bookCopies = s.bookCopies ∨ s'.bookCopies = setCopyStatus k st s.bookCopies) →
      -- a copy of an OVERDUE borrowing that is set, is set to BORROWED
      (∀ r ∈ s.borrowings, r.status = .OVERDUE → r.bookCopyId = k →
        (∃ c ∈ s.bookCopies, c.id = k) → st = .BORROWED) →
      -- a borrowing that becomes APPROVED is not on the copy of an OVERDUE borrowing
      (∀ r ∈ s.borrowings, r.status = .OVERDUE → (g br).status = .APPROVED →
        br.bookCopyId = r.bookCopyId → ∀ c ∈ s.bookCopies, c.id ≠ r.bookCopyId) →
      OverdueCopyBorrowed s' ∧ OverdueCopyUnclaimed s' := by
    intro s' b br g k st hbr eb hg ec hset happ
    have old : ∀ y ∈ s'.borrowings, y.status = .OVERDUE → y ∈ s.borrowings := by
      intro y hy hst
      rw [eb] at hy
      obtain ⟨x, hx, rfl⟩ := List.mem_map.1 hy
      by_cases hid : x.id = b
      · simp only [hid, if_true] at hst
        exact absurd hst (hg x).1
      · simp only [hid, if_false]
        exact hx
    have origin : ∀ c' ∈ s'.bookCopies, ∃ c ∈ s.bookCopies, c.id = c'.id := by
      intro c' hc'
      rcases ec with e | e
      · rw [e] at hc'; exact ⟨c', hc', rfl⟩
      · rw [e] at hc'; exact mem_setCopyStatus_origin _ _ _ _ hc'
    refine ⟨?_, ?_⟩
    · intro y hy hst c' hc' hid
      have hyo := old y hy hst
      rcases ec with e | e
      · rw [e] at hc'
        exact hJ y hyo hst c' hc' hid
      · rw [e] at hc'
        obtain ⟨h1, h2⟩ := mem_setCopyStatus _ _ _ c' hc'
        by_cases hck : c'.id = k
        · rw [h1 hck]
          obtain ⟨c, hc, hcid⟩ := mem_setCopyStatus_origin _ _ _ _ hc'
          exact hset y hyo hst (hid.symm.trans hck) ⟨c, hc, hcid.trans hck⟩
        · exact hJ y hyo hst c' (h2 hck) hid
    · intro y hy hst a' ha' hsa hcopy c' hc' hid
      have hyo := old y hy hst
      obtain ⟨c, hc, hcid⟩ := origin c' hc'
      rw [eb] at ha'
      obtain ⟨a, ha, rfl⟩ := List.mem_map.1 ha'
      by_cases haid : a.id = b
      · simp only [haid, if_true] at hsa hcopy
        have hab : a = br :=
          eq_of_find?_of_nodup (fun b : Borrowing => b.id) _ hk.2.1 b br hbr a ha haid
        rw [hab] at hsa hcopy
        rw [(hg br).2] at hcopy
        exact happ y hyo hst hsa hcopy c hc (hcid.trans hid)
      · simp only [haid, if_false] at hsa hcopy
        exact hK y hyo hst a ha hsa hcopy c hc (hcid.trans hid)
  cases op with
  | lifecycle op =>
    cases op with
    | reserveBook m b =>
      rcases reserveBook_store m b s with e | ⟨bk, q, -, -, e⟩ <;>
        exact same (reserveBook m b s).2 (by rw [e]) (by rw [e]; exact fun _ h => h)
    | approveReservation o r =>
      rcases approveReservation_store o r s with e | ⟨rv, -, -, e | ⟨ac, hac, hav, e⟩⟩
      · exact same (approveReservation o r s).2 (by rw [e]) (by rw [e]; exact fun _ h => h)
      · exact same (approveReservation o r s).2 (by rw [e]) (by rw [e]; exact fun _ h => h)
      · refine copiesOnly (approveReservation o r s).2 (by rw [e]) ?_
        rw [e]
        intro c' hc'
        obtain ⟨-, h2⟩ := mem_setCopyStatus _ _ _ c' hc'
        by_cases hck : c'.id = ac.id
        · right
          intro b hb hst hid
          have := hJ b hb hst ac hac (hck.symm.trans hid)
          rw [hav] at this
          cases this
        · exact Or.inl (h2 hck)
    | rejectReservation r =>
      rcases rejectReservation_store r s with e | ⟨rv, -, -, e⟩ <;>
        exact same (rejectReservation r s).2 (by rw [e]) (by rw [e]; exact fun _ h => h)
    | cancelReservation m r =>
      rcases cancelReservation_store m r s with e | ⟨rv, -, -, -, e⟩ <;>
        exact same (cancelReservation m r s).2 (by rw [e]) (by rw [e]; exact fun _ h => h)
    | borrowBookCopy now m c =>
      rcases borrowBookCopy_store now m c s with e | ⟨bc, hbc, hav, -, e⟩
      · exact same (borrowBookCopy now m c s).2 (by rw [e]) (by rw [e]; exact fun _ h => h)
      · show OverdueCopyBorrowed (borrowBookCopy now m c s).2 ∧
          OverdueCopyUnclaimed (borrowBookCopy now m c s).2
        rw [e]
        have hbcm : bc ∈ s.bookCopies := List.mem_of_find?_eq_some hbc
        have hbcid : bc.id = c := by
          unfold Store.copy? at hbc
          simpa using List.find?_some hbc
        have notc : ∀ y ∈ s.borrowings, y.status = .OVERDUE → y.bookCopyId ≠ c := by
          intro y hy hst hid
          have := hJ y hy hst bc hbcm (hbcid.trans hid.symm)
          rw [hav] at this
          cases this
        have old : ∀ y ∈ s.borrowings ++
            [({ id := s.nextId, memberId := m, bookCopyId := c, status := .PENDING,
                borrowDate := now, dueDate := addDays s.zone now 14, returnDate := none } :
              Borrowing)],
            y.status = .OVERDUE ∨ y.status = .APPROVED → y ∈ s.borrowings := by
          intro y hy hst
          rcases List.mem_append.1 hy with h | h
          · exact h
          · simp only [List.mem_singleton] at h
            rw [h] at hst
            rcases hst with h' | h' <;> cases h'
        refine ⟨?_, ?_⟩
        · intro y hy hst c' hc' hid
          have hyo := old y hy (Or.inl hst)
          obtain ⟨-, h2⟩ := mem_setCopyStatus _ _ _ c' hc'
          exact hJ y hyo hst c' (h2 (fun h => notc y hyo hst (hid.symm.trans h))) hid
        · intro y hy hst a ha hsa hcopy c' hc' hid
          obtain ⟨c0, hc0, hcid⟩ := mem_setCopyStatus_origin _ _ _ _ hc'
          exact hK y (old y hy (Or.inl hst)) hst a (old a ha (Or.inr hsa)) hsa hcopy c0 hc0
            (hcid.trans hid)
    | approveBorrowing now b =>
      rcases approveBorrowing_store now b s with e | ⟨br, bc, hbr, hst, hbc, hcs, e⟩
      · exact same (approveBorrowing now b s).2 (by rw [e]) (by rw [e]; exact fun _ h => h)
      · have hbcm : bc ∈ s.bookCopies := List.mem_of_find?_eq_some hbc
        have hbcid : bc.id = br.bookCopyId := by
          unfold Store.copy? at hbc
          simpa using List.find?_some hbc
        refine rewritten (approveBorrowing now b s).2 b br
          (fun x => { x with status := .APPROVED, borrowDate := now }) br.bookCopyId .BORROWED
          hbr (by rw [e]) (fun x => ⟨by simp, rfl⟩) (Or.inr (by rw [e]))
          (fun _ _ _ _ _ => rfl) ?_
        intro r hr hrs _ hcopy c hc hid
        have := hJ r hr hrs bc hbcm (hbcid.trans hcopy)
        rw [hcs] at this
        cases this
    | rejectBorrowing b =>
      rcases rejectBorrowing_store b s with e | ⟨br, hbr, hst, e | e⟩
      · exact same (rejectBorrowing b s).2 (by rw [e]) (by rw [e]; exact fun _ h => h)
      · exact rewritten (rejectBorrowing b s).2 b br
          (fun x => { x with status := .REJECTED }) br.bookCopyId .AVAILABLE
          hbr (by rw [e]) (fun x => ⟨by simp, rfl⟩) (Or.inl (by rw [e]))
          (fun r hr hrs hrk ⟨c, hc, hcid⟩ => by
            have h1 := (hB br (List.mem_of_find?_eq_some hbr) c hc hcid).1 hst
            have h2 := hJ r hr hrs c hc (hcid.trans hrk.symm)
            rw [h1] at h2
            cases h2)
          (fun r hr hrs happ => by cases happ)
      · exact rewritten (rejectBorrowing b s).2 b br
          (fun x => { x with status := .REJECTED }) br.bookCopyId .AVAILABLE
          hbr (by rw [e]) (fun x => ⟨by simp, rfl⟩) (Or.inr (by rw [e]))
          (fun r hr hrs hrk ⟨c, hc, hcid⟩ => by
            have h1 := (hB br (List.mem_of_find?_eq_some hbr) c hc hcid).1 hst
            have h2 := hJ r hr hrs c hc (hcid.trans hrk.symm)
            rw [h1] at h2
            cases h2)
          (fun r hr hrs happ => by cases happ)
    | returnBook now b =>
      have hset : ∀ (br : Borrowing) (st : CopyStatus), s.borrowing? b = some br →
          br.status = .APPROVED →
          ∀ r ∈ s.borrowings, r.status = .OVERDUE → r.bookCopyId = br.bookCopyId →
            (∃ c ∈ s.bookCopies, c.id = br.bookCopyId) → st = .BORROWED := by
        intro br st hbr hst r hr hrs hrk ⟨c, hc, hcid⟩
        exact absurd (hcid.trans hrk.symm)
          (hK r hr hrs br (List.mem_of_find?_eq_some hbr) hst hrk.symm c hc)
      rcases returnBook_store now b s with e | ⟨br, hbr, hst, e | e | ⟨bk, k, e⟩⟩
      · exact same (returnBook now b s).2 (by rw [e]) (by rw [e]; exact fun _ h => h)
      · exact rewritten (returnBook now b s).2 b br
          (fun x => { x with status := .RETURNED, returnDate := some now }) br.bookCopyId
          .AVAILABLE hbr (by rw [e]) (fun x => ⟨by simp, rfl⟩) (Or.inl (by rw [e]))
          (hset br _ hbr hst) (fun r hr hrs happ => by cases happ)
      · exact rewritten (returnBook now b s).2 b br
          (fun x => { x with status := .RETURNED, returnDate := some now }) br.bookCopyId
          .AVAILABLE hbr (by rw [e]) (fun x => ⟨by simp, rfl⟩) (Or.inr (by rw [e]))
          (hset br _ hbr hst) (fun r hr hrs happ => by cases happ)
      · exact rewritten (returnBook now b s).2 b br
          (fun x => { x with status := .RETURNED, returnDate := some now }) br.bookCopyId
          .RESERVED hbr (by rw [e]) (fun x => ⟨by simp, rfl⟩) (Or.inr (by rw [e]))
          (hset br _ hbr hst) (fun r hr hrs happ => by cases happ)
    | updateOverdueBorrowings now =>
      show OverdueCopyBorrowed (updateOverdueBorrowings now s).2 ∧
        OverdueCopyUnclaimed (updateOverdueBorrowings now s).2
      have hmem : ∀ y ∈ (updateOverdueBorrowings now s).2.borrowings,
          ∃ x ∈ s.borrowings, y.bookCopyId = x.bookCopyId ∧
            ((y = x ∧ ¬ (x.status = .APPROVED ∧ x.dueDate < now)) ∨
             (y.status = .OVERDUE ∧ x.status = .APPROVED ∧ x.dueDate < now)) := by
        intro y hy
        obtain ⟨x, hx, rfl⟩ := List.mem_map.1 hy
        refine ⟨x, hx, ?_, ?_⟩
        · by_cases h : x.status = .APPROVED ∧ x.dueDate < now
          · simp only [h, and_self, if_true]
          · simp only [h, if_false]
        · by_cases h : x.status = .APPROVED ∧ x.dueDate < now
          · right
            simp only [h, and_self, if_true]
          · left
            simp only [h, if_false, not_false_eq_true, and_self]
      refine ⟨?_, ?_⟩
      · intro y hy hst c hc hid
        obtain ⟨x, hx, hcopy, h | h⟩ := hmem y hy
        · rw [h.1] at hst hid
          exact hJ x hx hst c hc hid
        · exact (hB x hx c hc (hid.trans hcopy)).2 h.2.1
      · intro y hy hst a ha hsa hcopy c hc hid
        obtain ⟨x, hx, hxc, h | h⟩ := hmem y hy
        · obtain ⟨z, hz, hzc, h' | h'⟩ := hmem a ha
          · rw [h.1] at hst hid hcopy
            rw [h'.1] at hsa hcopy
            exact hK x hx hst z hz hsa hcopy c hc hid
          · rw [h'.1] at hsa
            cases hsa
        · obtain ⟨z, hz, hzc, h' | h'⟩ := hmem a ha
          · rw [h'.1] at hsa hcopy
            have hne : z ≠ x := by
              intro e
              apply h'.2
              rw [e]
              exact ⟨h.2.1, h.2.2⟩
            exact open_borrowings_on_distinct_copies s hA z x hz hx hne
              (by rw [hsa]; decide) (by rw [h.2.1]; decide) (hcopy.trans hxc)
          · rw [h'.1] at hsa
            cases hsa
  | addBookCopy b =>
    rcases addBookCopy_store b s with e | ⟨n, e⟩
    · exact same (addBookCopy b s).2 (by rw [e]) (by rw [e]; exact fun _ h => h)
    · refine copiesOnly (addBookCopy b s).2 (by rw [e]) ?_
      rw [e]
      intro c' hc'
      rcases List.mem_append.1 hc' with h | h
      · exact Or.inl h
      · right
        simp only [List.mem_singleton] at h
        intro y hy _ hid
        have := (hk.2.2.2.2.1 y hy).2
        rw [h] at hid
        have hid' : s.nextId = y.bookCopyId := hid
        omega
  | removeBookCopy c =>
    rcases removeBookCopy_store c s with e | e
    · exact same (removeBookCopy c s).2 (by rw [e]) (by rw [e]; exact fun _ h => h)
    · exact same (removeBookCopy c s).2 (by rw [e])
        (by rw [e]; exact fun _ h => (List.mem_filter.1 h).1)
  | deleteBook b =>
    rcases deleteBook_store b s with e | ⟨-, e | e⟩
    · exact same (deleteBook b s).2 (by rw [e]) (by rw [e]; exact fun _ h => h)
    · exact same (deleteBook b s).2 (by rw [e])
        (by rw [e]; exact fun _ h => (List.mem_filter.1 h).1)
    · exact same (deleteBook b s).2 (by rw [e])
        (by rw [e]; exact fun _ h => (List.mem_filter.1 h).1)

/-- Every sequence of service calls keeps the copy of every OVERDUE borrowing BORROWED and
unclaimed, together with the invariants this rests on. -/
theorem overdueInv_run (ops : List ServiceOp) (s : Store) (hk : WellKeyed s)
    (hA : OpenBorrowingsDistinct s) (hB : CopyStatusMatchesBorrowing s)
    (hJ : OverdueCopyBorrowed s) (hK : OverdueCopyUnclaimed s) :
    WellKeyed (serviceRun s ops) ∧ OpenBorrowingsDistinct (serviceRun s ops) ∧
    CopyStatusMatchesBorrowing (serviceRun s ops) ∧
    OverdueCopyBorrowed (serviceRun s ops) ∧ OverdueCopyUnclaimed (serviceRun s ops) := by
  induction ops generalizing s with
  | nil => exact ⟨hk, hA, hB, hJ, hK⟩
  | cons op ops ih =>
    obtain ⟨hA', hB'⟩ := borrowingInv_step s op hk hA hB
    obtain ⟨hJ', hK'⟩ := overdueInv_step s op hk hA hB hJ hK
    exact ih _ (wellKeyed_serviceStep s op hk) hA' hB' hJ' hK'

/-- The store `removeBookCopy` leaves behind, with the foreign key: the old one, or the old
one without the rows of the copy, which no borrowing row referred to. -/
theorem removeBookCopy_store_key (c : Nat) (s : Store) :
    (removeBookCopy c s).2 = s ∨
    ((∀ br ∈ s.borrowings, br.bookCopyId ≠ c) ∧
      (removeBookCopy c s).2 =
        { s with bookCopies := s.bookCopies.filter (fun x => decide (x.id ≠ c)) }) := by
  unfold removeBookCopy
  split
  · left; rfl
  · split
    · left; rfl
    · by_cases hk : copyReferenced c s = true
      · left
        rw [if_pos hk]
      · right
        rw [if_neg hk]
        refine ⟨?_, rfl⟩
        intro br hbr e
        apply hk
        unfold copyReferenced
        exact List.any_eq_true.2 ⟨br, hbr, by simpa using e⟩

/-- The store `deleteBook` leaves behind, with the foreign key: the old one, or one without
the copies of the book, none of which a borrowing row referred to, and with the borrowings it
had. -/
theorem deleteBook_store_key (b : Nat) (s : Store) :
    (deleteBook b s).2 = s ∨
    ((∀ c ∈ s.bookCopies, c.bookId = b → ∀ br ∈ s.borrowings, br.bookCopyId ≠ c.id) ∧
      (deleteBook b s).2.bookCopies = s.bookCopies.filter (fun c => decide (c.bookId ≠ b)) ∧
      (deleteBook b s).2.borrowings = s.borrowings) := by
  unfold deleteBook
  split
  · left; rfl
  · split
    · left; rfl
    · by_cases hk : s.bookCopies.any
          (fun c => decide (c.bookId = b) && copyReferenced c.id s) = true
      · left
        rw [if_pos hk]
      · right
        rw [if_neg hk]
        refine ⟨?_, ?_⟩
        · intro c hc hcb br hbr e
          apply hk
          refine List.any_eq_true.2 ⟨c, hc, ?_⟩
          have : copyReferenced c.id s = true := by
            unfold copyReferenced
            exact List.any_eq_true.2 ⟨br, hbr, by simpa using e⟩
          simp [hcb, this]
        · dsimp only
          split
          · exact ⟨rfl, rfl⟩
          · exact ⟨rfl, rfl⟩

/-- One service call keeps a copy row for every borrowing row: the services create a borrowing
only for a copy that exists, and the data store deletes no copy that a borrowing refers to. -/
theorem borrowingsHaveCopies_step (s : Store) (op : ServiceOp) (h : BorrowingsHaveCopies s) :
    BorrowingsHaveCopies (serviceStep s op) := by
  have of_keys : ∀ s' : Store,
      s'.borrowings.map (fun b => (b.id, b.bookCopyId))
        = s.borrowings.map (fun b => (b.id, b.bookCopyId)) →
      (∀ c ∈ s.bookCopies, (∃ b ∈ s.borrowings, b.bookCopyId = c.id) →
        ∃ c' ∈ s'.bookCopies, c'.id = c.id) →
      BorrowingsHaveCopies s' := by
    intro s' hb hc b' hb'
    have hmem : (b'.id, b'.bookCopyId) ∈ s.borrowings.map (fun b => (b.id, b.bookCopyId)) := by
      rw [← hb]
      exact List.mem_map.2 ⟨b', hb', rfl⟩
    obtain ⟨b, hbm, hbe⟩ := List.mem_map.1 hmem
    have hid : b.bookCopyId = b'.bookCopyId := congrArg Prod.snd hbe
    obtain ⟨c, hcm, hce⟩ := h b hbm
    obtain ⟨c', hc', hce'⟩ := hc c hcm ⟨b, hbm, hce.symm⟩
    exact ⟨c', hc', by rw [hce', hce, hid]⟩
  have ids : ∀ s' : Store,
      s'.bookCopies.map (fun c => c.id) = s.bookCopies.map (fun c => c.id) →
      ∀ c ∈ s.bookCopies, (∃ b ∈ s.borrowings, b.bookCopyId = c.id) →
        ∃ c' ∈ s'.bookCopies, c'.id = c.id := by
    intro s' e c hc _
    have hmem : c.id ∈ s'.bookCopies.map (fun c => c.id) := by
      rw [e]
      exact List.mem_map.2 ⟨c, hc, rfl⟩
    obtain ⟨c', hc', e'⟩ := List.mem_map.1 hmem
    exact ⟨c', hc', e'⟩
  have keep : ∀ s' : Store, s'.borrowings = s.borrowings → s'.bookCopies = s.bookCopies →
      BorrowingsHaveCopies s' := by
    intro s' e1 e2
    exact of_keys s' (by rw [e1]) (ids s' (by rw [e2]))
  cases op with
  | lifecycle op =>
    cases op with
    | reserveBook m b =>
      rcases reserveBook_store m b s with e | ⟨bk, q, -, -, e⟩ <;>
        exact keep (reserveBook m b s).2 (by rw [e]) (by rw [e])
    | approveReservation o r =>
      rcases approveReservation_store o r s with e | ⟨rv, -, -, e | ⟨ac, -, -, e⟩⟩
      · exact keep (approveReservation o r s).2 (by rw [e]) (by rw [e])
      · exact keep (approveReservation o r s).2 (by rw [e]) (by rw [e])
      · exact of_keys (approveReservation o r s).2 (by rw [e])
          (ids (approveReservation o r s).2 (by rw [e]; exact map_id_setCopyStatus _ _ _))
    | rejectReservation r =>
      rcases rejectReservation_store r s with e | ⟨rv, -, -, e⟩ <;>
        exact keep (rejectReservation r s).2 (by rw [e]) (by rw [e])
    | cancelReservation m r =>
      rcases cancelReservation_store m r s with e | ⟨rv, -, -, -, e⟩ <;>
        exact keep (cancelReservation m r s).2 (by rw [e]) (by rw [e])
    | borrowBookCopy now m k =>
      rcases borrowBookCopy_store now m k s with e | ⟨bc, hbc, -, -, e⟩
      · exact keep (borrowBookCopy now m k s).2 (by rw [e]) (by rw [e])
      · have hcopies : ∀ c ∈ s.bookCopies,
            ∃ c' ∈ (borrowBookCopy now m k s).2.bookCopies, c'.id = c.id := by
          intro c hc
          have hmem : c.id ∈ (borrowBookCopy now m k s).2.bookCopies.map (fun c => c.id) := by
            rw [e]
            show c.id ∈ (setCopyStatus k .RESERVED s.bookCopies).map (fun c => c.id)
            rw [map_id_setCopyStatus]
            exact List.mem_map.2 ⟨c, hc, rfl⟩
          obtain ⟨c', hc', e'⟩ := List.mem_map.1 hmem
          exact ⟨c', hc', e'⟩
        have hbcm : bc ∈ s.bookCopies ∧ bc.id = k := by
          unfold Store.copy? at hbc
          exact ⟨List.mem_of_find?_eq_some hbc, by simpa using List.find?_some hbc⟩
        show BorrowingsHaveCopies (borrowBookCopy now m k s).2
        intro b' hb'
        rw [e] at hb'
        rcases List.mem_append.1 hb' with hold | hnew
        · obtain ⟨c, hc, hce⟩ := h b' hold
          obtain ⟨c', hc', hce'⟩ := hcopies c hc
          exact ⟨c', hc', hce'.trans hce⟩
        · rw [List.mem_singleton] at hnew
          obtain ⟨c', hc', hce'⟩ := hcopies bc hbcm.1
          refine ⟨c', hc', ?_⟩
          rw [hce', hbcm.2, hnew]
    | approveBorrowing now b =>
      rcases approveBorrowing_store now b s with e | ⟨br, bc, -, -, -, -, e⟩
      · exact keep (approveBorrowing now b s).2 (by rw [e]) (by rw [e])
      · exact of_keys (approveBorrowing now b s).2
          (by rw [e]
              exact map_keys_borrowings _ (fun x => by split_ifs <;> exact ⟨rfl, rfl⟩) _)
          (ids (approveBorrowing now b s).2 (by rw [e]; exact map_id_setCopyStatus _ _ _))
    | rejectBorrowing b =>
      rcases rejectBorrowing_store b s with e | ⟨br, -, -, e | e⟩
      · exact keep (rejectBorrowing b s).2 (by rw [e]) (by rw [e])
      · exact of_keys (rejectBorrowing b s).2
          (by rw [e]
              exact map_keys_borrowings _ (fun x => by split_ifs <;> exact ⟨rfl, rfl⟩) _)
          (ids (rejectBorrowing b s).2 (by rw [e]))
      · exact of_keys (rejectBorrowing b s).2
          (by rw [e]
              exact map_keys_borrowings _ (fun x => by split_ifs <;> exact ⟨rfl, rfl⟩) _)
          (ids (rejectBorrowing b s).2 (by rw [e]; exact map_id_setCopyStatus _ _ _))
    | returnBook now b =>
      rcases returnBook_store now b s with e | ⟨br, -, -, e | e | ⟨bk, k, e⟩⟩
      · exact keep (returnBook now b s).2 (by rw [e]) (by rw [e])
      · exact of_keys (returnBook now b s).2
          (by rw [e]
              exact map_keys_borrowings _ (fun x => by split_ifs <;> exact ⟨rfl, rfl⟩) _)
          (ids (returnBook now b s).2 (by rw [e]))
      · exact of_keys (returnBook now b s).2
          (by rw [e]
              exact map_keys_borrowings _ (fun x => by split_ifs <;> exact ⟨rfl, rfl⟩) _)
          (ids (returnBook now b s).2 (by rw [e]; exact map_id_setCopyStatus _ _ _))
      · exact of_keys (returnBook now b s).2
          (by rw [e]
              exact map_keys_borrowings _ (fun x => by split_ifs <;> exact ⟨rfl, rfl⟩) _)
          (ids (returnBook now b s).2 (by rw [e]; exact map_id_setCopyStatus _ _ _))
    | updateOverdueBorrowings now =>
      exact of_keys (updateOverdueBorrowings now s).2
        (map_keys_borrowings _ (fun x => by split_ifs <;> exact ⟨rfl, rfl⟩) _)
        (ids (updateOverdueBorrowings now s).2 rfl)
  | addBookCopy b =>
    rcases addBookCopy_store b s with e | ⟨n, e⟩
    · exact keep (addBookCopy b s).2 (by rw [e]) (by rw [e])
    · refine of_keys (addBookCopy b s).2 (by rw [e]) ?_
      intro c hc _
      refine ⟨c, ?_, rfl⟩
      show c ∈ (addBookCopy b s).2.bookCopies
      rw [e]
      exact List.mem_append_left _ hc
  | removeBookCopy k =>
    rcases removeBookCopy_store_key k s with e | ⟨hno, e⟩
    · exact keep (removeBookCopy k s).2 (by rw [e]) (by rw [e])
    · refine of_keys (removeBookCopy k s).2 (by rw [e]) ?_
      intro c hc ⟨br, hbr, hbe⟩
      refine ⟨c, ?_, rfl⟩
      show c ∈ (removeBookCopy k s).2.bookCopies
      rw [e]
      refine List.mem_filter.2 ⟨hc, ?_⟩
      simp only [ne_eq, decide_eq_true_eq]
      intro hid
      exact hno br hbr (hbe.trans hid)
  | deleteBook b =>
    rcases deleteBook_store_key b s with e | ⟨hno, ec, eb⟩
    · exact keep (deleteBook b s).2 (by rw [e]) (by rw [e])
    · refine of_keys (deleteBook b s).2 (by rw [eb]) ?_
      intro c hc ⟨br, hbr, hbe⟩
      refine ⟨c, ?_, rfl⟩
      show c ∈ (deleteBook b s).2.bookCopies
      rw [ec]
      refine List.mem_filter.2 ⟨hc, ?_⟩
      simp only [ne_eq, decide_eq_true_eq]
      intro hcb
      exact hno c hc hcb br hbr hbe

/-- Every sequence of service calls keeps a copy row for every borrowing row. -/
theorem borrowingsHaveCopies_run (ops : List ServiceOp) (s : Store)
    (h : BorrowingsHaveCopies s) : BorrowingsHaveCopies (serviceRun s ops) := by
  induction ops generalizing s with
  | nil => exact h
  | cons op ops ih => exact ih _ (borrowingsHaveCopies_step s op h)

/-- C27: `returnBook` on a borrowing that is OVERDUE fails with 'Only approved borrowings can
be returned' and leaves the store as it was. Hence, in every store reached by service calls
from a store without borrowings (that keeps the key discipline), a borrowing that is OVERDUE
stays the row it is under every further sequence of service calls, so no call sets its
returnDate, and its copy never takes a status other than BORROWED; the copy keeps its row,
BORROWED, under every further sequence of service calls (neither `removeBookCopy` nor
`deleteBook` can take out a copy that a borrowing refers to). -/
theorem overdue_borrowing_stays_out (s0 : Store) (ops : List ServiceOp)
    (hk : WellKeyed s0) (h0 : s0.borrowings = []) :
    (∀ (t : Store) (now b : Nat) (br : Borrowing), t.borrowing? b = some br →
      br.status = .OVERDUE →
      returnBook now b t = (.error "Only approved borrowings can be returned", t)) ∧
    (∀ (i : Nat) (x : Borrowing), (serviceRun s0 ops).borrowings[i]? = some x →
      x.status = .OVERDUE →
      ∀ later : List ServiceOp,
        (serviceRun (serviceRun s0 ops) later).borrowings[i]? = some x ∧
        (∀ c ∈ (serviceRun (serviceRun s0 ops) later).bookCopies,
          c.id = x.bookCopyId → c.status = .BORROWED) ∧
        ∃ c ∈ (serviceRun (serviceRun s0 ops) later).bookCopies,
          c.id = x.bookCopyId ∧ c.status = .BORROWED) := by
  refine ⟨?_, ?_⟩
  · intro t now b br hb hst
    unfold Store.borrowing? at hb
    unfold returnBook
    rw [hb]
    simp only [hst, ne_eq, not_false_eq_true, if_true, reduceCtorEq]
  · intro i x hx hst later
    have hA0 : OpenBorrowingsDistinct s0 := by
      unfold OpenBorrowingsDistinct; rw [h0]; exact List.Pairwise.nil
    have hB0 : CopyStatusMatchesBorrowing s0 := by
      intro b hb; rw [h0] at hb; exact absurd hb (List.not_mem_nil b)
    have hJ0 : OverdueCopyBorrowed s0 := by
      intro b hb; rw [h0] at hb; exact absurd hb (List.not_mem_nil b)
    have hK0 : OverdueCopyUnclaimed s0 := by
      intro b hb; rw [h0] at hb; exact absurd hb (List.not_mem_nil b)
    obtain ⟨hk1, hA1, hB1, hJ1, hK1⟩ := overdueInv_run ops s0 hk hA0 hB0 hJ0 hK0
    obtain ⟨-, -, -, hJ2, -⟩ := overdueInv_run later _ hk1 hA1 hB1 hJ1 hK1
    have hx2 := closed_borrowing_run later _ hk1 i x hx (by rw [hst]; decide)
    have hborrowed : ∀ c ∈ (serviceRun (serviceRun s0 ops) later).bookCopies,
        c.id = x.bookCopyId → c.status = .BORROWED :=
      fun c hc hid => hJ2 x (List.getElem?_mem hx2) hst c hc hid
    have hR0 : BorrowingsHaveCopies s0 := by
      intro b hb; rw [h0] at hb; exact absurd hb (List.not_mem_nil b)
    have hR2 := borrowingsHaveCopies_run later _ (borrowingsHaveCopies_run ops s0 hR0)
    obtain ⟨c, hc, hcid⟩ := hR2 x (List.getElem?_mem hx2)
    exact ⟨hx2, hborrowed, c, hc, hcid, hborrowed c hc hcid⟩

/-- Witness for C27 on the fresh catalogue: once the sweep has marked borrowing 100 OVERDUE, a
return, a rejection, a new request for the copy, an approved reservation of the book and a
removal of the copy leave the borrowing as it is, without returnDate, and copy 10 BORROWED. -/
theorem overdue_borrowing_stays_out_witness :
    (serviceRun (serviceRun freshStore untilOverdue) afterOverdue).borrowings[0]? =
      some { id := 100, memberId := 1, bookCopyId := 10, status := .OVERDUE,
             borrowDate := 5, dueDate := 1209600000, returnDate := none } ∧
    ∃ c ∈ (serviceRun (serviceRun freshStore untilOverdue) afterOverdue).bookCopies,
      c.id = 10 ∧ c.status = .BORROWED :=
  have h := (overdue_borrowing_stays_out freshStore untilOverdue
    (by unfold WellKeyed; decide) rfl).2 0
    { id := 100, memberId := 1, bookCopyId := 10, status := .OVERDUE,
      borrowDate := 5, dueDate := 1209600000, returnDate := none } (by decide) rfl afterOverdue
  ⟨h.1, h.2.2⟩

end Library
